import Mathlib

/-!
# ipiton/logger: a shallow embedding of the production logger

The Go package keeps its loggers and its files on the heap and reaches them
through pointers; derived loggers share `*os.File` handles with their parent
but own their field map and their history.  The embedding makes this explicit:

* a `State` holds the heap of `Logger` objects, the heap of `File` objects,
  everything written to standard output and every call of the `osExit` hook;
* a method with receiver `l *Logger` becomes a function of the state and of the
  address of the receiver, returning the new state (and the result);
* what the Go runtime, the standard library and the operating system decide
  (the wall clock, the iteration order of a map, `fmt.Sprintf`,
  `unicode.ToLower` outside ASCII) is a parameter, `Env`.

Every method is one sequential execution of its body, and the mutexes play no
part there. Concurrent calls are modelled apart, for `Infof`: goroutines that run
the statements of `logf` and `log` one at a time, under any schedule, with the
mutexes `mu`, `messagesMu` and `fileMu` that these statements lock and unlock.
A receiver address that designates no logger stands for a nil receiver, on which
the Go methods panic; the functions leave the state alone there, and every
theorem assumes the receiver is on the heap.
-/

namespace LoggerSpec

/-! ## Values, field maps, levels -/

/-- Go `error` values, identified with their message. -/
abbrev GoError := String

/-- An `interface{}` value as far as package `fmt` observes it here:
whether its kind is `string`, and its rendering under the verb `%v`. -/
structure Value where
  isString : Bool
  text : String
deriving DecidableEq, Repr

/-- A Go `string` as an `interface{}` value. -/
def Value.ofString (s : String) : Value := { isString := true, text := s }

/-- A Go `int` as an `interface{}` value. -/
def Value.ofInt (i : Int) : Value := { isString := false, text := toString i }

/-- A Go `error` as an `interface{}` value (`%v` prints `Error()`). -/
def Value.ofError (e : GoError) : Value := { isString := false, text := e }

/-- One key/value pair of a `map[string]interface{}`. -/
abbrev Entry := Sigma (fun _ : String => Value)

/-- The type `map[string]interface{}`: finitely many entries, keys unique. The order of
`entries` carries no meaning; iteration order comes from `Env.rangeOrder`. -/
abbrev Fields := AList (fun _ : String => Value)

/-- Two maps with the same list of entries are equal; this instance evaluates. -/
instance instDecidableEqFields : DecidableEq Fields := fun a b =>
  decidable_of_iff (a.entries = b.entries) ⟨AList.ext, fun h => congrArg AList.entries h⟩

/-- The type `map[string]string`. -/
abbrev StringMap := AList (fun _ : String => String)

/-- The type `Level` of types.go (`type Level int`). -/
abbrev Level := Int

abbrev DebugLevel : Level := 0
abbrev InfoLevel : Level := 1
abbrev WarningLevel : Level := 2
abbrev ErrorLevel : Level := 3
abbrev FatalLevel : Level := 4

/-! ## Runtime, library and operating system -/

/-- The error `os.ErrClosed`. -/
def ErrClosed : GoError := "file already closed"

/-- The error `os.ErrInvalid`, returned by every method of a nil `*os.File`. -/
def ErrInvalid : GoError := "invalid argument"

/-- An `os.File` object: its name (the path it was opened with), the data written through
it so far, whether it has been closed, and the failure (if any) the operating system
reports for a write, a sync or a close of the open file. -/
structure File where
  name : String
  written : List String
  closed : Bool
  writeErr : Option GoError
  syncErr : Option GoError
  closeErr : Option GoError
deriving DecidableEq, Repr

/-- What the program does not decide itself. `now n layout` is
`time.Now().Format(layout)` at the `n`-th nondeterministic step of the run,
`rangeOrder n m` the order in which a `range` over the map `m` yields its entries at
step `n` (any permutation of the entries), `sprintf` is `fmt.Sprintf`,
`unicodeLower` is `unicode.ToLower` on runes outside ASCII, `filepathDir` and
`filepathClean` are `filepath.Dir` and `filepath.Clean`, `mkdirAll n dir` is the error (if
any) of `os.MkdirAll` at step `n`, and `openFile n path` the outcome of `os.OpenFile` at
step `n`: an error, or the faults the operating system will report on the new file.
`rangeOrderStr` is `rangeOrder` for a `map[string]string`. -/
structure Env where
  now : Nat → String → String
  rangeOrder : Nat → Fields → List Entry
  range_perm : ∀ n m, (rangeOrder n m).Perm m.entries
  rangeOrderStr : Nat → StringMap → List (Sigma (fun _ : String => String))
  rangeStr_perm : ∀ n m, (rangeOrderStr n m).Perm m.entries
  sprintf : String → List Value → String
  unicodeLower : Char → Char
  filepathDir : String → String
  filepathClean : String → String
  mkdirAll : Nat → String → Option GoError
  openFile : Nat → String → Except GoError File

/-- The function `strings.ToLower`: ASCII letters are lowered directly, every other rune
goes through `unicode.ToLower`. -/
def stringsToLower (env : Env) (s : String) : String :=
  String.mk (s.data.map fun c => if c.toNat < 128 then c.toLower else env.unicodeLower c)

/-- The function `strings.Join`. -/
def stringsJoin : List String → String → String
  | [], _ => ""
  | [a], _ => a
  | a :: b :: rest, sep => a ++ sep ++ stringsJoin (b :: rest) sep

/-- The operands of `fmt.Sprint` after the first: a space is added between two operands
when neither is a string. -/
def sprintRest (prevString : Bool) : List Value → String
  | [] => ""
  | v :: vs =>
    (if !v.isString && !prevString then " " else "") ++ v.text ++ sprintRest v.isString vs

/-- The function `fmt.Sprint`. -/
def Sprint : List Value → String
  | [] => ""
  | v :: vs => v.text ++ sprintRest v.isString vs

/-- Address of a `File` on the heap. -/
abbrev FilePtr := Nat

/-- Address of a `Logger` on the heap. -/
abbrev Ptr := Nat

/-! ## The data model of types.go -/

/-- The struct `Logger` of types.go, without its mutexes (a concurrent run carries the
state of the mutexes apart) and without the `*log.Logger` that no method writes to. The
field `pfx` is the field named prefix in the source; a nil file pointer is `none`. -/
structure Logger where
  file : Option FilePtr
  errorFile : Option FilePtr
  fields : Fields
  pfx : String
  timeFormat : String
  messages : List String
  level : Level
deriving DecidableEq

/-- The struct `Config` of types.go; `Files = none` is the nil map. -/
structure Config where
  Files : Option StringMap
  Level : String
deriving DecidableEq

/-- Address of a `MockLogger` on the heap. -/
abbrev MockPtr := Nat

/-- The struct `MockLogger` of mocks.go, without its mutex. The field `pfx` is the field
named prefix in the source; `osExitFunc` is the identity of the function stored there
(calls of it are recorded in the state), `parent = none` is the nil pointer. -/
structure MockLogger where
  Messages : List String
  pfx : String
  osExitFunc : Nat
  parent : Option MockPtr
  fields : Fields
  level : Level
  exitCode : Int
  hasFile : Bool
deriving DecidableEq

/-- A non-nil value of the interface `ILogger`: a pointer to a `Logger` or to a
`MockLogger`. -/
inductive ILogger where
  | logger (p : Ptr)
  | mock (m : MockPtr)
deriving DecidableEq

/-- The machine: both heaps, standard output, the calls of the `osExit` hook (with their
status code) and the number of nondeterministic steps taken so far; then the heap of test
doubles, the calls of the exit handlers installed in them (handler, status code), and the
package variable `globalLogger` (`none` is nil). -/
structure State where
  loggers : List Logger
  files : List File
  stdout : List String
  exitCodes : List Int
  steps : Nat
  mocks : List MockLogger := []
  handlerCalls : List (Nat × Int) := []
  globalLogger : Option ILogger := none
deriving DecidableEq

/-- Store `l` at address `p`. -/
def State.setLogger (s : State) (p : Ptr) (l : Logger) : State :=
  { s with loggers := s.loggers.set p l }

/-- Allocate a new `Logger`; its address is fresh. -/
def State.allocLogger (s : State) (l : Logger) : State × Ptr :=
  ({ s with loggers := s.loggers ++ [l] }, s.loggers.length)

/-- One more reading of the clock or of a map iteration order has been consumed. -/
def State.tick (s : State) : State := { s with steps := s.steps + 1 }

/-- The text of the `*fs.PathError` that a method of `os.File` returns when the file is
closed already: `PathError.Error()` is `Op + " " + Path + ": " + Err.Error()`, with `Op`
the name of the operation, `Path` the name of the file and `Err` the error
`os.ErrClosed`. -/
def closedError (op : String) (file : File) : GoError :=
  op ++ " " ++ file.name ++ ": " ++ ErrClosed

/-- The method `(*os.File).WriteString` (and `Write`): fails on a nil file, on a closed file
(with the `PathError` of the operation `write`) and when the operating system refuses the
write; otherwise appends the data. -/
def State.fileWrite (s : State) (f : FilePtr) (data : String) : State × Option GoError :=
  match s.files[f]? with
  | none => (s, some ErrInvalid)
  | some file =>
    if file.closed then (s, some (closedError "write" file))
    else match file.writeErr with
      | some e => (s, some e)
      | none => ({ s with files := s.files.set f { file with written := file.written ++ [data] } },
                 none)

/-- The method `(*os.File).Sync`: on a closed file it fails with the `PathError` of the
operation `sync`. -/
def State.fileSync (s : State) (f : FilePtr) : Option GoError :=
  match s.files[f]? with
  | none => some ErrInvalid
  | some file => if file.closed then some (closedError "sync" file) else file.syncErr

/-- The method `(*os.File).Close`: a second close fails with the `PathError` of the
operation `close`, which wraps `os.ErrClosed`; the first one releases the descriptor even
when the operating system reports an error. -/
def State.fileClose (s : State) (f : FilePtr) : State × Option GoError :=
  match s.files[f]? with
  | none => (s, some ErrInvalid)
  | some file =>
    if file.closed then (s, some (closedError "close" file))
    else ({ s with files := s.files.set f { file with closed := true } }, file.closeErr)

/-! ## logger.go -/

/-- The loop `for k, v := range src { dst[k] = v }`, run at step `n`. -/
def rangeInsert (env : Env) (n : Nat) (src dst : Fields) : Fields :=
  (env.rangeOrder n src).foldl (fun d e => d.insert e.1 e.2) dst

/-- The function `copyFields` of mocks.go, run at step `n`. -/
def copyFields (env : Env) (n : Nat) (src : Fields) : Fields :=
  rangeInsert env n src ∅

/-- The level tag computed by the `switch` of `formatMessage`. -/
def levelTag (level : Level) : String :=
  if level = DebugLevel then "[DEBUG]"
  else if level = InfoLevel then "[INFO]"
  else if level = WarningLevel then "[WARNING]"
  else if level = ErrorLevel then "[ERROR]"
  else if level = FatalLevel then "[FATAL]"
  else "[UNKNOWN]"

/-- The method `Logger.formatMessage`, run at step `n` on the receiver `l`. The entry
`k, v` is rendered by `fmt.Sprintf("%s=%v", k, v)`. -/
def Logger.formatMessage (env : Env) (n : Nat) (l : Logger) (level : Level)
    (msg : String) : String :=
  let timeFormat := if l.timeFormat ≠ "" then l.timeFormat else "2006-01-02 15:04:05"
  let timestamp := env.now n timeFormat
  let levelStr := levelTag level
  let msg :=
    if l.fields.entries.length > 0 then
      msg ++ " [" ++
        stringsJoin ((env.rangeOrder n l.fields).map fun e => e.1 ++ "=" ++ e.2.text) " " ++ "]"
    else msg
  stringsJoin [timestamp, levelStr, msg] " "

/-- The method `Logger.handleWriteError`: its body is empty. -/
def Logger.handleWriteError (s : State) (_p : Ptr) (_err : GoError) : State := s

/-- The method `Logger.log`. A receiver that is not on the heap is a nil pointer: the Go
code panics there, the model leaves the state alone. Standard output accepts every write.
The error of a write to a file, and the error of the `Sync` of the error file, go to
`handleWriteError`. -/
def Logger.log (env : Env) (s : State) (p : Ptr) (level : Level) (msg : String) : State :=
  match s.loggers[p]? with
  | none => s
  | some l =>
    if level < l.level then s
    else
      let msg := if l.pfx ≠ "" then "[" ++ l.pfx ++ "] " ++ msg else msg
      let formattedMsg := Logger.formatMessage env s.steps l level msg
      let s := s.tick
      let s := s.setLogger p { l with messages := l.messages ++ [formattedMsg] }
      let s := { s with stdout := s.stdout ++ [formattedMsg ++ "\n"] }
      let s := match l.file with
        | some f =>
          match s.fileWrite f (formattedMsg ++ "\n") with
          | (s, some err) => Logger.handleWriteError s p err
          | (s, none) => s
        | none => s
      if level = ErrorLevel ∨ level = FatalLevel then
        match l.errorFile with
        | some ef =>
          let s := match s.fileWrite ef (formattedMsg ++ "\n") with
            | (s, some err) => Logger.handleWriteError s p err
            | (s, none) => s
          match s.fileSync ef with
          | some err => Logger.handleWriteError s p err
          | none => s
        | none => s
      else s

/-- The method `Logger.logf`. -/
def Logger.logf (env : Env) (s : State) (p : Ptr) (level : Level) (format : String)
    (args : List Value) : State :=
  match s.loggers[p]? with
  | none => s
  | some l =>
    if level < l.level then s
    else Logger.log env s p level (env.sprintf format args)

/-- The method `Logger.Debug`. -/
def Logger.Debug (env : Env) (s : State) (p : Ptr) (args : List Value) : State :=
  Logger.log env s p DebugLevel (Sprint args)

/-- The method `Logger.Info`. -/
def Logger.Info (env : Env) (s : State) (p : Ptr) (args : List Value) : State :=
  Logger.log env s p InfoLevel (Sprint args)

/-- The method `Logger.Warning`. -/
def Logger.Warning (env : Env) (s : State) (p : Ptr) (args : List Value) : State :=
  Logger.log env s p WarningLevel (Sprint args)

/-- The method `Logger.Error`. -/
def Logger.Error (env : Env) (s : State) (p : Ptr) (args : List Value) : State :=
  Logger.log env s p ErrorLevel (Sprint args)

/-- The method `Logger.GetMessages`: a copy of the history of the node at `p`. -/
def Logger.GetMessages (s : State) (p : Ptr) : List String :=
  match s.loggers[p]? with
  | none => []
  | some l => l.messages

/-- Apply `g` to the logger stored at `p` (an assignment to one of its fields). -/
def State.modifyLogger (s : State) (p : Ptr) (g : Logger → Logger) : State :=
  match s.loggers[p]? with
  | none => s
  | some l => s.setLogger p (g l)

/-- Allocate a new `File`; its address is fresh. -/
def State.allocFile (s : State) (f : File) : State × FilePtr :=
  ({ s with files := s.files ++ [f] }, s.files.length)

/-- The method `Logger.Errorf`. -/
def Logger.Errorf (env : Env) (s : State) (p : Ptr) (format : String)
    (args : List Value) : State :=
  Logger.logf env s p ErrorLevel format args

/-- The method `Logger.Debugf`. -/
def Logger.Debugf (env : Env) (s : State) (p : Ptr) (format : String)
    (args : List Value) : State :=
  Logger.logf env s p DebugLevel format args

/-- The method `Logger.Infof`. -/
def Logger.Infof (env : Env) (s : State) (p : Ptr) (format : String)
    (args : List Value) : State :=
  Logger.logf env s p InfoLevel format args

/-- The method `Logger.Warningf`. -/
def Logger.Warningf (env : Env) (s : State) (p : Ptr) (format : String)
    (args : List Value) : State :=
  Logger.logf env s p WarningLevel format args

/-- The method `Logger.SetLevel`; the error is the one built by `fmt.Errorf`. -/
def Logger.SetLevel (env : Env) (s : State) (p : Ptr) (level : String) :
    State × Option GoError :=
  match s.loggers[p]? with
  | none => (s, none)
  | some l =>
    let name := stringsToLower env level
    if name = "debug" then (s.setLogger p { l with level := DebugLevel }, none)
    else if name = "info" then (s.setLogger p { l with level := InfoLevel }, none)
    else if name = "warning" then (s.setLogger p { l with level := WarningLevel }, none)
    else if name = "error" then (s.setLogger p { l with level := ErrorLevel }, none)
    else if name = "fatal" then (s.setLogger p { l with level := FatalLevel }, none)
    else (s, some ("неизвестный уровень логирования: " ++ level))

/-- The method `Logger.Close`. The error of a `Sync` goes to `handleWriteError`; each close
error is assigned to `closeErr`. -/
def Logger.Close (s : State) (p : Ptr) : State × Option GoError :=
  match s.loggers[p]? with
  | none => (s, none)
  | some l =>
    let closeErr : Option GoError := none
    let (s, closeErr) :=
      match l.file with
      | some f =>
        let s := match s.fileSync f with
          | some syncErr => Logger.handleWriteError s p syncErr
          | none => s
        let (s, err) := s.fileClose f
        (s.modifyLogger p (fun n => { n with file := none }),
          match err with
          | some e => some e
          | none => closeErr)
      | none => (s, closeErr)
    match l.errorFile with
    | some ef =>
      let s := match s.fileSync ef with
        | some syncErr => Logger.handleWriteError s p syncErr
        | none => s
      let (s, err) := s.fileClose ef
      (s.modifyLogger p (fun n => { n with errorFile := none }),
        match err with
        | some e => some e
        | none => closeErr)
    | none => (s, closeErr)

/-- The variable `osExit`, called with a status code: the model records the call and
goes on, as the stub installed by the tests does (the default, `os.Exit`, ends the run). -/
def State.osExit (s : State) (code : Int) : State :=
  { s with exitCodes := s.exitCodes ++ [code] }

/-- The method `Logger.Fatal`. -/
def Logger.Fatal (env : Env) (s : State) (p : Ptr) (args : List Value) : State :=
  let msg := Sprint args
  let s := Logger.log env s p FatalLevel msg
  let (s, err) := Logger.Close s p
  let s := match err with
    | some e => Logger.Error env s p [Value.ofString "failed to close logger:", Value.ofError e]
    | none => s
  s.osExit 1

/-- The method `Logger.Fatalf`. -/
def Logger.Fatalf (env : Env) (s : State) (p : Ptr) (format : String)
    (args : List Value) : State :=
  let msg := env.sprintf format args
  let s := Logger.log env s p FatalLevel msg
  let (s, err) := Logger.Close s p
  let s := match err with
    | some e => Logger.Error env s p [Value.ofString "failed to close logger:", Value.ofError e]
    | none => s
  s.osExit 1

/-- The method `Logger.clone`: a new object with a copy of the field map and of the
history, and the same file pointers. -/
def Logger.clone (env : Env) (s : State) (p : Ptr) : State × Ptr :=
  match s.loggers[p]? with
  | none => (s, p)
  | some l =>
    let fields := copyFields env s.steps l.fields
    let s := s.tick
    s.allocLogger
      { pfx := l.pfx, fields := fields, level := l.level, file := l.file,
        errorFile := l.errorFile, timeFormat := l.timeFormat, messages := l.messages }

/-- The method `Logger.WithPrefix`. -/
def Logger.WithPrefix (env : Env) (s : State) (p : Ptr) (pfx : String) : State × Ptr :=
  match s.loggers[p]? with
  | none => (s, p)
  | some l =>
    let (s, q) := Logger.clone env s p
    if l.pfx ≠ "" then (s.modifyLogger q (fun n => { n with pfx := l.pfx ++ "." ++ pfx }), q)
    else (s.modifyLogger q (fun n => { n with pfx := pfx }), q)

/-- The method `Logger.WithFields`: after `clone`, one loop over the fields of the
receiver and one over the argument, both assigning into the map of the new logger. -/
def Logger.WithFields (env : Env) (s : State) (p : Ptr) (fields : Fields) : State × Ptr :=
  match s.loggers[p]? with
  | none => (s, p)
  | some l =>
    let (s, q) := Logger.clone env s p
    let n1 := s.steps
    let s := s.tick.modifyLogger q (fun n => { n with fields := rangeInsert env n1 l.fields n.fields })
    let n2 := s.steps
    let s := s.tick.modifyLogger q (fun n => { n with fields := rangeInsert env n2 fields n.fields })
    (s, q)

/-- The method `Logger.WithLevel`. -/
def Logger.WithLevel (env : Env) (s : State) (p : Ptr) (level : String) : State × Ptr :=
  let (s, q) := Logger.clone env s p
  match Logger.SetLevel env s q level with
  | (s, none) => (s, q)
  | (s, some _) =>
    match Logger.SetLevel env s q "info" with
    | (s, none) => (s, q)
    | (s, some e) =>
      (Logger.Error env s q [Value.ofString "failed to set level:", Value.ofError e], q)

/-- The method `Logger.WithConfig`, for a non-nil `cfg`: only `cfg.Level` is read. -/
def Logger.WithConfig (env : Env) (s : State) (p : Ptr) (cfg : Config) : State × Ptr :=
  let (s, q) := Logger.clone env s p
  match Logger.SetLevel env s q cfg.Level with
  | (s, none) => (s, q)
  | (s, some _) =>
    match Logger.SetLevel env s q "info" with
    | (s, none) => (s, q)
    | (s, some e) =>
      (Logger.Error env s q [Value.ofString "failed to set level:", Value.ofError e], q)

/-- The method `Logger.WithTimeFormat`. -/
def Logger.WithTimeFormat (env : Env) (s : State) (p : Ptr) (format : String) : State × Ptr :=
  let (s, q) := Logger.clone env s p
  (s.modifyLogger q (fun n => { n with timeFormat := format }), q)

/-- The method `Logger.Sync`. -/
def Logger.Sync (s : State) (p : Ptr) : Option GoError :=
  match s.loggers[p]? with
  | none => none
  | some l =>
    match l.file with
    | some f => s.fileSync f
    | none => none

/-- The function `DefaultConfig` of config.go. -/
def DefaultConfig : Config :=
  { Level := "info", Files := some (AList.insert "main" "" ∅) }

/-- The method `Config.Override`, run at step `n`; `other = none` is the nil pointer. The
receiver is updated in place: the result is its new value. -/
def Config.Override (env : Env) (n : Nat) (c : Config) (other : Option Config) : Config :=
  match other with
  | none => c
  | some other =>
    let c := if other.Level ≠ "" then { c with Level := other.Level } else c
    match other.Files with
    | none => c
    | some otherFiles =>
      let files : StringMap := match c.Files with
        | none => ∅
        | some m => m
      let merged := (env.rangeOrderStr n otherFiles).foldl (fun d e => d.insert e.1 e.2) files
      { c with Files := some merged }

/-- The map `validLevels` of `Config.Validate`. -/
def validLevels : AList (fun _ : String => Bool) :=
  AList.insert "debug" true (AList.insert "info" true (AList.insert "warning" true
    (AList.insert "error" true (AList.insert "fatal" true ∅))))

/-- The method `Config.Validate`; a key that is absent from `validLevels` reads as
`false`, and a nil `Files` has no key. -/
def Config.Validate (env : Env) (c : Config) : Option GoError :=
  if ¬ (validLevels.lookup (stringsToLower env c.Level)).getD false = true then
    some ("некорректный уровень логирования: " ++ c.Level)
  else
    match c.Files.bind (fun m => m.lookup "main") with
    | none => some "не указан путь к основному файлу лога"
    | some _ => none

/-- Create the directory of `filename` and open the file, as `New` and `WithFile` both do:
`os.MkdirAll(filepath.Dir(filename), 0750)`, then `os.OpenFile(filepath.Clean(filename),
O_RDWR|O_CREATE|O_APPEND, 0600)`. The result is the message logged through `Errorf` on
failure, or the address of the new open file. -/
def openLogFile (env : Env) (s : State) (filename : String) :
    State × Except (String × GoError) FilePtr :=
  match env.mkdirAll s.steps (env.filepathDir filename) with
  | some err => (s.tick, .error ("Ошибка создания директории для логов: %v", err))
  | none =>
    match env.openFile s.steps (env.filepathClean filename) with
    | .error err => (s.tick, .error ("Ошибка открытия файла лога: %v", err))
    | .ok f =>
      let (s, fp) := s.tick.allocFile
        { f with name := env.filepathClean filename, written := [], closed := false }
      (s, .ok fp)

/-- The function `New` of logger.go. -/
def New (env : Env) (s : State) : State × Ptr :=
  let defaultCfg := DefaultConfig
  let (s, p) := s.allocLogger
    { pfx := "", fields := ∅, level := DebugLevel, file := none, errorFile := none,
      timeFormat := "", messages := [] }
  match defaultCfg.Files.bind (fun m => m.lookup "main") with
  | none => (s, p)
  | some mainLogFile =>
    if mainLogFile ≠ "" then
      match openLogFile env s mainLogFile with
      | (s, .error (format, err)) => (Logger.Errorf env s p format [Value.ofError err], p)
      | (s, .ok fp) => (s.modifyLogger p (fun n => { n with file := some fp }), p)
    else (s, p)

/-- The method `Logger.WithFile`: on failure the error is logged and the receiver itself
is returned; on success the new logger gets the prefix, the level and the error file of
the receiver, the new file, and a fresh map filled from the fields of the receiver. -/
def Logger.WithFile (env : Env) (s : State) (p : Ptr) (filename : String) : State × Ptr :=
  match openLogFile env s filename with
  | (s, .error (format, err)) => (Logger.Errorf env s p format [Value.ofError err], p)
  | (s, .ok fp) =>
    match s.loggers[p]? with
    | none => (s, p)
    | some l =>
      let (s, q) := s.allocLogger
        { pfx := l.pfx, fields := ∅, file := some fp, errorFile := l.errorFile,
          level := l.level, timeFormat := "", messages := [] }
      let n := s.steps
      (s.tick.modifyLogger q (fun c => { c with fields := rangeInsert env n l.fields c.fields }), q)

/-! ## mocks.go (the part shared with the production logger) -/

/-- The function `parseLevel` of mocks.go. -/
def parseLevel (env : Env) (level : String) : Level :=
  let name := stringsToLower env level
  if name = "debug" then DebugLevel
  else if name = "info" then InfoLevel
  else if name = "warning" then WarningLevel
  else if name = "error" then ErrorLevel
  else if name = "fatal" then FatalLevel
  else InfoLevel

/-! ## mocks.go: the test double -/

/-- The function `fmt.Sprintln`: the operands separated by spaces, then a newline. -/
def Sprintln (args : List Value) : String :=
  stringsJoin (args.map fun v => v.text) " " ++ "\n"

/-- The function `strings.TrimSuffix`. -/
def stringsTrimSuffix (s suffix : String) : String :=
  if suffix.data.isSuffixOf s.data then
    String.mk (s.data.take (s.data.length - suffix.data.length))
  else s

/-- Comparison of two Go strings, `a <= b`: byte-wise on the UTF-8 encoding, which is the
order of the code points, rune by rune. -/
def runesLE : List Char → List Char → Bool
  | [], _ => true
  | _ :: _, [] => false
  | a :: as, b :: bs =>
    if a.toNat < b.toNat then true
    else if b.toNat < a.toNat then false
    else runesLE as bs

/-- The order `a <= b` on Go strings. -/
def goStringLE (a b : String) : Prop := runesLE a.data b.data = true

instance goStringLE_decidable : DecidableRel goStringLE := fun a b =>
  inferInstanceAs (Decidable (runesLE a.data b.data = true))

/-- The function `sort.Strings`: the strings in increasing order. -/
def sortStrings (xs : List String) : List String :=
  xs.insertionSort goStringLE

/-- The function `NewMockLogger`; the default exit function (which does nothing) has the
identity `0`. -/
def NewMockLogger (s : State) : State × MockPtr :=
  ({ s with mocks := s.mocks ++
      [{ Messages := [], fields := ∅, level := DebugLevel, osExitFunc := 0, pfx := "",
         parent := none, exitCode := 0, hasFile := false }] },
   s.mocks.length)

/-- The function `getLevelString` of mocks.go. -/
def getLevelString (level : Level) : String :=
  if level = DebugLevel then "[DEBUG]"
  else if level = InfoLevel then "[INFO]"
  else if level = WarningLevel then "[WARNING]"
  else if level = ErrorLevel then "[ERROR]"
  else if level = FatalLevel then "[FATAL]"
  else "[UNKNOWN]"

/-- The recursion of `getRootLogger` along the parent pointers, with a bound on its depth;
`none` when the bound is reached or a pointer designates no node. -/
def getRootLoggerFuel (mocks : List MockLogger) : Nat → MockPtr → Option MockPtr
  | 0, _ => none
  | fuel + 1, m =>
    match mocks[m]? with
    | none => none
    | some node =>
      match node.parent with
      | some q => getRootLoggerFuel mocks fuel q
      | none => some m

/-- The method `MockLogger.getRootLogger`. A chain of parents visits each node at most
once, so the size of the heap bounds the depth of the recursion. -/
def MockLogger.getRootLogger (s : State) (m : MockPtr) : Option MockPtr :=
  getRootLoggerFuel s.mocks s.mocks.length m

/-- The loop of `collectChainData` from the node `current` on, with a bound on the number
of iterations; `n` is the step of the first iteration. The result carries the step after
the last iteration. -/
def collectChainDataFuel (env : Env) (mocks : List MockLogger) :
    Nat → Nat → Option MockPtr → List String → Fields → Option (List String × Fields × Nat)
  | _, n, none, prefixes, fields => some (prefixes, fields, n)
  | 0, _, some _, _, _ => none
  | fuel + 1, n, some cur, prefixes, fields =>
    match mocks[cur]? with
    | none => none
    | some current =>
      collectChainDataFuel env mocks fuel (n + 1) current.parent
        (if current.pfx ≠ "" then current.pfx :: prefixes else prefixes)
        (rangeInsert env n current.fields fields)

/-- The method `MockLogger.collectChainData`. -/
def MockLogger.collectChainData (env : Env) (s : State) (m : MockPtr) :
    Option (List String × Fields × Nat) :=
  collectChainDataFuel env s.mocks s.mocks.length s.steps (some m) [] ∅

/-- The method `MockLogger.formatMessage`; the result carries the step after the call. -/
def MockLogger.formatMessage (env : Env) (s : State) (m : MockPtr) (level : Level)
    (args : List Value) : Option (String × Nat) :=
  let msg := stringsTrimSuffix (Sprintln args) "\n"
  let levelStr := getLevelString level
  match MockLogger.collectChainData env s m with
  | none => none
  | some (prefixes, allFields, n) =>
    let parts := [levelStr]
    let parts := if prefixes.length > 0 then parts ++ [stringsJoin prefixes "."] else parts
    let parts := parts ++ [msg]
    let parts :=
      if allFields.entries.length > 0 then
        parts ++ ["[" ++ stringsJoin (sortStrings
          ((env.rangeOrder n allFields).map fun e => e.1 ++ "=" ++ e.2.text)) " " ++ "]"]
      else parts
    some (stringsJoin parts " ", n + 1)

/-- The body shared by `MockLogger.log` and `MockLogger.logf` once the operands of
`formatMessage` are known. A chain that has no root, or a receiver that is not on the
heap, is where the Go code does not return; the model leaves the state alone. -/
def MockLogger.logArgs (env : Env) (s : State) (m : MockPtr) (level : Level)
    (args : List Value) : State :=
  match MockLogger.getRootLogger s m with
  | none => s
  | some r =>
    match s.mocks[r]? with
    | none => s
    | some root =>
      if level < root.level then s
      else
        match MockLogger.formatMessage env s m level args with
        | none => s
        | some (line, n) =>
          { s with steps := n,
                   mocks := s.mocks.set r { root with Messages := root.Messages ++ [line] } }

/-- The method `MockLogger.log`. -/
def MockLogger.log (env : Env) (s : State) (m : MockPtr) (level : Level)
    (args : List Value) : State :=
  MockLogger.logArgs env s m level args

/-- The method `MockLogger.logf`: the only operand of `formatMessage` is the string built
by `fmt.Sprintf`. -/
def MockLogger.logf (env : Env) (s : State) (m : MockPtr) (level : Level) (format : String)
    (args : List Value) : State :=
  MockLogger.logArgs env s m level [Value.ofString (env.sprintf format args)]

/-- The method `MockLogger.Debug`. -/
def MockLogger.Debug (env : Env) (s : State) (m : MockPtr) (args : List Value) : State :=
  MockLogger.log env s m DebugLevel args

/-- The method `MockLogger.Debugf`. -/
def MockLogger.Debugf (env : Env) (s : State) (m : MockPtr) (format : String)
    (args : List Value) : State :=
  MockLogger.logf env s m DebugLevel format args

/-- The method `MockLogger.Info`. -/
def MockLogger.Info (env : Env) (s : State) (m : MockPtr) (args : List Value) : State :=
  MockLogger.log env s m InfoLevel args

/-- The method `MockLogger.Infof`. -/
def MockLogger.Infof (env : Env) (s : State) (m : MockPtr) (format : String)
    (args : List Value) : State :=
  MockLogger.logf env s m InfoLevel format args

/-- The method `MockLogger.Warning`. -/
def MockLogger.Warning (env : Env) (s : State) (m : MockPtr) (args : List Value) : State :=
  MockLogger.log env s m WarningLevel args

/-- The method `MockLogger.Warningf`. -/
def MockLogger.Warningf (env : Env) (s : State) (m : MockPtr) (format : String)
    (args : List Value) : State :=
  MockLogger.logf env s m WarningLevel format args

/-- The method `MockLogger.Error`. -/
def MockLogger.Error (env : Env) (s : State) (m : MockPtr) (args : List Value) : State :=
  MockLogger.log env s m ErrorLevel args

/-- The method `MockLogger.Errorf`. -/
def MockLogger.Errorf (env : Env) (s : State) (m : MockPtr) (format : String)
    (args : List Value) : State :=
  MockLogger.logf env s m ErrorLevel format args

/-- The method `MockLogger.Close`: always nil. -/
def MockLogger.Close (s : State) (_m : MockPtr) : State × Option GoError := (s, none)

/-- Apply `g` to the test double stored at `m` (an assignment to one of its fields). -/
def State.modifyMock (s : State) (m : MockPtr) (g : MockLogger → MockLogger) : State :=
  match s.mocks[m]? with
  | none => s
  | some node => { s with mocks := s.mocks.set m (g node) }

/-- The statements of `Fatal` and `Fatalf` after the message is logged: `Close`, the
report of its error through `Error`, `m.exitCode = 1` and the call `m.osExitFunc(1)`,
which is recorded. -/
def MockLogger.closeAndExit (env : Env) (s : State) (m : MockPtr) : State :=
  let (s, err) := MockLogger.Close s m
  let s := match err with
    | some e => MockLogger.Error env s m [Value.ofString "failed to close logger:", Value.ofError e]
    | none => s
  let s := s.modifyMock m (fun node => { node with exitCode := 1 })
  match s.mocks[m]? with
  | none => s
  | some node => { s with handlerCalls := s.handlerCalls ++ [(node.osExitFunc, 1)] }

/-- The method `MockLogger.Fatal`. -/
def MockLogger.Fatal (env : Env) (s : State) (m : MockPtr) (args : List Value) : State :=
  MockLogger.closeAndExit env (MockLogger.log env s m FatalLevel args) m

/-- The method `MockLogger.Fatalf`. -/
def MockLogger.Fatalf (env : Env) (s : State) (m : MockPtr) (format : String)
    (args : List Value) : State :=
  MockLogger.closeAndExit env (MockLogger.logf env s m FatalLevel format args) m

/-- Allocate a new `MockLogger`; its address is fresh. -/
def State.allocMock (s : State) (node : MockLogger) : State × MockPtr :=
  ({ s with mocks := s.mocks ++ [node] }, s.mocks.length)

/-- The method `MockLogger.WithPrefix`. -/
def MockLogger.WithPrefix (s : State) (m : MockPtr) (pfx : String) : State × MockPtr :=
  match s.mocks[m]? with
  | none => (s, m)
  | some node =>
    s.allocMock
      { pfx := pfx, fields := ∅, level := node.level, parent := some m,
        osExitFunc := node.osExitFunc, Messages := [], exitCode := 0, hasFile := false }

/-- The method `MockLogger.WithFields`; the map of the caller is stored as it is. Maps are
values here: what the caller does to its map after the call is not modelled. -/
def MockLogger.WithFields (s : State) (m : MockPtr) (fields : Fields) : State × MockPtr :=
  match s.mocks[m]? with
  | none => (s, m)
  | some node =>
    s.allocMock
      { pfx := "", fields := fields, level := node.level, parent := some m,
        osExitFunc := node.osExitFunc, Messages := [], exitCode := 0, hasFile := false }

/-- The method `MockLogger.WithFile`: no file is touched. -/
def MockLogger.WithFile (s : State) (m : MockPtr) (_filename : String) : State × MockPtr :=
  match s.mocks[m]? with
  | none => (s, m)
  | some node =>
    s.allocMock
      { pfx := "", fields := ∅, level := node.level, hasFile := true, parent := some m,
        osExitFunc := node.osExitFunc, Messages := [], exitCode := 0 }

/-- The method `MockLogger.SetLevel`. -/
def MockLogger.SetLevel (env : Env) (s : State) (m : MockPtr) (level : String) :
    State × Option GoError :=
  let name := stringsToLower env level
  if name = "debug" then (s.modifyMock m (fun node => { node with level := DebugLevel }), none)
  else if name = "info" then (s.modifyMock m (fun node => { node with level := InfoLevel }), none)
  else if name = "warning" then
    (s.modifyMock m (fun node => { node with level := WarningLevel }), none)
  else if name = "error" then (s.modifyMock m (fun node => { node with level := ErrorLevel }), none)
  else if name = "fatal" then (s.modifyMock m (fun node => { node with level := FatalLevel }), none)
  else (s, some ("неизвестный уровень логирования: " ++ level))

/-- The method `MockLogger.SetExitHandler`; `fn` is the identity of the new function. -/
def MockLogger.SetExitHandler (s : State) (m : MockPtr) (fn : Nat) : State :=
  s.modifyMock m (fun node => { node with osExitFunc := fn })

/-- The method `MockLogger.GetExitCode`. -/
def MockLogger.GetExitCode (s : State) (m : MockPtr) : Int :=
  match s.mocks[m]? with
  | none => 0
  | some node => node.exitCode

/-- The method `MockLogger.clone`: a new object with the same parent, a copy of the
messages and of the fields. -/
def MockLogger.clone (env : Env) (s : State) (m : MockPtr) : State × MockPtr :=
  match s.mocks[m]? with
  | none => (s, m)
  | some node =>
    s.tick.allocMock
      { Messages := node.Messages, exitCode := node.exitCode, osExitFunc := node.osExitFunc,
        pfx := node.pfx, fields := copyFields env s.steps node.fields, level := node.level,
        hasFile := node.hasFile, parent := node.parent }

/-- The method `MockLogger.WithConfig`: the receiver itself. -/
def MockLogger.WithConfig (s : State) (m : MockPtr) (_cfg : Config) : State × MockPtr := (s, m)

/-- The method `MockLogger.WithLevel`. -/
def MockLogger.WithLevel (env : Env) (s : State) (m : MockPtr) (level : String) :
    State × MockPtr :=
  let (s, q) := MockLogger.clone env s m
  (s.modifyMock q (fun node => { node with level := parseLevel env level }), q)

/-- The method `MockLogger.GetMessages`: the messages of the node itself. -/
def MockLogger.GetMessages (s : State) (m : MockPtr) : List String :=
  match s.mocks[m]? with
  | none => []
  | some node => node.Messages

/-- The method `MockLogger.WithTimeFormat`. -/
def MockLogger.WithTimeFormat (env : Env) (s : State) (m : MockPtr) (_format : String) :
    State × MockPtr :=
  MockLogger.clone env s m

/-! ## The interface `ILogger`: dynamic dispatch -/

/-- The call `g.Debug(args...)` on an interface value. -/
def ILogger.Debug (env : Env) (s : State) (g : ILogger) (args : List Value) : State :=
  match g with
  | .logger p => Logger.Debug env s p args
  | .mock m => MockLogger.Debug env s m args

/-- The call `g.Debugf(format, args...)` on an interface value. -/
def ILogger.Debugf (env : Env) (s : State) (g : ILogger) (format : String)
    (args : List Value) : State :=
  match g with
  | .logger p => Logger.Debugf env s p format args
  | .mock m => MockLogger.Debugf env s m format args

/-- The call `g.Info(args...)` on an interface value. -/
def ILogger.Info (env : Env) (s : State) (g : ILogger) (args : List Value) : State :=
  match g with
  | .logger p => Logger.Info env s p args
  | .mock m => MockLogger.Info env s m args

/-- The call `g.Infof(format, args...)` on an interface value. -/
def ILogger.Infof (env : Env) (s : State) (g : ILogger) (format : String)
    (args : List Value) : State :=
  match g with
  | .logger p => Logger.Infof env s p format args
  | .mock m => MockLogger.Infof env s m format args

/-- The call `g.Warning(args...)` on an interface value. -/
def ILogger.Warning (env : Env) (s : State) (g : ILogger) (args : List Value) : State :=
  match g with
  | .logger p => Logger.Warning env s p args
  | .mock m => MockLogger.Warning env s m args

/-- The call `g.Warningf(format, args...)` on an interface value. -/
def ILogger.Warningf (env : Env) (s : State) (g : ILogger) (format : String)
    (args : List Value) : State :=
  match g with
  | .logger p => Logger.Warningf env s p format args
  | .mock m => MockLogger.Warningf env s m format args

/-- The call `g.Error(args...)` on an interface value. -/
def ILogger.Error (env : Env) (s : State) (g : ILogger) (args : List Value) : State :=
  match g with
  | .logger p => Logger.Error env s p args
  | .mock m => MockLogger.Error env s m args

/-- The call `g.Errorf(format, args...)` on an interface value. -/
def ILogger.Errorf (env : Env) (s : State) (g : ILogger) (format : String)
    (args : List Value) : State :=
  match g with
  | .logger p => Logger.Errorf env s p format args
  | .mock m => MockLogger.Errorf env s m format args

/-- The call `g.Fatal(args...)` on an interface value. -/
def ILogger.Fatal (env : Env) (s : State) (g : ILogger) (args : List Value) : State :=
  match g with
  | .logger p => Logger.Fatal env s p args
  | .mock m => MockLogger.Fatal env s m args

/-- The call `g.Fatalf(format, args...)` on an interface value. -/
def ILogger.Fatalf (env : Env) (s : State) (g : ILogger) (format : String)
    (args : List Value) : State :=
  match g with
  | .logger p => Logger.Fatalf env s p format args
  | .mock m => MockLogger.Fatalf env s m format args

/-- The call `g.WithPrefix(segment)` on an interface value. -/
def ILogger.WithPrefix (env : Env) (s : State) (g : ILogger) (pfx : String) :
    State × ILogger :=
  match g with
  | .logger p => ((Logger.WithPrefix env s p pfx).1, .logger (Logger.WithPrefix env s p pfx).2)
  | .mock m => ((MockLogger.WithPrefix s m pfx).1, .mock (MockLogger.WithPrefix s m pfx).2)

/-- The call `g.WithFields(fields)` on an interface value. -/
def ILogger.WithFields (env : Env) (s : State) (g : ILogger) (fields : Fields) :
    State × ILogger :=
  match g with
  | .logger p =>
    ((Logger.WithFields env s p fields).1, .logger (Logger.WithFields env s p fields).2)
  | .mock m => ((MockLogger.WithFields s m fields).1, .mock (MockLogger.WithFields s m fields).2)

/-- The call `g.WithFile(filename)` on an interface value. -/
def ILogger.WithFile (env : Env) (s : State) (g : ILogger) (filename : String) :
    State × ILogger :=
  match g with
  | .logger p =>
    ((Logger.WithFile env s p filename).1, .logger (Logger.WithFile env s p filename).2)
  | .mock m =>
    ((MockLogger.WithFile s m filename).1, .mock (MockLogger.WithFile s m filename).2)

/-- The call `g.GetMessages()` on an interface value. -/
def ILogger.GetMessages (s : State) (g : ILogger) : List String :=
  match g with
  | .logger p => Logger.GetMessages s p
  | .mock m => MockLogger.GetMessages s m

/-! ## global.go -/

/-- The function `SetGlobalLogger`; the argument `none` is nil. -/
def SetGlobalLogger (s : State) (l : Option ILogger) : State :=
  { s with globalLogger := l }

/-- The function `GetGlobalLogger`. -/
def GetGlobalLogger (env : Env) (s : State) : State × ILogger :=
  match s.globalLogger with
  | none => ((New env s).1, .logger (New env s).2)
  | some g => (s, g)

/-- The package-level function `Debug`. -/
def Debug (env : Env) (s : State) (args : List Value) : State :=
  ILogger.Debug env (GetGlobalLogger env s).1 (GetGlobalLogger env s).2 args

/-- The package-level function `Debugf`. -/
def Debugf (env : Env) (s : State) (format : String) (args : List Value) : State :=
  ILogger.Debugf env (GetGlobalLogger env s).1 (GetGlobalLogger env s).2 format args

/-- The package-level function `Info`. -/
def Info (env : Env) (s : State) (args : List Value) : State :=
  ILogger.Info env (GetGlobalLogger env s).1 (GetGlobalLogger env s).2 args

/-- The package-level function `Infof`. -/
def Infof (env : Env) (s : State) (format : String) (args : List Value) : State :=
  ILogger.Infof env (GetGlobalLogger env s).1 (GetGlobalLogger env s).2 format args

/-- The package-level function `Warning`. -/
def Warning (env : Env) (s : State) (args : List Value) : State :=
  ILogger.Warning env (GetGlobalLogger env s).1 (GetGlobalLogger env s).2 args

/-- The package-level function `Warningf`. -/
def Warningf (env : Env) (s : State) (format : String) (args : List Value) : State :=
  ILogger.Warningf env (GetGlobalLogger env s).1 (GetGlobalLogger env s).2 format args

/-- The package-level function `Error`. -/
def Error (env : Env) (s : State) (args : List Value) : State :=
  ILogger.Error env (GetGlobalLogger env s).1 (GetGlobalLogger env s).2 args

/-- The package-level function `Errorf`. -/
def Errorf (env : Env) (s : State) (format : String) (args : List Value) : State :=
  ILogger.Errorf env (GetGlobalLogger env s).1 (GetGlobalLogger env s).2 format args

/-- The package-level function `Fatal`. -/
def Fatal (env : Env) (s : State) (args : List Value) : State :=
  ILogger.Fatal env (GetGlobalLogger env s).1 (GetGlobalLogger env s).2 args

/-- The package-level function `Fatalf`. -/
def Fatalf (env : Env) (s : State) (format : String) (args : List Value) : State :=
  ILogger.Fatalf env (GetGlobalLogger env s).1 (GetGlobalLogger env s).2 format args

/-- The package-level function `WithPrefix`. -/
def WithPrefix (env : Env) (s : State) (pfx : String) : State × ILogger :=
  ILogger.WithPrefix env (GetGlobalLogger env s).1 (GetGlobalLogger env s).2 pfx

/-- The package-level function `WithFields`. -/
def WithFields (env : Env) (s : State) (fields : Fields) : State × ILogger :=
  ILogger.WithFields env (GetGlobalLogger env s).1 (GetGlobalLogger env s).2 fields

/-- The package-level function `WithFile`. -/
def WithFile (env : Env) (s : State) (filename : String) : State × ILogger :=
  ILogger.WithFile env (GetGlobalLogger env s).1 (GetGlobalLogger env s).2 filename

/-! ## errors.go -/

/-- The struct `ConfigError` of errors.go; `Err = none` is the nil error. -/
structure ConfigError where
  Err : Option GoError
  Reason : String
deriving DecidableEq

/-- The struct `WriteError` of types.go; `Cause = none` is the nil error. -/
structure WriteError where
  Cause : Option GoError
  Message : String
deriving DecidableEq

/-- The struct `LevelError` of errors.go. -/
structure LevelError where
  Level : String
deriving DecidableEq

/-- An operand of type `error` under the verb `%v`: the text of its `Error()`, and
`<nil>` for the nil error. -/
def fmtErrorV : Option GoError → String
  | some e => e
  | none => "<nil>"

/-- The method `ConfigError.Error`:
`fmt.Sprintf("ошибка конфигурации: %s (причина: %v)", e.Reason, e.Err)`. -/
def ConfigError.Error (e : ConfigError) : String :=
  "ошибка конфигурации: " ++ e.Reason ++ " (причина: " ++ fmtErrorV e.Err ++ ")"

/-- The method `ConfigError.Unwrap`. -/
def ConfigError.Unwrap (e : ConfigError) : Option GoError := e.Err

/-- The method `WriteError.Error`: the cause is rendered only when it is not nil. -/
def WriteError.Error (e : WriteError) : String :=
  match e.Cause with
  | some c => "ошибка записи лога: " ++ e.Message ++ " (причина: " ++ fmtErrorV (some c) ++ ")"
  | none => "ошибка записи лога: " ++ e.Message

/-- The method `WriteError.Unwrap`. -/
def WriteError.Unwrap (e : WriteError) : Option GoError := e.Cause

/-- The method `LevelError.Error`:
`fmt.Sprintf("неизвестный уровень логирования: %s", e.Level)`. -/
def LevelError.Error (e : LevelError) : String :=
  "неизвестный уровень логирования: " ++ e.Level

/-! ## logger.go: `log` on both sides of `l.mu.Lock()` -/

/-- The statements of `Logger.log` from `l.mu.Lock()` to the end, which run under the lock
`l.mu`: `formattedMsg` is the line computed before the lock was taken. -/
def Logger.logLocked (s : State) (p : Ptr) (level : Level) (formattedMsg : String) : State :=
  match s.loggers[p]? with
  | none => s
  | some l =>
    let s := s.setLogger p { l with messages := l.messages ++ [formattedMsg] }
    let s := { s with stdout := s.stdout ++ [formattedMsg ++ "\n"] }
    let s := match l.file with
      | some f =>
        match s.fileWrite f (formattedMsg ++ "\n") with
        | (s, some err) => Logger.handleWriteError s p err
        | (s, none) => s
      | none => s
    if level = ErrorLevel ∨ level = FatalLevel then
      match l.errorFile with
      | some ef =>
        let s := match s.fileWrite ef (formattedMsg ++ "\n") with
          | (s, some err) => Logger.handleWriteError s p err
          | (s, none) => s
        match s.fileSync ef with
        | some err => Logger.handleWriteError s p err
        | none => s
      | none => s
    else s

/-! ## logger.go: goroutines that call `Infof` -/

/-- A mutex of the program: the `sync.RWMutex` that the field `mu` of a logger points to,
and the mutexes `messagesMu` and `fileMu`, which are fields of the logger at `p` itself. -/
inductive Lock where
  | mu (m : Nat)
  | messagesMu (p : Ptr)
  | fileMu (p : Ptr)
deriving DecidableEq

/-- The statement that a goroutine inside `Infof` runs next. `start` is the part of `logf`
and `log` before `l.mu.Lock()`: both level tests, `fmt.Sprintf`, the prefix and
`formatMessage`, which only read fields that no statement of `log` writes. Then come, one
by one, `l.mu.Lock()`, `l.messagesMu.Lock()`, the read of `l.messages` by `append`, the
assignment to `l.messages`, `l.messagesMu.Unlock()`, `fmt.Fprintln(os.Stdout, ...)`,
`l.fileMu.Lock()`, the write to `l.file`, and the deferred `l.fileMu.Unlock()` and
`l.mu.Unlock()`. The level of `Infof` is INFO, so the statements for the error file are
skipped. At `done` the call has returned. -/
inductive Pc where
  | start
  | lockMu
  | lockMessages
  | readMessages
  | writeMessages
  | unlockMessages
  | stdout
  | lockFile
  | writeFile
  | unlockFile
  | unlockMu
  | done
deriving DecidableEq

/-- A goroutine that calls `Infof(format, args...)` on the logger at `target`: the statement
it runs next, and its local variables `formattedMsg` and the value of `l.messages` that
`append` has read. -/
structure Goroutine where
  target : Ptr
  format : String
  args : List Value
  pc : Pc
  formattedMsg : String
  messages : List String

/-- A concurrent run: the machine, the mutexes that are locked, and the goroutines. The
last two fields are the log of the run, which no statement reads: `recorded` lists the
assignments to `l.messages` and `written` the writes that a file accepted, each in the
order of time and with the goroutine, the logger it was called on and the line. -/
structure Run where
  state : State
  held : List Lock
  goroutines : List Goroutine
  recorded : List (Nat × Ptr × String)
  written : List (Nat × Ptr × String)

/-- The goroutine `i` becomes `g`. -/
def Run.setGoroutine (r : Run) (i : Nat) (g : Goroutine) : Run :=
  { r with goroutines := r.goroutines.set i g }

/-- The goroutine `i` runs its next statement; every statement is one access to the shared
memory, one operation on a mutex or one call of the operating system. `mu p` is the mutex
that the field `mu` of the logger at `p` points to. `Lock` on a mutex that is locked does
not return: the goroutine stays where it is. A write to an `os.File` is one event, as
`os.File` serialises the writes through one handle. -/
def stepGoroutine (env : Env) (mu : Ptr → Nat) (r : Run) (i : Nat) : Run :=
  match r.goroutines[i]? with
  | none => r
  | some g =>
    match r.state.loggers[g.target]? with
    | none => r
    | some l =>
      match g.pc with
      | .start =>
        if InfoLevel < l.level then r.setGoroutine i { g with pc := .done }
        else
          let msg := env.sprintf g.format g.args
          let msg := if l.pfx ≠ "" then "[" ++ l.pfx ++ "] " ++ msg else msg
          { r with state := r.state.tick }.setGoroutine i
            { g with
              pc := .lockMu,
              formattedMsg := Logger.formatMessage env r.state.steps l InfoLevel msg }
      | .lockMu =>
        if Lock.mu (mu g.target) ∈ r.held then r
        else
          { r with held := Lock.mu (mu g.target) :: r.held }.setGoroutine i
            { g with pc := .lockMessages }
      | .lockMessages =>
        if Lock.messagesMu g.target ∈ r.held then r
        else
          { r with held := Lock.messagesMu g.target :: r.held }.setGoroutine i
            { g with pc := .readMessages }
      | .readMessages =>
        r.setGoroutine i { g with pc := .writeMessages, messages := l.messages }
      | .writeMessages =>
        { r with
          state := r.state.setLogger g.target
            { l with messages := g.messages ++ [g.formattedMsg] },
          recorded := r.recorded ++ [(i, g.target, g.formattedMsg)] }.setGoroutine i
          { g with pc := .unlockMessages }
      | .unlockMessages =>
        { r with held := r.held.erase (Lock.messagesMu g.target) }.setGoroutine i
          { g with pc := .stdout }
      | .stdout =>
        { r with
          state := { r.state with stdout := r.state.stdout ++ [g.formattedMsg ++ "\n"] }
          }.setGoroutine i { g with pc := .lockFile }
      | .lockFile =>
        if Lock.fileMu g.target ∈ r.held then r
        else
          { r with held := Lock.fileMu g.target :: r.held }.setGoroutine i
            { g with pc := .writeFile }
      | .writeFile =>
        match l.file with
        | some f =>
          match r.state.fileWrite f (g.formattedMsg ++ "\n") with
          | (s, some err) =>
            { r with state := Logger.handleWriteError s g.target err }.setGoroutine i
              { g with pc := .unlockFile }
          | (s, none) =>
            { r with
              state := s,
              written := r.written ++ [(i, g.target, g.formattedMsg)] }.setGoroutine i
              { g with pc := .unlockFile }
        | none => r.setGoroutine i { g with pc := .unlockFile }
      | .unlockFile =>
        { r with held := r.held.erase (Lock.fileMu g.target) }.setGoroutine i
          { g with pc := .unlockMu }
      | .unlockMu =>
        { r with held := r.held.erase (Lock.mu (mu g.target)) }.setGoroutine i
          { g with pc := .done }
      | .done => r

/-- A run under a schedule: at each step the goroutine named by the schedule runs its next
statement. -/
def runSchedule (env : Env) (mu : Ptr → Nat) (r : Run) (schedule : List Nat) : Run :=
  schedule.foldl (stepGoroutine env mu) r

/-- The goroutine that is about to call `Infof(format, args...)` on the logger at `p`. -/
def newGoroutine (call : Ptr × String × List Value) : Goroutine :=
  { target := call.1, format := call.2.1, args := call.2.2, pc := .start, formattedMsg := "",
    messages := [] }

/-- The run in which one goroutine for each call is about to start, in the state `s`, with
no mutex locked. -/
def startRun (s : State) (calls : List (Ptr × String × List Value)) : Run :=
  { state := s, held := [], goroutines := calls.map newGoroutine, recorded := [], written := [] }

/-! ## Definitions used to state the properties -/

/-- The five recognized level names with their severity. -/
def levelNames : List (String × Level) :=
  [("debug", DebugLevel), ("info", InfoLevel), ("warning", WarningLevel),
   ("error", ErrorLevel), ("fatal", FatalLevel)]


/-- The line that `Logger.log` records at step `n` for the receiver `l`: the prefix is
folded into the message, then `formatMessage` is applied. -/
def Logger.lineOf (env : Env) (n : Nat) (l : Logger) (level : Level) (msg : String) : String :=
  Logger.formatMessage env n l level (if l.pfx ≠ "" then "[" ++ l.pfx ++ "] " ++ msg else msg)

/-- What the emit path owes a logger at `p` with minimum level `m` for a message of level
`L`, `s` being the state before and `t` the state after: one more line in the history when
`m ≤ L`, and no change at all when `L < m`. -/
def EmitsOrSkips (s : State) (p : Ptr) (m L : Level) (t : State) : Prop :=
  (m ≤ L → ∃ line, Logger.GetMessages t p = Logger.GetMessages s p ++ [line]) ∧
  (L < m → t = s)

/-- The names of the five severities as the specification writes them. -/
def severityNames : List (Level × String) :=
  [(DebugLevel, "DEBUG"), (InfoLevel, "INFO"), (WarningLevel, "WARNING"),
   (ErrorLevel, "ERROR"), (FatalLevel, "FATAL")]

/-- The five derivations that go through `clone`, with their argument. -/
inductive Derivation where
  | withPrefix (segment : String)
  | withFields (fields : Fields)
  | withLevel (level : String)
  | withConfig (cfg : Config)
  | withTimeFormat (format : String)

/-- Apply a derivation to the logger at `p`. -/
def derive (env : Env) (s : State) (p : Ptr) : Derivation → State × Ptr
  | .withPrefix segment => Logger.WithPrefix env s p segment
  | .withFields fields => Logger.WithFields env s p fields
  | .withLevel level => Logger.WithLevel env s p level
  | .withConfig cfg => Logger.WithConfig env s p cfg
  | .withTimeFormat format => Logger.WithTimeFormat env s p format

/-- What `Fatal` and `Fatalf` both do once the message is built. -/
def Logger.fatalTail (env : Env) (s : State) (p : Ptr) (msg : String) : State :=
  let s := Logger.log env s p FatalLevel msg
  let (s, err) := Logger.Close s p
  let s := match err with
    | some e => Logger.Error env s p [Value.ofString "failed to close logger:", Value.ofError e]
    | none => s
  s.osExit 1

/-- What `Fatal` and `Fatalf` owe the logger at `p` (whose value before the call is `l`)
for the message `msg`, `s` being the state before and `t` the state after: one more call
of the exit hook, with code 1; no file pointer left in the logger; and a history extended
by the FATAL line for `msg` alone when `Close` returned no error, and by that line
followed by at most the ERROR line reporting the close error `e` otherwise (the ERROR line
is there unless the minimum level is above ERROR). -/
def FatalOutcome (env : Env) (s : State) (p : Ptr) (l : Logger) (msg : String)
    (t : State) : Prop :=
  t.exitCodes = s.exitCodes ++ [1] ∧
  (∃ c, t.loggers[p]? = some c ∧ c.file = none ∧ c.errorFile = none) ∧
  (match (Logger.Close (Logger.log env s p FatalLevel msg) p).2 with
   | none =>
     Logger.GetMessages t p
       = Logger.GetMessages s p ++ [Logger.lineOf env s.steps l FatalLevel msg]
   | some e =>
     Logger.GetMessages t p
       = Logger.GetMessages s p ++ [Logger.lineOf env s.steps l FatalLevel msg] ++
           (if ErrorLevel < l.level then []
            else [Logger.lineOf env (s.steps + 1) l ErrorLevel ("failed to close logger:" ++ e)]))

/-- Write `data` through the file pointer `f` of a logger, if it has one; errors are dropped. -/
def State.writeSink (s : State) (f : Option FilePtr) (data : String) : State :=
  match f with
  | some g => (s.fileWrite g data).1
  | none => s

/-- What the file `fg` at address `g` receives when `data` is written through the file
pointer `ptr` of a logger: the data, when `ptr` designates that file, the file is open
and the operating system accepts the write (as an append-only list always does); nothing
otherwise. -/
def sinkGets (ptr : Option FilePtr) (g : FilePtr) (fg : File) (data : String) : List String :=
  if ptr = some g ∧ fg.closed = false ∧ fg.writeErr = none then [data] else []

/-- `WithFile(filename)` fails at the state `s` with the error `err`, which it reports with
the format `format`: either `os.MkdirAll` fails, or it succeeds and `os.OpenFile` fails. -/
def WithFileFails (env : Env) (s : State) (filename format : String) (err : GoError) : Prop :=
  (env.mkdirAll s.steps (env.filepathDir filename) = some err ∧
    format = "Ошибка создания директории для логов: %v") ∨
  (env.mkdirAll s.steps (env.filepathDir filename) = none ∧
    env.openFile s.steps (env.filepathClean filename) = .error err ∧
    format = "Ошибка открытия файла лога: %v")

/-- The file object that a successful `os.OpenFile` puts on the heap. -/
def openedFile (env : Env) (filename : String) (f : File) : File :=
  { f with name := env.filepathClean filename, written := [], closed := false }

/-- The expression `c.Files[k]` with its presence flag: the path configured under `k`. -/
def Config.file? (c : Config) (k : String) : Option String :=
  c.Files.bind (fun m => m.lookup k)

/-- Every parent pointer in the list designates an earlier address, the first node of
the list being at address `i`. -/
def parentsBelow : List MockLogger → Nat → Bool
  | [], _ => true
  | node :: rest, i =>
    (match node.parent with
      | some q => decide (q < i)
      | none => true) && parentsBelow rest (i + 1)

/-- The heap of test doubles is well formed: a parent was allocated before its children,
as in every heap the program builds. -/
def MocksWF (s : State) : Prop := parentsBelow s.mocks 0 = true

instance MocksWF_decidable (s : State) : Decidable (MocksWF s) :=
  inferInstanceAs (Decidable (parentsBelow s.mocks 0 = true))

/-- The map that `WithFields` leaves in the new logger when the receiver has the fields
`base`, the argument is `f` and the call starts at step `n`: the three loops, in order. -/
def mergedFields (env : Env) (n : Nat) (base f : Fields) : Fields :=
  rangeInsert env (n + 2) f (rangeInsert env (n + 1) base (copyFields env n base))

/-- Number of positions of `text` at which `pat` occurs (an empty `pat` occurs once at the
end as well). -/
def countOcc (pat : List Char) : List Char → Nat
  | [] => if pat = [] then 1 else 0
  | c :: cs => (if pat <+: c :: cs then 1 else 0) + countOcc pat cs

/-- Number of occurrences of the substring `pat` in `text`. -/
def occurrences (pat text : String) : Nat := countOcc pat.data text.data

/-- The rendering of one field by `fmt.Sprintf("%s=%v", k, v)`. -/
def renderField (e : Entry) : String := e.1 ++ "=" ++ e.2.text

/-- When the first string is a proper beginning of the second, the second continues with a
character above `=`. -/
def safePair : List Char → List Char → Bool
  | [], [] => true
  | [], c :: _ => decide ('='.toNat < c.toNat)
  | _ :: _, [] => true
  | x :: xs, y :: ys => if x = y then safePair xs ys else true

/-- No key of the map, extended by a character that is `=` or below it, is a beginning
of another key of the map. -/
def KeysSortSafe (m : Fields) : Prop :=
  ∀ e1 ∈ m.entries, ∀ e2 ∈ m.entries, safePair e1.1.data e2.1.data = true

instance KeysSortSafe_decidable (m : Fields) : Decidable (KeysSortSafe m) :=
  inferInstanceAs (Decidable (∀ e1 ∈ m.entries, ∀ e2 ∈ m.entries,
    safePair e1.1.data e2.1.data = true))

/-- The order of two entries by their keys. -/
def keyLE (a b : Entry) : Prop := goStringLE a.1 b.1

instance keyLE_decidable : DecidableRel keyLE := fun a b =>
  inferInstanceAs (Decidable (goStringLE a.1 b.1))

/-- One derivation of a chain on the test double: `WithPrefix(segment)` or
`WithFile(filename)`. -/
inductive MockStep where
  | withPrefix (segment : String)
  | withFile (filename : String)
deriving DecidableEq

/-- Apply one derivation to the test double at `m`. -/
def mockStep (s : State) (m : MockPtr) : MockStep → State × MockPtr
  | .withPrefix segment => MockLogger.WithPrefix s m segment
  | .withFile filename => MockLogger.WithFile s m filename

/-- Apply the derivations of a list one after the other, each to the result of the one
before; the result is the last logger derived. -/
def mockChain (s : State) (m : MockPtr) : List MockStep → State × MockPtr
  | [] => (s, m)
  | d :: ds => mockChain (mockStep s m d).1 (mockStep s m d).2 ds

/-- The segments given to `WithPrefix` along a chain, in the order of the calls. -/
def chainSegments : List MockStep → List String
  | [] => []
  | .withPrefix segment :: ds => segment :: chainSegments ds
  | .withFile _ :: ds => chainSegments ds

/-- The node at `m` ends a chain of `d` nodes, none of which has fields, that leads to the
root `r`, the non-empty prefixes along it being `pre`, from the root down: the walks of
`getRootLogger` and `collectChainData` from `m` say so, for every bound of at least `d`. -/
def ChainInv (env : Env) (mocks : List MockLogger) (r m : Nat) (pre : List String)
    (d : Nat) : Prop :=
  m < mocks.length ∧ d ≤ mocks.length ∧
  (∀ fuel, d ≤ fuel → getRootLoggerFuel mocks fuel m = some r) ∧
  (∀ fuel n accP accF, d ≤ fuel →
    collectChainDataFuel env mocks fuel n (some m) accP accF = some (pre ++ accP, accF, n + d))

/-- The function `strings.Split(p, ".")` on the characters of `p`: the pieces between the
dots; the empty string gives one empty piece. -/
def splitDot : List Char → List (List Char)
  | [] => [[]]
  | c :: cs =>
    if c = '.' then [] :: splitDot cs
    else
      match splitDot cs with
      | [] => [[c]]
      | seg :: rest => (c :: seg) :: rest

/-- No piece of `p` between two dots, before the first or after the last, is empty (so `p`
itself is not empty). -/
def NoEmptySegment (p : String) : Prop := ∀ seg ∈ splitDot p.data, seg ≠ []

instance NoEmptySegment_decidable (p : String) : Decidable (NoEmptySegment p) :=
  inferInstanceAs (Decidable (∀ seg ∈ splitDot p.data, seg ≠ []))

/-- The invariant of the prefix: empty, or without an empty segment. -/
def PrefixSegmentsOK (p : String) : Prop := p = "" ∨ NoEmptySegment p

instance PrefixSegmentsOK_decidable (p : String) : Decidable (PrefixSegmentsOK p) :=
  inferInstanceAs (Decidable (p = "" ∨ NoEmptySegment p))

/-- One derivation of the production logger: one of the five that go through `clone`, or
`WithFile(filename)`. -/
inductive LoggerStep where
  | via (d : Derivation)
  | withFile (filename : String)

/-- Apply one derivation to the logger at `p`. -/
def loggerStep (env : Env) (s : State) (p : Ptr) : LoggerStep → State × Ptr
  | .via d => derive env s p d
  | .withFile filename => Logger.WithFile env s p filename

/-- Apply the derivations of a list one after the other, each to the result of the one
before; the result is the last logger derived. -/
def loggerChain (env : Env) (s : State) (p : Ptr) : List LoggerStep → State × Ptr
  | [] => (s, p)
  | d :: ds => loggerChain env (loggerStep env s p d).1 (loggerStep env s p d).2 ds

/-- The arguments of the `WithPrefix` calls of a chain, in the order of the calls. -/
def prefixArgs : List LoggerStep → List String
  | [] => []
  | .via (.withPrefix segment) :: ds => segment :: prefixArgs ds
  | _ :: ds => prefixArgs ds

/-- The prefix after `WithPrefix(segment)` on a logger whose prefix is `pfx`. -/
def extendPrefix (pfx segment : String) : String :=
  if pfx ≠ "" then pfx ++ "." ++ segment else segment

/-- A public operation on a production logger, with its arguments. -/
inductive PublicOp where
  | debug (args : List Value)
  | debugf (format : String) (args : List Value)
  | info (args : List Value)
  | infof (format : String) (args : List Value)
  | warning (args : List Value)
  | warningf (format : String) (args : List Value)
  | error (args : List Value)
  | errorf (format : String) (args : List Value)
  | fatal (args : List Value)
  | fatalf (format : String) (args : List Value)
  | setLevel (level : String)
  | derive (d : LoggerStep)
  | close
  | sync
  | getMessages

/-- The state after a public operation on the logger at `q`; what the operation returns is
dropped. `Sync` and `GetMessages` only return a value. -/
def applyOp (env : Env) (s : State) (q : Ptr) : PublicOp → State
  | .debug args => Logger.Debug env s q args
  | .debugf format args => Logger.Debugf env s q format args
  | .info args => Logger.Info env s q args
  | .infof format args => Logger.Infof env s q format args
  | .warning args => Logger.Warning env s q args
  | .warningf format args => Logger.Warningf env s q format args
  | .error args => Logger.Error env s q args
  | .errorf format args => Logger.Errorf env s q format args
  | .fatal args => Logger.Fatal env s q args
  | .fatalf format args => Logger.Fatalf env s q format args
  | .setLevel level => (Logger.SetLevel env s q level).1
  | .derive d => (loggerStep env s q d).1
  | .close => (Logger.Close s q).1
  | .sync => s
  | .getMessages => s

/-- One step of a program that uses the package: a call of `New()`, or a public operation
on the logger at some address. -/
inductive Action where
  | new
  | op (q : Ptr) (o : PublicOp)

/-- The state after one step of a program. -/
def runAction (env : Env) (s : State) : Action → State
  | .new => (New env s).1
  | .op q o => applyOp env s q o

/-- The state after the steps of a program, in order. -/
def runActions (env : Env) (s : State) (acts : List Action) : State :=
  acts.foldl (runAction env) s

/-- The history of the logger at address `i` of a heap (empty when there is none). -/
def historyAt (xs : List Logger) (i : Nat) : List String :=
  match xs[i]? with
  | none => []
  | some l => l.messages

/-- The level is one of the five severities. -/
def LevelInRange (L : Level) : Prop := DebugLevel ≤ L ∧ L ≤ FatalLevel

instance LevelInRange_decidable (L : Level) : Decidable (LevelInRange L) :=
  inferInstanceAs (Decidable (DebugLevel ≤ L ∧ L ≤ FatalLevel))

/-- The logger has no error file and its level is one of the five severities. -/
def GoodLogger (l : Logger) : Prop := l.errorFile = none ∧ LevelInRange l.level

/-- From the heap `xs` to the heap `ys` no history loses a line, and if every logger of
`xs` is good then so is every logger of `ys`. -/
def SafeStep (xs ys : List Logger) : Prop :=
  (∀ i, historyAt xs i <+: historyAt ys i) ∧
  ((∀ l ∈ xs, GoodLogger l) → ∀ l ∈ ys, GoodLogger l)

/-- The level at which a logging method records its message; `none` for the operations
that are not logging methods. -/
def PublicOp.level? : PublicOp → Option Level
  | .debug _ => some DebugLevel
  | .debugf _ _ => some DebugLevel
  | .info _ => some InfoLevel
  | .infof _ _ => some InfoLevel
  | .warning _ => some WarningLevel
  | .warningf _ _ => some WarningLevel
  | .error _ => some ErrorLevel
  | .errorf _ _ => some ErrorLevel
  | .fatal _ => some FatalLevel
  | .fatalf _ _ => some FatalLevel
  | _ => none

/-- The message that a logging method builds from its arguments: `fmt.Sprint(args...)`, or
`fmt.Sprintf(format, args...)` for the formatted variants. -/
def PublicOp.message (env : Env) : PublicOp → String
  | .debug args => Sprint args
  | .debugf format args => env.sprintf format args
  | .info args => Sprint args
  | .infof format args => env.sprintf format args
  | .warning args => Sprint args
  | .warningf format args => env.sprintf format args
  | .error args => Sprint args
  | .errorf format args => env.sprintf format args
  | .fatal args => Sprint args
  | .fatalf format args => env.sprintf format args
  | _ => ""

/-- The chain of derivations `WithPrefix(p1)`, ..., `WithPrefix(pn)` on the production
logger. -/
def prefixSteps (segs : List String) : List LoggerStep :=
  segs.map fun seg => .via (.withPrefix seg)

/-- The chain of derivations `WithPrefix(p1)`, ..., `WithPrefix(pn)` on the test double. -/
def mockPrefixSteps (segs : List String) : List MockStep :=
  segs.map fun seg => .withPrefix seg

/-- The logger at `p` has the file at `f` as its primary sink and lets INFO pass. -/
def SharesFile (s : State) (f : FilePtr) (p : Ptr) : Prop :=
  (s.loggers[p]?).map (fun l => decide (l.file = some f ∧ l.level ≤ InfoLevel)) = some true

instance SharesFile_decidable (s : State) (f : FilePtr) (p : Ptr) :
    Decidable (SharesFile s f p) :=
  inferInstanceAs (Decidable ((s.loggers[p]?).map
    (fun l => decide (l.file = some f ∧ l.level ≤ InfoLevel)) = some true))

/-- The node at `r` lies on the parent chain of the node at `n`: it is `n` itself, or it
lies on the parent chain of the parent of `n`. Both are nodes of the heap `mocks`. -/
inductive ParentChain (mocks : List MockLogger) : MockPtr → MockPtr → Prop where
  | here (n : MockPtr) (node : MockLogger) (hn : mocks[n]? = some node) :
      ParentChain mocks n n
  | up (n q r : MockPtr) (node : MockLogger) (hn : mocks[n]? = some node)
      (hq : node.parent = some q) (rest : ParentChain mocks q r) : ParentChain mocks n r

/-- The heap `s` with the level field of the test double at `n` replaced by `v`. -/
def State.withMockLevel (s : State) (n : MockPtr) (v : Level) : State :=
  s.modifyMock n (fun node => { node with level := v })

/-- The goroutine holds the mutex `l.mu`: it is between `l.mu.Lock()` and the deferred
`l.mu.Unlock()`. -/
def Pc.inside : Pc → Bool
  | .start => false
  | .lockMu => false
  | .done => false
  | _ => true

/-- The goroutine has assigned to `l.messages`. -/
def Pc.wroteHistory : Pc → Bool
  | .start => false
  | .lockMu => false
  | .lockMessages => false
  | .readMessages => false
  | .writeMessages => false
  | _ => true

/-- The goroutine is past its write to the file. -/
def Pc.wroteFile : Pc → Bool
  | .unlockFile => true
  | .unlockMu => true
  | .done => true
  | _ => false

/-- The mutexes that a goroutine called on the logger at `p`, whose field `mu` is the mutex
`m`, holds when its next statement is the given one. -/
def heldAt (m : Nat) (p : Ptr) : Pc → List Lock
  | .lockMessages => [.mu m]
  | .readMessages => [.messagesMu p, .mu m]
  | .writeMessages => [.messagesMu p, .mu m]
  | .unlockMessages => [.messagesMu p, .mu m]
  | .stdout => [.mu m]
  | .lockFile => [.mu m]
  | .writeFile => [.fileMu p, .mu m]
  | .unlockFile => [.fileMu p, .mu m]
  | .unlockMu => [.mu m]
  | _ => []

/-- All calls have returned. -/
def Run.allDone (r : Run) : Prop := ∀ g ∈ r.goroutines, g.pc = .done

instance Run.allDone_decidable (r : Run) : Decidable r.allDone :=
  inferInstanceAs (Decidable (∀ g ∈ r.goroutines, g.pc = .done))

/-- The number of statements that a goroutine has still to run. -/
def Pc.remaining : Pc → Nat
  | .start => 11
  | .lockMu => 10
  | .lockMessages => 9
  | .readMessages => 8
  | .writeMessages => 7
  | .unlockMessages => 6
  | .stdout => 5
  | .lockFile => 4
  | .writeFile => 3
  | .unlockFile => 2
  | .unlockMu => 1
  | .done => 0

/-- The number of statements that the goroutines of a run have still to run. -/
def Run.remaining (r : Run) : Nat :=
  (r.goroutines.map (fun g => g.pc.remaining)).sum

/-- What the statements of `log` leave as it is, in a run that started in the state `s0`
with the calls `calls`, on loggers whose mutex is `m` and whose primary sink is the file at
`f`: goroutine `j` runs call `j`; the logger it was called on has the mutex `m`, the file
`f`, a level that lets INFO pass, and the prefix, the fields and the layout it had at the
start; and once the goroutine is past its first statement, its line is the one that `log`
formats for its message on that logger. -/
def FrameOK (env : Env) (mu : Ptr → Nat) (m : Nat) (s0 : State) (f : FilePtr)
    (calls : List (Ptr × String × List Value)) (r : Run) : Prop :=
  r.goroutines.length = calls.length ∧
  ∀ (j : Nat) (g : Goroutine), r.goroutines[j]? = some g →
    mu g.target = m ∧
    calls[j]? = some (g.target, g.format, g.args) ∧
    ∃ l l0, r.state.loggers[g.target]? = some l ∧ s0.loggers[g.target]? = some l0 ∧
      l.file = some f ∧ l.level ≤ InfoLevel ∧
      l.pfx = l0.pfx ∧ l.fields = l0.fields ∧ l.timeFormat = l0.timeFormat ∧
      (g.pc ≠ .start →
        ∃ n, g.formattedMsg = Logger.lineOf env n l0 InfoLevel (env.sprintf g.format g.args))

/-- Mutual exclusion: `h` is the goroutine that holds the mutex `m`, if any. No other
goroutine is between `l.mu.Lock()` and `l.mu.Unlock()`, and the mutexes that are locked
are those that this goroutine holds. -/
def LockOK (m : Nat) (r : Run) (h : Option Nat) : Prop :=
  (∀ (j : Nat) (g : Goroutine), r.goroutines[j]? = some g → g.pc.inside = true → h = some j) ∧
  (∀ j, h = some j →
    ∃ g, r.goroutines[j]? = some g ∧ g.pc.inside = true ∧ r.held = heldAt m g.target g.pc) ∧
  (h = none → r.held = [])

/-- One list of the log of a run is exact for the goroutines `gs`: a goroutine is in the
list when its next statement satisfies `past`, once at most, with the logger it was called
on and its line. -/
def LogPart (gs : List Goroutine) (log : List (Nat × Ptr × String)) (past : Pc → Bool) : Prop :=
  (∀ (j : Nat) (g : Goroutine), gs[j]? = some g →
    (past g.pc = true ↔ j ∈ log.map (fun w => w.1))) ∧
  (log.map (fun w => w.1)).Nodup ∧
  (∀ w ∈ log, ∃ g, gs[w.1]? = some g ∧ g.target = w.2.1 ∧ g.formattedMsg = w.2.2)

/-- The log of the run is exact: a goroutine is in `recorded` when it has assigned to
`l.messages` and in `written` when it is past a write that the file accepted. -/
def LogOK (r : Run) : Prop :=
  LogPart r.goroutines r.recorded Pc.wroteHistory ∧ LogPart r.goroutines r.written Pc.wroteFile

/-- The content of the file and of the histories along a run that started in the state
`s0`, where the file at `f` was `file0`: the file has received one record, a line and a
newline, for each entry of `written`; every history has received the lines that
`recorded` lists for its logger; and a goroutine about to assign to `l.messages` has read
the history as it is now. -/
def DataOK (s0 : State) (f : FilePtr) (file0 : File) (r : Run) : Prop :=
  r.state.files[f]? =
    some { file0 with
      written := file0.written ++ r.written.map (fun w => w.2.2 ++ "\n") } ∧
  (∀ q, Logger.GetMessages r.state q =
    Logger.GetMessages s0 q ++
      (r.recorded.filter (fun w => w.2.1 = q)).map (fun w => w.2.2)) ∧
  (∀ (j : Nat) (g : Goroutine), r.goroutines[j]? = some g → g.pc = .writeMessages →
    g.messages = Logger.GetMessages r.state g.target)

/-- What holds all along a concurrent run. -/
def RunInv (env : Env) (mu : Ptr → Nat) (m : Nat) (s0 : State) (f : FilePtr) (file0 : File)
    (calls : List (Ptr × String × List Value)) (r : Run) : Prop :=
  FrameOK env mu m s0 f calls r ∧ (∃ h, LockOK m r h) ∧ LogOK r ∧ DataOK s0 f file0 r

/-! ## Sample inputs -/

/-- A sample environment: a clock stopped at one instant, maps iterated in the order of
their representation, identity outside ASCII. -/
def sampleEnv : Env where
  now := fun _ layout => if layout = "2006-01-02 15:04:05" then "2024-05-06 07:08:09" else layout
  rangeOrder := fun _ m => m.entries
  range_perm := fun _ _ => List.Perm.refl _
  rangeOrderStr := fun _ m => m.entries
  rangeStr_perm := fun _ _ => List.Perm.refl _
  sprintf := fun format _ => format
  unicodeLower := id
  filepathDir := fun path => path
  filepathClean := fun path => path
  mkdirAll := fun _ _ => none
  openFile := fun _ path => .ok
    { name := path, written := [], closed := false, writeErr := none, syncErr := none,
      closeErr := none }

/-- A sample node: prefix `api`, one field, minimum level WARNING, no file. -/
def sampleLogger : Logger :=
  { file := none, errorFile := none,
    fields := AList.insert "id" (Value.ofInt 7) ∅,
    pfx := "api", timeFormat := "", messages := ["earlier"], level := WarningLevel }

/-- The empty machine, before anything is allocated. -/
def emptyState : State :=
  { loggers := [], files := [], stdout := [], exitCodes := [], steps := 0 }

/-- The state after one call of `New` on the empty machine; the new logger is at address 0. -/
def rootState : State := (New sampleEnv emptyState).1

/-- The logger that `New` builds: no prefix, no fields, level DEBUG, no file. -/
def rootLogger : Logger :=
  { pfx := "", fields := ∅, level := DebugLevel, file := none, errorFile := none,
    timeFormat := "", messages := [] }

/-- A logger with both sinks open, on files whose sync and close both fail. -/
def closeState : State :=
  { loggers := [{ rootLogger with file := some 0, errorFile := some 1 }],
    files := [{ name := "main.log", written := [], closed := false, writeErr := none,
                syncErr := some "sync main", closeErr := some "close main" },
              { name := "error.log", written := [], closed := false, writeErr := none,
                syncErr := some "sync error", closeErr := some "close error" }],
    stdout := [], exitCodes := [], steps := 0 }

/-- A sample state whose only logger is `sampleLogger`. -/
def sampleState : State :=
  { loggers := [sampleLogger], files := [], stdout := [], exitCodes := [], steps := 0 }

/-- An environment in which no directory can be created. -/
def failingEnv : Env :=
  { sampleEnv with mkdirAll := fun _ _ => some "permission denied" }

/-- A logger of level DEBUG whose primary sink is the open file at address 0. -/
def fileState : State :=
  { loggers := [{ rootLogger with file := some 0 }],
    files := [{ name := "main.log", written := ["old\n"], closed := false, writeErr := none,
                syncErr := none, closeErr := none }],
    stdout := [], exitCodes := [], steps := 0 }

/-- The override of the first case of the override test. -/
def overrideConfig : Config :=
  { Level := "debug",
    Files := some (AList.insert "main" "logs/main.log" (AList.insert "error" "logs/error.log" ∅)) }

/-- A root of level ERROR at address 0 and its child with prefix `db`, of level DEBUG, at
address 1: `NewMockLogger()`, then `WithPrefix("db")`, then `SetLevel("error")` on the
root. -/
def mockState : State :=
  (MockLogger.SetLevel sampleEnv
    (MockLogger.WithPrefix (NewMockLogger emptyState).1 0 "db").1 0 "error").1

/-- The state after `NewMockLogger().WithFields(f1).WithFields(f2)` on the empty machine;
the root is at address 0 and the last logger at address 2. -/
def overrideMocks (f1 f2 : Fields) : State :=
  (MockLogger.WithFields (MockLogger.WithFields (NewMockLogger emptyState).1 0 f1).1 1 f2).1

/-- The state after `NewMockLogger().WithFields(f)` on the empty machine; the root is at
address 0 and the logger with the fields at address 1. -/
def fieldMocks (f : Fields) : State :=
  (MockLogger.WithFields (NewMockLogger emptyState).1 0 f).1

/-- The state in which a fresh `NewMockLogger()` is the global logger. -/
def globalMockState : State :=
  SetGlobalLogger (NewMockLogger emptyState).1 (some (.mock (NewMockLogger emptyState).2))

/-- The state after `New().WithTimeFormat("15:04")` and one `Info("old")` on the result, on
the empty machine: the logger with the layout is at address 1 and has one line of history. -/
def layoutState : State :=
  Logger.Info sampleEnv
    (Logger.WithTimeFormat sampleEnv (New sampleEnv emptyState).1 0 "15:04").1 1
    [Value.ofString "old"]

/-- The state after `WithPrefix("db")` on the logger of `fileState` and then `Close` on that
logger: the child at address 1 still points to the file at address 0, which is closed. -/
def sharedClosedState : State :=
  (Logger.Close (Logger.WithPrefix sampleEnv fileState 0 "db").1 0).1

/-- A sample program: `New()`, `WithFile("x.log")` on it, then `SetLevel("error")` on the
result, which is at address 1. -/
def sampleProgram : List Action :=
  [.new, .op 0 (.derive (.withFile "x.log")), .op 1 (.setLevel "error")]

/-- The logger of `fileState` and the child derived from it by `WithPrefix("db")`, which
shares its file. -/
def sharedState : State := (Logger.WithPrefix sampleEnv fileState 0 "db").1

/-- Two chains of test doubles: a root of level DEBUG at address 0; a second root at address
1, of level ERROR, and its child with prefix `db`, of level DEBUG, at address 2:
`NewMockLogger()`, `NewMockLogger()`, then `WithPrefix("db")` and `SetLevel("error")` on the
second root. -/
def forestMocks : State :=
  (MockLogger.SetLevel sampleEnv
    (MockLogger.WithPrefix (NewMockLogger (NewMockLogger emptyState).1).1 1 "db").1 1 "error").1

/-- An environment in which every file opens, and then refuses to be flushed and reports
an error when it is closed. -/
def faultyEnv : Env :=
  { sampleEnv with
    openFile := fun _ path => .ok
      { name := path, written := [], closed := false, writeErr := none,
        syncErr := some ("sync " ++ path ++ ": input/output error"),
        closeErr := some ("close " ++ path ++ ": input/output error") } }

/-- Two calls of `Infof`: one on the logger of `sharedState` at address 0 and one on its
child at address 1. -/
def sampleCalls : List (Ptr × String × List Value) :=
  [(0, "a", []), (1, "b", [])]

/-- A schedule for two goroutines: goroutine 1 formats its line, then goroutine 0 formats
its line and takes the mutex; goroutine 1 finds the mutex locked; goroutine 0 runs to the
end, then goroutine 1. -/
def sampleSchedule : List Nat :=
  [1, 0, 0, 1] ++ List.replicate 9 0 ++ List.replicate 10 1

/-! # Theorems -/

/-! ## Facts about the heap operations -/

@[simp] theorem fileWrite_loggers (s : State) (f : FilePtr) (d : String) :
    (s.fileWrite f d).1.loggers = s.loggers := by
  unfold State.fileWrite
  split
  · rfl
  · split
    · rfl
    · split <;> rfl

@[simp] theorem fileWrite_stdout (s : State) (f : FilePtr) (d : String) :
    (s.fileWrite f d).1.stdout = s.stdout := by
  unfold State.fileWrite
  split
  · rfl
  · split
    · rfl
    · split <;> rfl

@[simp] theorem fileWrite_exitCodes (s : State) (f : FilePtr) (d : String) :
    (s.fileWrite f d).1.exitCodes = s.exitCodes := by
  unfold State.fileWrite
  split
  · rfl
  · split
    · rfl
    · split <;> rfl

@[simp] theorem fileWrite_steps (s : State) (f : FilePtr) (d : String) :
    (s.fileWrite f d).1.steps = s.steps := by
  unfold State.fileWrite
  split
  · rfl
  · split
    · rfl
    · split <;> rfl

@[simp] theorem fileClose_loggers (s : State) (f : FilePtr) :
    (s.fileClose f).1.loggers = s.loggers := by
  unfold State.fileClose
  split
  · rfl
  · split <;> rfl

@[simp] theorem fileClose_stdout (s : State) (f : FilePtr) :
    (s.fileClose f).1.stdout = s.stdout := by
  unfold State.fileClose
  split
  · rfl
  · split <;> rfl

@[simp] theorem fileClose_exitCodes (s : State) (f : FilePtr) :
    (s.fileClose f).1.exitCodes = s.exitCodes := by
  unfold State.fileClose
  split
  · rfl
  · split <;> rfl

@[simp] theorem fileClose_steps (s : State) (f : FilePtr) :
    (s.fileClose f).1.steps = s.steps := by
  unfold State.fileClose
  split
  · rfl
  · split <;> rfl

theorem lt_length_of_getElem? {α : Type} {xs : List α} {i : Nat} {a : α}
    (h : xs[i]? = some a) : i < xs.length := by
  by_contra hlt
  rw [List.getElem?_eq_none (Nat.le_of_not_lt hlt)] at h
  cases h

/-- The heap of loggers after `Logger.log`. -/
theorem log_loggers (env : Env) (s : State) (p : Ptr) (l : Logger) (level : Level)
    (msg : String) (hp : s.loggers[p]? = some l) :
    (Logger.log env s p level msg).loggers =
      if level < l.level then s.loggers
      else s.loggers.set p
        { l with messages := l.messages ++ [Logger.lineOf env s.steps l level msg] } := by
  unfold Logger.log
  rw [hp]
  simp only [Logger.lineOf, Logger.handleWriteError]
  split
  · rfl
  · have hw : ∀ (t : State) (f : FilePtr) (d : String),
        (match t.fileWrite f d with
          | (t1, some _) => t1
          | (t1, none) => t1) = (t.fileWrite f d).1 := by
      intro t f d
      split <;> simp_all
    have hs : ∀ (t : State) (f : FilePtr),
        (match t.fileSync f with
          | some _ => t
          | none => t) = t := by
      intro t f
      split <;> rfl
    simp only [hw, hs]
    split <;> split <;> (try split) <;> simp [State.setLogger, State.tick]

/-- The history of the receiver after `Logger.log`. -/
theorem log_messages (env : Env) (s : State) (p : Ptr) (l : Logger) (level : Level)
    (msg : String) (hp : s.loggers[p]? = some l) :
    Logger.GetMessages (Logger.log env s p level msg) p =
      if level < l.level then l.messages
      else l.messages ++ [Logger.lineOf env s.steps l level msg] := by
  unfold Logger.GetMessages
  rw [log_loggers env s p l level msg hp]
  by_cases h : level < l.level
  · rw [if_pos h, if_pos h, hp]
  · rw [if_neg h, if_neg h, List.getElem?_set_self (lt_length_of_getElem? hp)]

/-- A message below the minimum level changes nothing at all. -/
theorem log_filtered (env : Env) (s : State) (p : Ptr) (l : Logger) (level : Level)
    (msg : String) (hp : s.loggers[p]? = some l) (h : level < l.level) :
    Logger.log env s p level msg = s := by
  unfold Logger.log
  rw [hp]
  simp [h]

theorem set_append_length {α : Type} (xs : List α) (c d : α) :
    (xs ++ [c]).set xs.length d = xs ++ [d] := by
  induction xs with
  | nil => rfl
  | cons x xs ih => simp [List.set, ih]

/-- What `clone` returns: a fresh object at the end of the heap. -/
theorem clone_eq (env : Env) (s : State) (p : Ptr) (l : Logger) (hp : s.loggers[p]? = some l) :
    Logger.clone env s p =
      ({ s with steps := s.steps + 1,
                loggers := s.loggers ++ [{ l with fields := copyFields env s.steps l.fields }] },
       s.loggers.length) := by
  simp [Logger.clone, hp, State.tick, State.allocLogger]

/-- What `WithPrefix` returns. -/
theorem WithPrefix_eq (env : Env) (s : State) (p : Ptr) (l : Logger) (seg : String)
    (hp : s.loggers[p]? = some l) :
    Logger.WithPrefix env s p seg =
      ({ s with steps := s.steps + 1,
                loggers := s.loggers ++
                  [{ l with fields := copyFields env s.steps l.fields,
                            pfx := if l.pfx ≠ "" then l.pfx ++ "." ++ seg else seg }] },
       s.loggers.length) := by
  unfold Logger.WithPrefix
  rw [hp, clone_eq env s p l hp]
  by_cases h : l.pfx = "" <;>
    simp [h, State.modifyLogger, State.setLogger, set_append_length]

/-! ## Field maps -/

theorem lookup_foldl_insert (xs : List Entry) (h : xs.NodupKeys) (d : Fields) (k : String) :
    (xs.foldl (fun d e => d.insert e.1 e.2) d).lookup k = (xs.dlookup k).or (d.lookup k) := by
  induction xs generalizing d with
  | nil => simp
  | cons e xs ih =>
    rw [List.nodupKeys_cons] at h
    rw [List.foldl_cons, ih h.2]
    by_cases hk : k = e.1
    · subst hk
      have hnone : List.dlookup e.1 xs = none := List.dlookup_eq_none.mpr h.1
      have hhead : List.dlookup e.1 (e :: xs) = some e.2 := by
        cases e
        exact List.dlookup_cons_eq _ _ _
      rw [hnone, hhead]
      simp
    · rw [List.dlookup_cons_ne _ _ hk, AList.lookup_insert_ne hk]

/-- After `for k, v := range src { dst[k] = v }` a key has the value of `src` when `src` has
it and keeps the value of `dst` otherwise, whatever the iteration order. -/
theorem rangeInsert_lookup (env : Env) (n : Nat) (src dst : Fields) (k : String) :
    (rangeInsert env n src dst).lookup k = (src.lookup k).or (dst.lookup k) := by
  have hperm := env.range_perm n src
  have hnd : (env.rangeOrder n src).NodupKeys := (List.perm_nodupKeys hperm).mpr src.nodupKeys
  unfold rangeInsert
  rw [lookup_foldl_insert _ hnd, List.perm_dlookup k hnd src.nodupKeys hperm]
  rfl

/-- The copy made by `copyFields` has the same entries as its source. -/
theorem copyFields_lookup (env : Env) (n : Nat) (src : Fields) (k : String) :
    (copyFields env n src).lookup k = src.lookup k := by
  unfold copyFields
  rw [rangeInsert_lookup]
  simp [AList.lookup_empty]

theorem rangeInsert_of_empty (env : Env) (n : Nat) (src dst : Fields)
    (h : src.entries = []) : rangeInsert env n src dst = dst := by
  have hperm := env.range_perm n src
  rw [h, List.perm_nil] at hperm
  simp [rangeInsert, hperm]

/-! ## Level filtering and line format -/

theorem log_emitsOrSkips (env : Env) (s : State) (p : Ptr) (l : Logger) (L : Level)
    (msg : String) (hp : s.loggers[p]? = some l) :
    EmitsOrSkips s p l.level L (Logger.log env s p L msg) := by
  refine ⟨fun h => ⟨Logger.lineOf env s.steps l L msg, ?_⟩, fun h => log_filtered env s p l L msg hp h⟩
  rw [log_messages env s p l L msg hp, if_neg (not_lt.mpr h)]
  simp [Logger.GetMessages, hp]

/-- C1: level filtering in the production Logger. For a logger with minimum level `m`,
`log` at any level `L` (so at each of the five severities) and the public methods
Debug, Info, Warning and Error append exactly one line to the history of that logger when
the level of the message is at least `m`, and leave the whole state (history, files,
standard output) unchanged when it is below `m`. -/
theorem C1_level_filtering (env : Env) (s : State) (p : Ptr) (l : Logger)
    (hp : s.loggers[p]? = some l) (L : Level) (msg : String) (args : List Value) :
    EmitsOrSkips s p l.level L (Logger.log env s p L msg) ∧
    EmitsOrSkips s p l.level DebugLevel (Logger.Debug env s p args) ∧
    EmitsOrSkips s p l.level InfoLevel (Logger.Info env s p args) ∧
    EmitsOrSkips s p l.level WarningLevel (Logger.Warning env s p args) ∧
    EmitsOrSkips s p l.level ErrorLevel (Logger.Error env s p args) :=
  ⟨log_emitsOrSkips env s p l L msg hp,
   log_emitsOrSkips env s p l _ _ hp, log_emitsOrSkips env s p l _ _ hp,
   log_emitsOrSkips env s p l _ _ hp, log_emitsOrSkips env s p l _ _ hp⟩

/-- C1 at a sample logger of minimum level WARNING: an ERROR message is recorded, the
Debug and Info methods change nothing. -/
theorem C1_level_filtering_witness :
    sampleState.loggers[0]? = some sampleLogger ∧
    (∃ line, Logger.GetMessages (Logger.log sampleEnv sampleState 0 ErrorLevel "boom") 0
        = ["earlier", line]) ∧
    Logger.Debug sampleEnv sampleState 0 [Value.ofString "x"] = sampleState ∧
    Logger.Info sampleEnv sampleState 0 [Value.ofString "x"] = sampleState :=
  have h := C1_level_filtering sampleEnv sampleState 0 sampleLogger rfl ErrorLevel "boom"
    [Value.ofString "x"]
  ⟨rfl, h.1.1 (by decide), h.2.1.2 (by decide), h.2.2.1.2 (by decide)⟩

theorem levelTag_of_mem (L : Level) (name : String) (h : (L, name) ∈ severityNames) :
    levelTag L = "[" ++ name ++ "]" := by
  simp only [severityNames, List.mem_cons, Prod.mk.injEq, List.mem_singleton,
    List.not_mem_nil, or_false] at h
  rcases h with ⟨rfl, rfl⟩ | ⟨rfl, rfl⟩ | ⟨rfl, rfl⟩ | ⟨rfl, rfl⟩ | ⟨rfl, rfl⟩ <;> decide

/-- The line recorded by `log`, spelled out. -/
theorem lineOf_eq (env : Env) (n : Nat) (l : Logger) (L : Level) (msg : String) :
    Logger.lineOf env n l L msg =
      env.now n (if l.timeFormat ≠ "" then l.timeFormat else "2006-01-02 15:04:05") ++ " " ++
        levelTag L ++ " " ++ (if l.pfx ≠ "" then "[" ++ l.pfx ++ "] " else "") ++ msg ++
        (if l.fields.entries ≠ [] then
          " [" ++ stringsJoin ((env.rangeOrder n l.fields).map fun e => e.1 ++ "=" ++ e.2.text) " "
            ++ "]"
         else "") := by
  unfold Logger.lineOf Logger.formatMessage
  by_cases hp : l.pfx = "" <;> by_cases hf : l.fields.entries = [] <;>
    simp [hp, hf, stringsJoin, String.append_assoc, List.length_pos]

/-- The recorded line, with the iteration order of the fields made explicit. -/
theorem log_line_format (env : Env) (s : State) (p : Ptr) (l : Logger)
    (hp : s.loggers[p]? = some l) (L : Level) (name : String)
    (hname : (L, name) ∈ severityNames) (hpass : l.level ≤ L) (msg : String) :
    ∃ order : List Entry, order.Perm l.fields.entries ∧
      Logger.GetMessages (Logger.log env s p L msg) p =
        Logger.GetMessages s p ++
          [env.now s.steps (if l.timeFormat ≠ "" then l.timeFormat else "2006-01-02 15:04:05")
            ++ " [" ++ name ++ "] "
            ++ (if l.pfx ≠ "" then "[" ++ l.pfx ++ "] " else "")
            ++ msg
            ++ (if l.fields.entries ≠ [] then
                  " [" ++ stringsJoin (order.map fun e => e.1 ++ "=" ++ e.2.text) " " ++ "]"
                else "")] := by
  refine ⟨env.rangeOrder s.steps l.fields, env.range_perm _ _, ?_⟩
  have hb : ∀ x : String, " " ++ ("[" ++ x) = " [" ++ x := fun x => by
    rw [← String.append_assoc]; rfl
  rw [log_messages env s p l L msg hp, if_neg (not_lt.mpr hpass), lineOf_eq,
    levelTag_of_mem L name hname]
  simp [Logger.GetMessages, hp, String.append_assoc, hb]

/-- C2: line format of the production Logger. For each of the five levels, whatever the
prefix, the field map, the message and the rendered timestamp `t`, the line that a
passing `log` call records is `t`, then the level name in brackets between single spaces,
then the prefix in brackets and a space when the prefix is non-empty, then the message,
then, when the field map is non-empty, a space and the bracketed list of `key=value`
renderings separated by single spaces, each entry of the map exactly once in some order. -/
theorem C2_line_format (env : Env) (s : State) (p : Ptr) (l : Logger)
    (hp : s.loggers[p]? = some l) (L : Level) (name : String)
    (hname : (L, name) ∈ severityNames) (hpass : l.level ≤ L) (msg : String) :
    ∃ order : List Entry, order.Perm l.fields.entries ∧
      Logger.GetMessages (Logger.log env s p L msg) p =
        Logger.GetMessages s p ++
          [env.now s.steps (if l.timeFormat ≠ "" then l.timeFormat else "2006-01-02 15:04:05")
            ++ " [" ++ name ++ "] "
            ++ (if l.pfx ≠ "" then "[" ++ l.pfx ++ "] " else "")
            ++ msg
            ++ (if l.fields.entries ≠ [] then
                  " [" ++ stringsJoin (order.map fun e => e.1 ++ "=" ++ e.2.text) " " ++ "]"
                else "")] :=
  log_line_format env s p l hp L name hname hpass msg

/-- C2 at the sample logger (prefix `api`, one field `id=7`): the ERROR line for `boom`. -/
theorem C2_line_format_witness :
    sampleState.loggers[0]? = some sampleLogger ∧
    (ErrorLevel, "ERROR") ∈ severityNames ∧ sampleLogger.level ≤ ErrorLevel ∧
    ∃ order : List Entry, order.Perm sampleLogger.fields.entries ∧
      Logger.GetMessages (Logger.log sampleEnv sampleState 0 ErrorLevel "boom") 0 =
        Logger.GetMessages sampleState 0 ++
          [sampleEnv.now sampleState.steps
              (if sampleLogger.timeFormat ≠ "" then sampleLogger.timeFormat
               else "2006-01-02 15:04:05")
            ++ " [" ++ "ERROR" ++ "] "
            ++ (if sampleLogger.pfx ≠ "" then "[" ++ sampleLogger.pfx ++ "] " else "")
            ++ "boom"
            ++ (if sampleLogger.fields.entries ≠ [] then
                  " [" ++ stringsJoin (order.map fun e => e.1 ++ "=" ++ e.2.text) " " ++ "]"
                else "")] :=
  ⟨rfl, by decide, by decide,
   C2_line_format sampleEnv sampleState 0 sampleLogger rfl ErrorLevel "ERROR" (by decide)
     (by decide) "boom"⟩

/-! ## Derivation by `WithPrefix` -/

theorem getElem?_append_length {α : Type} (xs : List α) (c : α) :
    (xs ++ [c])[xs.length]? = some c := by
  simp

theorem countOcc_skip (c0 : Char) (body pre xs : List Char) (h : c0 ∉ pre) :
    countOcc (c0 :: body) (pre ++ xs) = countOcc (c0 :: body) xs := by
  induction pre with
  | nil => rfl
  | cons c cs ih =>
    rw [List.mem_cons, not_or] at h
    have hnp : ¬ (c0 :: body <+: c :: (cs ++ xs)) := fun hp =>
      h.1 (List.cons_prefix_cons.mp hp).1
    rw [List.cons_append, countOcc, if_neg hnp, ih h.2, Nat.zero_add]

theorem not_prefix_of_gap (c0 d : Char) (body u v : List Char) (h0 : c0 ∉ body)
    (hd : d ∈ body) (hu : d ∉ u) : ¬ (c0 :: body <+: c0 :: (u ++ c0 :: v)) := by
  intro hp
  obtain ⟨w, hw⟩ := (List.cons_prefix_cons.mp hp).2
  rcases List.append_eq_append_iff.mp hw with ⟨a1, h1, _⟩ | ⟨c1, h1, h2⟩
  · exact hu (h1 ▸ List.mem_append_left _ hd)
  · cases c1 with
    | nil =>
      rw [List.append_nil] at h1
      exact hu (h1 ▸ hd)
    | cons x c2 =>
      have hx : c0 = x := by
        have := congrArg List.head? h2
        simpa using this
      exact h0 (by rw [h1, hx]; simp)

theorem countOcc_line (t name a b msg : List Char) (ht : '[' ∉ t)
    (hn1 : '[' ∉ name) (hn2 : '.' ∉ name) (ha : '[' ∉ a) (hb : '[' ∉ b)
    (hmsg : countOcc ('[' :: (a ++ '.' :: (b ++ [']']))) msg = 0) :
    countOcc ('[' :: (a ++ '.' :: (b ++ [']'])))
      (t ++ ' ' :: '[' :: (name ++ ']' :: ' ' :: '[' :: ((a ++ '.' :: (b ++ [']'])) ++ ' ' :: msg)))
      = 1 := by
  have hbody : '[' ∉ a ++ '.' :: (b ++ [']']) := by
    simp [ha, hb]
  have e1 : t ++ ' ' :: '[' :: (name ++ ']' :: ' ' :: '[' :: ((a ++ '.' :: (b ++ [']'])) ++ ' ' :: msg))
      = (t ++ [' ']) ++ '[' :: (name ++ ']' :: ' ' :: '[' :: ((a ++ '.' :: (b ++ [']'])) ++ ' ' :: msg)) := by
    simp
  rw [e1, countOcc_skip _ _ _ _ (by simp [ht])]
  have e2 : name ++ ']' :: ' ' :: '[' :: ((a ++ '.' :: (b ++ [']'])) ++ ' ' :: msg)
      = (name ++ [']', ' ']) ++ '[' :: ((a ++ '.' :: (b ++ [']'])) ++ ' ' :: msg) := by
    simp
  rw [countOcc, e2, if_neg (not_prefix_of_gap '[' '.' _ _ _ hbody (by simp) (by simp [hn2])),
    countOcc_skip _ _ _ _ (by simp [hn1]), countOcc,
    if_pos (List.cons_prefix_cons.mpr ⟨rfl, List.prefix_append _ _⟩)]
  have e3 : (a ++ '.' :: (b ++ [']'])) ++ ' ' :: msg = ((a ++ '.' :: (b ++ [']'])) ++ [' ']) ++ msg := by
    simp
  rw [e3, countOcc_skip _ _ _ _ (by simp [ha, hb]), hmsg]

theorem severityNames_chars (L : Level) (name : String) (h : (L, name) ∈ severityNames) :
    '[' ∉ name.data ∧ '.' ∉ name.data := by
  simp only [severityNames, List.mem_cons, Prod.mk.injEq, List.mem_singleton,
    List.not_mem_nil, or_false] at h
  rcases h with ⟨_, rfl⟩ | ⟨_, rfl⟩ | ⟨_, rfl⟩ | ⟨_, rfl⟩ | ⟨_, rfl⟩ <;> decide

theorem log_line_with_pfx (env : Env) (s : State) (q : Ptr) (c : Logger)
    (hq : s.loggers[q]? = some c) (hpfx : c.pfx ≠ "") (L : Level) (name msg : String)
    (hname : (L, name) ∈ severityNames) (hpass : c.level ≤ L) :
    ∃ fieldSeg, (c.fields.entries = [] → fieldSeg = "") ∧
      Logger.GetMessages (Logger.log env s q L msg) q =
        Logger.GetMessages s q ++
          [env.now s.steps (if c.timeFormat ≠ "" then c.timeFormat else "2006-01-02 15:04:05")
            ++ " [" ++ name ++ "] [" ++ c.pfx ++ "] " ++ msg ++ fieldSeg] := by
  obtain ⟨order, _, h⟩ := log_line_format env s q c hq L name hname hpass msg
  refine ⟨if c.fields.entries ≠ [] then
      " [" ++ stringsJoin (order.map fun e => e.1 ++ "=" ++ e.2.text) " " ++ "]" else "",
    fun h0 => by simp [h0], ?_⟩
  have hb : ∀ x : String, "] " ++ ("[" ++ x) = "] [" ++ x := fun x => by
    rw [← String.append_assoc]; rfl
  rw [h, if_pos hpfx]
  simp [String.append_assoc, hb]

theorem occurrences_line (t name a b msg : String) (ht : '[' ∉ t.data)
    (hn1 : '[' ∉ name.data) (hn2 : '.' ∉ name.data) (ha : '[' ∉ a.data) (hb : '[' ∉ b.data)
    (hmsg : occurrences ("[" ++ a ++ "." ++ b ++ "]") msg = 0) :
    occurrences ("[" ++ a ++ "." ++ b ++ "]")
      (t ++ " [" ++ name ++ "] [" ++ (a ++ "." ++ b) ++ "] " ++ msg ++ "") = 1 := by
  unfold occurrences at *
  simp only [String.data_append, String.append_empty] at *
  have := countOcc_line t.data name.data a.data b.data msg.data ht hn1 hn2 ha hb
    (by simpa using hmsg)
  simpa using this

theorem copyFields_of_empty (env : Env) (n : Nat) (src : Fields) (h : src.entries = []) :
    (copyFields env n src).entries = [] := by
  unfold copyFields
  rw [rangeInsert_of_empty env n src ∅ h]
  rfl

theorem WithPrefix_chain (env : Env) (s : State) (p : Ptr) (l : Logger) (a b : String)
    (hp : s.loggers[p]? = some l) (hl : l.pfx = "") (ha : a ≠ "") :
    ∃ s2 q2 c2,
      Logger.WithPrefix env (Logger.WithPrefix env s p a).1 (Logger.WithPrefix env s p a).2 b
        = (s2, q2) ∧
      s2.loggers[q2]? = some c2 ∧ c2.pfx = a ++ "." ++ b ∧ c2.timeFormat = l.timeFormat ∧
      c2.level = l.level ∧ c2.messages = l.messages ∧
      (l.fields.entries = [] → c2.fields.entries = []) := by
  have h1 : Logger.WithPrefix env s p a =
      ({ s with steps := s.steps + 1,
                loggers := s.loggers ++
                  [{ l with fields := copyFields env s.steps l.fields, pfx := a }] },
       s.loggers.length) := by
    rw [WithPrefix_eq env s p l a hp]; simp [hl]
  have h2 := WithPrefix_eq env
    { s with steps := s.steps + 1,
             loggers := s.loggers ++
               [{ l with fields := copyFields env s.steps l.fields, pfx := a }] }
    s.loggers.length { l with fields := copyFields env s.steps l.fields, pfx := a } b
    (getElem?_append_length _ _)
  simp only [ne_eq, ha, not_false_eq_true, if_true] at h2
  rw [h1]
  dsimp only
  rw [h2]
  refine ⟨_, _, _, rfl, getElem?_append_length _ _, rfl, rfl, rfl, rfl, ?_⟩
  intro hf
  exact copyFields_of_empty _ _ _ (copyFields_of_empty _ _ _ hf)

/-- C3 (amended): `WithPrefix(segment)` returns a derived logger, at a new address, whose
prefix is the prefix of the parent, a dot and the segment when the parent has a non-empty
prefix, and the segment alone otherwise; the parent is unchanged. On a parent with empty
prefix and for a non-empty `a`, `WithPrefix(a).WithPrefix(b)` has prefix `a.b`, and the line
it records for a message at one of the five levels is the timestamp, the level tag,
`[a.b]`, the message and the field segment. That line contains `[a.b]` exactly once as soon
as neither `a`, `b` nor the rendered timestamp contains an opening bracket, the logger has
no fields and the message does not contain `[a.b]`. -/
theorem C3_WithPrefix (env : Env) (s : State) (p : Ptr) (l : Logger)
    (hp : s.loggers[p]? = some l) (seg a b : String) :
    (∃ c, (Logger.WithPrefix env s p seg).1.loggers[(Logger.WithPrefix env s p seg).2]? = some c ∧
        c.pfx = (if l.pfx ≠ "" then l.pfx ++ "." ++ seg else seg)) ∧
    (Logger.WithPrefix env s p seg).2 ≠ p ∧
    (Logger.WithPrefix env s p seg).1.loggers[p]? = some l ∧
    (l.pfx = "" → a ≠ "" →
      let r1 := Logger.WithPrefix env s p a
      let r2 := Logger.WithPrefix env r1.1 r1.2 b
      let t := env.now r2.1.steps (if l.timeFormat ≠ "" then l.timeFormat else "2006-01-02 15:04:05")
      ∃ c, r2.1.loggers[r2.2]? = some c ∧ c.pfx = a ++ "." ++ b ∧
        ∀ (L : Level) (name msg : String), (L, name) ∈ severityNames → c.level ≤ L →
          ∃ fieldSeg line,
            Logger.GetMessages (Logger.log env r2.1 r2.2 L msg) r2.2 =
              Logger.GetMessages r2.1 r2.2 ++ [line] ∧
            line = t ++ " [" ++ name ++ "] [" ++ a ++ "." ++ b ++ "] " ++ msg ++ fieldSeg ∧
            ('[' ∉ a.data → '[' ∉ b.data → '[' ∉ t.data → l.fields.entries = [] →
              occurrences ("[" ++ a ++ "." ++ b ++ "]") msg = 0 →
              occurrences ("[" ++ a ++ "." ++ b ++ "]") line = 1)) := by
  have hlt := lt_length_of_getElem? hp
  refine ⟨?_, ?_, ?_, ?_⟩
  · rw [WithPrefix_eq env s p l seg hp]
    exact ⟨_, getElem?_append_length _ _, rfl⟩
  · rw [WithPrefix_eq env s p l seg hp]
    exact Nat.ne_of_gt hlt
  · rw [WithPrefix_eq env s p l seg hp]
    simp only
    rw [List.getElem?_append_left hlt, hp]
  · intro hl ha
    obtain ⟨s2, q2, c2, h2, hq2, hpfx, htf, _, _, hfe⟩ := WithPrefix_chain env s p l a b hp hl ha
    dsimp only
    rw [h2]
    dsimp only
    refine ⟨c2, hq2, hpfx, ?_⟩
    intro L name msg hname hpass
    have hne : c2.pfx ≠ "" := by
      rw [hpfx]
      intro h0
      have := congrArg String.length h0
      simp only [String.length_append] at this
      have h1 : (".".length : Nat) = 1 := rfl
      have h3 : ("".length : Nat) = 0 := rfl
      omega
    obtain ⟨fieldSeg, hseg, hline⟩ := log_line_with_pfx env s2 q2 c2 hq2 hne L name msg hname hpass
    rw [htf, hpfx] at hline
    refine ⟨fieldSeg, _, hline, by simp [String.append_assoc], ?_⟩
    intro hca hcb hct hf hm
    rw [hseg (hfe hf)]
    exact occurrences_line _ name a b msg hct (severityNames_chars L name hname).1
      (severityNames_chars L name hname).2 hca hcb hm

/-- C3 as stated fails on the code. From the logger of `New` (empty prefix),
`WithPrefix("").WithPrefix("x")` has prefix `x`, not `.x`; and on a logger with empty
prefix and a field whose value is `[a.b]`, the line that `WithPrefix("a").WithPrefix("b")`
records for the message `m`, which does not contain `[a.b]`, contains `[a.b]` twice. -/
theorem C3_counterexample :
    (rootState.loggers[0]?).map (fun c => c.pfx) = some "" ∧
    ((let r1 := Logger.WithPrefix sampleEnv rootState 0 ""
      let r2 := Logger.WithPrefix sampleEnv r1.1 r1.2 "x"
      (r2.1.loggers[r2.2]?).map (fun c => c.pfx)) = some "x" ∧ "x" ≠ "" ++ "." ++ "x") ∧
    (let r0 := Logger.WithFields sampleEnv rootState 0
        (AList.insert "k" (Value.ofString "[a.b]") ∅)
     let r1 := Logger.WithPrefix sampleEnv r0.1 r0.2 "a"
     let r2 := Logger.WithPrefix sampleEnv r1.1 r1.2 "b"
     (r0.1.loggers[r0.2]?).map (fun c => c.pfx) = some "" ∧
     occurrences "[a.b]" "m" = 0 ∧
     Logger.GetMessages (Logger.Info sampleEnv r2.1 r2.2 [Value.ofString "m"]) r2.2
       = ["2024-05-06 07:08:09 [INFO] [a.b] m [k=[a.b]]"] ∧
     occurrences "[a.b]" "2024-05-06 07:08:09 [INFO] [a.b] m [k=[a.b]]" = 2) := by
  decide

/-- C3 (amended) on the logger of `New`: the derived prefix, and the INFO line for `m`
recorded by `WithPrefix("a").WithPrefix("b")`, which contains `[a.b]` exactly once. -/
theorem C3_WithPrefix_witness :
    rootState.loggers[0]? = some rootLogger ∧ rootLogger.pfx = "" ∧ "a" ≠ "" ∧
    (let r1 := Logger.WithPrefix sampleEnv rootState 0 "a"
     let r2 := Logger.WithPrefix sampleEnv r1.1 r1.2 "b"
     ∃ line,
       Logger.GetMessages (Logger.log sampleEnv r2.1 r2.2 InfoLevel "m") r2.2
         = Logger.GetMessages r2.1 r2.2 ++ [line] ∧
       occurrences ("[" ++ "a" ++ "." ++ "b" ++ "]") line = 1) := by
  refine ⟨rfl, rfl, by decide, ?_⟩
  obtain ⟨c, hc, -, hall⟩ :=
    (C3_WithPrefix sampleEnv rootState 0 rootLogger rfl "api" "a" "b").2.2.2 rfl (by decide)
  have hlevel : c.level ≤ InfoLevel := by
    have hc2 : (Logger.WithPrefix sampleEnv
        (Logger.WithPrefix sampleEnv rootState 0 "a").1
        (Logger.WithPrefix sampleEnv rootState 0 "a").2 "b").1.loggers[2]?
        = some { rootLogger with pfx := "a.b" } := by decide
    have hc3 := hc.symm.trans hc2
    rw [Option.some.injEq] at hc3
    rw [hc3]
    decide
  obtain ⟨fieldSeg, line, h1, -, h3⟩ := hall InfoLevel "INFO" "m" (by decide) hlevel
  exact ⟨line, h1, h3 (by decide) (by decide) (by decide) rfl (by decide)⟩

/-! ## Derivation by `WithFields` -/

/-- What `WithFields` returns. -/
theorem WithFields_eq (env : Env) (s : State) (p : Ptr) (l : Logger) (f : Fields)
    (hp : s.loggers[p]? = some l) :
    Logger.WithFields env s p f =
      ({ s with steps := s.steps + 3,
                loggers := s.loggers ++ [{ l with fields := mergedFields env s.steps l.fields f }] },
       s.loggers.length) := by
  unfold Logger.WithFields
  rw [hp, clone_eq env s p l hp]
  simp [State.modifyLogger, State.setLogger, State.tick, set_append_length, mergedFields]

/-- The field map that `WithFields` builds: the argument wins on every key it has. -/
theorem mergedFields_lookup (env : Env) (n : Nat) (base f : Fields) (k : String) :
    (mergedFields env n base f).lookup k = (f.lookup k).or (base.lookup k) := by
  unfold mergedFields
  rw [rangeInsert_lookup, rangeInsert_lookup, copyFields_lookup]
  cases base.lookup k <;> simp

theorem WithFields_spec (env : Env) (s : State) (p : Ptr) (l : Logger) (f : Fields)
    (hp : s.loggers[p]? = some l) :
    ∃ s1 c, Logger.WithFields env s p f = (s1, s.loggers.length) ∧
      s1.loggers[s.loggers.length]? = some c ∧ s1.loggers[p]? = some l ∧
      (∀ key, c.fields.lookup key = (f.lookup key).or (l.fields.lookup key)) := by
  refine ⟨_, _, WithFields_eq env s p l f hp, getElem?_append_length _ _, ?_,
    fun key => mergedFields_lookup env s.steps l.fields f key⟩
  simp only
  rw [List.getElem?_append_left (lt_length_of_getElem? hp), hp]

/-- C4: `WithFields(f)` returns a derived logger, at a new address, whose field map is the
union of the field map of the parent and `f`: a key of `f` has the value of `f`, any other
key has the value it has in the parent. The parent, and so its field map, is unchanged.
Consequently, when `k` is a key of both `f1` and `f2`, the logger
`l.WithFields(f1).WithFields(f2)` maps `k` to the value of `f2`, and every line it records
has a field segment in which `k` is rendered once, with the value of `f2`. -/
theorem C4_WithFields (env : Env) (s : State) (p : Ptr) (l : Logger)
    (hp : s.loggers[p]? = some l) (f f1 f2 : Fields) (k : String) (v1 v2 : Value) :
    (∃ c, (Logger.WithFields env s p f).1.loggers[(Logger.WithFields env s p f).2]? = some c ∧
        ∀ key, c.fields.lookup key = (f.lookup key).or (l.fields.lookup key)) ∧
    (Logger.WithFields env s p f).2 ≠ p ∧
    (Logger.WithFields env s p f).1.loggers[p]? = some l ∧
    (f1.lookup k = some v1 → f2.lookup k = some v2 →
      let r1 := Logger.WithFields env s p f1
      let r2 := Logger.WithFields env r1.1 r1.2 f2
      ∃ c, r2.1.loggers[r2.2]? = some c ∧ c.fields.lookup k = some v2 ∧
        ∀ (L : Level) (name msg : String), (L, name) ∈ severityNames → c.level ≤ L →
          ∃ order : List Entry, order.Perm c.fields.entries ∧
            (⟨k, v2⟩ : Entry) ∈ order ∧ (∀ e ∈ order, e.1 = k → e.2 = v2) ∧
            Logger.GetMessages (Logger.log env r2.1 r2.2 L msg) r2.2 =
              Logger.GetMessages r2.1 r2.2 ++
                [env.now r2.1.steps
                    (if c.timeFormat ≠ "" then c.timeFormat else "2006-01-02 15:04:05")
                  ++ " [" ++ name ++ "] "
                  ++ (if c.pfx ≠ "" then "[" ++ c.pfx ++ "] " else "")
                  ++ msg
                  ++ " [" ++ stringsJoin (order.map fun e => e.1 ++ "=" ++ e.2.text) " "
                  ++ "]"]) := by
  obtain ⟨s1, c1, h1, hq1, hpar, hlook1⟩ := WithFields_spec env s p l f hp
  refine ⟨?_, ?_, ?_, ?_⟩
  · rw [h1]; exact ⟨c1, hq1, hlook1⟩
  · rw [h1]; exact Nat.ne_of_gt (lt_length_of_getElem? hp)
  · rw [h1]; exact hpar
  · intro _ hv2
    obtain ⟨sa, ca, ha, hqa, -, -⟩ := WithFields_spec env s p l f1 hp
    obtain ⟨sb, cb, hb, hqb, -, hlookb⟩ := WithFields_spec env sa s.loggers.length ca f2 hqa
    dsimp only
    rw [ha]
    dsimp only
    rw [hb]
    dsimp only
    have hk : cb.fields.lookup k = some v2 := by rw [hlookb, hv2]; rfl
    refine ⟨cb, hqb, hk, ?_⟩
    intro L name msg hname hpass
    obtain ⟨order, hperm, hline⟩ := log_line_format env sb sa.loggers.length cb hqb
      L name hname hpass msg
    have hmem : (⟨k, v2⟩ : Entry) ∈ cb.fields.entries := AList.mem_lookup_iff.mp hk
    have hne : cb.fields.entries ≠ [] := List.ne_nil_of_mem hmem
    rw [if_pos hne] at hline
    refine ⟨order, hperm, hperm.mem_iff.mpr hmem, ?_, ?_⟩
    · intro e he hek
      have he2 : (⟨e.1, e.2⟩ : Entry) ∈ cb.fields.entries := hperm.mem_iff.mp he
      have := AList.mem_lookup_iff.mpr he2
      rw [hek, hk] at this
      exact (Option.some.inj this).symm
    · rw [hline]
      simp [String.append_assoc]

/-- C4 on the sample logger (field `id=7`): `WithFields` with `id=9` overrides it, and after
`WithFields(k=old).WithFields(k=new)` the key `k` has the value `new`. -/
theorem C4_WithFields_witness :
    sampleState.loggers[0]? = some sampleLogger ∧
    (AList.insert "k" (Value.ofString "old") (∅ : Fields)).lookup "k"
      = some (Value.ofString "old") ∧
    (AList.insert "k" (Value.ofString "new") (∅ : Fields)).lookup "k"
      = some (Value.ofString "new") ∧
    (let r1 := Logger.WithFields sampleEnv sampleState 0 (AList.insert "k" (Value.ofString "old") ∅)
     let r2 := Logger.WithFields sampleEnv r1.1 r1.2 (AList.insert "k" (Value.ofString "new") ∅)
     ∃ c, r2.1.loggers[r2.2]? = some c ∧ c.fields.lookup "k" = some (Value.ofString "new")) :=
  have h := (C4_WithFields sampleEnv sampleState 0 sampleLogger rfl
    (AList.insert "id" (Value.ofInt 9) ∅)
    (AList.insert "k" (Value.ofString "old") ∅) (AList.insert "k" (Value.ofString "new") ∅)
    "k" (Value.ofString "old") (Value.ofString "new")).2.2.2 (by decide) (by decide)
  ⟨rfl, by decide, by decide, h.elim fun c hc => ⟨c, hc.1, hc.2.1⟩⟩

/-! ## Levels: `SetLevel` and `WithLevel` -/

theorem mem_levelNames (n : String) (L : Level) :
    (n, L) ∈ levelNames ↔
      (n = "debug" ∧ L = DebugLevel) ∨ (n = "info" ∧ L = InfoLevel) ∨
      (n = "warning" ∧ L = WarningLevel) ∨ (n = "error" ∧ L = ErrorLevel) ∨
      (n = "fatal" ∧ L = FatalLevel) := by
  simp [levelNames]

theorem not_mem_levelNames (n : String)
    (h : n ∉ ["debug", "info", "warning", "error", "fatal"]) : ∀ L, (n, L) ∉ levelNames := by
  intro L hL
  apply h
  rcases (mem_levelNames n L).mp hL with ⟨h1, _⟩ | ⟨h1, _⟩ | ⟨h1, _⟩ | ⟨h1, _⟩ | ⟨h1, _⟩ <;>
    simp [h1]

/-- What `SetLevel` does on a recognized name. -/
theorem SetLevel_of_mem (env : Env) (s : State) (p : Ptr) (l : Logger) (name : String)
    (L : Level) (hp : s.loggers[p]? = some l)
    (h : (stringsToLower env name, L) ∈ levelNames) :
    Logger.SetLevel env s p name = (s.setLogger p { l with level := L }, none) := by
  unfold Logger.SetLevel
  rw [hp]
  rcases (mem_levelNames _ _).mp h with ⟨h1, rfl⟩ | ⟨h1, rfl⟩ | ⟨h1, rfl⟩ | ⟨h1, rfl⟩ | ⟨h1, rfl⟩ <;>
    simp [h1]

/-- What `SetLevel` does on any other name. -/
theorem SetLevel_of_not_mem (env : Env) (s : State) (p : Ptr) (l : Logger) (name : String)
    (hp : s.loggers[p]? = some l)
    (h : ∀ L, (stringsToLower env name, L) ∉ levelNames) :
    Logger.SetLevel env s p name = (s, some ("неизвестный уровень логирования: " ++ name)) := by
  unfold Logger.SetLevel
  rw [hp]
  have h1 : stringsToLower env name ≠ "debug" := fun e => h DebugLevel (by simp [levelNames, e])
  have h2 : stringsToLower env name ≠ "info" := fun e => h InfoLevel (by simp [levelNames, e])
  have h3 : stringsToLower env name ≠ "warning" := fun e => h WarningLevel (by simp [levelNames, e])
  have h4 : stringsToLower env name ≠ "error" := fun e => h ErrorLevel (by simp [levelNames, e])
  have h5 : stringsToLower env name ≠ "fatal" := fun e => h FatalLevel (by simp [levelNames, e])
  simp [h1, h2, h3, h4, h5]

/-- C5: `SetLevel(name)` returns no error exactly when the lower-cased name is one of
`debug`, `info`, `warning`, `error`, `fatal`; it then sets the level of the receiver to the
matching severity and changes nothing else. For every other name it returns the error
built from the name and leaves the whole state, so the level and every other field of
the logger, unchanged. -/
theorem C5_SetLevel (env : Env) (s : State) (p : Ptr) (l : Logger) (name : String)
    (hp : s.loggers[p]? = some l) :
    ((Logger.SetLevel env s p name).2 = none ↔
      ∃ L, (stringsToLower env name, L) ∈ levelNames) ∧
    (∀ L, (stringsToLower env name, L) ∈ levelNames →
      (Logger.SetLevel env s p name).1 = s.setLogger p { l with level := L } ∧
      (Logger.SetLevel env s p name).1.loggers[p]? = some { l with level := L }) ∧
    ((∀ L, (stringsToLower env name, L) ∉ levelNames) →
      (Logger.SetLevel env s p name).2 = some ("неизвестный уровень логирования: " ++ name) ∧
      (Logger.SetLevel env s p name).1 = s) := by
  refine ⟨?_, ?_, ?_⟩
  · constructor
    · intro h
      by_contra hne
      rw [SetLevel_of_not_mem env s p l name hp (fun L hL => hne ⟨L, hL⟩)] at h
      cases h
    · rintro ⟨L, hL⟩
      rw [SetLevel_of_mem env s p l name L hp hL]
  · intro L hL
    rw [SetLevel_of_mem env s p l name L hp hL]
    exact ⟨rfl, List.getElem?_set_self (lt_length_of_getElem? hp)⟩
  · intro h
    rw [SetLevel_of_not_mem env s p l name hp h]
    exact ⟨rfl, rfl⟩

theorem New_eq (env : Env) (s : State) :
    New env s = ({ s with loggers := s.loggers ++ [rootLogger] }, s.loggers.length) := by
  rfl

theorem stringsToLower_info (env : Env) : stringsToLower env "info" = "info" := rfl

/-- What `WithLevel` returns: a clone whose level is the one named, or INFO. -/
theorem WithLevel_eq (env : Env) (s : State) (p : Ptr) (l : Logger) (name : String)
    (hp : s.loggers[p]? = some l) :
    Logger.WithLevel env s p name =
      ({ s with steps := s.steps + 1,
                loggers := s.loggers ++
                  [{ l with fields := copyFields env s.steps l.fields,
                            level := parseLevel env name }] },
       s.loggers.length) := by
  unfold Logger.WithLevel
  rw [clone_eq env s p l hp]
  simp only
  unfold Logger.SetLevel
  simp only [getElem?_append_length, stringsToLower_info, parseLevel]
  by_cases h1 : stringsToLower env name = "debug"
  · simp [h1, State.setLogger, set_append_length]
  by_cases h2 : stringsToLower env name = "info"
  · simp [h2, State.setLogger, set_append_length]
  by_cases h3 : stringsToLower env name = "warning"
  · simp [h3, State.setLogger, set_append_length]
  by_cases h4 : stringsToLower env name = "error"
  · simp [h4, State.setLogger, set_append_length]
  by_cases h5 : stringsToLower env name = "fatal"
  · simp [h5, State.setLogger, set_append_length]
  simp [h1, h2, h3, h4, h5, State.setLogger, set_append_length]

/-- `WithConfig(cfg)` is `WithLevel(cfg.Level)`: nothing else of `cfg` is read. -/
theorem WithConfig_eq_WithLevel (env : Env) (s : State) (p : Ptr) (cfg : Config) :
    Logger.WithConfig env s p cfg = Logger.WithLevel env s p cfg.Level := rfl

theorem parseLevel_of_mem (env : Env) (name : String) (L : Level)
    (h : (stringsToLower env name, L) ∈ levelNames) : parseLevel env name = L := by
  unfold parseLevel
  rcases (mem_levelNames _ _).mp h with ⟨h1, rfl⟩ | ⟨h1, rfl⟩ | ⟨h1, rfl⟩ | ⟨h1, rfl⟩ | ⟨h1, rfl⟩ <;>
    simp [h1]

theorem parseLevel_of_not_mem (env : Env) (name : String)
    (h : ∀ L, (stringsToLower env name, L) ∉ levelNames) : parseLevel env name = InfoLevel := by
  unfold parseLevel
  have h1 : stringsToLower env name ≠ "debug" := fun e => h DebugLevel (by simp [levelNames, e])
  have h3 : stringsToLower env name ≠ "warning" := fun e => h WarningLevel (by simp [levelNames, e])
  have h4 : stringsToLower env name ≠ "error" := fun e => h ErrorLevel (by simp [levelNames, e])
  have h5 : stringsToLower env name ≠ "fatal" := fun e => h FatalLevel (by simp [levelNames, e])
  simp [h1, h3, h4, h5]

/-- On a node of level ERROR without prefix, fields or history, Debug and Info record
nothing and Error records one line. -/
theorem error_only_history (env : Env) (s : State) (q : Ptr) (c : Logger)
    (hc : s.loggers[q]? = some c) (hlevel : c.level = ErrorLevel) (hpfx : c.pfx = "")
    (hf : c.fields.entries = []) (hm : c.messages = []) (htf : c.timeFormat = "")
    (x y z : String) :
    Logger.GetMessages
      (Logger.Error env (Logger.Info env (Logger.Debug env s q [Value.ofString x]) q
        [Value.ofString y]) q [Value.ofString z]) q
      = [env.now s.steps "2006-01-02 15:04:05" ++ " [ERROR] " ++ z] := by
  have e1 : Logger.Debug env s q [Value.ofString x] = s :=
    log_filtered env s q c DebugLevel _ hc (by rw [hlevel]; decide)
  have e2 : Logger.Info env s q [Value.ofString y] = s :=
    log_filtered env s q c InfoLevel _ hc (by rw [hlevel]; decide)
  rw [e1, e2]
  unfold Logger.Error
  rw [log_messages env s q c ErrorLevel _ hc, if_neg (by rw [hlevel]; decide), lineOf_eq]
  simp [hf, hm, hpfx, htf, Sprint, sprintRest, Value.ofString, levelTag, String.append_assoc]

/-- C6: `WithLevel(name)` returns a derived logger, at a new address, whose level is the
severity named by the lower-cased `name` when that is one of the five recognized names and
INFO for every other name; the parent, and so its level, is unchanged. In particular,
after `New().WithLevel("error")`, the calls Debug(x), Info(y) and Error(z) on the derived
logger leave exactly one history entry: the ERROR line for `z`. -/
theorem C6_WithLevel (env : Env) (s : State) (p : Ptr) (l : Logger) (name : String)
    (hp : s.loggers[p]? = some l) (x y z : String) :
    (Logger.WithLevel env s p name).2 ≠ p ∧
    (Logger.WithLevel env s p name).1.loggers[p]? = some l ∧
    (∃ c, (Logger.WithLevel env s p name).1.loggers[(Logger.WithLevel env s p name).2]? = some c ∧
      (∀ L, (stringsToLower env name, L) ∈ levelNames → c.level = L) ∧
      ((∀ L, (stringsToLower env name, L) ∉ levelNames) → c.level = InfoLevel)) ∧
    (let r0 := New env s
     let r := Logger.WithLevel env r0.1 r0.2 "error"
     let s1 := Logger.Debug env r.1 r.2 [Value.ofString x]
     let s2 := Logger.Info env s1 r.2 [Value.ofString y]
     let s3 := Logger.Error env s2 r.2 [Value.ofString z]
     Logger.GetMessages s3 r.2 = [env.now r.1.steps "2006-01-02 15:04:05" ++ " [ERROR] " ++ z]) := by
  have hlt := lt_length_of_getElem? hp
  rw [WithLevel_eq env s p l name hp]
  refine ⟨Nat.ne_of_gt hlt, ?_, ⟨_, getElem?_append_length _ _, ?_, ?_⟩, ?_⟩
  · simp only
    rw [List.getElem?_append_left hlt, hp]
  · intro L hL
    exact parseLevel_of_mem env name L hL
  · intro h
    exact parseLevel_of_not_mem env name h
  · rw [New_eq]
    dsimp only
    rw [WithLevel_eq env _ _ rootLogger "error" (getElem?_append_length _ _)]
    exact error_only_history env _ _ _ (getElem?_append_length _ _) rfl rfl
      (copyFields_of_empty env s.steps rootLogger.fields rfl) rfl rfl x y z

/-- C5 on the sample logger: `ERROR` is accepted and sets the level, `verbose` is refused and
changes nothing. -/
theorem C5_SetLevel_witness :
    sampleState.loggers[0]? = some sampleLogger ∧
    (stringsToLower sampleEnv "ERROR", ErrorLevel) ∈ levelNames ∧
    (Logger.SetLevel sampleEnv sampleState 0 "ERROR").1.loggers[0]?
      = some { sampleLogger with level := ErrorLevel } ∧
    (∀ L, (stringsToLower sampleEnv "verbose", L) ∉ levelNames) ∧
    (Logger.SetLevel sampleEnv sampleState 0 "verbose").2
      = some ("неизвестный уровень логирования: " ++ "verbose") ∧
    (Logger.SetLevel sampleEnv sampleState 0 "verbose").1 = sampleState :=
  have h := C5_SetLevel sampleEnv sampleState 0 sampleLogger
  have hno : ∀ L, (stringsToLower sampleEnv "verbose", L) ∉ levelNames :=
    not_mem_levelNames _ (by decide)
  ⟨rfl, by decide, ((h "ERROR" rfl).2.1 ErrorLevel (by decide)).2, hno,
   ((h "verbose" rfl).2.2 hno).1, ((h "verbose" rfl).2.2 hno).2⟩

/-- C6 on the sample logger (level WARNING): `WithLevel("Fatal")` derives a logger of level
FATAL, `WithLevel("verbose")` one of level INFO. -/
theorem C6_WithLevel_witness :
    sampleState.loggers[0]? = some sampleLogger ∧
    (stringsToLower sampleEnv "Fatal", FatalLevel) ∈ levelNames ∧
    (∀ L, (stringsToLower sampleEnv "verbose", L) ∉ levelNames) ∧
    (∃ c, (Logger.WithLevel sampleEnv sampleState 0 "Fatal").1.loggers[1]? = some c ∧
      c.level = FatalLevel) ∧
    (∃ c, (Logger.WithLevel sampleEnv sampleState 0 "verbose").1.loggers[1]? = some c ∧
      c.level = InfoLevel) :=
  have hno : ∀ L, (stringsToLower sampleEnv "verbose", L) ∉ levelNames :=
    not_mem_levelNames _ (by decide)
  have h1 := (C6_WithLevel sampleEnv sampleState 0 sampleLogger "Fatal" rfl "x" "y" "z").2.2.1
  have h2 := (C6_WithLevel sampleEnv sampleState 0 sampleLogger "verbose" rfl "x" "y" "z").2.2.1
  ⟨rfl, by decide, hno,
   h1.elim fun c hc => ⟨c, hc.1, hc.2.1 FatalLevel (by decide)⟩,
   h2.elim fun c hc => ⟨c, hc.1, hc.2.2 hno⟩⟩

/-! ## History isolation -/

/-- What `WithTimeFormat` returns. -/
theorem WithTimeFormat_eq (env : Env) (s : State) (p : Ptr) (l : Logger) (format : String)
    (hp : s.loggers[p]? = some l) :
    Logger.WithTimeFormat env s p format =
      ({ s with steps := s.steps + 1,
                loggers := s.loggers ++
                  [{ l with fields := copyFields env s.steps l.fields, timeFormat := format }] },
       s.loggers.length) := by
  unfold Logger.WithTimeFormat
  rw [clone_eq env s p l hp]
  simp [State.modifyLogger, State.setLogger, set_append_length]

/-- Every derivation allocates one logger at the end of the heap, with the history of the
receiver, and touches nothing that was there. -/
theorem derive_spec (env : Env) (s : State) (p : Ptr) (l : Logger)
    (hp : s.loggers[p]? = some l) (d : Derivation) :
    ∃ s1 c, derive env s p d = (s1, s.loggers.length) ∧ s1.loggers = s.loggers ++ [c] ∧
      c.messages = l.messages := by
  cases d with
  | withPrefix segment => exact ⟨_, _, WithPrefix_eq env s p l segment hp, rfl, rfl⟩
  | withFields fields => exact ⟨_, _, WithFields_eq env s p l fields hp, rfl, rfl⟩
  | withLevel level => exact ⟨_, _, WithLevel_eq env s p l level hp, rfl, rfl⟩
  | withConfig cfg =>
    exact ⟨_, _, (WithConfig_eq_WithLevel env s p cfg).trans (WithLevel_eq env s p l cfg.Level hp),
      rfl, rfl⟩
  | withTimeFormat format => exact ⟨_, _, WithTimeFormat_eq env s p l format hp, rfl, rfl⟩

/-- A `log` call through the node at `p` leaves every other node as it was. -/
theorem log_frame (env : Env) (s : State) (p q : Ptr) (level : Level) (msg : String)
    (hpq : p ≠ q) : (Logger.log env s p level msg).loggers[q]? = s.loggers[q]? := by
  cases hp : s.loggers[p]? with
  | none => simp [Logger.log, hp]
  | some l =>
    rw [log_loggers env s p l level msg hp]
    split
    · rfl
    · exact List.getElem?_set_ne hpq

theorem log_frame_messages (env : Env) (s : State) (p q : Ptr) (level : Level) (msg : String)
    (hpq : p ≠ q) :
    Logger.GetMessages (Logger.log env s p level msg) q = Logger.GetMessages s q := by
  unfold Logger.GetMessages
  rw [log_frame env s p q level msg hpq]

/-- C7: history isolation. For a child derived from the logger at `p` by WithPrefix,
WithFields, WithLevel, WithConfig or WithTimeFormat: the child is a new object; right after
the derivation its GetMessages equals the GetMessages of the parent (which the derivation
did not change); and in every state `t` of the run afterwards, a message logged through
the child leaves the GetMessages of the parent unchanged, and a message logged through the
parent leaves the GetMessages of the child unchanged. -/
theorem C7_history_isolation (env : Env) (s : State) (p : Ptr) (l : Logger)
    (hp : s.loggers[p]? = some l) (d : Derivation) :
    (derive env s p d).2 ≠ p ∧
    Logger.GetMessages (derive env s p d).1 (derive env s p d).2 = Logger.GetMessages s p ∧
    Logger.GetMessages (derive env s p d).1 p = Logger.GetMessages s p ∧
    ∀ (t : State) (L : Level) (msg : String),
      Logger.GetMessages (Logger.log env t (derive env s p d).2 L msg) p
        = Logger.GetMessages t p ∧
      Logger.GetMessages (Logger.log env t p L msg) (derive env s p d).2
        = Logger.GetMessages t (derive env s p d).2 := by
  obtain ⟨s1, c, h1, hl, hm⟩ := derive_spec env s p l hp d
  have hlt := lt_length_of_getElem? hp
  rw [h1]
  refine ⟨Nat.ne_of_gt hlt, ?_, ?_, fun t L msg => ⟨?_, ?_⟩⟩
  · simp [Logger.GetMessages, hl, hp, hm]
  · simp only [Logger.GetMessages, hl]
    rw [List.getElem?_append_left hlt]
  · exact log_frame_messages env t _ _ L msg (Nat.ne_of_gt hlt)
  · exact log_frame_messages env t _ _ L msg (Nat.ne_of_lt hlt)

/-- C7 on the sample logger and `WithPrefix("db")`: the child starts with the history of
the parent, and an ERROR logged through the child right away is recorded by the child
only. -/
theorem C7_history_isolation_witness :
    sampleState.loggers[0]? = some sampleLogger ∧
    (let r := derive sampleEnv sampleState 0 (.withPrefix "db")
     Logger.GetMessages r.1 r.2 = ["earlier"] ∧
     Logger.GetMessages (Logger.log sampleEnv r.1 r.2 ErrorLevel "boom") 0 = ["earlier"] ∧
     Logger.GetMessages (Logger.log sampleEnv r.1 r.2 ErrorLevel "boom") r.2 ≠ ["earlier"]) :=
  have h := C7_history_isolation sampleEnv sampleState 0 sampleLogger rfl (.withPrefix "db")
  ⟨rfl, h.2.1,
   ((h.2.2.2 (derive sampleEnv sampleState 0 (.withPrefix "db")).1 ErrorLevel "boom").1).trans
     h.2.2.1,
   by decide⟩

/-! ## `Close` and `Fatal` -/

theorem modifyLogger_eq (s : State) (p : Ptr) (l : Logger) (g : Logger → Logger)
    (hp : s.loggers[p]? = some l) :
    s.modifyLogger p g = { s with loggers := s.loggers.set p (g l) } := by
  simp [State.modifyLogger, hp, State.setLogger]

theorem sync_handled (s : State) (p : Ptr) (f : FilePtr) :
    (match s.fileSync f with
      | some syncErr => Logger.handleWriteError s p syncErr
      | none => s) = s := by
  split <;> rfl

theorem fileClose_withLoggers (s : State) (x : List Logger) (f : FilePtr) :
    ({ s with loggers := x } : State).fileClose f =
      ({ (s.fileClose f).1 with loggers := x }, (s.fileClose f).2) := by
  unfold State.fileClose
  simp only
  split
  · rfl
  · split <;> rfl

/-- What `Close` does: both file pointers of the receiver become nil, the files they
designated are closed, and the error is that of the last close that failed. -/
theorem Close_eq (s : State) (p : Ptr) (l : Logger) (hp : s.loggers[p]? = some l) :
    Logger.Close s p =
      match l.file, l.errorFile with
      | none, none => (s, none)
      | some f, none =>
        ({ (s.fileClose f).1 with loggers := s.loggers.set p { l with file := none } },
         (s.fileClose f).2)
      | none, some ef =>
        ({ (s.fileClose ef).1 with loggers := s.loggers.set p { l with errorFile := none } },
         (s.fileClose ef).2)
      | some f, some ef =>
        ({ ((s.fileClose f).1.fileClose ef).1 with
            loggers := s.loggers.set p { l with file := none, errorFile := none } },
         (((s.fileClose f).1.fileClose ef).2).or (s.fileClose f).2) := by
  have hlt := lt_length_of_getElem? hp
  unfold Logger.Close
  rw [hp]
  simp only [sync_handled]
  obtain ⟨file, errorFile, fields, pfx, timeFormat, messages, level⟩ := l
  cases file with
  | none =>
    cases errorFile with
    | none => rfl
    | some ef =>
      simp only
      rw [modifyLogger_eq _ p _ _ (by simpa using hp)]
      cases (s.fileClose ef).2 <;> simp
  | some f =>
    cases errorFile with
    | none =>
      simp only
      rw [modifyLogger_eq _ p _ _ (by simpa using hp)]
      cases (s.fileClose f).2 <;> simp
    | some ef =>
      simp only
      rw [modifyLogger_eq (s.fileClose f).1 p _ _ (by simpa using hp)]
      simp only [fileClose_loggers, fileClose_withLoggers]
      rw [modifyLogger_eq _ p
        { file := none, errorFile := some ef, fields := fields, pfx := pfx,
          timeFormat := timeFormat, messages := messages, level := level } _ (by simp [hlt])]
      cases (s.fileClose f).2 <;> cases ((s.fileClose f).1.fileClose ef).2 <;> simp

/-- After `Close` the receiver has no file pointer left; nothing else of it changed. -/
theorem Close_logger (s : State) (p : Ptr) (l : Logger) (hp : s.loggers[p]? = some l) :
    (Logger.Close s p).1.loggers[p]? = some { l with file := none, errorFile := none } := by
  have hlt := lt_length_of_getElem? hp
  rw [Close_eq s p l hp]
  obtain ⟨file, errorFile, fields, pfx, timeFormat, messages, level⟩ := l
  cases file <;> cases errorFile <;> simp [hlt, hp]

/-- A logger without file pointers is closed already: `Close` returns nil and changes
nothing. -/
theorem Close_of_absent (s : State) (p : Ptr) (l : Logger) (hp : s.loggers[p]? = some l)
    (h1 : l.file = none) (h2 : l.errorFile = none) : Logger.Close s p = (s, none) := by
  rw [Close_eq s p l hp, h1, h2]

/-- C8: `Close` is idempotent. After any call of `Close`, whatever it returned, the receiver
has neither a primary nor a secondary file sink; a second `Close` on the same logger
returns no error and changes nothing; and `Close` on a logger that has no sink returns no
error (and changes nothing). -/
theorem C8_Close_idempotent (s : State) (p : Ptr) (l : Logger)
    (hp : s.loggers[p]? = some l) :
    (∃ c, (Logger.Close s p).1.loggers[p]? = some c ∧ c.file = none ∧ c.errorFile = none) ∧
    Logger.Close (Logger.Close s p).1 p = ((Logger.Close s p).1, none) ∧
    (l.file = none → l.errorFile = none → Logger.Close s p = (s, none)) :=
  ⟨⟨_, Close_logger s p l hp, rfl, rfl⟩,
   Close_of_absent _ p _ (Close_logger s p l hp) rfl rfl,
   Close_of_absent s p l hp⟩

theorem fileClose_of_open (s : State) (f : FilePtr) (file : File) (hf : s.files[f]? = some file)
    (ho : file.closed = false) :
    s.fileClose f =
      ({ s with files := s.files.set f { file with closed := true } }, file.closeErr) := by
  simp [State.fileClose, hf, ho]

/-- The error that `Close` returns in terms of the sinks of the receiver. With one sink
only, it is the close error of that sink. With both sinks open on two different files, it
is the close error of the error file when that close fails, and the one of the primary file
(or none) otherwise. The errors of `Sync` play no part. -/
theorem Close_error_of_sinks (s : State) (p : Ptr) (l : Logger) (hp : s.loggers[p]? = some l)
    (f ef : FilePtr) (primary secondary : File)
    (hf : s.files[f]? = some primary) (he : s.files[ef]? = some secondary)
    (ho1 : primary.closed = false) (ho2 : secondary.closed = false) :
    (l.file = some f → l.errorFile = some ef → f ≠ ef →
      (Logger.Close s p).2 = secondary.closeErr.or primary.closeErr) ∧
    (l.file = some f → l.errorFile = none → (Logger.Close s p).2 = primary.closeErr) ∧
    (l.file = none → l.errorFile = some ef → (Logger.Close s p).2 = secondary.closeErr) := by
  refine ⟨fun h1 h2 hne => ?_, fun h1 h2 => ?_, fun h1 h2 => ?_⟩
  · rw [Close_eq s p l hp, h1, h2]
    simp only
    rw [fileClose_of_open s f primary hf ho1]
    rw [fileClose_of_open _ ef secondary (by simp only; rw [List.getElem?_set_ne hne, he]) ho2]
  · rw [Close_eq s p l hp, h1, h2]
    simp only
    rw [fileClose_of_open s f primary hf ho1]
  · rw [Close_eq s p l hp, h1, h2]
    simp only
    rw [fileClose_of_open s ef secondary he ho2]

theorem log_exitCodes (env : Env) (s : State) (p : Ptr) (level : Level) (msg : String) :
    (Logger.log env s p level msg).exitCodes = s.exitCodes := by
  unfold Logger.log
  simp only [Logger.handleWriteError]
  have hw : ∀ (t : State) (f : FilePtr) (d : String),
      (match t.fileWrite f d with
        | (t1, some _) => t1
        | (t1, none) => t1) = (t.fileWrite f d).1 := by
    intro t f d
    split <;> simp_all
  have hs : ∀ (t : State) (f : FilePtr),
      (match t.fileSync f with
        | some _ => t
        | none => t) = t := by
    intro t f
    split <;> rfl
  simp only [hw, hs]
  split
  · rfl
  · split
    · rfl
    · split <;> split <;> (try split) <;> simp [State.setLogger, State.tick]

theorem log_steps (env : Env) (s : State) (p : Ptr) (l : Logger) (level : Level) (msg : String)
    (hp : s.loggers[p]? = some l) (h : ¬ level < l.level) :
    (Logger.log env s p level msg).steps = s.steps + 1 := by
  unfold Logger.log
  rw [hp]
  simp only [Logger.handleWriteError]
  have hw : ∀ (t : State) (f : FilePtr) (d : String),
      (match t.fileWrite f d with
        | (t1, some _) => t1
        | (t1, none) => t1) = (t.fileWrite f d).1 := by
    intro t f d
    split <;> simp_all
  have hs : ∀ (t : State) (f : FilePtr),
      (match t.fileSync f with
        | some _ => t
        | none => t) = t := by
    intro t f
    split <;> rfl
  simp only [hw, hs, if_neg h]
  split <;> split <;> (try split) <;> simp [State.setLogger, State.tick]

theorem Close_exitCodes (s : State) (p : Ptr) : (Logger.Close s p).1.exitCodes = s.exitCodes := by
  cases hp : s.loggers[p]? with
  | none => simp [Logger.Close, hp]
  | some l =>
    rw [Close_eq s p l hp]
    obtain ⟨file, errorFile, fields, pfx, timeFormat, messages, level⟩ := l
    cases file <;> cases errorFile <;> simp

theorem Close_steps (s : State) (p : Ptr) : (Logger.Close s p).1.steps = s.steps := by
  cases hp : s.loggers[p]? with
  | none => simp [Logger.Close, hp]
  | some l =>
    rw [Close_eq s p l hp]
    obtain ⟨file, errorFile, fields, pfx, timeFormat, messages, level⟩ := l
    cases file <;> cases errorFile <;> simp

/-- The common tail of `Fatal` and `Fatalf` meets `FatalOutcome`. -/
theorem fatalTail_outcome (env : Env) (s : State) (p : Ptr) (l : Logger)
    (hp : s.loggers[p]? = some l) (hlevel : l.level ≤ FatalLevel) (msg : String) :
    FatalOutcome env s p l msg (Logger.fatalTail env s p msg) := by
  have hpass : ¬ FatalLevel < l.level := not_lt.mpr hlevel
  have hlt := lt_length_of_getElem? hp
  -- the state after the FATAL emit
  have h1 : (Logger.log env s p FatalLevel msg).loggers[p]? =
      some { l with messages := l.messages ++ [Logger.lineOf env s.steps l FatalLevel msg] } := by
    rw [log_loggers env s p l FatalLevel msg hp, if_neg hpass]
    exact List.getElem?_set_self hlt
  have h2 := Close_logger _ p _ h1
  unfold FatalOutcome Logger.fatalTail State.osExit
  simp only
  cases hc : (Logger.Close (Logger.log env s p FatalLevel msg) p).2 with
  | none =>
    simp only
    refine ⟨by rw [Close_exitCodes, log_exitCodes], ⟨_, h2, rfl, rfl⟩, ?_⟩
    simp [Logger.GetMessages, h2, hp]
  | some e =>
    simp only
    have hmsg : Sprint [Value.ofString "failed to close logger:", Value.ofError e]
        = "failed to close logger:" ++ e := by
      simp [Sprint, sprintRest, Value.ofString, Value.ofError]
    have hsteps : (Logger.Close (Logger.log env s p FatalLevel msg) p).1.steps = s.steps + 1 := by
      rw [Close_steps, log_steps env s p l FatalLevel msg hp hpass]
    unfold Logger.Error
    rw [hmsg]
    refine ⟨by rw [log_exitCodes, Close_exitCodes, log_exitCodes], ?_, ?_⟩
    · rw [log_loggers env _ p _ ErrorLevel _ h2]
      split
      · exact ⟨_, h2, rfl, rfl⟩
      · refine ⟨_, List.getElem?_set_self (lt_length_of_getElem? h2), rfl, rfl⟩
    · show Logger.GetMessages (Logger.log env
          (Logger.Close (Logger.log env s p FatalLevel msg) p).1 p ErrorLevel
          ("failed to close logger:" ++ e)) p = _
      rw [log_messages env _ p _ ErrorLevel _ h2, hsteps]
      by_cases hE : ErrorLevel < l.level
      · simp [hE, Logger.GetMessages, hp]
      · simp [hE, Logger.GetMessages, hp, Logger.lineOf, Logger.formatMessage]

/-- C8 on a logger with two open sinks whose closes fail, and on the sample logger, which
has none. -/
theorem C8_Close_idempotent_witness :
    closeState.loggers[0]? = some { rootLogger with file := some 0, errorFile := some 1 } ∧
    (Logger.Close closeState 0).2 = some "close error" ∧
    Logger.Close (Logger.Close closeState 0).1 0 = ((Logger.Close closeState 0).1, none) ∧
    sampleLogger.file = none ∧ sampleLogger.errorFile = none ∧
    Logger.Close sampleState 0 = (sampleState, none) :=
  ⟨rfl, by decide, (C8_Close_idempotent closeState 0 _ rfl).2.1, rfl, rfl,
   (C8_Close_idempotent sampleState 0 sampleLogger rfl).2.2 rfl rfl⟩

/-- C10: `Fatal(args)` and `Fatalf(format, args)`, on a logger whose minimum level is one of
the defined severities (at most FATAL, as for every logger built by `New`, `SetLevel` and
the derivations), append exactly one FATAL line for the message to the history, close the
sinks of the logger (both are absent afterwards) and call the exit hook exactly once, with
status code 1. When `Close` returns no error nothing else is appended; when it returns an
error the only other line is the ERROR line reporting it. -/
theorem C10_Fatal (env : Env) (s : State) (p : Ptr) (l : Logger)
    (hp : s.loggers[p]? = some l) (hlevel : l.level ≤ FatalLevel) (args : List Value)
    (format : String) :
    FatalOutcome env s p l (Sprint args) (Logger.Fatal env s p args) ∧
    FatalOutcome env s p l (env.sprintf format args) (Logger.Fatalf env s p format args) :=
  ⟨fatalTail_outcome env s p l hp hlevel _, fatalTail_outcome env s p l hp hlevel _⟩

/-- C10 on the sample logger (no sink, so `Close` succeeds) and on the logger with two
failing sinks. -/
theorem C10_Fatal_witness :
    sampleState.loggers[0]? = some sampleLogger ∧ sampleLogger.level ≤ FatalLevel ∧
    FatalOutcome sampleEnv sampleState 0 sampleLogger (Sprint [Value.ofString "boom"])
      (Logger.Fatal sampleEnv sampleState 0 [Value.ofString "boom"]) ∧
    closeState.loggers[0]? = some { rootLogger with file := some 0, errorFile := some 1 } ∧
    FatalOutcome sampleEnv closeState 0 { rootLogger with file := some 0, errorFile := some 1 }
      (sampleEnv.sprintf "boom" []) (Logger.Fatalf sampleEnv closeState 0 "boom" []) :=
  ⟨rfl, by decide,
   (C10_Fatal sampleEnv sampleState 0 sampleLogger rfl (by decide) [Value.ofString "boom"] "").1,
   rfl,
   (C10_Fatal sampleEnv closeState 0 _ rfl (by decide) [] "boom").2⟩

/-! ## The write path and `WithFile` -/

/-- The state after a `log` call that passes the level filter. -/
theorem log_eq (env : Env) (s : State) (p : Ptr) (l : Logger) (level : Level) (msg : String)
    (hp : s.loggers[p]? = some l) (hpass : ¬ level < l.level) :
    Logger.log env s p level msg =
      ((({ s with
            steps := s.steps + 1,
            loggers := s.loggers.set p
              { l with messages := l.messages ++ [Logger.lineOf env s.steps l level msg] },
            stdout := s.stdout ++ [Logger.lineOf env s.steps l level msg ++ "\n"] } : State).writeSink
          l.file (Logger.lineOf env s.steps l level msg ++ "\n")).writeSink
        (if level = ErrorLevel ∨ level = FatalLevel then l.errorFile else none)
        (Logger.lineOf env s.steps l level msg ++ "\n")) := by
  unfold Logger.log
  rw [hp]
  simp only [Logger.lineOf, Logger.handleWriteError, if_neg hpass]
  have hw : ∀ (t : State) (f : FilePtr) (d : String),
      (match t.fileWrite f d with
        | (t1, some _) => t1
        | (t1, none) => t1) = (t.fileWrite f d).1 := by
    intro t f d
    split <;> simp_all
  have hs : ∀ (t : State) (f : FilePtr),
      (match t.fileSync f with
        | some _ => t
        | none => t) = t := by
    intro t f
    split <;> rfl
  simp only [hw, hs]
  split <;> split <;> (try split) <;> simp_all [State.setLogger, State.tick, State.writeSink]

/-- What a write does to the file at `g`: the data is appended when `g` is the file written
to, it is open and the operating system accepts the write; nothing else changes. -/
theorem fileWrite_get (s : State) (f g : FilePtr) (d : String) (fg : File)
    (hg : s.files[g]? = some fg) :
    (s.fileWrite f d).1.files[g]? =
      some (if f = g ∧ fg.closed = false ∧ fg.writeErr = none
            then { fg with written := fg.written ++ [d] } else fg) := by
  unfold State.fileWrite
  by_cases hfg : f = g
  · subst hfg
    rw [hg]
    have hlt := lt_length_of_getElem? hg
    by_cases hc : fg.closed = true
    · simp [hc, hg]
    · cases hw : fg.writeErr with
      | none => simp [hc, hw, hlt]
      | some e => simp [hc, hw, hg]
  · cases hf : s.files[f]? with
    | none => simp [hfg, hg]
    | some ff =>
      by_cases hc : ff.closed = true
      · simp [hc, hfg, hg]
      · cases hw : ff.writeErr with
        | none => simp [hc, hw, hfg, hg, List.getElem?_set_ne hfg]
        | some e => simp [hc, hw, hfg, hg]

theorem writeSink_get (s : State) (f : Option FilePtr) (g : FilePtr) (d : String) (fg : File)
    (hg : s.files[g]? = some fg) :
    (s.writeSink f d).files[g]? =
      some (if f = some g ∧ fg.closed = false ∧ fg.writeErr = none
            then { fg with written := fg.written ++ [d] } else fg) := by
  cases f with
  | none => simp [State.writeSink, hg]
  | some f0 =>
    simp only [State.writeSink, Option.some.injEq]
    exact fileWrite_get s f0 g d fg hg

@[simp] theorem writeSink_loggers (s : State) (f : Option FilePtr) (d : String) :
    (s.writeSink f d).loggers = s.loggers := by
  cases f <;> simp [State.writeSink]

@[simp] theorem writeSink_stdout (s : State) (f : Option FilePtr) (d : String) :
    (s.writeSink f d).stdout = s.stdout := by
  cases f <;> simp [State.writeSink]

@[simp] theorem writeSink_steps (s : State) (f : Option FilePtr) (d : String) :
    (s.writeSink f d).steps = s.steps := by
  cases f <;> simp [State.writeSink]

@[simp] theorem writeSink_exitCodes (s : State) (f : Option FilePtr) (d : String) :
    (s.writeSink f d).exitCodes = s.exitCodes := by
  cases f <;> simp [State.writeSink]

theorem fileWrite_files_length (s : State) (f : FilePtr) (d : String) :
    (s.fileWrite f d).1.files.length = s.files.length := by
  unfold State.fileWrite
  split
  · rfl
  · split
    · rfl
    · split <;> simp

@[simp] theorem writeSink_files_length (s : State) (f : Option FilePtr) (d : String) :
    (s.writeSink f d).files.length = s.files.length := by
  cases f <;> simp [State.writeSink, fileWrite_files_length]

theorem writeSink_get_written (s : State) (f : Option FilePtr) (g : FilePtr) (d : String)
    (fg : File) (hg : s.files[g]? = some fg) :
    ∃ fg1, (s.writeSink f d).files[g]? = some fg1 ∧ fg1.closed = fg.closed ∧
      fg1.writeErr = fg.writeErr ∧ fg1.written = fg.written ++ sinkGets f g fg d := by
  refine ⟨_, writeSink_get s f g d fg hg, ?_, ?_, ?_⟩ <;> (try unfold sinkGets) <;> split <;> simp

/-- The files after a `log` call that passes the level filter. -/
theorem log_sinks (env : Env) (s : State) (p : Ptr) (l : Logger) (level : Level) (msg : String)
    (hp : s.loggers[p]? = some l) (hpass : l.level ≤ level) (g : FilePtr) (fg : File)
    (hg : s.files[g]? = some fg) :
    ∃ fg1, (Logger.log env s p level msg).files[g]? = some fg1 ∧ fg1.closed = fg.closed ∧
      fg1.written = fg.written ++
        sinkGets l.file g fg (Logger.lineOf env s.steps l level msg ++ "\n") ++
        sinkGets (if level = ErrorLevel ∨ level = FatalLevel then l.errorFile else none) g fg
          (Logger.lineOf env s.steps l level msg ++ "\n") := by
  rw [log_eq env s p l level msg hp (not_lt.mpr hpass)]
  obtain ⟨fg1, h1, hc1, hw1, hwr1⟩ := writeSink_get_written
    { s with
        steps := s.steps + 1,
        loggers := s.loggers.set p
          { l with messages := l.messages ++ [Logger.lineOf env s.steps l level msg] },
        stdout := s.stdout ++ [Logger.lineOf env s.steps l level msg ++ "\n"] }
    l.file g (Logger.lineOf env s.steps l level msg ++ "\n") fg hg
  obtain ⟨fg2, h2, hc2, _, hwr2⟩ := writeSink_get_written _
    (if level = ErrorLevel ∨ level = FatalLevel then l.errorFile else none) g
    (Logger.lineOf env s.steps l level msg ++ "\n") fg1 h1
  refine ⟨fg2, h2, hc2.trans hc1, ?_⟩
  rw [hwr2, hwr1]
  simp only [sinkGets, hc1, hw1]

theorem log_stdout (env : Env) (s : State) (p : Ptr) (l : Logger) (level : Level) (msg : String)
    (hp : s.loggers[p]? = some l) (hpass : l.level ≤ level) :
    (Logger.log env s p level msg).stdout =
      s.stdout ++ [Logger.lineOf env s.steps l level msg ++ "\n"] := by
  rw [log_eq env s p l level msg hp (not_lt.mpr hpass)]
  simp

theorem log_files_length (env : Env) (s : State) (p : Ptr) (level : Level) (msg : String) :
    (Logger.log env s p level msg).files.length = s.files.length := by
  cases hp : s.loggers[p]? with
  | none => simp [Logger.log, hp]
  | some l =>
    by_cases h : level < l.level
    · rw [log_filtered env s p l level msg hp h]
    · rw [log_eq env s p l level msg hp h]
      simp

theorem openLogFile_fails (env : Env) (s : State) (filename format : String) (err : GoError)
    (h : WithFileFails env s filename format err) :
    openLogFile env s filename = (s.tick, .error (format, err)) := by
  unfold openLogFile
  rcases h with ⟨h1, rfl⟩ | ⟨h1, h2, rfl⟩
  · rw [h1]
  · rw [h1, h2]

theorem openLogFile_ok (env : Env) (s : State) (filename : String) (f : File)
    (h1 : env.mkdirAll s.steps (env.filepathDir filename) = none)
    (h2 : env.openFile s.steps (env.filepathClean filename) = .ok f) :
    openLogFile env s filename =
      ({ s with steps := s.steps + 1, files := s.files ++ [openedFile env filename f] },
       .ok s.files.length) := by
  unfold openLogFile
  rw [h1, h2]
  rfl

/-- What `logf` does: nothing below the minimum level, `log` of the formatted message
otherwise. -/
theorem logf_eq (env : Env) (s : State) (p : Ptr) (l : Logger) (level : Level)
    (format : String) (args : List Value) (hp : s.loggers[p]? = some l) :
    Logger.logf env s p level format args =
      if level < l.level then s else Logger.log env s p level (env.sprintf format args) := by
  unfold Logger.logf
  rw [hp]

/-- What `WithFile` does when it fails. -/
theorem WithFile_fails (env : Env) (s : State) (p : Ptr) (l : Logger)
    (filename format : String) (err : GoError) (hp : s.loggers[p]? = some l)
    (h : WithFileFails env s filename format err) :
    Logger.WithFile env s p filename =
      (if ErrorLevel < l.level then s.tick
       else Logger.log env s.tick p ErrorLevel (env.sprintf format [Value.ofError err]), p) := by
  unfold Logger.WithFile
  rw [openLogFile_fails env s filename format err h]
  simp only [Logger.Errorf]
  rw [logf_eq env s.tick p l ErrorLevel format _ hp]

/-- What `WithFile` does when it succeeds. -/
theorem WithFile_ok (env : Env) (s : State) (p : Ptr) (l : Logger) (filename : String)
    (f : File) (hp : s.loggers[p]? = some l)
    (h1 : env.mkdirAll s.steps (env.filepathDir filename) = none)
    (h2 : env.openFile s.steps (env.filepathClean filename) = .ok f) :
    Logger.WithFile env s p filename =
      ({ s with steps := s.steps + 2,
                files := s.files ++ [openedFile env filename f],
                loggers := s.loggers ++
                  [{ pfx := l.pfx, fields := rangeInsert env (s.steps + 1) l.fields ∅,
                     file := some s.files.length, errorFile := l.errorFile, level := l.level,
                     timeFormat := "", messages := [] }] },
       s.loggers.length) := by
  unfold Logger.WithFile
  rw [openLogFile_ok env s filename f h1 h2]
  simp [hp, State.allocLogger, State.modifyLogger, State.setLogger, State.tick,
    set_append_length]

/-- C11: `WithFile` degrades on failure. Whenever `os.MkdirAll` or `os.OpenFile` fails,
`WithFile` returns the receiver itself; no logger is allocated, the exit hook is not
called, and the prefix, field map, level, timestamp format and file pointers of the
receiver are unchanged. When the minimum level of the receiver is at most ERROR its
history gains exactly one line, the ERROR line for the failure message formatted with the
error; otherwise its history is unchanged (and so are all loggers, files and standard
output). -/
theorem C11_WithFile_failure (env : Env) (s : State) (p : Ptr) (l : Logger)
    (filename format : String) (err : GoError) (hp : s.loggers[p]? = some l)
    (hfail : WithFileFails env s filename format err) :
    (Logger.WithFile env s p filename).2 = p ∧
    (Logger.WithFile env s p filename).1.loggers.length = s.loggers.length ∧
    (Logger.WithFile env s p filename).1.exitCodes = s.exitCodes ∧
    (∃ c, (Logger.WithFile env s p filename).1.loggers[p]? = some c ∧
      c.pfx = l.pfx ∧ c.fields = l.fields ∧ c.level = l.level ∧
      c.timeFormat = l.timeFormat ∧ c.file = l.file ∧ c.errorFile = l.errorFile) ∧
    (l.level ≤ ErrorLevel →
      Logger.GetMessages (Logger.WithFile env s p filename).1 p =
        Logger.GetMessages s p ++
          [Logger.lineOf env (s.steps + 1) l ErrorLevel
            (env.sprintf format [Value.ofError err])]) ∧
    (ErrorLevel < l.level →
      Logger.GetMessages (Logger.WithFile env s p filename).1 p = Logger.GetMessages s p ∧
      (Logger.WithFile env s p filename).1.loggers = s.loggers ∧
      (Logger.WithFile env s p filename).1.files = s.files ∧
      (Logger.WithFile env s p filename).1.stdout = s.stdout) := by
  have hlt := lt_length_of_getElem? hp
  have hp1 : s.tick.loggers[p]? = some l := hp
  rw [WithFile_fails env s p l filename format err hp hfail]
  by_cases hE : ErrorLevel < l.level
  · simp only [if_pos hE]
    refine ⟨trivial, rfl, rfl, ⟨l, hp, rfl, rfl, rfl, rfl, rfl, rfl⟩, ?_, ?_⟩
    · intro h
      exact absurd hE (not_lt.mpr h)
    · intro _
      exact ⟨by simp [Logger.GetMessages, State.tick], rfl, rfl, rfl⟩
  · simp only [if_neg hE]
    refine ⟨trivial, ?_, ?_, ?_, ?_, ?_⟩
    · rw [log_loggers env s.tick p l ErrorLevel _ hp1, if_neg hE]
      simp [State.tick]
    · rw [log_exitCodes]
      rfl
    · rw [log_loggers env s.tick p l ErrorLevel _ hp1, if_neg hE]
      exact ⟨_, List.getElem?_set_self hlt, rfl, rfl, rfl, rfl, rfl, rfl⟩
    · intro _
      rw [log_messages env s.tick p l ErrorLevel _ hp1, if_neg hE]
      simp [Logger.GetMessages, hp, State.tick]
    · intro h
      exact absurd h hE

/-- C11 on the sample logger (level WARNING) when the directory cannot be created. -/
theorem C11_WithFile_failure_witness :
    sampleState.loggers[0]? = some sampleLogger ∧
    WithFileFails failingEnv sampleState "logs/app.log"
      "Ошибка создания директории для логов: %v" "permission denied" ∧
    sampleLogger.level ≤ ErrorLevel ∧
    (Logger.WithFile failingEnv sampleState 0 "logs/app.log").2 = 0 ∧
    Logger.GetMessages (Logger.WithFile failingEnv sampleState 0 "logs/app.log").1 0 =
      Logger.GetMessages sampleState 0 ++
        [Logger.lineOf failingEnv (sampleState.steps + 1) sampleLogger ErrorLevel
          (failingEnv.sprintf "Ошибка создания директории для логов: %v"
            [Value.ofError "permission denied"])] :=
  have hf : WithFileFails failingEnv sampleState "logs/app.log"
      "Ошибка создания директории для логов: %v" "permission denied" := Or.inl ⟨rfl, rfl⟩
  have h := C11_WithFile_failure failingEnv sampleState 0 sampleLogger "logs/app.log" _ _ rfl hf
  ⟨rfl, hf, by decide, h.1, h.2.2.2.2.1 (by decide)⟩

/-- C12: the write path. For a message that passes the level filter, `log` appends the
formatted line to the history of the node and writes the line and a newline to standard
output. No file is created, and every file keeps its data followed by what it receives
now: the line and a newline through the primary pointer exactly when that pointer
designates this file and the file is open, and the same through the error-file pointer
exactly when the level is ERROR or FATAL, that pointer designates this file and the file
is open (a sink is an append-only list: an open one accepts the write). After a successful
`WithFile` the new logger has for primary sink the file just opened, at a fresh address,
so that its primary write reaches that file and no file of the parent. -/
theorem C12_write_path (env : Env) (s : State) (p : Ptr) (l : Logger) (L : Level)
    (msg : String) (hp : s.loggers[p]? = some l) (hpass : l.level ≤ L) :
    Logger.GetMessages (Logger.log env s p L msg) p =
      Logger.GetMessages s p ++ [Logger.lineOf env s.steps l L msg] ∧
    (Logger.log env s p L msg).stdout = s.stdout ++ [Logger.lineOf env s.steps l L msg ++ "\n"] ∧
    (Logger.log env s p L msg).files.length = s.files.length ∧
    (∀ g fg, s.files[g]? = some fg →
      ∃ fg1, (Logger.log env s p L msg).files[g]? = some fg1 ∧ fg1.closed = fg.closed ∧
        fg1.written = fg.written ++
          sinkGets l.file g fg (Logger.lineOf env s.steps l L msg ++ "\n") ++
          sinkGets (if L = ErrorLevel ∨ L = FatalLevel then l.errorFile else none) g fg
            (Logger.lineOf env s.steps l L msg ++ "\n")) ∧
    (∀ filename f, env.mkdirAll s.steps (env.filepathDir filename) = none →
      env.openFile s.steps (env.filepathClean filename) = .ok f →
      (Logger.WithFile env s p filename).2 ≠ p ∧
      (Logger.WithFile env s p filename).1.files = s.files ++ [openedFile env filename f] ∧
      ∃ c, (Logger.WithFile env s p filename).1.loggers[(Logger.WithFile env s p filename).2]?
          = some c ∧
        c.file = some s.files.length ∧ c.errorFile = l.errorFile ∧
        ∀ (L2 : Level) (msg2 : String) (g : FilePtr) (fg : File), c.level ≤ L2 →
          (Logger.WithFile env s p filename).1.files[g]? = some fg →
          ∃ fg1, (Logger.log env (Logger.WithFile env s p filename).1
                (Logger.WithFile env s p filename).2 L2 msg2).files[g]? = some fg1 ∧
            fg1.written = fg.written ++
              sinkGets (some s.files.length) g fg
                (Logger.lineOf env (s.steps + 2) c L2 msg2 ++ "\n") ++
              sinkGets (if L2 = ErrorLevel ∨ L2 = FatalLevel then l.errorFile else none) g fg
                (Logger.lineOf env (s.steps + 2) c L2 msg2 ++ "\n")) := by
  refine ⟨?_, log_stdout env s p l L msg hp hpass, log_files_length env s p L msg,
    fun g fg hg => log_sinks env s p l L msg hp hpass g fg hg, ?_⟩
  · rw [log_messages env s p l L msg hp, if_neg (not_lt.mpr hpass)]
    simp [Logger.GetMessages, hp]
  · intro filename f h1 h2
    rw [WithFile_ok env s p l filename f hp h1 h2]
    refine ⟨Nat.ne_of_gt (lt_length_of_getElem? hp), rfl, _, getElem?_append_length _ _, rfl,
      rfl, ?_⟩
    intro L2 msg2 g fg hpass2 hg
    obtain ⟨fg1, hfg1, -, hw⟩ := log_sinks env _ _ _ L2 msg2 (getElem?_append_length _ _)
      hpass2 g fg hg
    exact ⟨fg1, hfg1, hw⟩

/-- C12 on a logger whose primary sink holds `old`: a direct INFO message is appended to
that file; after `WithFile("other.log")` the INFO message of the new logger reaches the new
file at address 1 and leaves the file of the parent alone. -/
theorem C12_write_path_witness :
    fileState.loggers[0]? = some { rootLogger with file := some 0 } ∧
    rootLogger.level ≤ InfoLevel ∧
    (Logger.log sampleEnv fileState 0 InfoLevel "hi").stdout
      = fileState.stdout ++
          [Logger.lineOf sampleEnv fileState.steps { rootLogger with file := some 0 }
            InfoLevel "hi" ++ "\n"] ∧
    (Logger.log sampleEnv fileState 0 InfoLevel "hi").files.map (fun f => f.written)
      = [["old\n", "2024-05-06 07:08:09 [INFO] hi\n"]] ∧
    (Logger.WithFile sampleEnv fileState 0 "other.log").2 ≠ 0 ∧
    (Logger.log sampleEnv (Logger.WithFile sampleEnv fileState 0 "other.log").1
        (Logger.WithFile sampleEnv fileState 0 "other.log").2 InfoLevel "hi").files.map
        (fun f => f.written)
      = [["old\n"], ["2024-05-06 07:08:09 [INFO] hi\n"]] :=
  have h := C12_write_path sampleEnv fileState 0 { rootLogger with file := some 0 } InfoLevel
    "hi" rfl (by decide)
  ⟨rfl, by decide, h.2.1, by decide, (h.2.2.2.2 "other.log" _ rfl rfl).1, by decide⟩

/-! ## config.go -/

/-- The lookup lemma of the assignment loop, for maps of any value type. -/
theorem lookup_foldl_insert_any {β : Type} (xs : List (Sigma (fun _ : String => β)))
    (h : xs.NodupKeys) (d : AList (fun _ : String => β)) (k : String) :
    (xs.foldl (fun d e => d.insert e.1 e.2) d).lookup k = (xs.dlookup k).or (d.lookup k) := by
  induction xs generalizing d with
  | nil => simp
  | cons e xs ih =>
    rw [List.nodupKeys_cons] at h
    rw [List.foldl_cons, ih h.2]
    by_cases hk : k = e.1
    · subst hk
      have hnone : List.dlookup e.1 xs = none := List.dlookup_eq_none.mpr h.1
      have hhead : List.dlookup e.1 (e :: xs) = some e.2 := by
        cases e
        exact List.dlookup_cons_eq _ _ _
      rw [hnone, hhead]
      simp
    · rw [List.dlookup_cons_ne _ _ hk, AList.lookup_insert_ne hk]

theorem Override_nil (env : Env) (n : Nat) (c : Config) : c.Override env n none = c := rfl

theorem Override_Level (env : Env) (n : Nat) (c other : Config) :
    (c.Override env n (some other)).Level =
      if other.Level ≠ "" then other.Level else c.Level := by
  unfold Config.Override
  obtain ⟨ofiles, olevel⟩ := other
  cases ofiles <;> by_cases h : olevel = "" <;> simp [h]

theorem rangeStr_lookup (env : Env) (n : Nat) (src dst : StringMap) (k : String) :
    ((env.rangeOrderStr n src).foldl (fun d e => d.insert e.1 e.2) dst).lookup k
      = (src.lookup k).or (dst.lookup k) := by
  have hperm := env.rangeStr_perm n src
  have hnd : (env.rangeOrderStr n src).NodupKeys :=
    (List.perm_nodupKeys hperm).mpr src.nodupKeys
  rw [lookup_foldl_insert_any _ hnd, List.perm_dlookup k hnd src.nodupKeys hperm]
  rfl

theorem Override_file (env : Env) (n : Nat) (c other : Config) (k : String) :
    (c.Override env n (some other)).file? k = (other.file? k).or (c.file? k) := by
  unfold Config.Override Config.file?
  obtain ⟨ofiles, olevel⟩ := other
  obtain ⟨cfiles, clevel⟩ := c
  cases ofiles with
  | none => by_cases h : olevel = "" <;> simp [h]
  | some otherFiles =>
    by_cases h : olevel = "" <;> cases cfiles <;> simp [h, rangeStr_lookup]

/-- C15: `Config.Override(other)`. For a nil `other` the configuration is unchanged.
Otherwise the new Level is the Level of `other` when that is non-empty and the old Level
when it is empty, and the new Files maps every key of the Files of `other` to the value it
has there and every other key to its old value, so no key is removed. In particular, when
the Level of `other` is non-empty and every key of the old Files is a key of the Files of
`other`, the configuration has the Level of `other` and, key by key, the Files of
`other`. -/
theorem C15_Override (env : Env) (n : Nat) (c other : Config) :
    c.Override env n none = c ∧
    (c.Override env n (some other)).Level
      = (if other.Level ≠ "" then other.Level else c.Level) ∧
    (∀ k, (c.Override env n (some other)).file? k = (other.file? k).or (c.file? k)) ∧
    (other.Level ≠ "" → (∀ k, (c.file? k).isSome → (other.file? k).isSome) →
      (c.Override env n (some other)).Level = other.Level ∧
      ∀ k, (c.Override env n (some other)).file? k = other.file? k) := by
  refine ⟨rfl, Override_Level env n c other, Override_file env n c other, ?_⟩
  intro hl hkeys
  refine ⟨by rw [Override_Level, if_pos hl], fun k => ?_⟩
  rw [Override_file]
  cases ho : other.file? k with
  | some v => rfl
  | none =>
    cases hc : c.file? k with
    | none => rfl
    | some v =>
      have := hkeys k (by rw [hc]; rfl)
      rw [ho] at this
      cases this

theorem validLevels_getD (name : String) :
    (validLevels.lookup name).getD false = true ↔ ∃ L, (name, L) ∈ levelNames := by
  constructor
  · intro h
    by_contra hne
    have hn := fun L hL => hne ⟨L, hL⟩
    have h1 : name ≠ "debug" := fun e => hn DebugLevel (by simp [levelNames, e])
    have h2 : name ≠ "info" := fun e => hn InfoLevel (by simp [levelNames, e])
    have h3 : name ≠ "warning" := fun e => hn WarningLevel (by simp [levelNames, e])
    have h4 : name ≠ "error" := fun e => hn ErrorLevel (by simp [levelNames, e])
    have h5 : name ≠ "fatal" := fun e => hn FatalLevel (by simp [levelNames, e])
    rw [validLevels, AList.lookup_insert_ne h1, AList.lookup_insert_ne h2,
      AList.lookup_insert_ne h3, AList.lookup_insert_ne h4, AList.lookup_insert_ne h5,
      AList.lookup_empty] at h
    cases h
  · rintro ⟨L, hL⟩
    rcases (mem_levelNames name L).mp hL with ⟨h1, _⟩ | ⟨h1, _⟩ | ⟨h1, _⟩ | ⟨h1, _⟩ | ⟨h1, _⟩ <;>
      subst h1 <;> decide

/-- C16: `Config.Validate` returns no error exactly when the lower-cased Level is one of
the five recognized names and Files has the key `main`, whatever its value. When the Level
is not recognized the error is the level error, also when `main` is missing as well; when
only `main` is missing it is the error about the main file. -/
theorem C16_Validate (env : Env) (c : Config) :
    (c.Validate env = none ↔
      (∃ L, (stringsToLower env c.Level, L) ∈ levelNames) ∧ (c.file? "main").isSome) ∧
    ((∀ L, (stringsToLower env c.Level, L) ∉ levelNames) →
      c.Validate env = some ("некорректный уровень логирования: " ++ c.Level)) ∧
    ((∃ L, (stringsToLower env c.Level, L) ∈ levelNames) → c.file? "main" = none →
      c.Validate env = some "не указан путь к основному файлу лога") := by
  unfold Config.Validate Config.file?
  by_cases hv : (validLevels.lookup (stringsToLower env c.Level)).getD false = true
  · have hex := (validLevels_getD _).mp hv
    simp only [hv, not_true_eq_false, if_false]
    cases hm : c.Files.bind (fun m => m.lookup "main") with
    | none =>
      refine ⟨by simp, fun h => ?_, fun _ _ => rfl⟩
      obtain ⟨L, hL⟩ := hex
      exact absurd hL (h L)
    | some v =>
      refine ⟨by simp [hex], fun h => ?_, fun _ h => by cases h⟩
      obtain ⟨L, hL⟩ := hex
      exact absurd hL (h L)
  · have hne : ¬ ∃ L, (stringsToLower env c.Level, L) ∈ levelNames :=
      fun h => hv ((validLevels_getD _).mpr h)
    simp only [hv, not_false_eq_true, if_true]
    refine ⟨by simp [hne], fun _ => rfl, fun h => absurd h hne⟩

/-- The default configuration has no key but `main`. -/
theorem DefaultConfig_keys (k : String) (hk : k ≠ "main") : DefaultConfig.file? k = none := by
  unfold DefaultConfig Config.file?
  simp only [Option.some_bind]
  rw [AList.lookup_insert_ne hk]
  rfl

/-- C17: `DefaultConfig()` has Level `info`, its Files has the key `main`, mapped to the
empty string, and no other key (so no `error` entry), and it passes `Validate`. -/
theorem C17_DefaultConfig (env : Env) :
    DefaultConfig.Level = "info" ∧
    DefaultConfig.file? "main" = some "" ∧
    (∀ k, k ≠ "main" → DefaultConfig.file? k = none) ∧
    DefaultConfig.file? "error" = none ∧
    DefaultConfig.Validate env = none := by
  exact ⟨rfl, rfl, DefaultConfig_keys, rfl, rfl⟩

/-- C15 on the first case of the override test: the default configuration overridden by
level `debug` and two paths ends up with that level and those paths. -/
theorem C15_Override_witness :
    overrideConfig.Level ≠ "" ∧
    (∀ k, (DefaultConfig.file? k).isSome → (overrideConfig.file? k).isSome) ∧
    (DefaultConfig.Override sampleEnv 0 (some overrideConfig)).Level = "debug" ∧
    (DefaultConfig.Override sampleEnv 0 (some overrideConfig)).file? "main"
      = some "logs/main.log" ∧
    (DefaultConfig.Override sampleEnv 0 (some overrideConfig)).file? "error"
      = some "logs/error.log" :=
  have hkeys : ∀ k, (DefaultConfig.file? k).isSome → (overrideConfig.file? k).isSome := by
    intro k hk
    by_cases h : k = "main"
    · subst h
      decide
    · rw [(DefaultConfig_keys k h)] at hk
      cases hk
  have h := (C15_Override sampleEnv 0 DefaultConfig overrideConfig).2.2.2 (by decide) hkeys
  ⟨by decide, hkeys, h.1, h.2 "main", h.2 "error"⟩

/-- C16 on the three cases of the validation test. -/
theorem C16_Validate_witness :
    (∃ L, (stringsToLower sampleEnv DefaultConfig.Level, L) ∈ levelNames) ∧
    (DefaultConfig.file? "main").isSome ∧
    DefaultConfig.Validate sampleEnv = none ∧
    (∀ L, (stringsToLower sampleEnv "invalid", L) ∉ levelNames) ∧
    Config.Validate sampleEnv { Level := "invalid", Files := none }
      = some ("некорректный уровень логирования: " ++ "invalid") ∧
    Config.Validate sampleEnv { Level := "INFO", Files := some (AList.insert "error" "e.log" ∅) }
      = some "не указан путь к основному файлу лога" :=
  have hd : ∃ L, (stringsToLower sampleEnv DefaultConfig.Level, L) ∈ levelNames :=
    ⟨InfoLevel, by decide⟩
  have hno : ∀ L, (stringsToLower sampleEnv "invalid", L) ∉ levelNames :=
    not_mem_levelNames _ (by decide)
  ⟨hd, by decide, (C16_Validate sampleEnv DefaultConfig).1.mpr ⟨hd, by decide⟩, hno,
   (C16_Validate sampleEnv { Level := "invalid", Files := none }).2.1 hno,
   (C16_Validate sampleEnv
      { Level := "INFO", Files := some (AList.insert "error" "e.log" ∅) }).2.2
      ⟨InfoLevel, by decide⟩ rfl⟩

/-- C17 at the key `error`, which is not `main`. -/
theorem C17_DefaultConfig_witness :
    "error" ≠ "main" ∧ DefaultConfig.file? "error" = none :=
  ⟨by decide, (C17_DefaultConfig sampleEnv).2.2.1 "error" (by decide)⟩

/-! ## The test double: the root of a chain and level filtering -/

theorem parentsBelow_get (mocks : List MockLogger) (i j : Nat) (node : MockLogger) (q : Nat)
    (h : parentsBelow mocks i = true) (hj : mocks[j]? = some node) (hq : node.parent = some q) :
    q < i + j := by
  induction mocks generalizing i j with
  | nil => simp at hj
  | cons x rest ih =>
    simp only [parentsBelow, Bool.and_eq_true] at h
    cases j with
    | zero =>
      simp only [List.getElem?_cons_zero, Option.some.injEq] at hj
      subst hj
      rw [hq] at h
      simpa using h.1
    | succ j =>
      simp only [List.getElem?_cons_succ] at hj
      have := ih (i + 1) j h.2 hj
      omega

theorem MocksWF.parent_lt {s : State} (h : MocksWF s) {j : Nat} {node : MockLogger}
    {q : Nat} (hj : s.mocks[j]? = some node) (hq : node.parent = some q) : q < j := by
  have := parentsBelow_get s.mocks 0 j node q h hj hq
  omega

/-- In a well-formed heap the recursion of `getRootLogger` from a node on the heap ends at
a node without parent, within `m + 1` calls. -/
theorem getRootLoggerFuel_total (s : State) (hwf : MocksWF s) (m : Nat) :
    ∀ fuel, m < fuel → m < s.mocks.length →
      ∃ r root, getRootLoggerFuel s.mocks fuel m = some r ∧ s.mocks[r]? = some root ∧
        root.parent = none := by
  induction m using Nat.strong_induction_on with
  | _ m ih =>
    intro fuel hfuel hm
    cases fuel with
    | zero => omega
    | succ fuel =>
      obtain ⟨node, hnode⟩ : ∃ node, s.mocks[m]? = some node :=
        ⟨s.mocks[m], List.getElem?_eq_getElem hm⟩
      cases hpar : node.parent with
      | none =>
        refine ⟨m, node, ?_, hnode, hpar⟩
        simp [getRootLoggerFuel, hnode, hpar]
      | some q =>
        have hq : q < m := hwf.parent_lt hnode hpar
        have hq1 : q < fuel := Nat.lt_of_lt_of_le hq (Nat.lt_succ_iff.mp hfuel)
        have hq2 : q < s.mocks.length := Nat.lt_trans hq hm
        obtain ⟨r, root, h1, h2, h3⟩ := ih q hq fuel hq1 hq2
        refine ⟨r, root, ?_, h2, h3⟩
        simp [getRootLoggerFuel, hnode, hpar, h1]

/-- When `getRootLogger` returns, the loop of `collectChainData` ends as well. -/
theorem collectChainDataFuel_total (env : Env) (mocks : List MockLogger) :
    ∀ (fuel : Nat) (m r : MockPtr) (n : Nat) (pre : List String) (flds : Fields),
      getRootLoggerFuel mocks fuel m = some r →
      ∃ res, collectChainDataFuel env mocks fuel n (some m) pre flds = some res := by
  intro fuel
  induction fuel with
  | zero => intro m r n pre flds h; simp [getRootLoggerFuel] at h
  | succ fuel ih =>
    intro m r n pre flds h
    simp only [getRootLoggerFuel] at h
    cases hnode : mocks[m]? with
    | none => simp [hnode] at h
    | some node =>
      simp only [hnode] at h
      cases hpar : node.parent with
      | none =>
        simp [collectChainDataFuel, hnode, hpar]
      | some q =>
        simp only [hpar] at h
        obtain ⟨res, hres⟩ := ih q r (n + 1)
          (if node.pfx ≠ "" then node.pfx :: pre else pre)
          (rangeInsert env n node.fields flds) h
        refine ⟨res, ?_⟩
        simp only [collectChainDataFuel, hnode, hpar]
        exact hres

/-- What `log` and `logf` of the test double do, in terms of the root of the chain. -/
theorem mock_logArgs_spec (env : Env) (s : State) (n r : Nat) (root : MockLogger)
    (hroot : MockLogger.getRootLogger s n = some r) (hr : s.mocks[r]? = some root)
    (L : Level) (args : List Value) :
    (L < root.level → MockLogger.logArgs env s n L args = s) ∧
    (root.level ≤ L →
      ∃ line k, MockLogger.formatMessage env s n L args = some (line, k) ∧
        MockLogger.logArgs env s n L args =
          { s with steps := k,
                   mocks := s.mocks.set r { root with Messages := root.Messages ++ [line] } }) := by
  refine ⟨?_, ?_⟩
  · intro hlt
    simp [MockLogger.logArgs, hroot, hr, hlt]
  · intro hle
    obtain ⟨res, hres⟩ := collectChainDataFuel_total env s.mocks s.mocks.length n r s.steps [] ∅
      hroot
    obtain ⟨pre, flds, k⟩ := res
    have hcol : MockLogger.collectChainData env s n = some (pre, flds, k) := hres
    have hfm : ∃ line, MockLogger.formatMessage env s n L args = some (line, k + 1) := by
      simp [MockLogger.formatMessage, hcol]
    obtain ⟨line, hline⟩ := hfm
    refine ⟨line, k + 1, hline, ?_⟩
    simp [MockLogger.logArgs, hroot, hr, not_lt.mpr hle, hline]

theorem mock_logArgs_appends (env : Env) (s : State) (n r : Nat) (root : MockLogger)
    (hroot : MockLogger.getRootLogger s n = some r) (hr : s.mocks[r]? = some root)
    (L : Level) (args : List Value) (hle : root.level ≤ L) :
    ∃ line, (MockLogger.logArgs env s n L args).mocks[r]? =
      some { root with Messages := root.Messages ++ [line] } := by
  obtain ⟨line, k, -, h⟩ := (mock_logArgs_spec env s n r root hroot hr L args).2 hle
  refine ⟨line, ?_⟩
  rw [h]
  exact List.getElem?_set_self (lt_length_of_getElem? hr)

/-- When `getRootLogger` returns, its result lies on the parent chain of the node it started
from and has no parent. -/
theorem getRootLoggerFuel_chain (mocks : List MockLogger) :
    ∀ (fuel : Nat) (m r : MockPtr), getRootLoggerFuel mocks fuel m = some r →
      ParentChain mocks m r ∧ ∃ root, mocks[r]? = some root ∧ root.parent = none := by
  intro fuel
  induction fuel with
  | zero => intro m r h; simp [getRootLoggerFuel] at h
  | succ fuel ih =>
    intro m r h
    simp only [getRootLoggerFuel] at h
    cases hnode : mocks[m]? with
    | none => simp [hnode] at h
    | some node =>
      simp only [hnode] at h
      cases hpar : node.parent with
      | none =>
        simp only [hpar, Option.some.injEq] at h
        subst h
        exact ⟨.here m node hnode, node, hnode, hpar⟩
      | some q =>
        simp only [hpar] at h
        obtain ⟨hc, hroot⟩ := ih q r h
        exact ⟨.up m q r node hnode hpar hc, hroot⟩

/-- A parent chain has one node without parent at most. -/
theorem ParentChain.root_unique {mocks : List MockLogger} {n r1 : MockPtr}
    (h1 : ParentChain mocks n r1) :
    ∀ (r2 : MockPtr) (root1 root2 : MockLogger), ParentChain mocks n r2 →
      mocks[r1]? = some root1 → root1.parent = none →
      mocks[r2]? = some root2 → root2.parent = none → r1 = r2 := by
  induction h1 with
  | here n node hnode =>
    intro r2 root1 root2 h2 hr1 hp1 hr2 hp2
    cases h2 with
    | here _ _ _ => rfl
    | up _ q _ node2 hnode2 hpar2 _ =>
      rw [hnode] at hr1 hnode2
      cases hr1
      cases hnode2
      rw [hp1] at hpar2
      cases hpar2
  | up n q r node hnode hpar hc ih =>
    intro r2 root1 root2 h2 hr1 hp1 hr2 hp2
    cases h2 with
    | here _ node2 hnode2 =>
      rw [hnode] at hr2
      cases hr2
      rw [hpar] at hp2
      cases hp2
    | up _ q2 _ node2 hnode2 hpar2 hc2 =>
      rw [hnode] at hnode2
      cases hnode2
      rw [hpar] at hpar2
      cases hpar2
      exact ih r2 root1 root2 hc2 hr1 hp1 hr2 hp2

/-- The recursion of `getRootLogger` does not read the level of a node. -/
theorem getRootLoggerFuel_set_level (mocks : List MockLogger) (n : MockPtr) (node : MockLogger)
    (v : Level) (hn : mocks[n]? = some node) :
    ∀ (fuel : Nat) (m : MockPtr),
      getRootLoggerFuel (mocks.set n { node with level := v }) fuel m =
        getRootLoggerFuel mocks fuel m := by
  have hlt := lt_length_of_getElem? hn
  intro fuel
  induction fuel with
  | zero => intro m; rfl
  | succ fuel ih =>
    intro m
    simp only [getRootLoggerFuel]
    by_cases hm : n = m
    · subst hm
      rw [List.getElem?_set_self hlt, hn]
      simp only
      generalize mocks.set n { node with level := v } = changed at ih ⊢
      cases node.parent with
      | none => rfl
      | some q => exact ih q
    · rw [List.getElem?_set_ne hm]
      cases mocks[m]? with
      | none => rfl
      | some x =>
        simp only
        cases x.parent with
        | none => rfl
        | some q => exact ih q

/-- The loop of `collectChainData` does not read the level of a node. -/
theorem collectChainDataFuel_set_level (env : Env) (mocks : List MockLogger) (n : MockPtr)
    (node : MockLogger) (v : Level) (hn : mocks[n]? = some node) :
    ∀ (fuel k : Nat) (cur : Option MockPtr) (pre : List String) (flds : Fields),
      collectChainDataFuel env (mocks.set n { node with level := v }) fuel k cur pre flds =
        collectChainDataFuel env mocks fuel k cur pre flds := by
  have hlt := lt_length_of_getElem? hn
  intro fuel
  induction fuel with
  | zero =>
    intro k cur pre flds
    cases cur <;> rfl
  | succ fuel ih =>
    intro k cur pre flds
    cases cur with
    | none => rfl
    | some m =>
      simp only [collectChainDataFuel]
      by_cases hm : n = m
      · subst hm
        rw [List.getElem?_set_self hlt, hn]
        exact ih _ _ _ _
      · rw [List.getElem?_set_ne hm]
        cases mocks[m]? with
        | none => rfl
        | some x => exact ih _ _ _ _

/-- The level of a node that is not the root of its chain plays no part in `log`: with
another value in that field, the root ends with the same content. -/
theorem mock_logArgs_withMockLevel (env : Env) (s : State) (n r : MockPtr) (hnr : n ≠ r)
    (hr : MockLogger.getRootLogger s n = some r) (v : Level) (L : Level) (args : List Value) :
    (MockLogger.logArgs env (s.withMockLevel n v) n L args).mocks[r]? =
      (MockLogger.logArgs env s n L args).mocks[r]? := by
  unfold State.withMockLevel State.modifyMock
  cases hn : s.mocks[n]? with
  | none => rfl
  | some node =>
    simp only
    have hroot : MockLogger.getRootLogger
        { s with mocks := s.mocks.set n { node with level := v } } n = some r := by
      rw [← hr]
      simp only [MockLogger.getRootLogger, List.length_set]
      exact getRootLoggerFuel_set_level s.mocks n node v hn _ _
    have hfm : MockLogger.formatMessage env
        { s with mocks := s.mocks.set n { node with level := v } } n L args =
        MockLogger.formatMessage env s n L args := by
      simp only [MockLogger.formatMessage, MockLogger.collectChainData, List.length_set]
      rw [collectChainDataFuel_set_level env s.mocks n node v hn]
    unfold MockLogger.logArgs
    rw [hroot, hfm, hr]
    simp only
    rw [List.getElem?_set_ne hnr]
    cases hroot0 : s.mocks[r]? with
    | none => simp only; exact List.getElem?_set_ne hnr
    | some root0 =>
      simp only
      have h1 : r < s.mocks.length := lt_length_of_getElem? hroot0
      split
      · exact List.getElem?_set_ne hnr
      · cases MockLogger.formatMessage env s n L args with
        | none => simp only; exact List.getElem?_set_ne hnr
        | some res =>
          simp only
          rw [List.getElem?_set_self (by simpa using h1), List.getElem?_set_self h1]

/-- C20: level filtering in the test double consults only the root of the parent chain.
In a well-formed heap every node `n` has a root: a node that lies on the parent chain of
`n` and has no parent. For every such node `r`, it is the node that `getRootLogger`
returns; a message logged through `n` at level `L`, by `log` or by `logf`, leaves the state
unchanged when `L` is below the level of `r`, and otherwise appends exactly one entry, the
line built by `formatMessage`, to the Messages of `r`. The level field of `n` itself plays
no part: when `n` is not the root, the root ends with the same content whatever value `v`
that field holds. -/
theorem C20_mock_level_filter (env : Env) (s : State) (n : Nat) (hwf : MocksWF s)
    (hn : n < s.mocks.length) (L : Level) (args : List Value) (format : String) :
    (∃ r root, ParentChain s.mocks n r ∧ s.mocks[r]? = some root ∧ root.parent = none) ∧
    ∀ r root, ParentChain s.mocks n r → s.mocks[r]? = some root → root.parent = none →
      MockLogger.getRootLogger s n = some r ∧
      (L < root.level →
        MockLogger.log env s n L args = s ∧ MockLogger.logf env s n L format args = s) ∧
      (root.level ≤ L →
        (∃ line k, MockLogger.formatMessage env s n L args = some (line, k) ∧
          MockLogger.log env s n L args =
            { s with steps := k,
                     mocks := s.mocks.set r { root with Messages := root.Messages ++ [line] } }) ∧
        (∃ line k, MockLogger.formatMessage env s n L
            [Value.ofString (env.sprintf format args)] = some (line, k) ∧
          MockLogger.logf env s n L format args =
            { s with steps := k,
                     mocks := s.mocks.set r { root with Messages := root.Messages ++ [line] } })) ∧
      (n ≠ r → ∀ v,
        (MockLogger.log env (s.withMockLevel n v) n L args).mocks[r]? =
          (MockLogger.log env s n L args).mocks[r]? ∧
        (MockLogger.logf env (s.withMockLevel n v) n L format args).mocks[r]? =
          (MockLogger.logf env s n L format args).mocks[r]?) := by
  obtain ⟨r0, root0, h1, h2, h3⟩ := getRootLoggerFuel_total s hwf n s.mocks.length hn hn
  have hc0 := (getRootLoggerFuel_chain s.mocks _ n r0 h1).1
  refine ⟨⟨r0, root0, hc0, h2, h3⟩, ?_⟩
  intro r root hc hr hp
  have hrr : r0 = r := hc0.root_unique r root0 root hc h2 h3 hr hp
  subst hrr
  have h1 : MockLogger.getRootLogger s n = some r0 := h1
  refine ⟨h1, fun hlt => ⟨?_, ?_⟩, fun hle => ⟨?_, ?_⟩, fun hne v => ⟨?_, ?_⟩⟩
  · exact (mock_logArgs_spec env s n r0 root h1 hr L args).1 hlt
  · exact (mock_logArgs_spec env s n r0 root h1 hr L _).1 hlt
  · exact (mock_logArgs_spec env s n r0 root h1 hr L args).2 hle
  · exact (mock_logArgs_spec env s n r0 root h1 hr L _).2 hle
  · exact mock_logArgs_withMockLevel env s n r0 hne h1 v L args
  · exact mock_logArgs_withMockLevel env s n r0 hne h1 v L _

/-- C20 on a heap with two roots: the child at address 2, of level DEBUG, has the root at
address 1, of level ERROR, and not the root at address 0, of level DEBUG. An INFO message
through the child is dropped; an ERROR message is appended to the root at address 1; and
with the level FATAL in the child the same ERROR message reaches the root all the same. -/
theorem C20_mock_level_filter_witness :
    MocksWF forestMocks ∧ 2 < forestMocks.mocks.length ∧
    (forestMocks.mocks.map fun node => (node.parent, node.level))
      = [(none, DebugLevel), (none, ErrorLevel), (some 1, DebugLevel)] ∧
    ParentChain forestMocks.mocks 2 1 ∧
    MockLogger.getRootLogger forestMocks 2 = some 1 ∧
    MockLogger.log sampleEnv forestMocks 2 InfoLevel [Value.ofString "x"] = forestMocks ∧
    (MockLogger.log sampleEnv forestMocks 2 ErrorLevel [Value.ofString "x"]).mocks.map
      (fun node => node.Messages) = [[], ["[ERROR] db x"], []] ∧
    (MockLogger.log sampleEnv (forestMocks.withMockLevel 2 FatalLevel) 2 ErrorLevel
      [Value.ofString "x"]).mocks[1]? =
      (MockLogger.log sampleEnv forestMocks 2 ErrorLevel [Value.ofString "x"]).mocks[1]? :=
  have hroot : forestMocks.mocks[1]? = some
      { Messages := [], fields := ∅, level := ErrorLevel, osExitFunc := 0, pfx := "",
        parent := none, exitCode := 0, hasFile := false } := by decide
  have hchild : forestMocks.mocks[2]? = some
      { Messages := [], fields := ∅, level := DebugLevel, osExitFunc := 0, pfx := "db",
        parent := some 1, exitCode := 0, hasFile := false } := by decide
  have hchain : ParentChain forestMocks.mocks 2 1 :=
    .up 2 1 1 _ hchild rfl (.here 1 _ hroot)
  have hI := (C20_mock_level_filter sampleEnv forestMocks 2 (by decide) (by decide) InfoLevel
    [Value.ofString "x"] "").2 1 _ hchain hroot rfl
  have hE := (C20_mock_level_filter sampleEnv forestMocks 2 (by decide) (by decide) ErrorLevel
    [Value.ofString "x"] "").2 1 _ hchain hroot rfl
  ⟨by decide, by decide, by decide, hchain, hI.1, (hI.2.1 (by decide)).1, by decide,
   (hE.2.2.2 (by decide) FatalLevel).1⟩

/-! ## The test double: inherited fields and their rendering -/

/-- A map with at most one entry is iterated in one way only. -/
theorem rangeOrder_small (env : Env) (n : Nat) (m : Fields) (h : m.entries.length ≤ 1) :
    env.rangeOrder n m = m.entries := by
  have hperm := env.range_perm n m
  match hm : m.entries with
  | [] => rw [hm] at hperm; exact List.perm_nil.mp hperm
  | [e] => rw [hm] at hperm; exact List.perm_singleton.mp hperm
  | _ :: _ :: _ => rw [hm] at h; simp at h

/-- C19 fails on the code: after `NewMockLogger().WithFields(f1).WithFields(f2)` where
both maps bind the key `k` (to `1` in `f1`, to `2` in `f2`), `Info("msg")` on the last logger
records the line with `k=1`: the value of the ancestor wins, for every iteration order of
the maps, while the production `Logger.WithFields` lets the later call win. -/
theorem C19_failing_input (env : Env) :
    (AList.singleton "k" (Value.ofString "1") : Fields).lookup "k" = some (Value.ofString "1") ∧
    (AList.singleton "k" (Value.ofString "2") : Fields).lookup "k" = some (Value.ofString "2") ∧
    MockLogger.GetMessages
      (MockLogger.Info env
        (overrideMocks (AList.singleton "k" (Value.ofString "1"))
          (AList.singleton "k" (Value.ofString "2"))) 2 [Value.ofString "msg"]) 0
      = ["[INFO] msg [k=1]"] := by
  refine ⟨by decide, by decide, ?_⟩
  have h1 : ∀ n, env.rangeOrder n (AList.singleton "k" (Value.ofString "1"))
      = [⟨"k", Value.ofString "1"⟩] :=
    fun n => rangeOrder_small env n _ (by decide)
  have h2 : ∀ n, env.rangeOrder n (AList.singleton "k" (Value.ofString "2"))
      = [⟨"k", Value.ofString "2"⟩] :=
    fun n => rangeOrder_small env n _ (by decide)
  have h0 : ∀ n, env.rangeOrder n ∅ = [] :=
    fun n => rangeOrder_small env n _ (by decide)
  have hcol : MockLogger.collectChainData env
      (overrideMocks (AList.singleton "k" (Value.ofString "1"))
        (AList.singleton "k" (Value.ofString "2"))) 2
      = some ([], AList.singleton "k" (Value.ofString "1"), 3) := by
    simp [MockLogger.collectChainData, overrideMocks, MockLogger.WithFields, NewMockLogger,
      emptyState, State.allocMock, collectChainDataFuel, rangeInsert, h1, h2, h0]
  have hfmt : MockLogger.formatMessage env
      (overrideMocks (AList.singleton "k" (Value.ofString "1"))
        (AList.singleton "k" (Value.ofString "2"))) 2 InfoLevel [Value.ofString "msg"]
      = some ("[INFO] msg [k=1]", 4) := by
    unfold MockLogger.formatMessage
    rw [hcol]
    simp only [h1]
    decide
  have hroot : MockLogger.getRootLogger
      (overrideMocks (AList.singleton "k" (Value.ofString "1"))
        (AList.singleton "k" (Value.ofString "2"))) 2 = some 0 := by
    decide
  simp only [MockLogger.Info, MockLogger.log, MockLogger.logArgs, hroot, hfmt]
  decide

theorem char_eq_of_toNat_eq {a b : Char} (h : a.toNat = b.toNat) : a = b := by
  rw [← Char.ofNat_toNat a, ← Char.ofNat_toNat b, h]

theorem runesLE_refl (a : List Char) : runesLE a a = true := by
  induction a with
  | nil => rfl
  | cons x xs ih => simp [runesLE, ih]

theorem runesLE_total (a b : List Char) : runesLE a b = true ∨ runesLE b a = true := by
  induction a generalizing b with
  | nil => exact Or.inl rfl
  | cons x xs ih =>
    cases b with
    | nil => exact Or.inr rfl
    | cons y ys =>
      simp only [runesLE]
      by_cases h1 : x.toNat < y.toNat
      · simp [h1]
      · by_cases h2 : y.toNat < x.toNat
        · simp [h2]
        · simp only [h1, h2, if_false]
          exact ih ys

theorem runesLE_trans (a b c : List Char) (h1 : runesLE a b = true) (h2 : runesLE b c = true) :
    runesLE a c = true := by
  induction a generalizing b c with
  | nil => rfl
  | cons x xs ih =>
    cases b with
    | nil => simp [runesLE] at h1
    | cons y ys =>
      cases c with
      | nil => simp [runesLE] at h2
      | cons z zs =>
        simp only [runesLE] at h1 h2 ⊢
        by_cases hxy : x.toNat < y.toNat
        · by_cases hyz : y.toNat < z.toNat
          · have : x.toNat < z.toNat := by omega
            simp [this]
          · by_cases hzy : z.toNat < y.toNat
            · simp [hyz, hzy] at h2
            · have : x.toNat < z.toNat := by omega
              simp [this]
        · by_cases hyx : y.toNat < x.toNat
          · simp [hxy, hyx] at h1
          · simp only [hxy, hyx, if_false] at h1
            by_cases hyz : y.toNat < z.toNat
            · have : x.toNat < z.toNat := by omega
              simp [this]
            · by_cases hzy : z.toNat < y.toNat
              · simp [hyz, hzy] at h2
              · simp only [hyz, hzy, if_false] at h2
                have e1 : ¬ x.toNat < z.toNat := by omega
                have e2 : ¬ z.toNat < x.toNat := by omega
                simp only [e1, e2, if_false]
                exact ih ys zs h1 h2

theorem runesLE_antisymm (a b : List Char) (h1 : runesLE a b = true) (h2 : runesLE b a = true) :
    a = b := by
  induction a generalizing b with
  | nil =>
    cases b with
    | nil => rfl
    | cons y ys => simp [runesLE] at h2
  | cons x xs ih =>
    cases b with
    | nil => simp [runesLE] at h1
    | cons y ys =>
      simp only [runesLE] at h1 h2
      by_cases hxy : x.toNat < y.toNat
      · have : ¬ y.toNat < x.toNat := by omega
        simp [hxy, this] at h2
      · by_cases hyx : y.toNat < x.toNat
        · simp [hxy, hyx] at h1
        · simp only [hxy, hyx, if_false] at h1 h2
          have hc : x = y := char_eq_of_toNat_eq (by omega)
          rw [hc, ih ys h1 h2]

instance goStringLE_isTotal : IsTotal String goStringLE :=
  ⟨fun a b => runesLE_total a.data b.data⟩

instance goStringLE_isTrans : IsTrans String goStringLE :=
  ⟨fun a b c h1 h2 => runesLE_trans a.data b.data c.data h1 h2⟩

instance goStringLE_isAntisymm : IsAntisymm String goStringLE :=
  ⟨fun a b h1 h2 => String.ext (runesLE_antisymm a.data b.data h1 h2)⟩

theorem sortStrings_sorted (xs : List String) : (sortStrings xs).Sorted goStringLE :=
  List.sorted_insertionSort goStringLE xs

theorem sortStrings_perm (xs : List String) : (sortStrings xs).Perm xs :=
  List.perm_insertionSort goStringLE xs

/-- Two keys compare as their renderings do, provided that a key which extends the other
continues with a character above `=`. -/
theorem runesLE_render (k1 k2 v1 v2 : List Char) (hle : runesLE k1 k2 = true) (hne : k1 ≠ k2)
    (hsafe : ∀ c rest, k2 = k1 ++ c :: rest → '='.toNat < c.toNat) :
    runesLE (k1 ++ '=' :: v1) (k2 ++ '=' :: v2) = true := by
  induction k1 generalizing k2 with
  | nil =>
    cases k2 with
    | nil => exact absurd rfl hne
    | cons c rest =>
      have h61 : '='.toNat < c.toNat := hsafe c rest rfl
      simp only [List.nil_append, runesLE, List.cons_append, h61, if_true]
  | cons x xs ih =>
    cases k2 with
    | nil => simp [runesLE] at hle
    | cons y ys =>
      simp only [runesLE, List.cons_append] at hle ⊢
      by_cases hxy : x.toNat < y.toNat
      · simp [hxy]
      · by_cases hyx : y.toNat < x.toNat
        · simp [hxy, hyx] at hle
        · simp only [hxy, hyx, if_false] at hle ⊢
          have hc : x = y := char_eq_of_toNat_eq (by omega)
          subst hc
          refine ih ys hle (fun h => hne (by rw [h])) ?_
          intro c rest h
          exact hsafe c rest (by rw [h]; rfl)

theorem safePair_spec (k1 k2 : List Char) (h : safePair k1 k2 = true) (c : Char)
    (rest : List Char) (hk : k2 = k1 ++ c :: rest) : '='.toNat < c.toNat := by
  induction k1 generalizing k2 with
  | nil =>
    subst hk
    simpa [safePair] using h
  | cons x xs ih =>
    subst hk
    simp only [List.cons_append, safePair, if_true] at h
    exact ih _ h rfl

instance keyLE_isTotal : IsTotal Entry keyLE :=
  ⟨fun a b => runesLE_total a.1.data b.1.data⟩

instance keyLE_isTrans : IsTrans Entry keyLE :=
  ⟨fun a b c h1 h2 => runesLE_trans a.1.data b.1.data c.1.data h1 h2⟩

theorem renderField_data (e : Entry) :
    (renderField e).data = e.1.data ++ '=' :: e.2.text.data := by
  simp [renderField, String.data_append]

theorem render_le_of_keyLE (m : Fields) (hsafe : KeysSortSafe m) (a b : Entry)
    (ha : a ∈ m.entries) (hb : b ∈ m.entries) (h : keyLE a b) :
    goStringLE (renderField a) (renderField b) := by
  unfold goStringLE
  by_cases hk : a.1 = b.1
  · have hab : a = b := by
      obtain ⟨ka, va⟩ := a
      obtain ⟨kb, vb⟩ := b
      simp only at hk
      subst hk
      rw [m.nodupKeys.eq_of_mk_mem ha hb]
    rw [hab]
    exact runesLE_refl _
  · rw [renderField_data, renderField_data]
    refine runesLE_render _ _ _ _ h (fun hd => hk (String.ext hd)) ?_
    intro c rest hrest
    exact safePair_spec _ _ (hsafe a ha b hb) c rest hrest

/-- Under `KeysSortSafe`, sorting the renderings is rendering the entries sorted by key. -/
theorem sortStrings_render (m : Fields) (hsafe : KeysSortSafe m) (order : List Entry)
    (hperm : order.Perm m.entries) :
    sortStrings (order.map renderField)
      = (m.entries.insertionSort keyLE).map renderField := by
  have hp1 : (m.entries.insertionSort keyLE).Perm m.entries := List.perm_insertionSort keyLE _
  refine List.eq_of_perm_of_sorted ?_ (sortStrings_sorted _) ?_
  · exact (sortStrings_perm _).trans ((hperm.map renderField).trans (hp1.map renderField).symm)
  · rw [List.Sorted, List.pairwise_map]
    have hs : (m.entries.insertionSort keyLE).Pairwise keyLE := List.sorted_insertionSort keyLE _
    refine hs.imp_of_mem ?_
    intro a b ha hb hab
    exact render_le_of_keyLE m hsafe a b (hp1.mem_iff.mp ha) (hp1.mem_iff.mp hb) hab

theorem keys_strictly_ascending (m : Fields) :
    (m.entries.insertionSort keyLE).Pairwise (fun a b => keyLE a b ∧ a.1 ≠ b.1) := by
  have hp1 : (m.entries.insertionSort keyLE).Perm m.entries := List.perm_insertionSort keyLE _
  have hs : (m.entries.insertionSort keyLE).Pairwise keyLE := List.sorted_insertionSort keyLE _
  have hnd : (m.entries.insertionSort keyLE).NodupKeys :=
    (List.perm_nodupKeys hp1).mpr m.nodupKeys
  exact hs.and (List.nodupKeys_iff_pairwise.mp hnd)

theorem trimSuffix_newline (x : String) : stringsTrimSuffix (x ++ "\n") "\n" = x := by
  unfold stringsTrimSuffix
  have h1 : ("\n" : String).data = ['\n'] := rfl
  have h2 : (['\n'] : List Char).isSuffixOf (x.data ++ ['\n']) = true := by
    rw [List.isSuffixOf_iff_suffix]
    exact List.suffix_append _ _
  simp [String.data_append, h1, h2]

/-- The message part of a line of the test double: the operands separated by spaces. -/
theorem mock_msg (args : List Value) :
    stringsTrimSuffix (Sprintln args) "\n" = stringsJoin (args.map fun v => v.text) " " := by
  unfold Sprintln
  exact trimSuffix_newline _

/-- The line built by `MockLogger.formatMessage`, spelled out. -/
theorem mock_formatMessage_eq (env : Env) (s : State) (m : MockPtr) (L : Level)
    (args : List Value) (pre : List String) (allFields : Fields) (k : Nat)
    (hcol : MockLogger.collectChainData env s m = some (pre, allFields, k)) :
    MockLogger.formatMessage env s m L args =
      some (getLevelString L ++ " "
          ++ (if pre ≠ [] then stringsJoin pre "." ++ " " else "")
          ++ stringsJoin (args.map fun v => v.text) " "
          ++ (if allFields.entries ≠ [] then
                " [" ++ stringsJoin (sortStrings ((env.rangeOrder k allFields).map renderField)) " "
                  ++ "]"
              else ""),
        k + 1) := by
  unfold MockLogger.formatMessage
  rw [hcol, mock_msg]
  have hb : ∀ x : String, " " ++ ("[" ++ x) = " [" ++ x := fun x => by
    rw [← String.append_assoc]; rfl
  have hr : (fun e : Entry => e.1 ++ "=" ++ e.2.text) = renderField := rfl
  simp only [hr]
  by_cases hp : pre = [] <;> by_cases hf : allFields.entries = [] <;>
    simp [hp, hf, stringsJoin, String.append_assoc, List.length_pos, hb]

/-- In a well-formed heap `collectChainData` returns for every node on the heap. -/
theorem collectChainData_total (env : Env) (s : State) (m : Nat) (hwf : MocksWF s)
    (hm : m < s.mocks.length) :
    ∃ pre allFields k, MockLogger.collectChainData env s m = some (pre, allFields, k) := by
  obtain ⟨r, _, h1, -, -⟩ := getRootLoggerFuel_total s hwf m s.mocks.length hm hm
  obtain ⟨⟨pre, allFields, k⟩, hres⟩ :=
    collectChainDataFuel_total env s.mocks s.mocks.length m r s.steps [] ∅ h1
  exact ⟨pre, allFields, k, hres⟩

/-- C18 (amended): the test double renders the fields in increasing order of their
renderings. In a well-formed heap, for every node, `collectChainData` returns the
inherited fields, and the formatted message ends with the bracketed list, separated by
spaces, of the `key=value` renderings of these fields, each once, in increasing
lexicographic order of the renderings themselves (`sort.Strings` on the rendered parts).
This is the increasing order of the keys whenever no key of the map, continued by a
character that is `=` or below it, is the beginning of another key. -/
theorem C18_mock_sorted_fields (env : Env) (s : State) (m : Nat) (hwf : MocksWF s)
    (hm : m < s.mocks.length) (L : Level) (args : List Value) :
    ∃ pre allFields k sorted,
      MockLogger.collectChainData env s m = some (pre, allFields, k) ∧
      sorted.Perm (allFields.entries.map renderField) ∧
      sorted.Sorted goStringLE ∧
      (allFields.entries ≠ [] →
        MockLogger.formatMessage env s m L args =
          some (getLevelString L ++ " "
              ++ (if pre ≠ [] then stringsJoin pre "." ++ " " else "")
              ++ stringsJoin (args.map fun v => v.text) " "
              ++ " [" ++ stringsJoin sorted " " ++ "]",
            k + 1)) ∧
      (KeysSortSafe allFields →
        ∃ es : List Entry, es.Perm allFields.entries ∧
          es.Pairwise (fun a b => keyLE a b ∧ a.1 ≠ b.1) ∧
          sorted = es.map renderField) := by
  obtain ⟨pre, allFields, k, hcol⟩ := collectChainData_total env s m hwf hm
  refine ⟨pre, allFields, k, sortStrings ((env.rangeOrder k allFields).map renderField), hcol,
    ?_, sortStrings_sorted _, ?_, ?_⟩
  · exact (sortStrings_perm _).trans ((env.range_perm k allFields).map renderField)
  · intro hne
    rw [mock_formatMessage_eq env s m L args pre allFields k hcol, if_pos hne]
    simp [String.append_assoc]
  · intro hsafe
    exact ⟨allFields.entries.insertionSort keyLE, List.perm_insertionSort keyLE _,
      keys_strictly_ascending allFields,
      sortStrings_render allFields hsafe _ (env.range_perm k allFields)⟩

/-- C18 as stated fails on the code: with the keys `a` and `a1`, the key `a` comes first in
lexicographic order, yet the field `a1=2` is rendered before the field `a=1`. -/
theorem C18_counterexample :
    goStringLE "a" "a1" ∧ ¬ goStringLE "a1" "a" ∧
    MockLogger.GetMessages
      (MockLogger.Info sampleEnv
        (fieldMocks (AList.insert "a" (Value.ofInt 1) (AList.insert "a1" (Value.ofInt 2) ∅)))
        1 [Value.ofString "m"]) 0
      = ["[INFO] m [a1=2 a=1]"] := by
  decide

/-- C18 (amended) on the fields of the test of the complex scenario: `user` and `version`
are rendered once each, in the order of their keys. -/
theorem C18_mock_sorted_fields_witness :
    MocksWF (fieldMocks (AList.insert "version" (Value.ofString "1.0")
      (AList.insert "user" (Value.ofString "admin") ∅))) ∧
    1 < (fieldMocks (AList.insert "version" (Value.ofString "1.0")
      (AList.insert "user" (Value.ofString "admin") ∅))).mocks.length ∧
    ∃ sorted : List String,
      MockLogger.formatMessage sampleEnv
        (fieldMocks (AList.insert "version" (Value.ofString "1.0")
          (AList.insert "user" (Value.ofString "admin") ∅))) 1 InfoLevel [Value.ofString "m"]
        = some ("[INFO] m [" ++ stringsJoin sorted " " ++ "]", 3) ∧
      sorted.Perm ["user=admin", "version=1.0"] ∧
      sorted.Sorted goStringLE ∧
      ∃ es : List Entry,
        es.Pairwise (fun a b => keyLE a b ∧ a.1 ≠ b.1) ∧ sorted = es.map renderField := by
  refine ⟨by decide, by decide, ?_⟩
  obtain ⟨pre, allFields, k, sorted, hcol, hperm, hsorted, hfmt, hkeys⟩ :=
    C18_mock_sorted_fields sampleEnv
      (fieldMocks (AList.insert "version" (Value.ofString "1.0")
        (AList.insert "user" (Value.ofString "admin") ∅))) 1 (by decide) (by decide)
      InfoLevel [Value.ofString "m"]
  have hcol2 : MockLogger.collectChainData sampleEnv
      (fieldMocks (AList.insert "version" (Value.ofString "1.0")
        (AList.insert "user" (Value.ofString "admin") ∅))) 1
      = some ([], AList.insert "user" (Value.ofString "admin")
          (AList.insert "version" (Value.ofString "1.0") ∅), 2) := by
    decide
  rw [hcol2] at hcol
  simp only [Option.some.injEq, Prod.mk.injEq] at hcol
  obtain ⟨rfl, rfl, rfl⟩ := hcol
  obtain ⟨es, -, hpw, hes⟩ := hkeys (by decide)
  exact ⟨sorted, hfmt (by decide), hperm, hsorted, es, hpw, hes⟩



/-! ## global.go: the registry and the package-level functions -/

/-- With the global unset, `GetGlobalLogger` allocates the logger of `New` and does not
store it. -/
theorem GetGlobalLogger_unset (env : Env) (s : State) (h : s.globalLogger = none) :
    GetGlobalLogger env s =
      ({ s with loggers := s.loggers ++ [rootLogger] }, .logger s.loggers.length) := by
  simp only [GetGlobalLogger, h, New_eq]

/-- With the global set, `GetGlobalLogger` returns it and changes nothing. -/
theorem GetGlobalLogger_set (env : Env) (s : State) (g : ILogger)
    (h : s.globalLogger = some g) : GetGlobalLogger env s = (s, g) := by
  simp only [GetGlobalLogger, h]

/-- The state after the package-level `Info` while the global is unset. -/
theorem Info_unset (env : Env) (s : State) (args : List Value) (h : s.globalLogger = none) :
    Info env s args =
      { s with
        steps := s.steps + 1,
        loggers := s.loggers ++
          [{ rootLogger with
              messages := [Logger.lineOf env s.steps rootLogger InfoLevel (Sprint args)] }],
        stdout := s.stdout ++
          [Logger.lineOf env s.steps rootLogger InfoLevel (Sprint args) ++ "\n"] } := by
  have hp : ({ s with loggers := s.loggers ++ [rootLogger] } : State).loggers[s.loggers.length]?
      = some rootLogger := by
    simp
  rw [Info, GetGlobalLogger_unset env s h]
  simp only [ILogger.Info, Logger.Info]
  rw [log_eq env _ _ rootLogger InfoLevel (Sprint args) hp (by decide)]
  simp [State.writeSink, rootLogger, InfoLevel, ErrorLevel, FatalLevel]

/-- C13: the global registry. After `SetGlobalLogger(l)` with a non-nil `l`,
`GetGlobalLogger()` returns `l` and changes nothing. Setting nil unsets the global. While
the global is unset, `GetGlobalLogger()` allocates a new logger (at an address that held no
logger before) with the contents that `New` gives it, returns it, and leaves the global
unset; so the package-level `Info` records its line in a logger of its own, leaves the
global unset, and the logger that a later `GetGlobalLogger()` returns is another one, whose
`GetMessages()` is empty. -/
theorem C13_global_registry (env : Env) (s t : State) (l : ILogger) (args : List Value)
    (hunset : s.globalLogger = none) :
    GetGlobalLogger env (SetGlobalLogger t (some l)) = (SetGlobalLogger t (some l), l) ∧
    (SetGlobalLogger t none).globalLogger = none ∧
    (GetGlobalLogger env s).2 = .logger s.loggers.length ∧
    s.loggers[s.loggers.length]? = none ∧
    (GetGlobalLogger env s).1.loggers[s.loggers.length]? = some rootLogger ∧
    (GetGlobalLogger env s).1 = { s with loggers := s.loggers ++ [rootLogger] } ∧
    (GetGlobalLogger env s).1.globalLogger = none ∧
    (Info env s args).globalLogger = none ∧
    Logger.GetMessages (Info env s args) s.loggers.length
      = [Logger.lineOf env s.steps rootLogger InfoLevel (Sprint args)] ∧
    (GetGlobalLogger env (Info env s args)).2 = .logger (s.loggers.length + 1) ∧
    ILogger.GetMessages (GetGlobalLogger env (Info env s args)).1
      (GetGlobalLogger env (Info env s args)).2 = [] := by
  have hinfo := Info_unset env s args hunset
  have hg : (Info env s args).globalLogger = none := by rw [hinfo]; exact hunset
  have hlen : (Info env s args).loggers.length = s.loggers.length + 1 := by
    rw [hinfo]; simp
  refine ⟨rfl, rfl, ?_, ?_, ?_, ?_, ?_, hg, ?_, ?_, ?_⟩
  · rw [GetGlobalLogger_unset env s hunset]
  · simp
  · rw [GetGlobalLogger_unset env s hunset]; simp
  · rw [GetGlobalLogger_unset env s hunset]
  · rw [GetGlobalLogger_unset env s hunset]; exact hunset
  · rw [hinfo]; simp [Logger.GetMessages]
  · rw [GetGlobalLogger_unset env _ hg, hlen]
  · rw [GetGlobalLogger_unset env _ hg]
    simp [ILogger.GetMessages, Logger.GetMessages, rootLogger]

/-- C13 on the empty machine, where the global was never set. -/
theorem C13_global_registry_witness :
    emptyState.globalLogger = none ∧
    (GetGlobalLogger sampleEnv (SetGlobalLogger emptyState (some (.mock 0)))).2 = .mock 0 ∧
    (GetGlobalLogger sampleEnv emptyState).2 = .logger 0 ∧
    (GetGlobalLogger sampleEnv emptyState).1.globalLogger = none ∧
    (Info sampleEnv emptyState [Value.ofString "a"]).globalLogger = none ∧
    (Logger.GetMessages (Info sampleEnv emptyState [Value.ofString "a"]) 0).length = 1 ∧
    ILogger.GetMessages (GetGlobalLogger sampleEnv (Info sampleEnv emptyState [Value.ofString "a"])).1
      (GetGlobalLogger sampleEnv (Info sampleEnv emptyState [Value.ofString "a"])).2 = [] := by
  have h := C13_global_registry sampleEnv emptyState emptyState (.mock 0) [Value.ofString "a"] rfl
  obtain ⟨h1, -, h3, -, -, -, h7, h8, h9, -, h11⟩ := h
  refine ⟨rfl, by rw [h1], h3, h7, h8, ?_, h11⟩
  have h9b : Logger.GetMessages (Info sampleEnv emptyState [Value.ofString "a"])
      emptyState.loggers.length = _ := h9
  have e0 : emptyState.loggers.length = 0 := rfl
  rw [e0] at h9b
  rw [h9b]; rfl

/-- A root of the test double without prefix and fields records `Info(x)` as the line
`[INFO] x`. -/
theorem mock_Info_plain (env : Env) (s : State) (m : Nat) (node : MockLogger) (x : String)
    (hm : s.mocks[m]? = some node) (hpar : node.parent = none) (hpfx : node.pfx = "")
    (hfields : node.fields = ∅) (hlevel : node.level ≤ InfoLevel) :
    MockLogger.Info env s m [Value.ofString x] =
      { s with steps := s.steps + 2,
               mocks := s.mocks.set m { node with Messages := node.Messages ++ ["[INFO] " ++ x] } } := by
  have h0 : ∀ n, env.rangeOrder n ∅ = [] :=
    fun n => rangeOrder_small env n _ (by decide)
  have hlt : m < s.mocks.length := by
    rcases Nat.lt_or_ge m s.mocks.length with h | h
    · exact h
    · rw [List.getElem?_eq_none h] at hm; cases hm
  obtain ⟨k, hk⟩ : ∃ k, s.mocks.length = k + 1 := ⟨s.mocks.length - 1, by omega⟩
  have hroot : MockLogger.getRootLogger s m = some m := by
    simp only [MockLogger.getRootLogger, hk, getRootLoggerFuel, hm, hpar]
  have hcol : MockLogger.collectChainData env s m = some ([], ∅, s.steps + 1) := by
    simp [MockLogger.collectChainData, hk, collectChainDataFuel, hm, hpar, hpfx, hfields,
      rangeInsert, h0]
  have hfmt : MockLogger.formatMessage env s m InfoLevel [Value.ofString x]
      = some ("[INFO] " ++ x, s.steps + 2) := by
    rw [mock_formatMessage_eq env s m InfoLevel _ [] ∅ (s.steps + 1) hcol]
    simp [getLevelString, InfoLevel, DebugLevel, stringsJoin, Value.ofString]
  simp only [MockLogger.Info, MockLogger.log, MockLogger.logArgs, hroot, hm, hfmt,
    if_neg (not_lt.mpr hlevel)]

/-- C14: package-level delegation. When the global logger is set to `g`, each of the
thirteen package-level functions has exactly the effect and the result of the method of the
same name on `g` with the same arguments. With `g` a root of the test double that has no
prefix and no fields and lets INFO pass (such as a fresh `NewMockLogger()`), the
package-level `Info(x)` appends `"[INFO] " + x` to the messages of `g`. -/
theorem C14_package_delegation (env : Env) (s : State) (g : ILogger)
    (hset : s.globalLogger = some g) (args : List Value) (format pfx filename : String)
    (fields : Fields) :
    Debug env s args = ILogger.Debug env s g args ∧
    Debugf env s format args = ILogger.Debugf env s g format args ∧
    Info env s args = ILogger.Info env s g args ∧
    Infof env s format args = ILogger.Infof env s g format args ∧
    Warning env s args = ILogger.Warning env s g args ∧
    Warningf env s format args = ILogger.Warningf env s g format args ∧
    Error env s args = ILogger.Error env s g args ∧
    Errorf env s format args = ILogger.Errorf env s g format args ∧
    Fatal env s args = ILogger.Fatal env s g args ∧
    Fatalf env s format args = ILogger.Fatalf env s g format args ∧
    WithPrefix env s pfx = ILogger.WithPrefix env s g pfx ∧
    WithFields env s fields = ILogger.WithFields env s g fields ∧
    WithFile env s filename = ILogger.WithFile env s g filename ∧
    (∀ (m : Nat) (node : MockLogger) (x : String), g = .mock m → s.mocks[m]? = some node →
      node.parent = none → node.pfx = "" → node.fields = ∅ → node.level ≤ InfoLevel →
      MockLogger.GetMessages (Info env s [Value.ofString x]) m
        = node.Messages ++ ["[INFO] " ++ x]) := by
  have hg := GetGlobalLogger_set env s g hset
  refine ⟨?_, ?_, ?_, ?_, ?_, ?_, ?_, ?_, ?_, ?_, ?_, ?_, ?_, ?_⟩
  · rw [Debug, hg]
  · rw [Debugf, hg]
  · rw [Info, hg]
  · rw [Infof, hg]
  · rw [Warning, hg]
  · rw [Warningf, hg]
  · rw [Error, hg]
  · rw [Errorf, hg]
  · rw [Fatal, hg]
  · rw [Fatalf, hg]
  · rw [WithPrefix, hg]
  · rw [WithFields, hg]
  · rw [WithFile, hg]
  · intro m node x hgm hm hpar hpfx hfields hlevel
    subst hgm
    have hlt : m < s.mocks.length := by
      rcases Nat.lt_or_ge m s.mocks.length with h | h
      · exact h
      · rw [List.getElem?_eq_none h] at hm; cases hm
    rw [Info, hg]
    simp only [ILogger.Info]
    rw [mock_Info_plain env s m node x hm hpar hpfx hfields hlevel]
    simp [MockLogger.GetMessages, hlt]

/-- C14 with a fresh test double as the global logger: the package-level `Info` records
`[INFO] info message` in it, the line that `TestGlobalLogger` expects. -/
theorem C14_package_delegation_witness :
    globalMockState.globalLogger = some (.mock 0) ∧
    Info sampleEnv globalMockState [Value.ofString "info message"]
      = MockLogger.Info sampleEnv globalMockState 0 [Value.ofString "info message"] ∧
    MockLogger.GetMessages (Info sampleEnv globalMockState [Value.ofString "info message"]) 0
      = ["[INFO] info message"] :=
  ⟨rfl,
   (C14_package_delegation sampleEnv globalMockState (.mock 0) rfl [Value.ofString "info message"]
      "" "" "" ∅).2.2.1,
   (C14_package_delegation sampleEnv globalMockState (.mock 0) rfl [Value.ofString "info message"]
      "" "" "" ∅).2.2.2.2.2.2.2.2.2.2.2.2.2 0 _ "info message" rfl rfl rfl rfl rfl (by decide)⟩

/-! ## errors.go: the text of the error values -/

/-- The error of `MockLogger.SetLevel` for a name that is not recognized; nothing is
assigned. -/
theorem mock_SetLevel_of_not_mem (env : Env) (s : State) (m : MockPtr) (name : String)
    (h : ∀ L, (stringsToLower env name, L) ∉ levelNames) :
    MockLogger.SetLevel env s m name
      = (s, some ("неизвестный уровень логирования: " ++ name)) := by
  have h1 : stringsToLower env name ≠ "debug" := fun e =>
    h DebugLevel (by rw [e]; decide)
  have h2 : stringsToLower env name ≠ "info" := fun e =>
    h InfoLevel (by rw [e]; decide)
  have h3 : stringsToLower env name ≠ "warning" := fun e =>
    h WarningLevel (by rw [e]; decide)
  have h4 : stringsToLower env name ≠ "error" := fun e =>
    h ErrorLevel (by rw [e]; decide)
  have h5 : stringsToLower env name ≠ "fatal" := fun e =>
    h FatalLevel (by rw [e]; decide)
  simp only [MockLogger.SetLevel, if_neg h1, if_neg h2, if_neg h3, if_neg h4, if_neg h5]

/-- C29: the level-parse error carries the offending string. For every name `x` that,
lowered, is none of the five level names, `Logger.SetLevel(x)` (on a logger of the heap) and
`MockLogger.SetLevel(x)` both return the error whose text is
`"неизвестный уровень логирования: " + x`; this is exactly the text of
`LevelError{Level: x}`, and neither call changes anything. -/
theorem C29_level_error (env : Env) (s : State) (p : Ptr) (l : Logger) (m : MockPtr)
    (x : String) (hp : s.loggers[p]? = some l)
    (hx : ∀ L, (stringsToLower env x, L) ∉ levelNames) :
    (Logger.SetLevel env s p x).2 = some ("неизвестный уровень логирования: " ++ x) ∧
    (MockLogger.SetLevel env s m x).2 = some ("неизвестный уровень логирования: " ++ x) ∧
    (Logger.SetLevel env s p x).2 = some (LevelError.Error { Level := x }) ∧
    (MockLogger.SetLevel env s m x).2 = some (LevelError.Error { Level := x }) ∧
    (Logger.SetLevel env s p x).1 = s ∧
    (MockLogger.SetLevel env s m x).1 = s := by
  rw [SetLevel_of_not_mem env s p l x hp hx, mock_SetLevel_of_not_mem env s m x hx]
  exact ⟨rfl, rfl, rfl, rfl, rfl, rfl⟩

/-- C29 on the name of the test of `New().SetLevel`: `invalid`. -/
theorem C29_level_error_witness :
    rootState.loggers[0]? = some rootLogger ∧
    (∀ L, (stringsToLower sampleEnv "invalid", L) ∉ levelNames) ∧
    (Logger.SetLevel sampleEnv rootState 0 "invalid").2
      = some "неизвестный уровень логирования: invalid" ∧
    (MockLogger.SetLevel sampleEnv rootState 0 "invalid").2
      = some "неизвестный уровень логирования: invalid" ∧
    LevelError.Error { Level := "invalid" } = "неизвестный уровень логирования: invalid" :=
  have hno : ∀ L, (stringsToLower sampleEnv "invalid", L) ∉ levelNames :=
    not_mem_levelNames _ (by decide)
  have h := C29_level_error sampleEnv rootState 0 rootLogger 0 "invalid" rfl hno
  ⟨rfl, hno, h.1.trans (by decide), h.2.1.trans (by decide), by decide⟩

/-- C30: the text of the error values. `WriteError.Error()` is
`"ошибка записи лога: " + Message + " (причина: " + cause + ")"` when the cause is present
and `"ошибка записи лога: " + Message` when it is nil, and `Unwrap` returns the cause (nil
when it is absent). `ConfigError.Error()` is
`"ошибка конфигурации: " + Reason + " (причина: " + err + ")"` when `Err` is present (a nil
`Err` is printed as `<nil>`), and its `Unwrap` returns `Err`. -/
theorem C30_error_text (message reason : String) (cause : GoError) (w : WriteError)
    (c : ConfigError) :
    WriteError.Error { Cause := some cause, Message := message }
      = "ошибка записи лога: " ++ message ++ " (причина: " ++ cause ++ ")" ∧
    WriteError.Error { Cause := none, Message := message }
      = "ошибка записи лога: " ++ message ∧
    WriteError.Unwrap w = w.Cause ∧
    WriteError.Unwrap { Cause := none, Message := message } = none ∧
    ConfigError.Error { Err := some cause, Reason := reason }
      = "ошибка конфигурации: " ++ reason ++ " (причина: " ++ cause ++ ")" ∧
    ConfigError.Error { Err := none, Reason := reason }
      = "ошибка конфигурации: " ++ reason ++ " (причина: " ++ "<nil>" ++ ")" ∧
    ConfigError.Unwrap c = c.Err :=
  ⟨rfl, rfl, rfl, rfl, rfl, rfl, rfl⟩

/-! ## The level tag, the logger of `New`, `WithConfig` and `WithTimeFormat` -/

/-- The line built by `Logger.formatMessage`: timestamp, tag, message, field segment. -/
theorem formatMessage_eq (env : Env) (n : Nat) (l : Logger) (L : Level) (msg : String) :
    Logger.formatMessage env n l L msg =
      env.now n (if l.timeFormat ≠ "" then l.timeFormat else "2006-01-02 15:04:05") ++ " " ++
        levelTag L ++ " " ++ msg ++
        (if l.fields.entries ≠ [] then
          " [" ++ stringsJoin ((env.rangeOrder n l.fields).map fun e => e.1 ++ "=" ++ e.2.text) " "
            ++ "]"
         else "") := by
  unfold Logger.formatMessage
  by_cases hf : l.fields.entries = [] <;>
    simp [hf, stringsJoin, String.append_assoc, List.length_pos]

/-- Outside the five severities both `switch` statements take the default branch. -/
theorem tags_unknown (L : Level) (hL : L < DebugLevel ∨ FatalLevel < L) :
    levelTag L = "[UNKNOWN]" ∧ getLevelString L = "[UNKNOWN]" := by
  have h0 : L ≠ DebugLevel := by
    intro e; rw [e] at hL; revert hL; decide
  have h1 : L ≠ InfoLevel := by
    intro e; rw [e] at hL; revert hL; decide
  have h2 : L ≠ WarningLevel := by
    intro e; rw [e] at hL; revert hL; decide
  have h3 : L ≠ ErrorLevel := by
    intro e; rw [e] at hL; revert hL; decide
  have h4 : L ≠ FatalLevel := by
    intro e; rw [e] at hL; revert hL; decide
  constructor
  · simp only [levelTag, if_neg h0, if_neg h1, if_neg h2, if_neg h3, if_neg h4]
  · simp only [getLevelString, if_neg h0, if_neg h1, if_neg h2, if_neg h3, if_neg h4]

/-- C23: a level outside the five severities (below DEBUG or above FATAL) is rendered with
the tag `[UNKNOWN]`. The production formatter returns, for every logger and message, the
line `timestamp + " [UNKNOWN] " + message + field segment`; `getLevelString` returns
`[UNKNOWN]`, and the formatter of the test double, on every node of a well-formed heap,
returns a line that begins with `[UNKNOWN] `. Both formatters return a line: neither
fails. -/
theorem C23_unknown_level (env : Env) (L : Level) (hL : L < DebugLevel ∨ FatalLevel < L)
    (n : Nat) (l : Logger) (msg : String) (s : State) (m : Nat) (args : List Value)
    (hwf : MocksWF s) (hm : m < s.mocks.length) :
    getLevelString L = "[UNKNOWN]" ∧
    Logger.formatMessage env n l L msg =
      env.now n (if l.timeFormat ≠ "" then l.timeFormat else "2006-01-02 15:04:05")
        ++ " " ++ "[UNKNOWN]" ++ " " ++ msg ++
        (if l.fields.entries ≠ [] then
          " [" ++ stringsJoin ((env.rangeOrder n l.fields).map fun e => e.1 ++ "=" ++ e.2.text) " "
            ++ "]"
         else "") ∧
    ∃ rest k, MockLogger.formatMessage env s m L args
      = some ("[UNKNOWN]" ++ " " ++ rest, k) := by
  obtain ⟨ht, hg⟩ := tags_unknown L hL
  refine ⟨hg, ?_, ?_⟩
  · rw [formatMessage_eq, ht]
  · obtain ⟨pre, allFields, k, hcol⟩ := collectChainData_total env s m hwf hm
    rw [mock_formatMessage_eq env s m L args pre allFields k hcol, hg]
    simp only [String.append_assoc]
    exact ⟨_, _, rfl⟩

/-- C23 on the level 7 and the level -1, for the sample logger and the sample chain of
test doubles. -/
theorem C23_unknown_level_witness :
    ((7 : Level) < DebugLevel ∨ FatalLevel < (7 : Level)) ∧
    ((-1 : Level) < DebugLevel ∨ FatalLevel < (-1 : Level)) ∧
    MocksWF mockState ∧ 1 < mockState.mocks.length ∧
    getLevelString 7 = "[UNKNOWN]" ∧
    getLevelString (-1) = "[UNKNOWN]" ∧
    Logger.formatMessage sampleEnv 0 sampleLogger 7 "boom"
      = "2024-05-06 07:08:09 [UNKNOWN] boom [id=7]" ∧
    MockLogger.formatMessage sampleEnv mockState 1 (-1) [Value.ofString "boom"]
      = some ("[UNKNOWN] db boom", 3) :=
  have h7 := C23_unknown_level sampleEnv 7 (by decide) 0 sampleLogger "boom" mockState 1
    [Value.ofString "boom"] (by decide) (by decide)
  have h1 := C23_unknown_level sampleEnv (-1) (by decide) 0 sampleLogger "boom" mockState 1
    [Value.ofString "boom"] (by decide) (by decide)
  ⟨by decide, by decide, by decide, by decide, h7.1, h1.1, h7.2.1.trans (by decide),
   by decide⟩

/-- C26: Scenario A for every message. The logger that `New()` returns has an empty prefix,
an empty field map, an empty history and no file (neither sink), and `New()` opens no file.
After `Info(x)` on it, with a single string `x`, its history is exactly one line: the
timestamp in the default layout `2006-01-02 15:04:05`, then ` [INFO] `, then `x`. -/
theorem C26_scenario_A (env : Env) (s : State) (x : String) :
    (∃ l, (New env s).1.loggers[(New env s).2]? = some l ∧ l.pfx = "" ∧ l.fields.entries = [] ∧
      l.messages = [] ∧ l.file = none ∧ l.errorFile = none ∧ l.timeFormat = "") ∧
    (New env s).1.files = s.files ∧
    Logger.GetMessages (New env s).1 (New env s).2 = [] ∧
    Logger.GetMessages (Logger.Info env (New env s).1 (New env s).2 [Value.ofString x])
        (New env s).2
      = [env.now s.steps "2006-01-02 15:04:05" ++ " [INFO] " ++ x] := by
  have hp : (New env s).1.loggers[(New env s).2]? = some rootLogger := by
    rw [New_eq]; simp
  refine ⟨⟨rootLogger, hp, rfl, rfl, rfl, rfl, rfl, rfl⟩, by rw [New_eq], ?_, ?_⟩
  · simp only [Logger.GetMessages, hp]; rfl
  · rw [Logger.Info, log_messages env _ _ rootLogger InfoLevel _ hp,
      if_neg (by decide), lineOf_eq]
    have hsteps : (New env s).1.steps = s.steps := by rw [New_eq]
    rw [hsteps]
    simp [rootLogger, levelTag, Sprint, sprintRest, Value.ofString, String.append_assoc]

/-- C25 (amended): the logger that `New()` returns has the minimum level DEBUG, whatever
level the default configuration names. `DefaultConfig().Level` is `info`, which names INFO;
of the default configuration `New()` reads only `Files["main"]`. So `Debug(x)` on the
logger of `New()` is recorded, as one line tagged `[DEBUG]`. -/
theorem C25_New_level (env : Env) (s : State) (x : String) :
    (∃ l, (New env s).1.loggers[(New env s).2]? = some l ∧ l.level = DebugLevel) ∧
    DefaultConfig.Level = "info" ∧
    (stringsToLower env DefaultConfig.Level, InfoLevel) ∈ levelNames ∧
    parseLevel env DefaultConfig.Level = InfoLevel ∧
    Logger.GetMessages (Logger.Debug env (New env s).1 (New env s).2 [Value.ofString x])
        (New env s).2
      = [env.now s.steps "2006-01-02 15:04:05" ++ " [DEBUG] " ++ x] := by
  have hp : (New env s).1.loggers[(New env s).2]? = some rootLogger := by
    rw [New_eq]; simp
  have hinfo : (stringsToLower env DefaultConfig.Level, InfoLevel) ∈ levelNames := by
    have h : stringsToLower env DefaultConfig.Level = "info" := stringsToLower_info env
    rw [h]; decide
  refine ⟨⟨rootLogger, hp, rfl⟩, rfl, hinfo, parseLevel_of_mem env _ _ hinfo, ?_⟩
  rw [Logger.Debug, log_messages env _ _ rootLogger DebugLevel _ hp,
    if_neg (by decide), lineOf_eq]
  have hsteps : (New env s).1.steps = s.steps := by rw [New_eq]
  rw [hsteps]
  simp [rootLogger, levelTag, Sprint, sprintRest, Value.ofString, String.append_assoc]

/-- C25 as stated fails on the code: on the empty machine the logger of `New()` has the
level DEBUG, the level named by `DefaultConfig().Level` is INFO, and the two differ: a
message logged at DEBUG is kept, which a logger of level INFO drops. -/
theorem C25_counterexample :
    ((New sampleEnv emptyState).1.loggers[(New sampleEnv emptyState).2]?).map (fun l => l.level)
      = some DebugLevel ∧
    parseLevel sampleEnv DefaultConfig.Level = InfoLevel ∧
    DebugLevel ≠ InfoLevel ∧
    Logger.GetMessages
      (Logger.Debug sampleEnv (New sampleEnv emptyState).1 (New sampleEnv emptyState).2
        [Value.ofString "x"]) (New sampleEnv emptyState).2
      = ["2024-05-06 07:08:09 [DEBUG] x"] ∧
    Logger.GetMessages
      (Logger.Debug sampleEnv
        (Logger.WithConfig sampleEnv (New sampleEnv emptyState).1 (New sampleEnv emptyState).2
          DefaultConfig).1
        (Logger.WithConfig sampleEnv (New sampleEnv emptyState).1 (New sampleEnv emptyState).2
          DefaultConfig).2
        [Value.ofString "x"])
        (Logger.WithConfig sampleEnv (New sampleEnv emptyState).1 (New sampleEnv emptyState).2
          DefaultConfig).2
      = [] := by
  decide

/-- C27: `Logger.WithConfig(cfg)`, for a non-nil `cfg`, returns a new logger (the parent
and the files are left as they were) whose level is the severity named by `cfg.Level`
lowered, and INFO when that is none of the five names; its prefix, timestamp layout,
history and both file pointers are those of the parent and its field map has the same
value as the parent's under every key. Only `cfg.Level` is read: two configurations with
the same `Level` give the same result, whatever their `Files`. -/
theorem C27_WithConfig (env : Env) (s : State) (p : Ptr) (l : Logger) (cfg : Config)
    (hp : s.loggers[p]? = some l) :
    (Logger.WithConfig env s p cfg).2 ≠ p ∧
    (Logger.WithConfig env s p cfg).1.loggers[p]? = some l ∧
    (Logger.WithConfig env s p cfg).1.files = s.files ∧
    (∃ c, (Logger.WithConfig env s p cfg).1.loggers[(Logger.WithConfig env s p cfg).2]? = some c ∧
      (∀ L, (stringsToLower env cfg.Level, L) ∈ levelNames → c.level = L) ∧
      ((∀ L, (stringsToLower env cfg.Level, L) ∉ levelNames) → c.level = InfoLevel) ∧
      c.pfx = l.pfx ∧ (∀ k, c.fields.lookup k = l.fields.lookup k) ∧
      c.timeFormat = l.timeFormat ∧ c.messages = l.messages ∧
      c.file = l.file ∧ c.errorFile = l.errorFile) ∧
    (∀ files, Logger.WithConfig env s p { cfg with Files := files }
      = Logger.WithConfig env s p cfg) := by
  have hlt : p < s.loggers.length := lt_length_of_getElem? hp
  have hfiles : ∀ files, Logger.WithConfig env s p { cfg with Files := files }
      = Logger.WithConfig env s p cfg := fun _ => rfl
  rw [WithConfig_eq_WithLevel, WithLevel_eq env s p l cfg.Level hp] at hfiles ⊢
  refine ⟨Nat.ne_of_gt hlt, ?_, rfl, ?_, hfiles⟩
  · simp only [List.getElem?_append_left hlt, hp]
  · refine ⟨_, getElem?_append_length _ _, ?_, ?_, rfl, ?_, rfl, rfl, rfl, rfl⟩
    · intro L hL
      exact parseLevel_of_mem env _ L hL
    · intro hno
      exact parseLevel_of_not_mem env _ hno
    · intro k
      exact copyFields_lookup env s.steps l.fields k

/-- C27 on the sample logger: the level name `ERROR` in a configuration that also names
files gives a child of level ERROR with the prefix of the parent and no file, and a name
that is not a level gives INFO. -/
theorem C27_WithConfig_witness :
    sampleState.loggers[0]? = some sampleLogger ∧
    (∃ c, (Logger.WithConfig sampleEnv sampleState 0
        { overrideConfig with Level := "ERROR" }).1.loggers[1]? = some c ∧
      c.level = ErrorLevel ∧ c.pfx = "api" ∧ c.file = none ∧ c.messages = ["earlier"]) ∧
    (∃ c, (Logger.WithConfig sampleEnv sampleState 0
        { overrideConfig with Level := "verbose" }).1.loggers[1]? = some c ∧
      c.level = InfoLevel) ∧
    (Logger.WithConfig sampleEnv sampleState 0 { overrideConfig with Level := "ERROR" }).1.files
      = [] :=
  have hno : ∀ L, (stringsToLower sampleEnv "verbose", L) ∉ levelNames :=
    not_mem_levelNames _ (by decide)
  have h1 := C27_WithConfig sampleEnv sampleState 0 sampleLogger
    { overrideConfig with Level := "ERROR" } rfl
  have h2 := C27_WithConfig sampleEnv sampleState 0 sampleLogger
    { overrideConfig with Level := "verbose" } rfl
  ⟨rfl,
   h1.2.2.2.1.elim fun c hc =>
     ⟨c, hc.1, hc.2.1 ErrorLevel (by decide), hc.2.2.2.1, hc.2.2.2.2.2.2.2.1,
      hc.2.2.2.2.2.2.1⟩,
   h2.2.2.2.1.elim fun c hc => ⟨c, hc.1, hc.2.2.1 hno⟩,
   h1.2.2.1⟩

/-- C28: `Logger.WithTimeFormat(f)` returns a new logger whose layout is `f`: every line
it formats begins with `time.Now().Format(f)` when `f` is not empty and with
`time.Now().Format("2006-01-02 15:04:05")` when it is. Its prefix, level, history and both
file pointers are those of the parent and its field map has the same value as the parent's
under every key. The parent is left as it was, its layout included. -/
theorem C28_WithTimeFormat (env : Env) (s : State) (p : Ptr) (l : Logger) (f : String)
    (hp : s.loggers[p]? = some l) :
    (Logger.WithTimeFormat env s p f).2 ≠ p ∧
    (Logger.WithTimeFormat env s p f).1.loggers[p]? = some l ∧
    (Logger.WithTimeFormat env s p f).1.files = s.files ∧
    ∃ c, (Logger.WithTimeFormat env s p f).1.loggers[(Logger.WithTimeFormat env s p f).2]?
        = some c ∧
      c.timeFormat = f ∧ c.pfx = l.pfx ∧ c.level = l.level ∧
      (∀ k, c.fields.lookup k = l.fields.lookup k) ∧ c.messages = l.messages ∧
      c.file = l.file ∧ c.errorFile = l.errorFile ∧
      ∀ (n : Nat) (L : Level) (msg : String),
        Logger.formatMessage env n c L msg =
          env.now n (if f ≠ "" then f else "2006-01-02 15:04:05") ++ " " ++
            levelTag L ++ " " ++ msg ++
            (if c.fields.entries ≠ [] then
              " [" ++ stringsJoin
                ((env.rangeOrder n c.fields).map fun e => e.1 ++ "=" ++ e.2.text) " " ++ "]"
             else "") := by
  have hlt : p < s.loggers.length := lt_length_of_getElem? hp
  rw [WithTimeFormat_eq env s p l f hp]
  refine ⟨Nat.ne_of_gt hlt, ?_, rfl, ?_⟩
  · simp only [List.getElem?_append_left hlt, hp]
  · refine ⟨_, getElem?_append_length _ _, rfl, rfl, rfl, ?_, rfl, rfl, rfl, ?_⟩
    · intro k
      exact copyFields_lookup env s.steps l.fields k
    · intro n L msg
      rw [formatMessage_eq]

/-- C28 on the sample logger, with the layout `15:04` and with the empty layout. -/
theorem C28_WithTimeFormat_witness :
    sampleState.loggers[0]? = some sampleLogger ∧
    (∃ c, (Logger.WithTimeFormat sampleEnv sampleState 0 "15:04").1.loggers[1]? = some c ∧
      c.timeFormat = "15:04" ∧ c.pfx = "api" ∧ c.level = WarningLevel ∧
      Logger.formatMessage sampleEnv 5 c ErrorLevel "boom" = "15:04 [ERROR] boom [id=7]") ∧
    (∃ c, (Logger.WithTimeFormat sampleEnv sampleState 0 "").1.loggers[1]? = some c ∧
      Logger.formatMessage sampleEnv 5 c ErrorLevel "boom"
        = "2024-05-06 07:08:09 [ERROR] boom [id=7]") ∧
    (Logger.WithTimeFormat sampleEnv sampleState 0 "15:04").1.loggers[0]? = some sampleLogger :=
  have h1 := C28_WithTimeFormat sampleEnv sampleState 0 sampleLogger "15:04" rfl
  ⟨rfl,
   h1.2.2.2.elim fun c hc =>
     ⟨c, hc.1, hc.2.1, hc.2.2.1, hc.2.2.2.1, by
       have e : (Logger.WithTimeFormat sampleEnv sampleState 0 "15:04").1.loggers[1]?
           = some { sampleLogger with timeFormat := "15:04" } := by decide
       have hc1 : (Logger.WithTimeFormat sampleEnv sampleState 0 "15:04").1.loggers[1]?
           = some c := hc.1
       rw [e] at hc1
       rw [← Option.some.inj hc1]
       decide⟩,
   ⟨{ sampleLogger with timeFormat := "" }, by decide, by decide⟩,
   h1.2.1⟩

/-! ## The test double: `Fatal` and chains of prefixes -/

/-- A node that is on the heap has an address below the size of the heap. -/
theorem mock_lt_length {mocks : List MockLogger} {m : Nat} {node : MockLogger}
    (hm : mocks[m]? = some node) : m < mocks.length := by
  rcases Nat.lt_or_ge m mocks.length with h | h
  · exact h
  · rw [List.getElem?_eq_none h] at hm; cases hm

/-- A root of the test double without prefix and fields records one string `x`, at a level
`L` that it lets pass, as the tag of `L`, a space and `x`. -/
theorem mock_logArgs_plain (env : Env) (s : State) (m : Nat) (node : MockLogger) (L : Level)
    (x : String) (hm : s.mocks[m]? = some node) (hpar : node.parent = none)
    (hpfx : node.pfx = "") (hfields : node.fields = ∅) (hlevel : node.level ≤ L) :
    MockLogger.logArgs env s m L [Value.ofString x] =
      { s with steps := s.steps + 2,
               mocks := s.mocks.set m
                 { node with Messages := node.Messages ++ [getLevelString L ++ " " ++ x] } } := by
  have h0 : ∀ n, env.rangeOrder n ∅ = [] :=
    fun n => rangeOrder_small env n _ (by decide)
  have hlt : m < s.mocks.length := mock_lt_length hm
  obtain ⟨k, hk⟩ : ∃ k, s.mocks.length = k + 1 := ⟨s.mocks.length - 1, by omega⟩
  have hroot : MockLogger.getRootLogger s m = some m := by
    simp only [MockLogger.getRootLogger, hk, getRootLoggerFuel, hm, hpar]
  have hcol : MockLogger.collectChainData env s m = some ([], ∅, s.steps + 1) := by
    simp [MockLogger.collectChainData, hk, collectChainDataFuel, hm, hpar, hpfx, hfields,
      rangeInsert, h0]
  have hfmt : MockLogger.formatMessage env s m L [Value.ofString x]
      = some (getLevelString L ++ " " ++ x, s.steps + 2) := by
    rw [mock_formatMessage_eq env s m L _ [] ∅ (s.steps + 1) hcol]
    simp [stringsJoin, Value.ofString]
  simp only [MockLogger.logArgs, hroot, hm, hfmt, if_neg (not_lt.mpr hlevel)]

/-- The statements of `Fatal` after the message: the exit code of the node becomes 1 and
its exit function is called once, with 1. -/
theorem closeAndExit_eq (env : Env) (s : State) (m : Nat) (node : MockLogger)
    (hm : s.mocks[m]? = some node) :
    MockLogger.closeAndExit env s m =
      { s with mocks := s.mocks.set m { node with exitCode := 1 },
               handlerCalls := s.handlerCalls ++ [(node.osExitFunc, 1)] } := by
  have hlt : m < s.mocks.length := mock_lt_length hm
  simp [MockLogger.closeAndExit, MockLogger.Close, State.modifyMock, hm, hlt]

/-- The state after `Fatal` with the message `x` on a plain root whose level lets FATAL
pass. -/
theorem mock_fatal_plain (env : Env) (s : State) (m : Nat) (node : MockLogger) (x : String)
    (hm : s.mocks[m]? = some node) (hpar : node.parent = none) (hpfx : node.pfx = "")
    (hfields : node.fields = ∅) (hlevel : node.level ≤ FatalLevel) :
    MockLogger.closeAndExit env (MockLogger.logArgs env s m FatalLevel [Value.ofString x]) m =
      { s with steps := s.steps + 2,
               mocks := s.mocks.set m
                 { node with Messages := node.Messages ++ ["[FATAL] " ++ x], exitCode := 1 },
               handlerCalls := s.handlerCalls ++ [(node.osExitFunc, 1)] } := by
  have hlt : m < s.mocks.length := mock_lt_length hm
  rw [mock_logArgs_plain env s m node FatalLevel x hm hpar hpfx hfields hlevel]
  rw [closeAndExit_eq env _ m
    { node with Messages := node.Messages ++ [getLevelString FatalLevel ++ " " ++ x] }
    (by simp [hlt])]
  simp [getLevelString]

/-- C22: `Fatal` on the test double. Let the node at `m` be a root (no parent) without
prefix and fields, as every root the package builds, of a level that is not above FATAL,
and let the exit handler `h` be installed in it by `SetExitHandler`. Then `Fatal(x)` appends
exactly the entry `"[FATAL] " + x` to its messages, calls `h` once, with the code 1 (and
calls no other exit function, the `osExit` hook of the process included), sets the value
returned by `GetExitCode()` to 1, and returns. `Fatalf(format, args...)` does the same with
`fmt.Sprintf(format, args...)` for `x`. -/
theorem C22_mock_Fatal (env : Env) (s : State) (m : Nat) (node : MockLogger) (h : Nat)
    (x format : String) (args : List Value)
    (hm : s.mocks[m]? = some node) (hpar : node.parent = none) (hpfx : node.pfx = "")
    (hfields : node.fields = ∅) (hlevel : node.level ≤ FatalLevel) :
    (MockLogger.GetMessages
        (MockLogger.Fatal env (MockLogger.SetExitHandler s m h) m [Value.ofString x]) m
      = node.Messages ++ ["[FATAL] " ++ x] ∧
     (MockLogger.Fatal env (MockLogger.SetExitHandler s m h) m [Value.ofString x]).handlerCalls
      = s.handlerCalls ++ [(h, 1)] ∧
     (MockLogger.Fatal env (MockLogger.SetExitHandler s m h) m [Value.ofString x]).exitCodes
      = s.exitCodes ∧
     MockLogger.GetExitCode
        (MockLogger.Fatal env (MockLogger.SetExitHandler s m h) m [Value.ofString x]) m = 1) ∧
    (MockLogger.GetMessages
        (MockLogger.Fatalf env (MockLogger.SetExitHandler s m h) m format args) m
      = node.Messages ++ ["[FATAL] " ++ env.sprintf format args] ∧
     (MockLogger.Fatalf env (MockLogger.SetExitHandler s m h) m format args).handlerCalls
      = s.handlerCalls ++ [(h, 1)] ∧
     (MockLogger.Fatalf env (MockLogger.SetExitHandler s m h) m format args).exitCodes
      = s.exitCodes ∧
     MockLogger.GetExitCode
        (MockLogger.Fatalf env (MockLogger.SetExitHandler s m h) m format args) m = 1) := by
  have hlt : m < s.mocks.length := mock_lt_length hm
  have hset : MockLogger.SetExitHandler s m h
      = { s with mocks := s.mocks.set m { node with osExitFunc := h } } := by
    simp [MockLogger.SetExitHandler, State.modifyMock, hm]
  have hm1 : (MockLogger.SetExitHandler s m h).mocks[m]? = some { node with osExitFunc := h } := by
    rw [hset]; simp [hlt]
  have key : ∀ y : String,
      MockLogger.closeAndExit env
        (MockLogger.logArgs env (MockLogger.SetExitHandler s m h) m FatalLevel [Value.ofString y]) m
      = { s with steps := s.steps + 2,
                 mocks := s.mocks.set m
                   { node with osExitFunc := h, Messages := node.Messages ++ ["[FATAL] " ++ y],
                               exitCode := 1 },
                 handlerCalls := s.handlerCalls ++ [(h, 1)] } := by
    intro y
    rw [mock_fatal_plain env _ m _ y hm1 hpar hpfx hfields hlevel, hset]
    simp
  constructor
  · simp only [MockLogger.Fatal, MockLogger.log, key]
    simp [MockLogger.GetMessages, MockLogger.GetExitCode, hlt]
  · simp only [MockLogger.Fatalf, MockLogger.logf, key]
    simp [MockLogger.GetMessages, MockLogger.GetExitCode, hlt]

/-- C22 on the test `TestFatalMethod`: a fresh `NewMockLogger()` with the handler 7
installed, then `Fatal("fatal message")`. -/
theorem C22_mock_Fatal_witness :
    (NewMockLogger emptyState).1.mocks[0]?
      = some { Messages := [], fields := ∅, level := DebugLevel, osExitFunc := 0, pfx := "",
               parent := none, exitCode := 0, hasFile := false } ∧
    MockLogger.GetMessages
      (MockLogger.Fatal sampleEnv (MockLogger.SetExitHandler (NewMockLogger emptyState).1 0 7) 0
        [Value.ofString "fatal message"]) 0 = ["[FATAL] fatal message"] ∧
    (MockLogger.Fatal sampleEnv (MockLogger.SetExitHandler (NewMockLogger emptyState).1 0 7) 0
        [Value.ofString "fatal message"]).handlerCalls = [(7, 1)] ∧
    MockLogger.GetExitCode
      (MockLogger.Fatal sampleEnv (MockLogger.SetExitHandler (NewMockLogger emptyState).1 0 7) 0
        [Value.ofString "fatal message"]) 0 = 1 :=
  have h := (C22_mock_Fatal sampleEnv (NewMockLogger emptyState).1 0 _ 7 "fatal message" "" []
    (by decide : (NewMockLogger emptyState).1.mocks[0]?
      = some { Messages := [], fields := ∅, level := DebugLevel, osExitFunc := 0, pfx := "",
               parent := none, exitCode := 0, hasFile := false })
    rfl rfl rfl (by decide)).1
  ⟨by decide, h.1.trans (by decide), h.2.1, h.2.2.2⟩

/-- More nodes on the heap do not change the walk to the root. -/
theorem getRootLoggerFuel_append (mocks ys : List MockLogger) :
    ∀ (fuel m r : Nat), getRootLoggerFuel mocks fuel m = some r →
      getRootLoggerFuel (mocks ++ ys) fuel m = some r := by
  intro fuel
  induction fuel with
  | zero => intro m r h; simp [getRootLoggerFuel] at h
  | succ fuel ih =>
    intro m r h
    unfold getRootLoggerFuel at h ⊢
    cases hnode : mocks[m]? with
    | none => rw [hnode] at h; cases h
    | some node =>
      rw [hnode] at h
      rw [List.getElem?_append_left (mock_lt_length hnode), hnode]
      cases hpar : node.parent with
      | none => simpa [hpar] using h
      | some q =>
        simp only [hpar] at h ⊢
        exact ih q r h

/-- More nodes on the heap do not change the walk of `collectChainData`. -/
theorem collectChainDataFuel_append (env : Env) (mocks ys : List MockLogger) :
    ∀ (fuel n : Nat) (cur : Option Nat) (accP : List String) (accF : Fields)
      (res : List String × Fields × Nat),
      collectChainDataFuel env mocks fuel n cur accP accF = some res →
      collectChainDataFuel env (mocks ++ ys) fuel n cur accP accF = some res := by
  intro fuel
  induction fuel with
  | zero =>
    intro n cur accP accF res h
    cases cur with
    | none => simpa [collectChainDataFuel] using h
    | some c => simp [collectChainDataFuel] at h
  | succ fuel ih =>
    intro n cur accP accF res h
    cases cur with
    | none => simpa [collectChainDataFuel] using h
    | some c =>
      unfold collectChainDataFuel at h ⊢
      cases hnode : mocks[c]? with
      | none => rw [hnode] at h; cases h
      | some node =>
        rw [hnode] at h
        rw [List.getElem?_append_left (mock_lt_length hnode), hnode]
        exact ih _ _ _ _ _ h

/-- A plain root is a chain of one node. -/
theorem ChainInv_root (env : Env) (mocks : List MockLogger) (r : Nat) (root : MockLogger)
    (hr : mocks[r]? = some root) (hpar : root.parent = none) (hpfx : root.pfx = "")
    (hfields : root.fields = ∅) : ChainInv env mocks r r [] 1 := by
  have h0 : ∀ n, env.rangeOrder n ∅ = [] :=
    fun n => rangeOrder_small env n _ (by decide)
  have hlt := mock_lt_length hr
  refine ⟨hlt, by omega, ?_, ?_⟩
  · intro fuel hfuel
    obtain ⟨k, rfl⟩ : ∃ k, fuel = k + 1 := ⟨fuel - 1, by omega⟩
    simp only [getRootLoggerFuel, hr, hpar]
  · intro fuel n accP accF hfuel
    obtain ⟨k, rfl⟩ : ∃ k, fuel = k + 1 := ⟨fuel - 1, by omega⟩
    simp [collectChainDataFuel, hr, hpar, hpfx, hfields, rangeInsert, h0]

/-- A new node without fields whose parent ends a chain ends a chain that is one node
longer; its prefix counts when it is not empty. -/
theorem ChainInv_child (env : Env) (mocks : List MockLogger) (r m : Nat) (pre : List String)
    (d : Nat) (node : MockLogger) (h : ChainInv env mocks r m pre d)
    (hpar : node.parent = some m) (hfields : node.fields = ∅) :
    ChainInv env (mocks ++ [node]) r mocks.length
      (pre ++ (if node.pfx ≠ "" then [node.pfx] else [])) (d + 1) := by
  have h0 : ∀ n, env.rangeOrder n ∅ = [] :=
    fun n => rangeOrder_small env n _ (by decide)
  obtain ⟨hm, hd, hroot, hcol⟩ := h
  have hnew : (mocks ++ [node])[mocks.length]? = some node := getElem?_append_length _ _
  refine ⟨by simp, by simp; omega, ?_, ?_⟩
  · intro fuel hfuel
    obtain ⟨k, rfl⟩ : ∃ k, fuel = k + 1 := ⟨fuel - 1, by omega⟩
    simp only [getRootLoggerFuel, hnew, hpar]
    exact getRootLoggerFuel_append mocks [node] k m r (hroot k (by omega))
  · intro fuel n accP accF hfuel
    obtain ⟨k, rfl⟩ : ∃ k, fuel = k + 1 := ⟨fuel - 1, by omega⟩
    simp only [collectChainDataFuel, hnew, hpar, hfields, rangeInsert, h0, List.foldl_nil]
    rw [collectChainDataFuel_append env mocks [node] k (n + 1) (some m) _ accF _
      (hcol k (n + 1) _ accF (by omega))]
    by_cases hp : node.pfx = ""
    · simp [hp]; omega
    · simp [hp]; omega

/-- A chain of derivations keeps the nodes that were on the heap, takes no step and touches
nothing but the heap of test doubles; when it starts at the end of a chain it ends at the
end of a chain, longer by the derivations and with their non-empty segments added. -/
theorem mockChain_inv (env : Env) (r : Nat) :
    ∀ (steps : List MockStep) (s : State) (m : Nat) (pre : List String) (d : Nat),
      ChainInv env s.mocks r m pre d →
      ChainInv env (mockChain s m steps).1.mocks r (mockChain s m steps).2
        (pre ++ (chainSegments steps).filter (fun seg => seg ≠ "")) (d + steps.length) ∧
      (∀ (i : Nat) (node : MockLogger), s.mocks[i]? = some node →
        (mockChain s m steps).1.mocks[i]? = some node) ∧
      (mockChain s m steps).1.steps = s.steps := by
  intro steps
  induction steps with
  | nil =>
    intro s m pre d h
    simpa [mockChain, chainSegments] using h
  | cons step rest ih =>
    intro s m pre d h
    have hm : m < s.mocks.length := h.1
    obtain ⟨node, hnode⟩ : ∃ node, s.mocks[m]? = some node :=
      ⟨s.mocks[m], List.getElem?_eq_getElem hm⟩
    cases step with
    | withPrefix segment =>
      have hstep : mockStep s m (.withPrefix segment) =
          ({ s with mocks := s.mocks ++
              [{ pfx := segment, fields := ∅, level := node.level, parent := some m,
                 osExitFunc := node.osExitFunc, Messages := [], exitCode := 0,
                 hasFile := false }] }, s.mocks.length) := by
        simp [mockStep, MockLogger.WithPrefix, hnode, State.allocMock]
      have hc := ChainInv_child env s.mocks r m pre d
        { pfx := segment, fields := ∅, level := node.level, parent := some m,
          osExitFunc := node.osExitFunc, Messages := [], exitCode := 0, hasFile := false }
        h rfl rfl
      have hc1 : ChainInv env (mockStep s m (.withPrefix segment)).1.mocks r
          (mockStep s m (.withPrefix segment)).2
          (pre ++ (if segment ≠ "" then [segment] else [])) (d + 1) := by
        rw [hstep]; exact hc
      obtain ⟨h1, h2, h3⟩ := ih _ _ _ _ hc1
      have hsteps : (mockStep s m (.withPrefix segment)).1.steps = s.steps := by rw [hstep]
      simp only [mockChain, chainSegments, List.length_cons]
      refine ⟨?_, ?_, h3.trans hsteps⟩
      · by_cases hs : segment = ""
        · simpa [hs, Nat.add_assoc, Nat.add_comm 1] using h1
        · simpa [hs, Nat.add_assoc, Nat.add_comm 1] using h1
      · intro i nd hi
        refine h2 i nd ?_
        rw [hstep]
        show (s.mocks ++ _)[i]? = some nd
        rw [List.getElem?_append_left (mock_lt_length hi), hi]
    | withFile filename =>
      have hstep : mockStep s m (.withFile filename) =
          ({ s with mocks := s.mocks ++
              [{ pfx := "", fields := ∅, level := node.level, hasFile := true, parent := some m,
                 osExitFunc := node.osExitFunc, Messages := [], exitCode := 0 }] },
           s.mocks.length) := by
        simp [mockStep, MockLogger.WithFile, hnode, State.allocMock]
      have hc := ChainInv_child env s.mocks r m pre d
        { pfx := "", fields := ∅, level := node.level, hasFile := true, parent := some m,
          osExitFunc := node.osExitFunc, Messages := [], exitCode := 0 }
        h rfl rfl
      have hc1 : ChainInv env (mockStep s m (.withFile filename)).1.mocks r
          (mockStep s m (.withFile filename)).2 (pre ++ []) (d + 1) := by
        rw [hstep]; exact hc
      obtain ⟨h1, h2, h3⟩ := ih _ _ _ _ hc1
      have hsteps : (mockStep s m (.withFile filename)).1.steps = s.steps := by rw [hstep]
      simp only [mockChain, chainSegments, List.length_cons]
      refine ⟨?_, ?_, h3.trans hsteps⟩
      · simpa [Nat.add_assoc, Nat.add_comm 1] using h1
      · intro i nd hi
        refine h2 i nd ?_
        rw [hstep]
        show (s.mocks ++ _)[i]? = some nd
        rw [List.getElem?_append_left (mock_lt_length hi), hi]

/-- The messages of the root after `Info(x)` on the last logger of a chain of derivations
that starts at a plain root: one more entry, with the non-empty segments joined by dots. -/
theorem mock_chain_line (env : Env) (s : State) (r : Nat) (root : MockLogger)
    (steps : List MockStep) (x : String)
    (hr : s.mocks[r]? = some root) (hpar : root.parent = none) (hpfx : root.pfx = "")
    (hfields : root.fields = ∅) (hlevel : root.level ≤ InfoLevel) :
    MockLogger.GetMessages
      (MockLogger.Info env (mockChain s r steps).1 (mockChain s r steps).2 [Value.ofString x]) r
      = root.Messages ++
        ["[INFO] " ++
          (if (chainSegments steps).filter (fun seg => seg ≠ "") ≠ [] then
            stringsJoin ((chainSegments steps).filter (fun seg => seg ≠ "")) "." ++ " "
           else "") ++ x] := by
  obtain ⟨⟨hm, hd, hroot, hcol⟩, hkeep, -⟩ :=
    mockChain_inv env r steps s r [] 1 (ChainInv_root env s.mocks r root hr hpar hpfx hfields)
  have hrootq : MockLogger.getRootLogger (mockChain s r steps).1 (mockChain s r steps).2
      = some r := hroot _ hd
  have hcolq := hcol (mockChain s r steps).1.mocks.length (mockChain s r steps).1.steps [] ∅ hd
  rw [List.nil_append, List.append_nil] at hcolq
  have hfmt := mock_formatMessage_eq env (mockChain s r steps).1 (mockChain s r steps).2
    InfoLevel [Value.ofString x] _ ∅ _ hcolq
  have hrt := hkeep r root hr
  have hlt : r < (mockChain s r steps).1.mocks.length := mock_lt_length hrt
  simp only [MockLogger.Info, MockLogger.log, MockLogger.logArgs, hrootq, hrt, hfmt,
    if_neg (not_lt.mpr hlevel)]
  simp [MockLogger.GetMessages, hlt, getLevelString, stringsJoin, Value.ofString,
    String.append_assoc]

/-- C21: prefix chaining in the test double. Start at a root without prefix and fields
whose level lets INFO pass (a fresh `NewMockLogger()` is one), derive a chain by `WithPrefix`
calls with non-empty segments `p1..pn`, with `WithFile` calls anywhere between them, and
call `Info(x)` with one string on the last logger: exactly one entry is appended to the
messages of the root, `"[INFO] " + p1 + "." + ... + "." + pn + " " + x`, and
`"[INFO] " + x` when the chain has no `WithPrefix`. `WithFile` touches no file: it allocates
a node without prefix and fields whose has-file flag is set. -/
theorem C21_mock_prefix_chain (env : Env) (s : State) (r : Nat) (root : MockLogger)
    (steps : List MockStep) (x : String)
    (hr : s.mocks[r]? = some root) (hpar : root.parent = none) (hpfx : root.pfx = "")
    (hfields : root.fields = ∅) (hlevel : root.level ≤ InfoLevel)
    (hne : ∀ seg ∈ chainSegments steps, seg ≠ "") :
    MockLogger.GetMessages
      (MockLogger.Info env (mockChain s r steps).1 (mockChain s r steps).2 [Value.ofString x]) r
      = root.Messages ++
        ["[INFO] " ++
          (if chainSegments steps ≠ [] then stringsJoin (chainSegments steps) "." ++ " " else "")
          ++ x] ∧
    (∀ (t : State) (m : Nat) (node : MockLogger) (filename : String),
      t.mocks[m]? = some node →
      MockLogger.WithFile t m filename =
        ({ t with mocks := t.mocks ++
            [{ Messages := [], pfx := "", fields := ∅, level := node.level, parent := some m,
               osExitFunc := node.osExitFunc, exitCode := 0, hasFile := true }] },
         t.mocks.length)) := by
  have hfilter : (chainSegments steps).filter (fun seg => seg ≠ "") = chainSegments steps := by
    rw [List.filter_eq_self]
    intro seg hseg
    simpa using hne seg hseg
  constructor
  · rw [mock_chain_line env s r root steps x hr hpar hpfx hfields hlevel, hfilter]
  · intro t m node filename hnode
    simp [MockLogger.WithFile, hnode, State.allocMock]

/-- C21 on the chain `WithPrefix("PREFIX1").WithFile("test.log").WithPrefix("PREFIX2")` from
a fresh `NewMockLogger()`, and on the chain `WithFile("test.log")` alone. -/
theorem C21_mock_prefix_chain_witness :
    (∀ seg ∈ chainSegments
      [.withPrefix "PREFIX1", .withFile "test.log", .withPrefix "PREFIX2"], seg ≠ "") ∧
    (mockChain (NewMockLogger emptyState).1 0
      [.withPrefix "PREFIX1", .withFile "test.log", .withPrefix "PREFIX2"]).2 = 3 ∧
    MockLogger.GetMessages
      (MockLogger.Info sampleEnv
        (mockChain (NewMockLogger emptyState).1 0
          [.withPrefix "PREFIX1", .withFile "test.log", .withPrefix "PREFIX2"]).1
        (mockChain (NewMockLogger emptyState).1 0
          [.withPrefix "PREFIX1", .withFile "test.log", .withPrefix "PREFIX2"]).2
        [Value.ofString "message"]) 0
      = ["[INFO] PREFIX1.PREFIX2 message"] ∧
    MockLogger.GetMessages
      (MockLogger.Info sampleEnv
        (mockChain (NewMockLogger emptyState).1 0 [.withFile "test.log"]).1
        (mockChain (NewMockLogger emptyState).1 0 [.withFile "test.log"]).2
        [Value.ofString "message"]) 0
      = ["[INFO] message"] :=
  have hfresh : (NewMockLogger emptyState).1.mocks[0]?
      = some { Messages := [], fields := ∅, level := DebugLevel, osExitFunc := 0, pfx := "",
               parent := none, exitCode := 0, hasFile := false } := by decide
  have h1 := (C21_mock_prefix_chain sampleEnv (NewMockLogger emptyState).1 0 _
    [.withPrefix "PREFIX1", .withFile "test.log", .withPrefix "PREFIX2"] "message"
    hfresh rfl rfl rfl (by decide) (by decide)).1
  have h2 := (C21_mock_prefix_chain sampleEnv (NewMockLogger emptyState).1 0 _
    [.withFile "test.log"] "message" hfresh rfl rfl rfl (by decide) (by decide)).1
  ⟨by decide, by decide, h1.trans (by decide), h2.trans (by decide)⟩

/-! ## The prefix along a chain of derivations -/

/-- Splitting never gives an empty list of pieces. -/
theorem splitDot_ne_nil (cs : List Char) : splitDot cs ≠ [] := by
  cases cs with
  | nil => simp [splitDot]
  | cons c cs =>
    unfold splitDot
    by_cases hc : c = '.'
    · simp [hc]
    · rw [if_neg hc]
      cases splitDot cs <;> simp

/-- The pieces of `a + "." + b` are the pieces of `a` followed by the pieces of `b`. -/
theorem splitDot_append (a b : List Char) :
    splitDot (a ++ '.' :: b) = splitDot a ++ splitDot b := by
  induction a with
  | nil => simp [splitDot]
  | cons c cs ih =>
    by_cases hc : c = '.'
    · simp [splitDot, hc, ih]
    · have hne := splitDot_ne_nil cs
      cases hsplit : splitDot cs with
      | nil => exact absurd hsplit hne
      | cons seg rest =>
        simp only [List.cons_append, splitDot, if_neg hc, List.append_eq, ih, hsplit]

/-- `WithPrefix` with a segment free of empty pieces keeps the invariant of the prefix. -/
theorem extendPrefix_ok (pfx segment : String) (hp : PrefixSegmentsOK pfx)
    (hs : NoEmptySegment segment) : NoEmptySegment (extendPrefix pfx segment) := by
  unfold extendPrefix
  by_cases he : pfx = ""
  · simpa [he] using hs
  · rw [if_pos he]
    rcases hp with hp | hp
    · exact absurd hp he
    · intro seg hseg
      have hdata : (pfx ++ "." ++ segment).data = pfx.data ++ '.' :: segment.data := by
        simp [String.data_append]
      rw [hdata, splitDot_append, List.mem_append] at hseg
      rcases hseg with h | h
      · exact hp seg h
      · exact hs seg h

/-- The prefix after a list of `WithPrefix` calls whose segments are free of empty pieces:
the invariant holds, and the prefix is the segments joined by dots. -/
theorem foldl_extendPrefix (segs : List String) (hs : ∀ seg ∈ segs, NoEmptySegment seg) :
    ∀ pfx, PrefixSegmentsOK pfx →
      PrefixSegmentsOK (segs.foldl extendPrefix pfx) ∧
      (pfx = "" → segs.foldl extendPrefix pfx = stringsJoin segs ".") ∧
      (pfx ≠ "" → segs ≠ [] →
        segs.foldl extendPrefix pfx = pfx ++ "." ++ stringsJoin segs ".") := by
  induction segs with
  | nil =>
    intro pfx hp
    exact ⟨hp, fun h => by simp [h, stringsJoin], fun _ h => absurd rfl h⟩
  | cons a rest ih =>
    intro pfx hp
    have ha : NoEmptySegment a := hs a (List.mem_cons_self _ _)
    have hane : a ≠ "" := by
      intro e
      exact ha [] (by rw [e]; simp [splitDot]) rfl
    have hnext : NoEmptySegment (extendPrefix pfx a) := extendPrefix_ok pfx a hp ha
    have hnextne : extendPrefix pfx a ≠ "" := by
      intro e
      exact hnext [] (by rw [e]; simp [splitDot]) rfl
    obtain ⟨h1, -, h3⟩ := ih (fun seg h => hs seg (List.mem_cons_of_mem _ h))
      (extendPrefix pfx a) (Or.inr hnext)
    refine ⟨h1, ?_, ?_⟩
    · intro he
      cases rest with
      | nil => simp [he, extendPrefix, stringsJoin]
      | cons b rest2 =>
        rw [List.foldl_cons, h3 hnextne (by simp)]
        simp [he, extendPrefix, stringsJoin]
    · intro he _
      cases rest with
      | nil => simp [he, extendPrefix, stringsJoin]
      | cons b rest2 =>
        rw [List.foldl_cons, h3 hnextne (by simp)]
        simp [he, extendPrefix, stringsJoin, String.append_assoc]

/-- The logger that `WithFile` returns has the prefix of the receiver, whether the file
could be opened (a new logger) or not (the receiver itself). -/
theorem WithFile_pfx (env : Env) (s : State) (p : Ptr) (l : Logger) (filename : String)
    (hp : s.loggers[p]? = some l) :
    ∃ c, (Logger.WithFile env s p filename).1.loggers[(Logger.WithFile env s p filename).2]?
      = some c ∧ c.pfx = l.pfx := by
  have hlt : p < s.loggers.length := lt_length_of_getElem? hp
  have hfail : ∀ format err, WithFileFails env s filename format err →
      ∃ c, (Logger.WithFile env s p filename).1.loggers[(Logger.WithFile env s p filename).2]?
        = some c ∧ c.pfx = l.pfx := by
    intro format err hf
    rw [WithFile_fails env s p l filename format err hp hf]
    by_cases hlev : ErrorLevel < l.level
    · rw [if_pos hlev]
      exact ⟨l, hp, rfl⟩
    · rw [if_neg hlev]
      have hp1 : s.tick.loggers[p]? = some l := hp
      show ∃ c, (Logger.log env s.tick p ErrorLevel _).loggers[p]? = some c ∧ c.pfx = l.pfx
      rw [log_loggers env s.tick p l ErrorLevel _ hp1, if_neg hlev]
      refine ⟨{ l with messages := l.messages ++
        [Logger.lineOf env s.tick.steps l ErrorLevel (env.sprintf format [Value.ofError err])] },
        ?_, rfl⟩
      simp [State.tick, hlt]
  cases h1 : env.mkdirAll s.steps (env.filepathDir filename) with
  | some err => exact hfail _ err (Or.inl ⟨h1, rfl⟩)
  | none =>
    cases h2 : env.openFile s.steps (env.filepathClean filename) with
    | error err => exact hfail _ err (Or.inr ⟨h1, h2, rfl⟩)
    | ok f =>
      rw [WithFile_ok env s p l filename f hp h1 h2]
      exact ⟨_, getElem?_append_length _ _, rfl⟩

/-- The logger that a derivation returns is on the heap; its prefix is the prefix of the
receiver, extended by the segment when the derivation is `WithPrefix`. -/
theorem loggerStep_pfx (env : Env) (s : State) (p : Ptr) (l : Logger) (d : LoggerStep)
    (hp : s.loggers[p]? = some l) :
    ∃ c, (loggerStep env s p d).1.loggers[(loggerStep env s p d).2]? = some c ∧
      c.pfx = (prefixArgs [d]).foldl extendPrefix l.pfx := by
  cases d with
  | withFile filename =>
    simpa [loggerStep, prefixArgs] using WithFile_pfx env s p l filename hp
  | via d =>
    cases d with
    | withPrefix segment =>
      simp only [loggerStep, derive, WithPrefix_eq env s p l segment hp, prefixArgs,
        List.foldl_cons, List.foldl_nil]
      exact ⟨_, getElem?_append_length _ _, rfl⟩
    | withFields fields =>
      simp only [loggerStep, derive, WithFields_eq env s p l fields hp, prefixArgs,
        List.foldl_nil]
      exact ⟨_, getElem?_append_length _ _, rfl⟩
    | withLevel level =>
      simp only [loggerStep, derive, WithLevel_eq env s p l level hp, prefixArgs,
        List.foldl_nil]
      exact ⟨_, getElem?_append_length _ _, rfl⟩
    | withConfig cfg =>
      simp only [loggerStep, derive, WithConfig_eq_WithLevel,
        WithLevel_eq env s p l cfg.Level hp, prefixArgs, List.foldl_nil]
      exact ⟨_, getElem?_append_length _ _, rfl⟩
    | withTimeFormat format =>
      simp only [loggerStep, derive, WithTimeFormat_eq env s p l format hp, prefixArgs,
        List.foldl_nil]
      exact ⟨_, getElem?_append_length _ _, rfl⟩

/-- The arguments of `WithPrefix` of a chain: those of its first derivation, then those of
the rest. -/
theorem prefixArgs_cons (d : LoggerStep) (ds : List LoggerStep) :
    prefixArgs (d :: ds) = prefixArgs [d] ++ prefixArgs ds := by
  cases d with
  | withFile filename => simp [prefixArgs]
  | via d => cases d <;> simp [prefixArgs]

/-- The prefix of the last logger of a chain: the prefix of the first receiver, extended
by the arguments of the `WithPrefix` calls in order. -/
theorem loggerChain_pfx (env : Env) :
    ∀ (steps : List LoggerStep) (s : State) (p : Ptr) (l : Logger), s.loggers[p]? = some l →
      ∃ c, (loggerChain env s p steps).1.loggers[(loggerChain env s p steps).2]? = some c ∧
        c.pfx = (prefixArgs steps).foldl extendPrefix l.pfx := by
  intro steps
  induction steps with
  | nil =>
    intro s p l hp
    exact ⟨l, hp, rfl⟩
  | cons d ds ih =>
    intro s p l hp
    obtain ⟨c1, hc1, hpfx1⟩ := loggerStep_pfx env s p l d hp
    obtain ⟨c, hc, hpfx⟩ := ih _ _ c1 hc1
    refine ⟨c, hc, ?_⟩
    rw [prefixArgs_cons d ds, List.foldl_append, ← hpfx1, ← hpfx]

/-- C24 (amended): the prefix of the production logger along a chain of derivations. Start
at the logger of `New()` and apply any sequence of `WithPrefix`, `WithFields`, `WithLevel`,
`WithConfig`, `WithTimeFormat` and `WithFile` calls, each to the logger returned by the one
before. When no argument of a `WithPrefix` call has an empty piece when split on `.` (so
none is empty), the prefix of the last logger is the arguments of the `WithPrefix` calls,
in order, joined by dots: it is empty (no `WithPrefix` call) or, split on `.`, consists of
pieces none of which is empty. -/
theorem C24_prefix_invariant (env : Env) (s : State) (steps : List LoggerStep)
    (hargs : ∀ seg ∈ prefixArgs steps, NoEmptySegment seg) :
    ∃ c, (loggerChain env (New env s).1 (New env s).2 steps).1.loggers[
          (loggerChain env (New env s).1 (New env s).2 steps).2]? = some c ∧
      c.pfx = stringsJoin (prefixArgs steps) "." ∧
      PrefixSegmentsOK c.pfx ∧
      (c.pfx = "" ↔ prefixArgs steps = []) := by
  have hp : (New env s).1.loggers[(New env s).2]? = some rootLogger := by
    rw [New_eq]; simp
  obtain ⟨c, hc, hpfx⟩ := loggerChain_pfx env steps _ _ rootLogger hp
  obtain ⟨hok, hjoin, -⟩ := foldl_extendPrefix (prefixArgs steps) hargs "" (Or.inl rfl)
  have hroot : rootLogger.pfx = "" := rfl
  rw [hroot] at hpfx
  refine ⟨c, hc, hpfx.trans (hjoin rfl), by rw [hpfx]; exact hok, ?_⟩
  rw [hpfx]
  constructor
  · intro he
    cases hsegs : prefixArgs steps with
    | nil => rfl
    | cons a rest =>
      exfalso
      rw [hsegs] at hargs he
      have ha : NoEmptySegment a := hargs a (List.mem_cons_self _ _)
      have hnext : NoEmptySegment (extendPrefix "" a) := extendPrefix_ok "" a (Or.inl rfl) ha
      obtain ⟨h1, -, -⟩ := foldl_extendPrefix rest
        (fun seg h => hargs seg (List.mem_cons_of_mem _ h)) (extendPrefix "" a) (Or.inr hnext)
      rw [List.foldl_cons] at he
      rw [he] at h1
      have hnext2 : extendPrefix "" a ≠ "" := by
        intro e
        exact hnext [] (by rw [e]; simp [splitDot]) rfl
      cases rest with
      | nil => exact hnext2 he
      | cons b rest2 =>
        obtain ⟨-, -, h3⟩ := foldl_extendPrefix (b :: rest2)
          (fun seg h => hargs seg (List.mem_cons_of_mem _ h)) (extendPrefix "" a)
          (Or.inr hnext)
        have := h3 hnext2 (by simp)
        rw [he] at this
        have hlen := congrArg String.length this
        have hdot : ".".length = 1 := rfl
        simp only [String.length_append, hdot] at hlen
        have hzero : "".length = 0 := rfl
        omega
  · intro he
    rw [he]; rfl

/-- C24 as stated fails on the code: `New().WithPrefix("a").WithPrefix("")` has the prefix
`a.`, whose pieces are `a` and the empty string, and a line it logs carries `[a.]`. -/
theorem C24_counterexample :
    ((loggerChain sampleEnv (New sampleEnv emptyState).1 (New sampleEnv emptyState).2
        [.via (.withPrefix "a"), .via (.withPrefix "")]).1.loggers[
      (loggerChain sampleEnv (New sampleEnv emptyState).1 (New sampleEnv emptyState).2
        [.via (.withPrefix "a"), .via (.withPrefix "")]).2]?).map (fun l => l.pfx)
      = some "a." ∧
    splitDot "a.".data = [['a'], []] ∧
    ¬ PrefixSegmentsOK "a." ∧
    Logger.GetMessages
      (Logger.Info sampleEnv
        (loggerChain sampleEnv (New sampleEnv emptyState).1 (New sampleEnv emptyState).2
          [.via (.withPrefix "a"), .via (.withPrefix "")]).1
        (loggerChain sampleEnv (New sampleEnv emptyState).1 (New sampleEnv emptyState).2
          [.via (.withPrefix "a"), .via (.withPrefix "")]).2 [Value.ofString "m"])
      (loggerChain sampleEnv (New sampleEnv emptyState).1 (New sampleEnv emptyState).2
          [.via (.withPrefix "a"), .via (.withPrefix "")]).2
      = ["2024-05-06 07:08:09 [INFO] [a.] m"] := by
  decide

/-- C24 (amended) on the chain
`New().WithPrefix("API").WithFile("x.log").WithLevel("debug").WithPrefix("V1")`. -/
theorem C24_prefix_invariant_witness :
    (∀ seg ∈ prefixArgs [.via (.withPrefix "API"), .withFile "x.log", .via (.withLevel "debug"),
      .via (.withPrefix "V1")], NoEmptySegment seg) ∧
    ∃ c, (loggerChain sampleEnv (New sampleEnv emptyState).1 (New sampleEnv emptyState).2
          [.via (.withPrefix "API"), .withFile "x.log", .via (.withLevel "debug"),
            .via (.withPrefix "V1")]).1.loggers[
        (loggerChain sampleEnv (New sampleEnv emptyState).1 (New sampleEnv emptyState).2
          [.via (.withPrefix "API"), .withFile "x.log", .via (.withLevel "debug"),
            .via (.withPrefix "V1")]).2]? = some c ∧
      c.pfx = "API.V1" ∧ PrefixSegmentsOK c.pfx :=
  have h := C24_prefix_invariant sampleEnv emptyState
    [.via (.withPrefix "API"), .withFile "x.log", .via (.withLevel "debug"),
      .via (.withPrefix "V1")] (by decide)
  ⟨by decide, h.elim fun c hc => ⟨c, hc.1, hc.2.1.trans (by decide), hc.2.2.1⟩⟩

/-! ## Validation, level parsing and `Override` -/

/-- `Validate` accepts a configuration exactly when its Level, lowered, is one of the five
names and `Files` has the key `main`. -/
theorem Validate_none_iff (env : Env) (c : Config) :
    c.Validate env = none ↔
      (∃ L, (stringsToLower env c.Level, L) ∈ levelNames) ∧ (c.file? "main").isSome := by
  unfold Config.Validate Config.file?
  by_cases hv : (validLevels.lookup (stringsToLower env c.Level)).getD false = true
  · have hex := (validLevels_getD _).mp hv
    simp only [hv, not_true_eq_false, if_false]
    cases hm : c.Files.bind (fun m => m.lookup "main") with
    | none => simp
    | some v => simp [hex]
  · have hne : ¬ ∃ L, (stringsToLower env c.Level, L) ∈ levelNames :=
      fun h => hv ((validLevels_getD _).mpr h)
    simp only [hv, not_false_eq_true, if_true]
    simp [hne]

/-- `SetLevel` returns no error exactly when the name, lowered, is one of the five. -/
theorem SetLevel_none_iff (env : Env) (s : State) (p : Ptr) (l : Logger) (name : String)
    (hp : s.loggers[p]? = some l) :
    (Logger.SetLevel env s p name).2 = none ↔
      ∃ L, (stringsToLower env name, L) ∈ levelNames := by
  constructor
  · intro h
    by_contra hne
    rw [SetLevel_of_not_mem env s p l name hp (fun L hL => hne ⟨L, hL⟩)] at h
    cases h
  · rintro ⟨L, hL⟩
    rw [SetLevel_of_mem env s p l name L hp hL]

/-- C36: validation and level parsing accept the same names. For every string `x` and path,
`Config{Level: x, Files: {"main": path}}.Validate()` returns no error exactly when
`Logger.SetLevel(x)` returns no error; the level that `SetLevel` then assigns is the one
`parseLevel(x)` returns. Hence for a configuration that passes `Validate`, the first
`SetLevel` of `WithConfig` (the one on the clone, with `cfg.Level`) returns no error, so
the fallback to `info` is not taken, and the level of the new logger is the one that
`cfg.Level` names. -/
theorem C36_validate_parse (env : Env) (s : State) (p : Ptr) (l : Logger) (x path : String)
    (hp : s.loggers[p]? = some l) :
    (Config.Validate env { Level := x, Files := some (AList.insert "main" path ∅) } = none ↔
      (Logger.SetLevel env s p x).2 = none) ∧
    ((Logger.SetLevel env s p x).2 = none →
      (Logger.SetLevel env s p x).1.loggers[p]? = some { l with level := parseLevel env x }) ∧
    (∀ cfg : Config, cfg.Validate env = none →
      (Logger.SetLevel env (Logger.clone env s p).1 (Logger.clone env s p).2 cfg.Level).2 = none ∧
      ∃ c, (Logger.WithConfig env s p cfg).1.loggers[(Logger.WithConfig env s p cfg).2]?
          = some c ∧
        (stringsToLower env cfg.Level, c.level) ∈ levelNames) := by
  have hlt : p < s.loggers.length := lt_length_of_getElem? hp
  refine ⟨?_, ?_, ?_⟩
  · rw [Validate_none_iff, SetLevel_none_iff env s p l x hp]
    have hmain : (Config.file? { Level := x, Files := some (AList.insert "main" path ∅) }
        "main").isSome := by
      show (Option.bind (some (AList.insert "main" path ∅))
        fun m : StringMap => m.lookup "main").isSome
      rw [Option.some_bind, AList.lookup_insert]
      rfl
    exact ⟨fun h => h.1, fun h => ⟨h, hmain⟩⟩
  · intro h
    obtain ⟨L, hL⟩ := (SetLevel_none_iff env s p l x hp).mp h
    rw [SetLevel_of_mem env s p l x L hp hL, parseLevel_of_mem env x L hL]
    exact List.getElem?_set_self hlt
  · intro cfg hcfg
    obtain ⟨⟨L, hL⟩, -⟩ := (Validate_none_iff env cfg).mp hcfg
    constructor
    · rw [clone_eq env s p l hp]
      exact (SetLevel_none_iff env _ _ _ cfg.Level (getElem?_append_length _ _)).mpr ⟨L, hL⟩
    · rw [WithConfig_eq_WithLevel, WithLevel_eq env s p l cfg.Level hp]
      refine ⟨_, getElem?_append_length _ _, ?_⟩
      show (stringsToLower env cfg.Level, parseLevel env cfg.Level) ∈ levelNames
      rw [parseLevel_of_mem env cfg.Level L hL]
      exact hL

/-- C36 on the sample logger, with the name `Warning` and with a name that is no level. -/
theorem C36_validate_parse_witness :
    sampleState.loggers[0]? = some sampleLogger ∧
    Config.Validate sampleEnv { Level := "Warning", Files := some (AList.insert "main" "a.log" ∅) }
      = none ∧
    (Logger.SetLevel sampleEnv sampleState 0 "Warning").2 = none ∧
    parseLevel sampleEnv "Warning" = WarningLevel ∧
    Config.Validate sampleEnv { Level := "verbose", Files := some (AList.insert "main" "a.log" ∅) }
      ≠ none ∧
    (Logger.SetLevel sampleEnv sampleState 0 "verbose").2 ≠ none :=
  have h1 := C36_validate_parse sampleEnv sampleState 0 sampleLogger "Warning" "a.log" rfl
  have h2 := C36_validate_parse sampleEnv sampleState 0 sampleLogger "verbose" "a.log" rfl
  have hv : Config.Validate sampleEnv
      { Level := "Warning", Files := some (AList.insert "main" "a.log" ∅) } = none := by decide
  have hs : (Logger.SetLevel sampleEnv sampleState 0 "verbose").2 ≠ none := by decide
  ⟨rfl, hv, h1.1.mp hv, by decide, fun h => hs (h2.1.mp h), hs⟩

/-- `Override` with an override whose Level is empty or a level name keeps a valid Level
valid, and keeps the key `main`. -/
theorem Override_valid (env : Env) (n : Nat) (c : Config) (o : Option Config)
    (hc : c.Validate env = none)
    (ho : ∀ other, o = some other →
      other.Level = "" ∨ ∃ L, (stringsToLower env other.Level, L) ∈ levelNames) :
    (c.Override env n o).Validate env = none ∧ ((c.Override env n o).file? "main").isSome := by
  obtain ⟨hlev, hmain⟩ := (Validate_none_iff env c).mp hc
  cases o with
  | none => exact ⟨hc, hmain⟩
  | some other =>
    have hm : ((c.Override env n (some other)).file? "main").isSome := by
      rw [Override_file]
      cases h : other.file? "main" with
      | none => simpa using hmain
      | some v => simp
    refine ⟨(Validate_none_iff env _).mpr ⟨?_, hm⟩, hm⟩
    rw [Override_Level]
    by_cases he : other.Level = ""
    · simpa [he] using hlev
    · rw [if_pos he]
      rcases ho other rfl with h | h
      · exact absurd h he
      · exact h

/-- C40: `Override` preserves validity. For a configuration `c` that passes `Validate` and
an override `o` (nil, or with a Level that is empty or, lowered, one of the five names),
`c` passes `Validate` after `c.Override(o)`, and `Files` still has the key `main`; more
generally every key of `Files` stays a key. Applying the same override a second time
changes nothing: the Level is the same and every key has the same value. -/
theorem C40_Override_valid (env : Env) (n1 n2 : Nat) (c : Config) (o : Option Config)
    (hc : c.Validate env = none)
    (ho : ∀ other, o = some other →
      other.Level = "" ∨ ∃ L, (stringsToLower env other.Level, L) ∈ levelNames) :
    (c.Override env n1 o).Validate env = none ∧
    ((c.Override env n1 o).file? "main").isSome ∧
    (∀ k, (c.file? k).isSome → ((c.Override env n1 o).file? k).isSome) ∧
    ((c.Override env n1 o).Override env n2 o).Level = (c.Override env n1 o).Level ∧
    (∀ k, ((c.Override env n1 o).Override env n2 o).file? k = (c.Override env n1 o).file? k) ∧
    ((c.Override env n1 o).Override env n2 o).Validate env = none := by
  obtain ⟨hv, hm⟩ := Override_valid env n1 c o hc ho
  obtain ⟨hv2, -⟩ := Override_valid env n2 (c.Override env n1 o) o hv ho
  refine ⟨hv, hm, ?_, ?_, ?_, hv2⟩
  · intro k hk
    cases o with
    | none => exact hk
    | some other =>
      rw [Override_file]
      cases h : other.file? k with
      | none => simpa using hk
      | some v => simp
  · cases o with
    | none => rfl
    | some other =>
      rw [Override_Level, Override_Level]
      by_cases he : other.Level = "" <;> simp [he]
  · intro k
    cases o with
    | none => rfl
    | some other =>
      rw [Override_file, Override_file]
      cases h : other.file? k <;> simp

/-- C40 on the default configuration and the override of the override test. -/
theorem C40_Override_valid_witness :
    DefaultConfig.Validate sampleEnv = none ∧
    (overrideConfig.Level = "" ∨
      ∃ L, (stringsToLower sampleEnv overrideConfig.Level, L) ∈ levelNames) ∧
    (DefaultConfig.Override sampleEnv 0 (some overrideConfig)).Validate sampleEnv = none ∧
    (DefaultConfig.Override sampleEnv 0 (some overrideConfig)).file? "main"
      = some "logs/main.log" ∧
    ((DefaultConfig.Override sampleEnv 0 (some overrideConfig)).Override sampleEnv 1
        (some overrideConfig)).Level = "debug" :=
  have hlev : overrideConfig.Level = "" ∨
      ∃ L, (stringsToLower sampleEnv overrideConfig.Level, L) ∈ levelNames :=
    Or.inr ⟨DebugLevel, by decide⟩
  have h := C40_Override_valid sampleEnv 0 1 DefaultConfig (some overrideConfig) (by decide)
    (fun other ho => by cases ho; exact hlev)
  ⟨by decide, hlev, h.1, by decide, h.2.2.2.1.trans (by decide)⟩

/-! ## `WithFile` and `Close` on shared handles -/

/-- C33 fails on the code: whenever the file can be opened, the logger returned by
`l.WithFile(path)` is a new one with the prefix and the level of `l` and a field map with
the same value under every key, and `l` is left as it was; but its timestamp layout is the
empty string whatever the layout of `l`, so it formats every line with the default layout
`2006-01-02 15:04:05` and differs from `l` whenever the layout of `l` is not empty. -/
theorem C33_WithFile_layout (env : Env) (s : State) (p : Ptr) (l : Logger) (filename : String)
    (f : File) (hp : s.loggers[p]? = some l)
    (h1 : env.mkdirAll s.steps (env.filepathDir filename) = none)
    (h2 : env.openFile s.steps (env.filepathClean filename) = .ok f) :
    (Logger.WithFile env s p filename).2 ≠ p ∧
    (Logger.WithFile env s p filename).1.loggers[p]? = some l ∧
    ∃ c, (Logger.WithFile env s p filename).1.loggers[(Logger.WithFile env s p filename).2]?
        = some c ∧
      c.pfx = l.pfx ∧ c.level = l.level ∧ (∀ k, c.fields.lookup k = l.fields.lookup k) ∧
      c.timeFormat = "" ∧
      (l.timeFormat ≠ "" → c.timeFormat ≠ l.timeFormat) ∧
      ∀ (n : Nat) (L : Level) (msg : String),
        Logger.formatMessage env n c L msg =
          env.now n "2006-01-02 15:04:05" ++ " " ++ levelTag L ++ " " ++ msg ++
            (if c.fields.entries ≠ [] then
              " [" ++ stringsJoin
                ((env.rangeOrder n c.fields).map fun e => e.1 ++ "=" ++ e.2.text) " " ++ "]"
             else "") := by
  have hlt : p < s.loggers.length := lt_length_of_getElem? hp
  rw [WithFile_ok env s p l filename f hp h1 h2]
  refine ⟨Nat.ne_of_gt hlt, ?_, _, getElem?_append_length _ _, rfl, rfl, ?_, rfl, ?_, ?_⟩
  · simp only [List.getElem?_append_left hlt, hp]
  · intro k
    rw [rangeInsert_lookup]
    cases l.fields.lookup k <;> rfl
  · intro h e
    exact h e.symm
  · intro n L msg
    rw [formatMessage_eq]
    simp

/-- C33 on `New().WithTimeFormat("15:04").WithFile("x.log")`: the logger with the layout
formats a line as `15:04 [INFO] m`, the logger that `WithFile` derives from it as
`2024-05-06 07:08:09 [INFO] m`. -/
theorem C33_WithFile_layout_witness :
    (layoutState.loggers[1]?).map (fun l => l.timeFormat) = some "15:04" ∧
    sampleEnv.mkdirAll layoutState.steps (sampleEnv.filepathDir "x.log") = none ∧
    (Logger.WithFile sampleEnv layoutState 1 "x.log").2 = 2 ∧
    ((Logger.WithFile sampleEnv layoutState 1 "x.log").1.loggers[1]?).map
      (fun l => Logger.formatMessage sampleEnv 9 l InfoLevel "m") = some "15:04 [INFO] m" ∧
    ((Logger.WithFile sampleEnv layoutState 1 "x.log").1.loggers[2]?).map
      (fun l => Logger.formatMessage sampleEnv 9 l InfoLevel "m")
      = some "2024-05-06 07:08:09 [INFO] m" ∧
    ∃ c, (Logger.WithFile sampleEnv layoutState 1 "x.log").1.loggers[
        (Logger.WithFile sampleEnv layoutState 1 "x.log").2]? = some c ∧ c.timeFormat = "" :=
  have h := C33_WithFile_layout sampleEnv layoutState 1
    { rootLogger with timeFormat := "15:04", messages := ["15:04 [INFO] old"] } "x.log"
    { name := "x.log", written := [], closed := false, writeErr := none, syncErr := none,
      closeErr := none }
    (by decide) rfl rfl
  ⟨by decide, rfl, by decide, by decide, by decide,
   h.2.2.elim fun c hc => ⟨c, hc.1, hc.2.2.2.2.1⟩⟩

/-- C34 fails on the code: whenever the file can be opened, the history of the logger
returned by `l.WithFile(path)` is empty, whatever the history of `l`: no snapshot is taken.
So `GetMessages()` of the new logger differs from `l.GetMessages()` whenever `l` has
recorded a line, while `l` keeps its history. -/
theorem C34_WithFile_history (env : Env) (s : State) (p : Ptr) (l : Logger) (filename : String)
    (f : File) (hp : s.loggers[p]? = some l)
    (h1 : env.mkdirAll s.steps (env.filepathDir filename) = none)
    (h2 : env.openFile s.steps (env.filepathClean filename) = .ok f) :
    Logger.GetMessages (Logger.WithFile env s p filename).1 (Logger.WithFile env s p filename).2
      = [] ∧
    Logger.GetMessages (Logger.WithFile env s p filename).1 p = Logger.GetMessages s p ∧
    (Logger.GetMessages s p ≠ [] →
      Logger.GetMessages (Logger.WithFile env s p filename).1
          (Logger.WithFile env s p filename).2 ≠ Logger.GetMessages s p) := by
  have hlt : p < s.loggers.length := lt_length_of_getElem? hp
  have hnew : Logger.GetMessages (Logger.WithFile env s p filename).1
      (Logger.WithFile env s p filename).2 = [] := by
    rw [WithFile_ok env s p l filename f hp h1 h2]
    simp only [Logger.GetMessages, getElem?_append_length]
  refine ⟨hnew, ?_, ?_⟩
  · rw [WithFile_ok env s p l filename f hp h1 h2]
    simp only [Logger.GetMessages, List.getElem?_append_left hlt]
  · intro h e
    rw [hnew] at e
    exact h e.symm

/-- C34 on `New().WithTimeFormat("15:04")` after one `Info("old")`: the logger has one line
of history, the logger that `WithFile("x.log")` derives from it has none. -/
theorem C34_WithFile_history_witness :
    Logger.GetMessages layoutState 1 = ["15:04 [INFO] old"] ∧
    sampleEnv.mkdirAll layoutState.steps (sampleEnv.filepathDir "x.log") = none ∧
    (Logger.WithFile sampleEnv layoutState 1 "x.log").2 = 2 ∧
    Logger.GetMessages (Logger.WithFile sampleEnv layoutState 1 "x.log").1
      (Logger.WithFile sampleEnv layoutState 1 "x.log").2 = [] ∧
    Logger.GetMessages (Logger.WithFile sampleEnv layoutState 1 "x.log").1 1
      = ["15:04 [INFO] old"] :=
  have h := C34_WithFile_history sampleEnv layoutState 1
    { rootLogger with timeFormat := "15:04", messages := ["15:04 [INFO] old"] } "x.log"
    { name := "x.log", written := [], closed := false, writeErr := none, syncErr := none,
      closeErr := none }
    (by decide) rfl rfl
  ⟨by decide, rfl, by decide, h.1, h.2.1.trans (by decide)⟩

/-- Closing a file leaves a file that is already closed as it is. -/
theorem fileClose_keeps_closed (s : State) (g f : FilePtr) (fl : File)
    (hf : s.files[f]? = some fl) (hc : fl.closed = true) :
    (s.fileClose g).1.files[f]? = some fl := by
  unfold State.fileClose
  cases hg : s.files[g]? with
  | none => exact hf
  | some file =>
    by_cases hcl : file.closed = true
    · simp only [hcl, if_true]; exact hf
    · simp only [hcl]
      by_cases hgf : g = f
      · subst hgf
        rw [hf] at hg
        cases hg
        exact absurd hc hcl
      · show (s.files.set g _)[f]? = some fl
        rw [List.getElem?_set_ne hgf, hf]

/-- The text of the error of each operation on a closed file. -/
theorem closedError_text (fl : File) :
    closedError "write" fl = "write " ++ fl.name ++ ": file already closed" ∧
    closedError "sync" fl = "sync " ++ fl.name ++ ": file already closed" ∧
    closedError "close" fl = "close " ++ fl.name ++ ": file already closed" := by
  refine ⟨?_, ?_, ?_⟩ <;> (apply String.ext; simp [closedError, ErrClosed])

/-- Every operation on a closed file fails with the `PathError` of that operation, which
wraps `os.ErrClosed`, and changes nothing. -/
theorem closed_file_ops (s : State) (f : FilePtr) (fl : File) (hf : s.files[f]? = some fl)
    (hc : fl.closed = true) (data : String) :
    s.fileWrite f data = (s, some ("write " ++ fl.name ++ ": file already closed")) ∧
    s.fileSync f = some ("sync " ++ fl.name ++ ": file already closed") ∧
    s.fileClose f = (s, some ("close " ++ fl.name ++ ": file already closed")) := by
  obtain ⟨h1, h2, h3⟩ := closedError_text fl
  simp [State.fileWrite, State.fileSync, State.fileClose, hf, hc, h1, h2, h3]

/-- A write through a file pointer leaves a closed file as it is. -/
theorem writeSink_closed (s : State) (ptr : Option FilePtr) (f : FilePtr) (d : String)
    (fl : File) (hf : s.files[f]? = some fl) (hc : fl.closed = true) :
    (s.writeSink ptr d).files[f]? = some fl := by
  rw [writeSink_get s ptr f d fl hf]
  simp [hc]

/-- A log call leaves a closed file as it is. -/
theorem log_closed_file (env : Env) (s : State) (p : Ptr) (l : Logger) (L : Level)
    (msg : String) (hp : s.loggers[p]? = some l) (hpass : l.level ≤ L) (f : FilePtr)
    (fl : File) (hf : s.files[f]? = some fl) (hc : fl.closed = true) :
    (Logger.log env s p L msg).files[f]? = some fl := by
  rw [log_eq env s p l L msg hp (not_lt.mpr hpass)]
  exact writeSink_closed _ _ f _ fl (writeSink_closed _ _ f _ fl hf hc) hc

/-- After `Close` on a logger whose file is open, the file is closed and every other
logger is what it was, its file pointer included. -/
theorem Close_shared (s : State) (p q : Ptr) (l c : Logger) (f : FilePtr) (file : File)
    (hp : s.loggers[p]? = some l) (hq : s.loggers[q]? = some c) (hpq : p ≠ q)
    (hlf : l.file = some f) (hf : s.files[f]? = some file) (ho : file.closed = false) :
    (Logger.Close s p).1.loggers[q]? = some c ∧
    (Logger.Close s p).1.files[f]? = some { file with closed := true } := by
  have hflt : f < s.files.length := by
    rcases Nat.lt_or_ge f s.files.length with h | h
    · exact h
    · rw [List.getElem?_eq_none h] at hf; cases hf
  have hclosed : (s.fileClose f).1.files[f]? = some { file with closed := true } := by
    rw [fileClose_of_open s f file hf ho]
    show (s.files.set f _)[f]? = some _
    simp [hflt]
  obtain ⟨lfile, lerr, lfields, lpfx, ltf, lmsgs, llevel⟩ := l
  simp only at hlf
  subst hlf
  rw [Close_eq s p _ hp]
  cases lerr with
  | none =>
    refine ⟨?_, hclosed⟩
    show (s.loggers.set p _)[q]? = some c
    rw [List.getElem?_set_ne hpq, hq]
  | some ef =>
    refine ⟨?_, ?_⟩
    · show (s.loggers.set p _)[q]? = some c
      rw [List.getElem?_set_ne hpq, hq]
    · exact fileClose_keeps_closed _ ef f _ hclosed rfl

/-- C32 (amended): closing a shared file. Let the loggers at `p` and `q` be two different
loggers that share the open file `f` as their primary sink (a parent and a child derived
through `clone`). After `Close` on `p` the file is closed and the logger at `q` is what it
was: its file pointer is still there, not absent. A later log call on `q` that passes its
level records its line in the history of `q` and attempts the write, which fails with the
error `write <name>: file already closed` (a `PathError` that wraps `os.ErrClosed`); the
error goes to `handleWriteError`, which drops it, and nothing is added to the file.
`Sync()` on `q` returns the error `sync <name>: file already closed`; `Close()` on `q`
returns an error, which is `close <name>: file already closed` when `q` has no error
file. -/
theorem C32_shared_close (env : Env) (s : State) (p q : Ptr) (l c : Logger) (f : FilePtr)
    (file : File) (hp : s.loggers[p]? = some l) (hq : s.loggers[q]? = some c) (hpq : p ≠ q)
    (hlf : l.file = some f) (hcf : c.file = some f) (hf : s.files[f]? = some file)
    (ho : file.closed = false) (L : Level) (msg data : String) (hpass : c.level ≤ L) :
    (Logger.Close s p).1.files[f]? = some { file with closed := true } ∧
    (∃ c1, (Logger.Close s p).1.loggers[q]? = some c1 ∧ c1.file = some f) ∧
    (Logger.Close s p).1.fileWrite f data =
      ((Logger.Close s p).1, some ("write " ++ file.name ++ ": file already closed")) ∧
    Logger.GetMessages (Logger.log env (Logger.Close s p).1 q L msg) q =
      Logger.GetMessages s q ++ [Logger.lineOf env (Logger.Close s p).1.steps c L msg] ∧
    (Logger.log env (Logger.Close s p).1 q L msg).files[f]?
      = some { file with closed := true } ∧
    Logger.Sync (Logger.Close s p).1 q = some ("sync " ++ file.name ++ ": file already closed") ∧
    (Logger.Close (Logger.Close s p).1 q).2 ≠ none ∧
    (c.errorFile = none →
      (Logger.Close (Logger.Close s p).1 q).2 =
        some ("close " ++ file.name ++ ": file already closed")) := by
  obtain ⟨hq1, hf1⟩ := Close_shared s p q l c f file hp hq hpq hlf hf ho
  obtain ⟨hw, hs, hc⟩ := closed_file_ops (Logger.Close s p).1 f _ hf1 rfl data
  refine ⟨hf1, ⟨c, hq1, hcf⟩, hw, ?_, ?_, ?_, ?_, ?_⟩
  · rw [log_messages env _ q c L msg hq1, if_neg (not_lt.mpr hpass)]
    simp only [Logger.GetMessages, hq]
  · exact log_closed_file env _ q c L msg hq1 hpass f _ hf1 rfl
  · simp only [Logger.Sync, hq1, hcf]
    exact hs
  · obtain ⟨cfile, cerr, cfields, cpfx, ctf, cmsgs, clevel⟩ := c
    simp only at hcf
    subst hcf
    rw [Close_eq _ q _ hq1]
    cases cerr with
    | none =>
      show ((Logger.Close s p).1.fileClose f).2 ≠ none
      rw [hc]; simp
    | some ef =>
      show ((((Logger.Close s p).1.fileClose f).1.fileClose ef).2).or
        ((Logger.Close s p).1.fileClose f).2 ≠ none
      rw [hc]
      cases ((Logger.Close s p).1.fileClose ef).2 <;> simp
  · intro hce
    rw [Close_eq _ q _ hq1, hcf, hce]
    show ((Logger.Close s p).1.fileClose f).2 = _
    rw [hc]

/-- C32 as stated fails on the code: after `WithPrefix("db")` on a logger with an open file
and `Close` on that logger, the child still observes the file pointer (it is not absent),
the write of its next line is attempted and fails with `write main.log: file already
closed`, and its `Sync()` and its `Close()` fail in the same way. -/
theorem C32_counterexample :
    (sharedClosedState.loggers.map fun l => l.file) = [none, some 0] ∧
    (sharedClosedState.files.map fun fl => (fl.name, fl.closed)) = [("main.log", true)] ∧
    (sharedClosedState.fileWrite 0 "line").2 = some "write main.log: file already closed" ∧
    Logger.Sync sharedClosedState 1 = some "sync main.log: file already closed" ∧
    (Logger.Close sharedClosedState 1).2 = some "close main.log: file already closed" ∧
    ((Logger.Info sampleEnv sharedClosedState 1 [Value.ofString "m"]).files.map
      fun fl => fl.written) = [["old\n"]] ∧
    Logger.GetMessages (Logger.Info sampleEnv sharedClosedState 1 [Value.ofString "m"]) 1
      = ["2024-05-06 07:08:09 [INFO] [db] m"] := by
  decide

/-- C32 (amended) on the logger of `fileState` and the child derived from it by
`WithPrefix("db")`. -/
theorem C32_shared_close_witness :
    (Logger.WithPrefix sampleEnv fileState 0 "db").1.loggers[0]?
      = some { rootLogger with file := some 0 } ∧
    (Logger.WithPrefix sampleEnv fileState 0 "db").1.loggers[1]?
      = some { rootLogger with file := some 0, pfx := "db" } ∧
    (sharedClosedState.loggers[1]?).map (fun l => l.file) = some (some 0) ∧
    Logger.Sync sharedClosedState 1 = some "sync main.log: file already closed" ∧
    (Logger.Close sharedClosedState 1).2 = some "close main.log: file already closed" ∧
    Logger.GetMessages (Logger.log sampleEnv sharedClosedState 1 InfoLevel "m") 1
      = ["2024-05-06 07:08:09 [INFO] [db] m"] :=
  have h := C32_shared_close sampleEnv (Logger.WithPrefix sampleEnv fileState 0 "db").1 0 1
    { rootLogger with file := some 0 } { rootLogger with file := some 0, pfx := "db" } 0
    { name := "main.log", written := ["old\n"], closed := false, writeErr := none,
      syncErr := none, closeErr := none }
    (by decide) (by decide) (by decide) rfl rfl (by decide) rfl InfoLevel "m" "line"
    (by decide)
  ⟨by decide, by decide, by decide, h.2.2.2.2.2.1, h.2.2.2.2.2.2.2 rfl,
   h.2.2.2.1.trans (by decide)⟩

/-! ## Invariants of the heap of loggers under the public operations -/

theorem SafeStep.refl (xs : List Logger) : SafeStep xs xs :=
  ⟨fun _ => List.prefix_refl _, fun h => h⟩

theorem SafeStep.trans {xs ys zs : List Logger} (h1 : SafeStep xs ys) (h2 : SafeStep ys zs) :
    SafeStep xs zs :=
  ⟨fun i => (h1.1 i).trans (h2.1 i), fun h => h2.2 (h1.2 h)⟩

theorem SafeStep.of_eq {xs ys : List Logger} (h : ys = xs) : SafeStep xs ys := by
  rw [h]; exact SafeStep.refl xs

/-- Replacing a logger by one whose history extends it and that is good if it was. -/
theorem SafeStep.set (xs : List Logger) (q : Nat) (l l1 : Logger) (hq : xs[q]? = some l)
    (hm : l.messages <+: l1.messages) (hg : GoodLogger l → GoodLogger l1) :
    SafeStep xs (xs.set q l1) := by
  have hlt : q < xs.length := lt_length_of_getElem? hq
  constructor
  · intro i
    unfold historyAt
    by_cases hi : q = i
    · subst hi
      simp [hq, hlt, hm]
    · rw [List.getElem?_set_ne hi]
  · intro h l2 hl2
    rcases List.mem_or_eq_of_mem_set hl2 with h3 | h3
    · exact h l2 h3
    · rw [h3]
      exact hg (h l (List.getElem?_mem hq))

/-- Allocating a logger that is good if the loggers of the heap are. -/
theorem SafeStep.append (xs : List Logger) (c : Logger)
    (hg : (∀ l ∈ xs, GoodLogger l) → GoodLogger c) : SafeStep xs (xs ++ [c]) := by
  constructor
  · intro i
    unfold historyAt
    by_cases hi : i < xs.length
    · rw [List.getElem?_append_left hi]
    · rw [List.getElem?_eq_none (Nat.le_of_not_lt hi)]
      exact List.nil_prefix
  · intro h l hl
    rcases List.mem_append.mp hl with h1 | h1
    · exact h l h1
    · rw [List.mem_singleton.mp h1]
      exact hg h

theorem parseLevel_range (env : Env) (name : String) : LevelInRange (parseLevel env name) := by
  unfold parseLevel
  simp only
  split_ifs <;> decide

theorem log_safe (env : Env) (s : State) (q : Ptr) (L : Level) (msg : String) :
    SafeStep s.loggers (Logger.log env s q L msg).loggers := by
  cases hq : s.loggers[q]? with
  | none =>
    apply SafeStep.of_eq
    unfold Logger.log
    rw [hq]
  | some l =>
    rw [log_loggers env s q l L msg hq]
    by_cases h : L < l.level
    · rw [if_pos h]; exact SafeStep.refl _
    · rw [if_neg h]
      exact SafeStep.set _ q l _ hq (List.prefix_append _ _) (fun hg => hg)

theorem logf_safe (env : Env) (s : State) (q : Ptr) (L : Level) (format : String)
    (args : List Value) : SafeStep s.loggers (Logger.logf env s q L format args).loggers := by
  unfold Logger.logf
  cases hq : s.loggers[q]? with
  | none => exact SafeStep.refl _
  | some l =>
    simp only
    by_cases h : L < l.level
    · rw [if_pos h]; exact SafeStep.refl _
    · rw [if_neg h]; exact log_safe env s q L _

theorem SetLevel_safe (env : Env) (s : State) (q : Ptr) (level : String) :
    SafeStep s.loggers (Logger.SetLevel env s q level).1.loggers := by
  unfold Logger.SetLevel
  cases hq : s.loggers[q]? with
  | none => exact SafeStep.refl _
  | some l =>
    simp only
    split_ifs
    all_goals first
      | exact SafeStep.refl _
      | exact SafeStep.set _ q l _ hq (List.prefix_refl _) (fun hg => ⟨hg.1, by dsimp only [LevelInRange]; decide⟩)

theorem Close_safe (s : State) (q : Ptr) : SafeStep s.loggers (Logger.Close s q).1.loggers := by
  cases hq : s.loggers[q]? with
  | none =>
    apply SafeStep.of_eq
    unfold Logger.Close
    rw [hq]
  | some l =>
    obtain ⟨lfile, lerr, lfields, lpfx, ltf, lmsgs, llevel⟩ := l
    rw [Close_eq s q _ hq]
    cases lfile <;> cases lerr
    · exact SafeStep.refl _
    · exact SafeStep.set _ q _ _ hq (List.prefix_refl _) (fun hg => ⟨rfl, hg.2⟩)
    · exact SafeStep.set _ q _ _ hq (List.prefix_refl _) (fun hg => ⟨hg.1, hg.2⟩)
    · exact SafeStep.set _ q _ _ hq (List.prefix_refl _) (fun hg => ⟨rfl, hg.2⟩)

theorem fatalTail_safe (env : Env) (s : State) (q : Ptr) (msg : String) :
    SafeStep s.loggers (Logger.fatalTail env s q msg).loggers := by
  unfold Logger.fatalTail
  have h1 := log_safe env s q FatalLevel msg
  have h2 := Close_safe (Logger.log env s q FatalLevel msg) q
  cases herr : (Logger.Close (Logger.log env s q FatalLevel msg) q).2 with
  | none =>
    simp only [herr]
    exact h1.trans h2
  | some e =>
    simp only [herr]
    exact (h1.trans h2).trans (log_safe env _ q ErrorLevel _)

theorem derive_safe (env : Env) (s : State) (q : Ptr) (d : Derivation) :
    SafeStep s.loggers (derive env s q d).1.loggers := by
  cases hq : s.loggers[q]? with
  | none =>
    apply SafeStep.of_eq
    cases d <;>
      simp [derive, Logger.WithPrefix, Logger.WithFields, Logger.WithLevel, Logger.WithConfig,
        Logger.WithTimeFormat, Logger.clone, Logger.SetLevel, State.modifyLogger, hq]
  | some l =>
    have hl : (∀ l1 ∈ s.loggers, GoodLogger l1) → GoodLogger l :=
      fun h => h l (List.getElem?_mem hq)
    cases d with
    | withPrefix segment =>
      simp only [derive, WithPrefix_eq env s q l segment hq]
      exact SafeStep.append _ _ hl
    | withFields fields =>
      simp only [derive, WithFields_eq env s q l fields hq]
      exact SafeStep.append _ _ hl
    | withLevel level =>
      simp only [derive, WithLevel_eq env s q l level hq]
      exact SafeStep.append _ _ (fun h => ⟨(hl h).1, parseLevel_range env level⟩)
    | withConfig cfg =>
      simp only [derive, WithConfig_eq_WithLevel, WithLevel_eq env s q l cfg.Level hq]
      exact SafeStep.append _ _ (fun h => ⟨(hl h).1, parseLevel_range env cfg.Level⟩)
    | withTimeFormat format =>
      simp only [derive, WithTimeFormat_eq env s q l format hq]
      exact SafeStep.append _ _ hl

theorem openLogFile_loggers (env : Env) (s : State) (filename : String) :
    (openLogFile env s filename).1.loggers = s.loggers := by
  unfold openLogFile
  cases env.mkdirAll s.steps (env.filepathDir filename) with
  | some err => rfl
  | none =>
    cases env.openFile s.steps (env.filepathClean filename) with
    | error err => rfl
    | ok f => rfl

theorem WithFile_safe (env : Env) (s : State) (q : Ptr) (filename : String) :
    SafeStep s.loggers (Logger.WithFile env s q filename).1.loggers := by
  have hl := openLogFile_loggers env s filename
  unfold Logger.WithFile
  rcases hopen : openLogFile env s filename with ⟨s1, r⟩
  rw [hopen] at hl
  simp only at hl
  cases r with
  | error e =>
    obtain ⟨format, err⟩ := e
    simp only [Logger.Errorf]
    rw [← hl]
    exact logf_safe env s1 q ErrorLevel format _
  | ok fp =>
    simp only
    cases hq : s1.loggers[q]? with
    | none => exact SafeStep.of_eq hl
    | some l =>
      rw [← hl]
      simp only [State.allocLogger, State.tick, State.modifyLogger, getElem?_append_length,
        State.setLogger, set_append_length]
      exact SafeStep.append _ _ (fun h => h l (List.getElem?_mem hq))

theorem loggerStep_safe (env : Env) (s : State) (q : Ptr) (d : LoggerStep) :
    SafeStep s.loggers (loggerStep env s q d).1.loggers := by
  cases d with
  | via d => exact derive_safe env s q d
  | withFile filename => exact WithFile_safe env s q filename

theorem applyOp_safe (env : Env) (s : State) (q : Ptr) (o : PublicOp) :
    SafeStep s.loggers (applyOp env s q o).loggers := by
  cases o with
  | debug args => exact log_safe env s q DebugLevel _
  | debugf format args => exact logf_safe env s q DebugLevel format args
  | info args => exact log_safe env s q InfoLevel _
  | infof format args => exact logf_safe env s q InfoLevel format args
  | warning args => exact log_safe env s q WarningLevel _
  | warningf format args => exact logf_safe env s q WarningLevel format args
  | error args => exact log_safe env s q ErrorLevel _
  | errorf format args => exact logf_safe env s q ErrorLevel format args
  | fatal args => exact fatalTail_safe env s q (Sprint args)
  | fatalf format args => exact fatalTail_safe env s q (env.sprintf format args)
  | setLevel level => exact SetLevel_safe env s q level
  | derive d => exact loggerStep_safe env s q d
  | close => exact Close_safe s q
  | sync => exact SafeStep.refl _
  | getMessages => exact SafeStep.refl _

theorem runAction_safe (env : Env) (s : State) (a : Action) :
    SafeStep s.loggers (runAction env s a).loggers := by
  cases a with
  | new =>
    simp only [runAction, New_eq]
    exact SafeStep.append _ _ (fun _ => ⟨rfl, by decide⟩)
  | op q o => exact applyOp_safe env s q o

theorem runActions_safe (env : Env) (acts : List Action) :
    ∀ s : State, SafeStep s.loggers (runActions env s acts).loggers := by
  induction acts with
  | nil => intro s; exact SafeStep.refl _
  | cons a rest ih =>
    intro s
    exact (runAction_safe env s a).trans (ih (runAction env s a))

/-- Every logger on the heap of a program that starts on the empty machine has no error
file and a level among the five severities. -/
theorem reachable_good (env : Env) (acts : List Action) :
    ∀ l ∈ (runActions env emptyState acts).loggers, GoodLogger l :=
  (runActions_safe env acts emptyState).2 (fun l hl => by cases hl)

/-- The history after a logging method other than `Fatal` and `Fatalf`: unchanged when the
level of the method is below the level of the logger, one more line otherwise. -/
theorem logOp_history (env : Env) (s : State) (p : Ptr) (l : Logger) (o : PublicOp)
    (L : Level) (hp : s.loggers[p]? = some l) (ho : o.level? = some L) (hL : L ≠ FatalLevel) :
    Logger.GetMessages (applyOp env s p o) p =
      if L < l.level then l.messages
      else l.messages ++ [Logger.lineOf env s.steps l L (o.message env)] := by
  have hlog : ∀ (L1 : Level) (msg : String),
      Logger.GetMessages (Logger.log env s p L1 msg) p =
        if L1 < l.level then l.messages
        else l.messages ++ [Logger.lineOf env s.steps l L1 msg] :=
    fun L1 msg => log_messages env s p l L1 msg hp
  have hlogf : ∀ (L1 : Level) (format : String) (args : List Value),
      Logger.GetMessages (Logger.logf env s p L1 format args) p =
        if L1 < l.level then l.messages
        else l.messages ++ [Logger.lineOf env s.steps l L1 (env.sprintf format args)] := by
    intro L1 format args
    rw [logf_eq env s p l L1 format args hp]
    by_cases h : L1 < l.level
    · simp only [if_pos h, Logger.GetMessages, hp]
    · rw [if_neg h, hlog]
  cases o with
  | debug args => cases ho; exact hlog _ _
  | debugf format args => cases ho; exact hlogf _ _ _
  | info args => cases ho; exact hlog _ _
  | infof format args => cases ho; exact hlogf _ _ _
  | warning args => cases ho; exact hlog _ _
  | warningf format args => cases ho; exact hlogf _ _ _
  | error args => cases ho; exact hlog _ _
  | errorf format args => cases ho; exact hlogf _ _ _
  | fatal args => cases ho; exact absurd rfl hL
  | fatalf format args => cases ho; exact absurd rfl hL
  | setLevel level => cases ho
  | derive d => cases ho
  | close => cases ho
  | sync => cases ho
  | getMessages => cases ho

/-- C31: the history only grows. For every state, every logger address `p` and every public
operation (the ten logging methods, `Fatal` and `Fatalf` among them, `SetLevel`, the six
derivations, `Close`, `Sync`, `GetMessages`), applied to the logger at `p` or to any other
logger, the history of `p` before the operation is a beginning of its history after it;
and so it is along every program of calls of `New()` and public operations. -/
theorem C31_history_grows (env : Env) (s : State) (p q : Ptr) (o : PublicOp)
    (acts : List Action) :
    Logger.GetMessages s p <+: Logger.GetMessages (applyOp env s p o) p ∧
    Logger.GetMessages s p <+: Logger.GetMessages (applyOp env s q o) p ∧
    Logger.GetMessages s p <+: Logger.GetMessages (runActions env s acts) p :=
  ⟨(applyOp_safe env s p o).1 p, (applyOp_safe env s q o).1 p,
   (runActions_safe env acts s).1 p⟩

/-- C37: the error file is never established. Every logger on the heap of a program that
starts on the empty machine and consists of calls of `New()` and of public operations
(logging methods, `SetLevel`, the six derivations, `Close`, `Sync`, `GetMessages`) has no
error file. So a log call on it, at ERROR and FATAL too, writes its record to the primary
file only, when there is one that accepts it: no file receives anything through the error
sink. -/
theorem C37_no_error_file (env : Env) (acts : List Action) (p : Ptr) (l : Logger)
    (hp : (runActions env emptyState acts).loggers[p]? = some l) (L : Level) (msg : String)
    (hpass : l.level ≤ L) (g : FilePtr) (fg : File)
    (hg : (runActions env emptyState acts).files[g]? = some fg) :
    l.errorFile = none ∧
    sinkGets (if L = ErrorLevel ∨ L = FatalLevel then l.errorFile else none) g fg
      (Logger.lineOf env (runActions env emptyState acts).steps l L msg ++ "\n") = [] ∧
    ∃ fg1, (Logger.log env (runActions env emptyState acts) p L msg).files[g]? = some fg1 ∧
      fg1.written = fg.written ++
        sinkGets l.file g fg
          (Logger.lineOf env (runActions env emptyState acts).steps l L msg ++ "\n") := by
  have hgood := reachable_good env acts l (List.getElem?_mem hp)
  have hnone : ∀ d, sinkGets (if L = ErrorLevel ∨ L = FatalLevel then l.errorFile else none)
      g fg d = [] := by
    intro d
    rw [hgood.1]
    simp [sinkGets]
  obtain ⟨fg1, h1, -, h3⟩ := log_sinks env _ p l L msg hp hpass g fg hg
  rw [hnone, List.append_nil] at h3
  exact ⟨hgood.1, hnone _, fg1, h1, h3⟩

/-- C37 on the sample program: the logger derived by `WithFile` has no error file, and an
ERROR record logged on it goes to its file `x.log` alone. -/
theorem C37_no_error_file_witness :
    (runActions sampleEnv emptyState sampleProgram).loggers[1]?
      = some { rootLogger with file := some 0, level := ErrorLevel } ∧
    (runActions sampleEnv emptyState sampleProgram).files[0]?
      = some { name := "x.log", written := [], closed := false, writeErr := none,
               syncErr := none, closeErr := none } ∧
    ((runActions sampleEnv emptyState sampleProgram).loggers.map fun l => l.errorFile)
      = [none, none] ∧
    ∃ fg1, (Logger.log sampleEnv (runActions sampleEnv emptyState sampleProgram) 1 ErrorLevel
        "boom").files[0]? = some fg1 ∧
      fg1.written = ["2024-05-06 07:08:09 [ERROR] boom\n"] :=
  have h := C37_no_error_file sampleEnv sampleProgram 1
    { rootLogger with file := some 0, level := ErrorLevel }
    (by decide) ErrorLevel "boom" (by decide) 0
    { name := "x.log", written := [], closed := false, writeErr := none, syncErr := none,
      closeErr := none }
    (by decide)
  ⟨by decide, by decide, by decide,
   h.2.2.elim fun fg1 hfg => ⟨fg1, hfg.1, hfg.2.trans (by decide)⟩⟩

/-- C9: `Close` returns the first close error encountered, and never the error of a
`Sync`. Every logger on the heap of a program that starts on the empty machine and consists
of calls of `New()` and of public operations has no error file, so `Close` closes one file
at most and there is one close error at most: without primary file `Close` returns no
error; with the primary file `f` it returns what the close of `f` returns, which for a
file that is open is the close error that the operating system reports (none when it
reports none), whatever the `Sync` before it returned. -/
theorem C9_Close_error (env : Env) (acts : List Action) (p : Ptr) (l : Logger)
    (hp : (runActions env emptyState acts).loggers[p]? = some l) :
    l.errorFile = none ∧
    (l.file = none → (Logger.Close (runActions env emptyState acts) p).2 = none) ∧
    (∀ f, l.file = some f →
      (Logger.Close (runActions env emptyState acts) p).2 =
        ((runActions env emptyState acts).fileClose f).2 ∧
      ∀ primary, (runActions env emptyState acts).files[f]? = some primary →
        primary.closed = false →
        (Logger.Close (runActions env emptyState acts) p).2 = primary.closeErr) := by
  have hgood := reachable_good env acts l (List.getElem?_mem hp)
  refine ⟨hgood.1, fun hnone => ?_, fun f hf => ?_⟩
  · rw [Close_of_absent _ p l hp hnone hgood.1]
  · have h1 : (Logger.Close (runActions env emptyState acts) p).2 =
        ((runActions env emptyState acts).fileClose f).2 := by
      rw [Close_eq _ p l hp, hf, hgood.1]
    refine ⟨h1, fun primary hprimary ho => ?_⟩
    rw [h1, fileClose_of_open _ f primary hprimary ho]

/-- C9 on the sample program, with files whose sync and close both fail: `Close` on the
logger derived by `WithFile` returns the close error and not the error of `Sync`; `Close`
on the logger of `New()`, which has no file, returns no error. -/
theorem C9_Close_error_witness :
    (runActions faultyEnv emptyState sampleProgram).loggers[1]?
      = some { rootLogger with file := some 0, level := ErrorLevel } ∧
    (runActions faultyEnv emptyState sampleProgram).files[0]?
      = some { name := "x.log", written := [], closed := false, writeErr := none,
               syncErr := some "sync x.log: input/output error",
               closeErr := some "close x.log: input/output error" } ∧
    Logger.Sync (runActions faultyEnv emptyState sampleProgram) 1
      = some "sync x.log: input/output error" ∧
    (Logger.Close (runActions faultyEnv emptyState sampleProgram) 1).2
      = some "close x.log: input/output error" ∧
    (Logger.Close (runActions faultyEnv emptyState sampleProgram) 0).2 = none :=
  ⟨by decide, by decide, by decide,
   ((C9_Close_error faultyEnv sampleProgram 1
      { rootLogger with file := some 0, level := ErrorLevel } (by decide)).2.2 0 rfl).2
      { name := "x.log", written := [], closed := false, writeErr := none,
        syncErr := some "sync x.log: input/output error",
        closeErr := some "close x.log: input/output error" } (by decide) rfl,
   (C9_Close_error faultyEnv sampleProgram 0 rootLogger (by decide)).2.1 rfl⟩

/-- An integer from 0 to 4 is one of the five severities. -/
theorem level_cases (L : Int) (h1 : 0 ≤ L) (h2 : L ≤ 4) :
    L ∈ [DebugLevel, InfoLevel, WarningLevel, ErrorLevel, FatalLevel] := by
  have h : L = 0 ∨ L = 1 ∨ L = 2 ∨ L = 3 ∨ L = 4 := by omega
  rcases h with h | h | h | h | h <;> subst h <;> decide

/-- The level of a logging method is one of the five severities, with its tag. -/
theorem opLevel_tag (o : PublicOp) (L : Level) (ho : o.level? = some L) :
    (∃ name, (L, name) ∈ severityNames ∧ levelTag L = "[" ++ name ++ "]") ∧
    levelTag L ≠ "[UNKNOWN]" := by
  cases o with
  | debug args => cases ho; exact ⟨⟨"DEBUG", by decide, by decide⟩, by decide⟩
  | debugf format args => cases ho; exact ⟨⟨"DEBUG", by decide, by decide⟩, by decide⟩
  | info args => cases ho; exact ⟨⟨"INFO", by decide, by decide⟩, by decide⟩
  | infof format args => cases ho; exact ⟨⟨"INFO", by decide, by decide⟩, by decide⟩
  | warning args => cases ho; exact ⟨⟨"WARNING", by decide, by decide⟩, by decide⟩
  | warningf format args => cases ho; exact ⟨⟨"WARNING", by decide, by decide⟩, by decide⟩
  | error args => cases ho; exact ⟨⟨"ERROR", by decide, by decide⟩, by decide⟩
  | errorf format args => cases ho; exact ⟨⟨"ERROR", by decide, by decide⟩, by decide⟩
  | fatal args => cases ho; exact ⟨⟨"FATAL", by decide, by decide⟩, by decide⟩
  | fatalf format args => cases ho; exact ⟨⟨"FATAL", by decide, by decide⟩, by decide⟩
  | setLevel level => cases ho
  | derive d => cases ho
  | close => cases ho
  | sync => cases ho
  | getMessages => cases ho

/-- C38: the level of every logger on the heap of a program that starts on the empty machine
and consists of calls of `New()` and of public operations is one of the five severities.
So `Fatal` and `Fatalf` on it are never filtered: they record their FATAL line, close the
logger and call the exit hook with 1. And every logging method records at one of the five
severities, whose tag is the bracketed name and never `[UNKNOWN]`: a method other than
`Fatal` and `Fatalf` leaves the history as it is when its level is below the level of the
logger and appends the line with its tag otherwise. -/
theorem C38_level_range (env : Env) (acts : List Action) (p : Ptr) (l : Logger)
    (hp : (runActions env emptyState acts).loggers[p]? = some l) (o : PublicOp) (L : Level)
    (ho : o.level? = some L) (args : List Value) (format : String) :
    l.level ∈ [DebugLevel, InfoLevel, WarningLevel, ErrorLevel, FatalLevel] ∧
    ¬ FatalLevel < l.level ∧
    FatalOutcome env (runActions env emptyState acts) p l (Sprint args)
      (Logger.Fatal env (runActions env emptyState acts) p args) ∧
    FatalOutcome env (runActions env emptyState acts) p l (env.sprintf format args)
      (Logger.Fatalf env (runActions env emptyState acts) p format args) ∧
    (∃ name, (L, name) ∈ severityNames ∧ levelTag L = "[" ++ name ++ "]") ∧
    levelTag L ≠ "[UNKNOWN]" ∧
    (L ≠ FatalLevel →
      Logger.GetMessages (applyOp env (runActions env emptyState acts) p o) p =
        if L < l.level then l.messages
        else l.messages ++
          [Logger.lineOf env (runActions env emptyState acts).steps l L (o.message env)]) := by
  have hgood := reachable_good env acts l (List.getElem?_mem hp)
  have hle : l.level ≤ FatalLevel := hgood.2.2
  obtain ⟨htag1, htag2⟩ := opLevel_tag o L ho
  exact ⟨level_cases l.level hgood.2.1 hgood.2.2, not_lt.mpr hle,
    fatalTail_outcome env _ p l hp hle _, fatalTail_outcome env _ p l hp hle _,
    htag1, htag2, fun hL => logOp_history env _ p l o L hp ho hL⟩

/-- C38 on the sample program: the logger at address 1 has the level ERROR; `Fatal("stop")`
on it records its line and calls the exit hook, `Warning("w")` is filtered. -/
theorem C38_level_range_witness :
    (runActions sampleEnv emptyState sampleProgram).loggers[1]?
      = some { rootLogger with file := some 0, level := ErrorLevel } ∧
    (PublicOp.warning [Value.ofString "w"]).level? = some WarningLevel ∧
    ((runActions sampleEnv emptyState sampleProgram).loggers.map fun l => l.level)
      = [DebugLevel, ErrorLevel] ∧
    Logger.GetMessages
      (Logger.Fatal sampleEnv (runActions sampleEnv emptyState sampleProgram) 1
        [Value.ofString "stop"]) 1 = ["2024-05-06 07:08:09 [FATAL] stop"] ∧
    (Logger.Fatal sampleEnv (runActions sampleEnv emptyState sampleProgram) 1
        [Value.ofString "stop"]).exitCodes = [1] ∧
    Logger.GetMessages
      (applyOp sampleEnv (runActions sampleEnv emptyState sampleProgram) 1
        (.warning [Value.ofString "w"])) 1 = [] :=
  have h := C38_level_range sampleEnv sampleProgram 1
    { rootLogger with file := some 0, level := ErrorLevel } (by decide)
    (.warning [Value.ofString "w"]) WarningLevel rfl [Value.ofString "stop"] ""
  ⟨by decide, rfl, by decide, by decide, h.2.2.1.1.trans (by decide),
   (h.2.2.2.2.2.2 (by decide)).trans (by decide)⟩

/-! ## The two implementations on chains of prefixes -/

theorem extendPrefix_ne (pfx a : String) (ha : a ≠ "") : extendPrefix pfx a ≠ "" := by
  unfold extendPrefix
  by_cases hp : pfx = ""
  · simpa [hp] using ha
  · rw [if_pos hp]
    intro e
    have hlen := congrArg String.length e
    have hdot : ".".length = 1 := rfl
    have hzero : "".length = 0 := rfl
    simp only [String.length_append, hdot, hzero] at hlen
    omega

/-- After `WithPrefix` calls with non-empty segments the prefix is the segments joined by
dots, after the prefix of the receiver when that is not empty. -/
theorem foldl_extendPrefix_join (segs : List String) (hne : ∀ seg ∈ segs, seg ≠ "") :
    ∀ pfx,
      (pfx = "" → segs.foldl extendPrefix pfx = stringsJoin segs ".") ∧
      (pfx ≠ "" → segs ≠ [] →
        segs.foldl extendPrefix pfx = pfx ++ "." ++ stringsJoin segs ".") := by
  induction segs with
  | nil =>
    intro pfx
    exact ⟨fun h => by simp [h, stringsJoin], fun _ h => absurd rfl h⟩
  | cons a rest ih =>
    intro pfx
    have ha : a ≠ "" := hne a (List.mem_cons_self _ _)
    have hnext : extendPrefix pfx a ≠ "" := extendPrefix_ne pfx a ha
    obtain ⟨-, h3⟩ := ih (fun seg h => hne seg (List.mem_cons_of_mem _ h)) (extendPrefix pfx a)
    constructor
    · intro he
      cases rest with
      | nil => simp [he, extendPrefix, stringsJoin]
      | cons b rest2 =>
        rw [List.foldl_cons, h3 hnext (by simp)]
        simp [he, extendPrefix, stringsJoin]
    · intro he _
      cases rest with
      | nil => simp [he, extendPrefix, stringsJoin]
      | cons b rest2 =>
        rw [List.foldl_cons, h3 hnext (by simp)]
        simp [he, extendPrefix, stringsJoin, String.append_assoc]

/-- The last logger of a chain of `WithPrefix` calls on a logger without fields: the
prefix is extended by the segments, everything else is what the first receiver has. -/
theorem prefixSteps_spec (env : Env) :
    ∀ (segs : List String) (s : State) (p : Ptr) (l : Logger), s.loggers[p]? = some l →
      l.fields.entries = [] →
      ∃ c, (loggerChain env s p (prefixSteps segs)).1.loggers[
            (loggerChain env s p (prefixSteps segs)).2]? = some c ∧
        c.pfx = segs.foldl extendPrefix l.pfx ∧ c.fields.entries = [] ∧ c.level = l.level ∧
        c.timeFormat = l.timeFormat ∧ c.messages = l.messages := by
  intro segs
  induction segs with
  | nil =>
    intro s p l hp hf
    exact ⟨l, hp, rfl, hf, rfl, rfl, rfl⟩
  | cons a rest ih =>
    intro s p l hp hf
    have hstep : loggerStep env s p (.via (.withPrefix a)) = Logger.WithPrefix env s p a := rfl
    have hc1 : (Logger.WithPrefix env s p a).1.loggers[(Logger.WithPrefix env s p a).2]?
        = some { l with fields := copyFields env s.steps l.fields,
                        pfx := if l.pfx ≠ "" then l.pfx ++ "." ++ a else a } := by
      rw [WithPrefix_eq env s p l a hp]
      exact getElem?_append_length _ _
    obtain ⟨c, hc, h1, h2, h3, h4, h5⟩ := ih _ _ _ hc1 (copyFields_of_empty env s.steps l.fields hf)
    exact ⟨c, hc, h1, h2, h3, h4, h5⟩

theorem chainSegments_mockPrefixSteps (segs : List String) :
    chainSegments (mockPrefixSteps segs) = segs := by
  induction segs with
  | nil => rfl
  | cons a rest ih =>
    show a :: chainSegments (mockPrefixSteps rest) = a :: rest
    rw [ih]

/-- The messages of the root after a log call with one string, at a level that the root
lets pass, on the last logger of a chain of derivations that starts at a plain root. -/
theorem mock_chain_line_at (env : Env) (s : State) (r : Nat) (root : MockLogger)
    (steps : List MockStep) (L : Level) (x : String)
    (hr : s.mocks[r]? = some root) (hpar : root.parent = none) (hpfx : root.pfx = "")
    (hfields : root.fields = ∅) (hlevel : root.level ≤ L) :
    MockLogger.GetMessages
      (MockLogger.log env (mockChain s r steps).1 (mockChain s r steps).2 L [Value.ofString x]) r
      = root.Messages ++
        [getLevelString L ++ " " ++
          (if (chainSegments steps).filter (fun seg => seg ≠ "") ≠ [] then
            stringsJoin ((chainSegments steps).filter (fun seg => seg ≠ "")) "." ++ " "
           else "") ++ x] := by
  obtain ⟨⟨hm, hd, hroot, hcol⟩, hkeep, -⟩ :=
    mockChain_inv env r steps s r [] 1 (ChainInv_root env s.mocks r root hr hpar hpfx hfields)
  have hrootq : MockLogger.getRootLogger (mockChain s r steps).1 (mockChain s r steps).2
      = some r := hroot _ hd
  have hcolq := hcol (mockChain s r steps).1.mocks.length (mockChain s r steps).1.steps [] ∅ hd
  rw [List.nil_append, List.append_nil] at hcolq
  have hfmt := mock_formatMessage_eq env (mockChain s r steps).1 (mockChain s r steps).2
    L [Value.ofString x] _ ∅ _ hcolq
  have hrt := hkeep r root hr
  have hlt : r < (mockChain s r steps).1.mocks.length := mock_lt_length hrt
  simp only [MockLogger.log, MockLogger.logArgs, hrootq, hrt, hfmt,
    if_neg (not_lt.mpr hlevel)]
  simp [MockLogger.GetMessages, hlt, stringsJoin, Value.ofString, String.append_assoc]

/-- C39: the two implementations accumulate prefixes identically. For every non-empty list
of non-empty segments `p1..pn`, each of the five levels and every string `x`: the logger
obtained from `New()` by `WithPrefix(p1)`, ..., `WithPrefix(pn)` records, for the message
`x` at that level, exactly the line `timestamp + " [LEVEL] [" + P + "] " + x`, and the test
double obtained from `NewMockLogger()` by the same calls appends to the messages of its root
exactly `"[LEVEL] " + P + " " + x`, with the same `P = p1 + "." + ... + "." + pn`. -/
theorem C39_prefix_agreement (env : Env) (s u : State) (segs : List String) (L : Level)
    (name x : String) (hsegs : segs ≠ []) (hne : ∀ seg ∈ segs, seg ≠ "")
    (hL : (L, name) ∈ severityNames) :
    Logger.GetMessages
      (Logger.log env (loggerChain env (New env s).1 (New env s).2 (prefixSteps segs)).1
        (loggerChain env (New env s).1 (New env s).2 (prefixSteps segs)).2 L
        (Sprint [Value.ofString x]))
      (loggerChain env (New env s).1 (New env s).2 (prefixSteps segs)).2
      = [env.now (loggerChain env (New env s).1 (New env s).2 (prefixSteps segs)).1.steps
            "2006-01-02 15:04:05"
          ++ " [" ++ name ++ "] [" ++ stringsJoin segs "." ++ "] " ++ x] ∧
    MockLogger.GetMessages
      (MockLogger.log env
        (mockChain (NewMockLogger u).1 (NewMockLogger u).2 (mockPrefixSteps segs)).1
        (mockChain (NewMockLogger u).1 (NewMockLogger u).2 (mockPrefixSteps segs)).2 L
        [Value.ofString x])
      (NewMockLogger u).2
      = ["[" ++ name ++ "] " ++ stringsJoin segs "." ++ " " ++ x] := by
  have htag : levelTag L = "[" ++ name ++ "]" := levelTag_of_mem L name hL
  have hget : getLevelString L = "[" ++ name ++ "]" := htag
  have hrange : DebugLevel ≤ L := by
    rcases List.mem_cons.mp hL with h | h
    · cases h; decide
    · revert h; simp only [List.mem_cons, Prod.mk.injEq, List.mem_nil_iff, or_false]
      rintro (⟨h, -⟩ | ⟨h, -⟩ | ⟨h, -⟩ | ⟨h, -⟩) <;> subst h <;> decide
  have hjoin : segs.foldl extendPrefix "" = stringsJoin segs "." :=
    (foldl_extendPrefix_join segs hne "").1 rfl
  have hPne : stringsJoin segs "." ≠ "" := by
    rw [← hjoin]
    cases segs with
    | nil => exact absurd rfl hsegs
    | cons a rest =>
      rw [List.foldl_cons]
      intro e
      have ha : a ≠ "" := hne a (List.mem_cons_self _ _)
      have hnext := extendPrefix_ne "" a ha
      cases rest with
      | nil => exact hnext e
      | cons b rest2 =>
        have h3 := ((foldl_extendPrefix_join (b :: rest2)
          (fun seg h => hne seg (List.mem_cons_of_mem _ h)) (extendPrefix "" a)).2 hnext
          (by simp))
        rw [h3] at e
        have hlen := congrArg String.length e
        have hdot : ".".length = 1 := rfl
        have hzero : "".length = 0 := rfl
        simp only [String.length_append, hdot, hzero] at hlen
        omega
  constructor
  · have hp : (New env s).1.loggers[(New env s).2]? = some rootLogger := by
      rw [New_eq]; simp
    obtain ⟨c, hc, h1, h2, h3, h4, h5⟩ := prefixSteps_spec env segs _ _ rootLogger hp rfl
    have hpfx : c.pfx = stringsJoin segs "." := by rw [h1]; exact hjoin
    have hpass : ¬ L < c.level := by
      rw [h3]; exact not_lt.mpr hrange
    rw [log_messages env _ _ c L _ hc, if_neg hpass, lineOf_eq, h5, hpfx, h4, htag]
    have hroot : rootLogger.messages = [] := rfl
    have htf : rootLogger.timeFormat = "" := rfl
    rw [hroot, htf]
    simp [hPne, h2, Sprint, sprintRest, Value.ofString, String.append_assoc]
    have e1 : (" " : String) ++ "[" = " [" := by decide
    have e2 : ("] " : String) ++ "[" = "] [" := by decide
    rw [← String.append_assoc " " "[", e1, ← String.append_assoc "] " "[", e2]
  · have hfresh : (NewMockLogger u).1.mocks[(NewMockLogger u).2]?
        = some { Messages := [], fields := ∅, level := DebugLevel, osExitFunc := 0, pfx := "",
                 parent := none, exitCode := 0, hasFile := false } :=
      getElem?_append_length _ _
    rw [mock_chain_line_at env _ _ _ (mockPrefixSteps segs) L x hfresh rfl rfl rfl hrange,
      chainSegments_mockPrefixSteps, hget]
    have hfilter : segs.filter (fun seg => seg ≠ "") = segs := by
      rw [List.filter_eq_self]
      intro seg hseg
      simpa using hne seg hseg
    rw [hfilter]
    simp [hsegs, String.append_assoc]

/-- C39 on the segments `API` and `V1` at the level WARNING. -/
theorem C39_prefix_agreement_witness :
    (["API", "V1"] : List String) ≠ [] ∧ (∀ seg ∈ (["API", "V1"] : List String), seg ≠ "") ∧
    (WarningLevel, "WARNING") ∈ severityNames ∧
    Logger.GetMessages
      (Logger.log sampleEnv
        (loggerChain sampleEnv (New sampleEnv emptyState).1 (New sampleEnv emptyState).2
          (prefixSteps ["API", "V1"])).1
        (loggerChain sampleEnv (New sampleEnv emptyState).1 (New sampleEnv emptyState).2
          (prefixSteps ["API", "V1"])).2 WarningLevel (Sprint [Value.ofString "m"]))
      (loggerChain sampleEnv (New sampleEnv emptyState).1 (New sampleEnv emptyState).2
        (prefixSteps ["API", "V1"])).2
      = ["2024-05-06 07:08:09 [WARNING] [API.V1] m"] ∧
    MockLogger.GetMessages
      (MockLogger.log sampleEnv
        (mockChain (NewMockLogger emptyState).1 (NewMockLogger emptyState).2
          (mockPrefixSteps ["API", "V1"])).1
        (mockChain (NewMockLogger emptyState).1 (NewMockLogger emptyState).2
          (mockPrefixSteps ["API", "V1"])).2 WarningLevel [Value.ofString "m"])
      (NewMockLogger emptyState).2
      = ["[WARNING] API.V1 m"] :=
  have h := C39_prefix_agreement sampleEnv emptyState emptyState ["API", "V1"] WarningLevel
    "WARNING" "m" (by decide) (by decide) (by decide)
  ⟨by decide, by decide, by decide, h.1.trans (by decide), h.2.trans (by decide)⟩

/-! ## Concurrent emits -/

/-- `Logger.log` is the level test and the formatting of the line, then the statements
under the lock. -/
theorem log_eq_locked (env : Env) (s : State) (p : Ptr) (l : Logger) (L : Level)
    (msg : String) (hp : s.loggers[p]? = some l) :
    Logger.log env s p L msg =
      if L < l.level then s
      else Logger.logLocked s.tick p L (Logger.lineOf env s.steps l L msg) := by
  have hp1 : s.tick.loggers[p]? = some l := hp
  unfold Logger.log Logger.logLocked
  rw [hp, hp1]
  rfl

/-- The statements under the lock, for a level that is neither ERROR nor FATAL: the line
goes to the history, to standard output and through the file pointer. -/
theorem logLocked_eq (s : State) (p : Ptr) (l : Logger) (L : Level) (line : String)
    (hp : s.loggers[p]? = some l) (hL : ¬ (L = ErrorLevel ∨ L = FatalLevel)) :
    Logger.logLocked s p L line =
      { s.writeSink l.file (line ++ "\n") with
        loggers := s.loggers.set p { l with messages := l.messages ++ [line] },
        stdout := s.stdout ++ [line ++ "\n"] } := by
  unfold Logger.logLocked
  rw [hp]
  simp only [if_neg hL, State.setLogger, Logger.handleWriteError, State.writeSink]
  cases l.file with
  | none => rfl
  | some f =>
    simp only [State.fileWrite]
    cases s.files[f]? with
    | none => rfl
    | some file =>
      simp only
      by_cases hc : file.closed = true
      · simp [hc]
      · simp only [hc]
        cases file.writeErr <;> rfl

theorem SharesFile_iff (s : State) (f : FilePtr) (p : Ptr) :
    SharesFile s f p ↔ ∃ l, s.loggers[p]? = some l ∧ l.file = some f ∧ l.level ≤ InfoLevel := by
  unfold SharesFile
  cases s.loggers[p]? with
  | none => simp
  | some l => simp

/-- The line that `log` formats depends on the prefix, the fields and the layout of the
logger only. -/
theorem lineOf_congr (env : Env) (n : Nat) (l l1 : Logger) (L : Level) (msg : String)
    (h1 : l1.pfx = l.pfx) (h2 : l1.fields = l.fields) (h3 : l1.timeFormat = l.timeFormat) :
    Logger.lineOf env n l1 L msg = Logger.lineOf env n l L msg := by
  simp only [Logger.lineOf, Logger.formatMessage, h1, h2, h3]

theorem getElem?_set_cases {α : Type} (xs : List α) (i j : Nat) (a b : α)
    (h : (xs.set i a)[j]? = some b) :
    (j = i ∧ i < xs.length ∧ b = a) ∨ (j ≠ i ∧ xs[j]? = some b) := by
  by_cases hji : j = i
  · subst hji
    have hlt : j < xs.length := by
      have := lt_length_of_getElem? h
      simpa using this
    rw [List.getElem?_set_self hlt] at h
    exact Or.inl ⟨rfl, hlt, (Option.some.inj h).symm⟩
  · rw [List.getElem?_set_ne (fun e => hji e.symm)] at h
    exact Or.inr ⟨hji, h⟩

/-- One statement keeps `FrameOK` when it leaves the call of the goroutine and the loggers,
up to their histories, as they are. -/
theorem FrameOK.step_aux {env : Env} {mu : Ptr → Nat} {m : Nat} {s0 : State} {f : FilePtr}
    {calls : List (Ptr × String × List Value)} {r : Run}
    (hF : FrameOK env mu m s0 f calls r) (r1 : Run) (i : Nat) (g g1 : Goroutine)
    (hg : r.goroutines[i]? = some g) (hT : r1.goroutines = r.goroutines.set i g1)
    (ht : g1.target = g.target) (hfmt : g1.format = g.format) (hargs : g1.args = g.args)
    (hlog : ∀ (p : Ptr) (l : Logger), r.state.loggers[p]? = some l →
      ∃ l1, r1.state.loggers[p]? = some l1 ∧ l1.file = l.file ∧ l1.level = l.level ∧
        l1.pfx = l.pfx ∧ l1.fields = l.fields ∧ l1.timeFormat = l.timeFormat)
    (hline : g1.pc ≠ .start → ∀ l l0, r.state.loggers[g.target]? = some l →
      s0.loggers[g.target]? = some l0 → l.pfx = l0.pfx → l.fields = l0.fields →
      l.timeFormat = l0.timeFormat →
      ∃ n, g1.formattedMsg = Logger.lineOf env n l0 InfoLevel (env.sprintf g.format g.args)) :
    FrameOK env mu m s0 f calls r1 := by
  obtain ⟨hlen, hall⟩ := hF
  refine ⟨by rw [hT, List.length_set, hlen], ?_⟩
  intro j x hx
  rw [hT] at hx
  rcases getElem?_set_cases _ _ _ _ _ hx with ⟨hji, -, hxg⟩ | ⟨-, hxo⟩
  · subst hji
    subst hxg
    obtain ⟨h1, h2, l, l0, h3, h30, h4, h5, e1, e2, e3, -⟩ := hall j g hg
    obtain ⟨l1, k1, k2, k3, k4, k5, k6⟩ := hlog _ l h3
    refine ⟨by rw [ht]; exact h1, by rw [ht, hfmt, hargs]; exact h2, l1, l0,
      by rw [ht]; exact k1, by rw [ht]; exact h30, by rw [k2]; exact h4, by rw [k3]; exact h5,
      k4.trans e1, k5.trans e2, k6.trans e3, ?_⟩
    intro hpc
    obtain ⟨n, hn⟩ := hline hpc l l0 h3 h30 e1 e2 e3
    exact ⟨n, by rw [hn, hfmt, hargs]⟩
  · obtain ⟨h1, h2, l, l0, h3, h30, h4, h5, e1, e2, e3, h6⟩ := hall j x hxo
    obtain ⟨l1, k1, k2, k3, k4, k5, k6⟩ := hlog _ l h3
    exact ⟨h1, h2, l1, l0, k1, h30, by rw [k2]; exact h4, by rw [k3]; exact h5,
      k4.trans e1, k5.trans e2, k6.trans e3, h6⟩

/-- The loggers are what they were when the heap of loggers is. -/
theorem loggers_frame_of_eq {s s1 : State} (h : s1.loggers = s.loggers) :
    ∀ (p : Ptr) (l : Logger), s.loggers[p]? = some l →
      ∃ l1, s1.loggers[p]? = some l1 ∧ l1.file = l.file ∧ l1.level = l.level ∧
        l1.pfx = l.pfx ∧ l1.fields = l.fields ∧ l1.timeFormat = l.timeFormat := by
  intro p l hl
  exact ⟨l, by rw [h]; exact hl, rfl, rfl, rfl, rfl, rfl⟩

/-- An assignment to the history of one logger leaves the rest of every logger. -/
theorem loggers_frame_of_set (s : State) (t : Ptr) (lt : Logger) (msgs : List String)
    (ht : s.loggers[t]? = some lt) :
    ∀ (p : Ptr) (l : Logger), s.loggers[p]? = some l →
      ∃ l1, (s.setLogger t { lt with messages := msgs }).loggers[p]? = some l1 ∧
        l1.file = l.file ∧ l1.level = l.level ∧
        l1.pfx = l.pfx ∧ l1.fields = l.fields ∧ l1.timeFormat = l.timeFormat := by
  intro p l hl
  by_cases hpt : t = p
  · subst hpt
    rw [ht] at hl
    cases hl
    refine ⟨{ lt with messages := msgs }, ?_, rfl, rfl, rfl, rfl, rfl⟩
    show (s.loggers.set t _)[t]? = _
    exact List.getElem?_set_self (lt_length_of_getElem? ht)
  · refine ⟨l, ?_, rfl, rfl, rfl, rfl, rfl⟩
    show (s.loggers.set t _)[p]? = _
    rw [List.getElem?_set_ne hpt, hl]

/-- A goroutine that holds the mutex `m` holds it in the list of its mutexes. -/
theorem mu_mem_heldAt (m : Nat) (p : Ptr) (pc : Pc) (h : pc.inside = true) :
    Lock.mu m ∈ heldAt m p pc := by
  cases pc <;> simp [Pc.inside, heldAt] at h ⊢

/-- A statement outside the mutex leaves the mutual exclusion as it is. -/
theorem LockOK.outside {m : Nat} {r : Run} {h : Option Nat} (hL : LockOK m r h) (r1 : Run)
    (i : Nat) (g g1 : Goroutine) (hg : r.goroutines[i]? = some g)
    (hT : r1.goroutines = r.goroutines.set i g1) (hheld : r1.held = r.held)
    (hout : g.pc.inside = false) (hout1 : g1.pc.inside = false) : LockOK m r1 h := by
  obtain ⟨h1, h2, h3⟩ := hL
  refine ⟨?_, ?_, fun hn => by rw [hheld]; exact h3 hn⟩
  · intro j x hx hin
    rw [hT] at hx
    rcases getElem?_set_cases _ _ _ _ _ hx with ⟨-, -, hxg⟩ | ⟨-, hxo⟩
    · subst hxg
      rw [hout1] at hin
      cases hin
    · exact h1 j x hxo hin
  · intro j hj
    obtain ⟨x, hx, hin, hh⟩ := h2 j hj
    have hji : i ≠ j := by
      intro e
      subst e
      rw [hg] at hx
      cases hx
      rw [hout] at hin
      cases hin
    exact ⟨x, by rw [hT, List.getElem?_set_ne hji]; exact hx, hin, by rw [hheld]; exact hh⟩

/-- The goroutine `i` takes the mutex `m`, which was free. -/
theorem LockOK.enter {m : Nat} {r : Run} (hL : LockOK m r none) (r1 : Run)
    (i : Nat) (g g1 : Goroutine) (hg : r.goroutines[i]? = some g)
    (hT : r1.goroutines = r.goroutines.set i g1)
    (hin1 : g1.pc.inside = true) (hheld : r1.held = heldAt m g1.target g1.pc) :
    LockOK m r1 (some i) := by
  obtain ⟨h1, -, -⟩ := hL
  have hlt := lt_length_of_getElem? hg
  refine ⟨?_, ?_, fun hn => by cases hn⟩
  · intro j x hx hin
    rw [hT] at hx
    rcases getElem?_set_cases _ _ _ _ _ hx with ⟨hji, -, -⟩ | ⟨-, hxo⟩
    · rw [hji]
    · exact absurd (h1 j x hxo hin) (by simp)
  · intro j hj
    cases hj
    exact ⟨g1, by rw [hT]; exact List.getElem?_set_self hlt, hin1, hheld⟩

/-- The goroutine `i`, which holds the mutex `m`, runs a statement and still holds it. -/
theorem LockOK.move {m : Nat} {r : Run} (i : Nat) (hL : LockOK m r (some i)) (r1 : Run)
    (g1 : Goroutine) (hT : r1.goroutines = r.goroutines.set i g1)
    (hin1 : g1.pc.inside = true) (hheld : r1.held = heldAt m g1.target g1.pc) :
    LockOK m r1 (some i) := by
  obtain ⟨h1, h2, -⟩ := hL
  obtain ⟨g, hg, -, -⟩ := h2 i rfl
  have hlt := lt_length_of_getElem? hg
  refine ⟨?_, ?_, fun hn => by cases hn⟩
  · intro j x hx hin
    rw [hT] at hx
    rcases getElem?_set_cases _ _ _ _ _ hx with ⟨hji, -, -⟩ | ⟨-, hxo⟩
    · rw [hji]
    · exact h1 j x hxo hin
  · intro j hj
    cases hj
    exact ⟨g1, by rw [hT]; exact List.getElem?_set_self hlt, hin1, hheld⟩

/-- The goroutine `i` releases the mutex `m`. -/
theorem LockOK.leave {m : Nat} {r : Run} (i : Nat) (hL : LockOK m r (some i)) (r1 : Run)
    (g1 : Goroutine) (hT : r1.goroutines = r.goroutines.set i g1)
    (hout1 : g1.pc.inside = false) (hheld : r1.held = []) : LockOK m r1 none := by
  obtain ⟨h1, -, -⟩ := hL
  refine ⟨?_, fun j hj => (by cases hj), fun _ => hheld⟩
  intro j x hx hin
  rw [hT] at hx
  rcases getElem?_set_cases _ _ _ _ _ hx with ⟨-, -, hxg⟩ | ⟨hji, hxo⟩
  · subst hxg
    rw [hout1] at hin
    cases hin
  · exact absurd (Option.some.inj (h1 j x hxo hin)) (fun e => hji e.symm)

/-- A statement that does not move a goroutine into a list of the log leaves that list
exact. -/
theorem LogPart.unchanged {gs : List Goroutine} {log : List (Nat × Ptr × String)} {past : Pc → Bool}
    (hP : LogPart gs log past) (i : Nat) (g g1 : Goroutine) (hg : gs[i]? = some g)
    (hpast : past g1.pc = past g.pc) (ht : g1.target = g.target)
    (hline : g1.formattedMsg = g.formattedMsg ∨ past g.pc = false) :
    LogPart (gs.set i g1) log past := by
  obtain ⟨h1, h2, h3⟩ := hP
  have hlt := lt_length_of_getElem? hg
  refine ⟨?_, h2, ?_⟩
  · intro j x hx
    rcases getElem?_set_cases _ _ _ _ _ hx with ⟨hji, -, hxg⟩ | ⟨-, hxo⟩
    · subst hji
      subst hxg
      rw [hpast]
      exact h1 j g hg
    · exact h1 j x hxo
  · intro w hw
    obtain ⟨x, hx, hx1, hx2⟩ := h3 w hw
    by_cases hwi : i = w.1
    · have hxg : x = g := by
        rw [← hwi, hg] at hx
        exact (Option.some.inj hx).symm
      subst hxg
      have hin : past x.pc = true :=
        (h1 i x hg).mpr (List.mem_map.mpr ⟨w, hw, hwi.symm⟩)
      have hl : g1.formattedMsg = x.formattedMsg := by
        rcases hline with hl | hl
        · exact hl
        · rw [hl] at hin
          cases hin
      exact ⟨g1, by rw [← hwi]; exact List.getElem?_set_self hlt, by rw [ht]; exact hx1,
        by rw [hl]; exact hx2⟩
    · exact ⟨x, by rw [List.getElem?_set_ne hwi]; exact hx, hx1, hx2⟩

/-- A statement that moves the goroutine `i` into a list of the log, together with its
entry, leaves that list exact. -/
theorem LogPart.add {gs : List Goroutine} {log : List (Nat × Ptr × String)} {past : Pc → Bool}
    (hP : LogPart gs log past) (i : Nat) (g g1 : Goroutine) (hg : gs[i]? = some g)
    (hpast : past g.pc = false) (hpast1 : past g1.pc = true) :
    LogPart (gs.set i g1) (log ++ [(i, g1.target, g1.formattedMsg)]) past := by
  obtain ⟨h1, h2, h3⟩ := hP
  have hlt := lt_length_of_getElem? hg
  have hnot : i ∉ log.map (fun w => w.1) := by
    intro hin
    have := (h1 i g hg).mpr hin
    rw [hpast] at this
    cases this
  refine ⟨?_, ?_, ?_⟩
  · intro j x hx
    rcases getElem?_set_cases _ _ _ _ _ hx with ⟨hji, -, hxg⟩ | ⟨hji, hxo⟩
    · subst hji
      subst hxg
      simp [hpast1]
    · rw [h1 j x hxo]
      simp [hji]
  · rw [List.map_append, List.nodup_append]
    refine ⟨h2, by simp, ?_⟩
    intro a ha hb
    simp only [List.map_cons, List.map_nil, List.mem_singleton] at hb
    subst hb
    exact hnot ha
  · intro w hw
    rcases List.mem_append.mp hw with hw | hw
    · obtain ⟨x, hx, hx1, hx2⟩ := h3 w hw
      have hwi : i ≠ w.1 := by
        intro e
        exact hnot (List.mem_map.mpr ⟨w, hw, e.symm⟩)
      exact ⟨x, by rw [List.getElem?_set_ne hwi]; exact hx, hx1, hx2⟩
    · simp only [List.mem_singleton] at hw
      subst hw
      exact ⟨g1, List.getElem?_set_self hlt, rfl, rfl⟩

/-- The history depends on the heap of loggers only. -/
theorem GetMessages_congr {s s1 : State} (h : s1.loggers = s.loggers) (q : Ptr) :
    Logger.GetMessages s1 q = Logger.GetMessages s q := by
  simp only [Logger.GetMessages, h]

/-- A statement that touches neither the loggers, nor the files, nor the log of the run
keeps `DataOK`, provided that a goroutine which goes on to assign to `l.messages` has read
the history. -/
theorem DataOK.untouched {s0 : State} {f : FilePtr} {file0 : File} {r : Run}
    (hD : DataOK s0 f file0 r) (r1 : Run) (i : Nat) (g1 : Goroutine)
    (hT : r1.goroutines = r.goroutines.set i g1)
    (hlog : r1.state.loggers = r.state.loggers) (hfiles : r1.state.files = r.state.files)
    (hrec : r1.recorded = r.recorded) (hwr : r1.written = r.written)
    (htmp : g1.pc = .writeMessages → g1.messages = Logger.GetMessages r.state g1.target) :
    DataOK s0 f file0 r1 := by
  obtain ⟨h1, h2, h3⟩ := hD
  refine ⟨by rw [hfiles, hwr]; exact h1, fun q => by rw [GetMessages_congr hlog, hrec]; exact h2 q,
    ?_⟩
  intro j x hx hpc
  rw [hT] at hx
  rw [GetMessages_congr hlog]
  rcases getElem?_set_cases _ _ _ _ _ hx with ⟨-, -, hxg⟩ | ⟨-, hxo⟩
  · subst hxg
    exact htmp hpc
  · exact h3 j x hxo hpc

/-- A statement that touches no logger and leaves the line of the goroutine as it is keeps
`FrameOK`. -/
theorem quiet_frame {env : Env} {mu : Ptr → Nat} {m : Nat} {s0 : State} {f : FilePtr}
    {calls : List (Ptr × String × List Value)} {r : Run}
    (hF : FrameOK env mu m s0 f calls r)
    (r1 : Run) (i : Nat) (g g1 : Goroutine) (hg : r.goroutines[i]? = some g)
    (hT : r1.goroutines = r.goroutines.set i g1)
    (hlog : r1.state.loggers = r.state.loggers)
    (ht : g1.target = g.target) (hfmt : g1.format = g.format) (hargs : g1.args = g.args)
    (hmsg : g1.formattedMsg = g.formattedMsg) (hstart : g.pc ≠ .start) :
    FrameOK env mu m s0 f calls r1 := by
  refine hF.step_aux r1 i g g1 hg hT ht hfmt hargs (loggers_frame_of_eq hlog) ?_
  intro _ l l0 _ hl0 _ _ _
  obtain ⟨-, -, l2, l3, -, hl3, -, -, -, -, -, hline⟩ := hF.2 i g hg
  rw [hl0] at hl3
  cases hl3
  rw [hmsg]
  exact hline hstart

/-- A statement that adds nothing to the log of the run and leaves the line of the
goroutine as it is keeps `LogOK`. -/
theorem quiet_log {r : Run} (hO : LogOK r)
    (r1 : Run) (i : Nat) (g g1 : Goroutine) (hg : r.goroutines[i]? = some g)
    (hT : r1.goroutines = r.goroutines.set i g1)
    (hrec : r1.recorded = r.recorded) (hwr : r1.written = r.written)
    (ht : g1.target = g.target) (hmsg : g1.formattedMsg = g.formattedMsg)
    (hh : g1.pc.wroteHistory = g.pc.wroteHistory) (hw : g1.pc.wroteFile = g.pc.wroteFile) :
    LogOK r1 := by
  unfold LogOK
  rw [hT, hrec, hwr]
  exact ⟨hO.1.unchanged i g g1 hg hh ht (Or.inl hmsg), hO.2.unchanged i g g1 hg hw ht (Or.inl hmsg)⟩

/-- A write to an open file that accepts it. -/
theorem fileWrite_ok (s : State) (f : FilePtr) (fl : File) (d : String)
    (hf : s.files[f]? = some fl) (ho : fl.closed = false) (ha : fl.writeErr = none) :
    s.fileWrite f d =
      ({ s with files := s.files.set f { fl with written := fl.written ++ [d] } }, none) := by
  simp [State.fileWrite, hf, ho, ha]

/-- The goroutine that holds the mutex: the one that is inside. -/
theorem LockOK.holder {m : Nat} {r : Run} {h : Option Nat} (hL : LockOK m r h) (i : Nat)
    (g : Goroutine) (hg : r.goroutines[i]? = some g) (hin : g.pc.inside = true) :
    h = some i ∧ r.held = heldAt m g.target g.pc := by
  have hh := hL.1 i g hg hin
  obtain ⟨x, hx, -, hheld⟩ := hL.2.1 i hh
  rw [hg] at hx
  cases hx
  exact ⟨hh, hheld⟩

/-- One statement of one goroutine keeps the invariant of the run. -/
theorem stepGoroutine_inv (env : Env) (mu : Ptr → Nat) (m : Nat) (s0 : State) (f : FilePtr)
    (file0 : File) (calls : List (Ptr × String × List Value)) (r : Run)
    (hopen : file0.closed = false) (hacc : file0.writeErr = none)
    (hinv : RunInv env mu m s0 f file0 calls r) (i : Nat) :
    RunInv env mu m s0 f file0 calls (stepGoroutine env mu r i) := by
  obtain ⟨hF, ⟨h, hL⟩, hO, hD⟩ := hinv
  unfold stepGoroutine
  cases hg : r.goroutines[i]? with
  | none => exact ⟨hF, ⟨h, hL⟩, hO, hD⟩
  | some g =>
    obtain ⟨hmu, -, l, l0, hl, hl0, hfile, hlev, e1, e2, e3, hline⟩ := hF.2 i g hg
    simp only [hl]
    cases hpc : g.pc with
    | start =>
      simp only [if_neg (not_lt.mpr hlev), Run.setGoroutine]
      refine ⟨?_, ⟨h, ?_⟩, ?_, ?_⟩
      · refine hF.step_aux _ i g _ hg rfl rfl rfl rfl (loggers_frame_of_eq rfl) ?_
        intro _ l2 l3 hl2 hl3 _ _ _
        rw [hl] at hl2
        cases hl2
        rw [hl0] at hl3
        cases hl3
        exact ⟨r.state.steps, (lineOf_congr env _ l0 l _ _ e1 e2 e3).symm ▸ rfl⟩
      · exact hL.outside _ i g _ hg rfl rfl (by rw [hpc]; rfl) rfl
      · exact ⟨hO.1.unchanged i g _ hg (by rw [hpc]; rfl) rfl (Or.inr (by rw [hpc]; rfl)),
          hO.2.unchanged i g _ hg (by rw [hpc]; rfl) rfl (Or.inr (by rw [hpc]; rfl))⟩
      · exact hD.untouched _ i _ rfl rfl rfl rfl rfl (fun e => by cases e)
    | lockMu =>
      simp only
      by_cases hheld : Lock.mu (mu g.target) ∈ r.held
      · rw [if_pos hheld]
        exact ⟨hF, ⟨h, hL⟩, hO, hD⟩
      · rw [if_neg hheld]
        have hnone : h = none := by
          cases h with
          | none => rfl
          | some j =>
            obtain ⟨x, -, hin, hh⟩ := hL.2.1 j rfl
            have := mu_mem_heldAt m x.target x.pc hin
            rw [← hh, ← hmu] at this
            exact absurd this hheld
        subst hnone
        have hempty := hL.2.2 rfl
        refine ⟨quiet_frame hF _ i g _ hg rfl rfl rfl rfl rfl rfl (by rw [hpc]; simp),
          ⟨some i, hL.enter _ i g _ hg rfl rfl ?_⟩,
          quiet_log hO _ i g _ hg rfl rfl rfl rfl rfl (by rw [hpc]; rfl) (by rw [hpc]; rfl),
          hD.untouched _ i _ rfl rfl rfl rfl rfl (fun e => by cases e)⟩
        show Lock.mu (mu g.target) :: r.held = _
        rw [hempty, hmu]
        rfl
    | lockMessages =>
      obtain ⟨hh, hheld⟩ := hL.holder i g hg (by rw [hpc]; rfl)
      subst hh
      rw [hpc] at hheld
      have hfree : Lock.messagesMu g.target ∉ r.held := by
        rw [hheld]
        simp [heldAt]
      simp only [if_neg hfree]
      refine ⟨quiet_frame hF _ i g _ hg rfl rfl rfl rfl rfl rfl (by rw [hpc]; simp),
        ⟨some i, hL.move i _ _ rfl rfl ?_⟩,
        quiet_log hO _ i g _ hg rfl rfl rfl rfl rfl (by rw [hpc]; rfl) (by rw [hpc]; rfl),
        hD.untouched _ i _ rfl rfl rfl rfl rfl (fun e => by cases e)⟩
      show Lock.messagesMu g.target :: r.held = _
      rw [hheld]
      rfl
    | readMessages =>
      obtain ⟨hh, hheld⟩ := hL.holder i g hg (by rw [hpc]; rfl)
      subst hh
      rw [hpc] at hheld
      simp only
      refine ⟨quiet_frame hF _ i g _ hg rfl rfl rfl rfl rfl rfl (by rw [hpc]; simp),
        ⟨some i, hL.move i _ _ rfl rfl hheld⟩,
        quiet_log hO _ i g _ hg rfl rfl rfl rfl rfl (by rw [hpc]; rfl) (by rw [hpc]; rfl),
        hD.untouched _ i _ rfl rfl rfl rfl rfl (fun _ => ?_)⟩
      show l.messages = Logger.GetMessages r.state g.target
      simp only [Logger.GetMessages, hl]
    | writeMessages =>
      obtain ⟨hh, hheld⟩ := hL.holder i g hg (by rw [hpc]; rfl)
      subst hh
      rw [hpc] at hheld
      have htmp := hD.2.2 i g hg hpc
      simp only [Run.setGoroutine]
      refine ⟨?_, ⟨some i, hL.move i _ _ rfl rfl hheld⟩, ?_, ?_, ?_, ?_⟩
      · refine hF.step_aux _ i g _ hg rfl rfl rfl rfl
          (loggers_frame_of_set r.state g.target l _ hl) ?_
        intro _ l2 l3 _ hl3 _ _ _
        rw [hl0] at hl3
        cases hl3
        exact hline (by rw [hpc]; simp)
      · exact ⟨hO.1.add i g _ hg (by rw [hpc]; rfl) rfl,
          hO.2.unchanged i g _ hg (by rw [hpc]; rfl) rfl (Or.inl rfl)⟩
      · exact hD.1
      · intro q
        have hlt := lt_length_of_getElem? hl
        show Logger.GetMessages
          (r.state.setLogger g.target { l with messages := g.messages ++ [g.formattedMsg] }) q =
          Logger.GetMessages s0 q ++
            ((r.recorded ++ [(i, g.target, g.formattedMsg)]).filter
              (fun w => w.2.1 = q)).map (fun w => w.2.2)
        rw [List.filter_append, List.map_append, ← List.append_assoc, ← hD.2.1 q]
        by_cases hqt : g.target = q
        · subst hqt
          rw [htmp]
          simp [Logger.GetMessages, State.setLogger, hlt, hl]
        · simp [Logger.GetMessages, State.setLogger, List.getElem?_set_ne hqt, hqt]
      · intro j x hx hxpc
        rcases getElem?_set_cases _ _ _ _ _ hx with ⟨-, -, hxg⟩ | ⟨hji, hxo⟩
        · subst hxg
          cases hxpc
        · have := hL.1 j x hxo (by rw [hxpc]; rfl)
          exact absurd (Option.some.inj this) (fun e => hji e.symm)
    | unlockMessages =>
      obtain ⟨hh, hheld⟩ := hL.holder i g hg (by rw [hpc]; rfl)
      subst hh
      rw [hpc] at hheld
      simp only
      refine ⟨quiet_frame hF _ i g _ hg rfl rfl rfl rfl rfl rfl (by rw [hpc]; simp),
        ⟨some i, hL.move i _ _ rfl rfl ?_⟩,
        quiet_log hO _ i g _ hg rfl rfl rfl rfl rfl (by rw [hpc]; rfl) (by rw [hpc]; rfl),
        hD.untouched _ i _ rfl rfl rfl rfl rfl (fun e => by cases e)⟩
      show r.held.erase (Lock.messagesMu g.target) = _
      rw [hheld]
      simp [heldAt]
    | stdout =>
      obtain ⟨hh, hheld⟩ := hL.holder i g hg (by rw [hpc]; rfl)
      subst hh
      rw [hpc] at hheld
      simp only
      exact ⟨quiet_frame hF _ i g _ hg rfl rfl rfl rfl rfl rfl (by rw [hpc]; simp),
        ⟨some i, hL.move i _ _ rfl rfl hheld⟩,
        quiet_log hO _ i g _ hg rfl rfl rfl rfl rfl (by rw [hpc]; rfl) (by rw [hpc]; rfl),
        hD.untouched _ i _ rfl rfl rfl rfl rfl (fun e => by cases e)⟩
    | lockFile =>
      obtain ⟨hh, hheld⟩ := hL.holder i g hg (by rw [hpc]; rfl)
      subst hh
      rw [hpc] at hheld
      have hfree : Lock.fileMu g.target ∉ r.held := by
        rw [hheld]
        simp [heldAt]
      simp only [if_neg hfree]
      refine ⟨quiet_frame hF _ i g _ hg rfl rfl rfl rfl rfl rfl (by rw [hpc]; simp),
        ⟨some i, hL.move i _ _ rfl rfl ?_⟩,
        quiet_log hO _ i g _ hg rfl rfl rfl rfl rfl (by rw [hpc]; rfl) (by rw [hpc]; rfl),
        hD.untouched _ i _ rfl rfl rfl rfl rfl (fun e => by cases e)⟩
      show Lock.fileMu g.target :: r.held = _
      rw [hheld]
      rfl
    | writeFile =>
      obtain ⟨hh, hheld⟩ := hL.holder i g hg (by rw [hpc]; rfl)
      subst hh
      rw [hpc] at hheld
      have hw := fileWrite_ok r.state f _ (g.formattedMsg ++ "\n") hD.1 hopen hacc
      simp only [hfile, hw, Run.setGoroutine]
      have hflt := lt_length_of_getElem? hD.1
      refine ⟨quiet_frame hF _ i g _ hg rfl rfl rfl rfl rfl rfl (by rw [hpc]; simp),
        ⟨some i, hL.move i _ _ rfl rfl hheld⟩, ?_, ?_, ?_, ?_⟩
      · exact ⟨hO.1.unchanged i g _ hg (by rw [hpc]; rfl) rfl (Or.inl rfl),
          hO.2.add i g _ hg (by rw [hpc]; rfl) rfl⟩
      · show (r.state.files.set f _)[f]? = _
        rw [List.getElem?_set_self hflt]
        simp
      · exact hD.2.1
      · intro j x hx hxpc
        rcases getElem?_set_cases _ _ _ _ _ hx with ⟨-, -, hxg⟩ | ⟨-, hxo⟩
        · subst hxg
          cases hxpc
        · exact hD.2.2 j x hxo hxpc
    | unlockFile =>
      obtain ⟨hh, hheld⟩ := hL.holder i g hg (by rw [hpc]; rfl)
      subst hh
      rw [hpc] at hheld
      simp only
      refine ⟨quiet_frame hF _ i g _ hg rfl rfl rfl rfl rfl rfl (by rw [hpc]; simp),
        ⟨some i, hL.move i _ _ rfl rfl ?_⟩,
        quiet_log hO _ i g _ hg rfl rfl rfl rfl rfl (by rw [hpc]; rfl) (by rw [hpc]; rfl),
        hD.untouched _ i _ rfl rfl rfl rfl rfl (fun e => by cases e)⟩
      show r.held.erase (Lock.fileMu g.target) = _
      rw [hheld]
      simp [heldAt]
    | unlockMu =>
      obtain ⟨hh, hheld⟩ := hL.holder i g hg (by rw [hpc]; rfl)
      subst hh
      rw [hpc] at hheld
      simp only
      refine ⟨quiet_frame hF _ i g _ hg rfl rfl rfl rfl rfl rfl (by rw [hpc]; simp),
        ⟨none, hL.leave i _ _ rfl rfl ?_⟩,
        quiet_log hO _ i g _ hg rfl rfl rfl rfl rfl (by rw [hpc]; rfl) (by rw [hpc]; rfl),
        hD.untouched _ i _ rfl rfl rfl rfl rfl (fun e => by cases e)⟩
      show r.held.erase (Lock.mu (mu g.target)) = _
      rw [hheld, hmu]
      simp [heldAt]
    | done => exact ⟨hF, ⟨h, hL⟩, hO, hD⟩

/-- The invariant holds before any goroutine has run. -/
theorem startRun_inv (env : Env) (mu : Ptr → Nat) (m : Nat) (s : State) (f : FilePtr)
    (file0 : File) (calls : List (Ptr × String × List Value))
    (hf : s.files[f]? = some file0)
    (htargets : ∀ c ∈ calls, SharesFile s f c.1 ∧ mu c.1 = m) :
    RunInv env mu m s f file0 calls (startRun s calls) := by
  have hget : ∀ (j : Nat) (g : Goroutine), (startRun s calls).goroutines[j]? = some g →
      ∃ c, calls[j]? = some c ∧ c ∈ calls ∧ g = newGoroutine c := by
    intro j g hg
    simp only [startRun, List.getElem?_map] at hg
    cases hc : calls[j]? with
    | none => rw [hc] at hg; cases hg
    | some c =>
      rw [hc] at hg
      exact ⟨c, rfl, List.getElem?_mem hc, (Option.some.inj hg).symm⟩
  refine ⟨⟨?_, ?_⟩, ⟨none, ?_, ?_, ?_⟩, ⟨⟨?_, ?_, ?_⟩, ?_, ?_, ?_⟩, ?_, ?_, ?_⟩
  · simp [startRun]
  · intro j g hg
    obtain ⟨c, hc, hmem, rfl⟩ := hget j g hg
    obtain ⟨hshare, hmu⟩ := htargets c hmem
    obtain ⟨l, hl, hfile, hlev⟩ := (SharesFile_iff s f c.1).mp hshare
    exact ⟨hmu, hc, l, l, hl, hl, hfile, hlev, rfl, rfl, rfl, fun h => absurd rfl h⟩
  · intro j g hg hin
    obtain ⟨c, -, -, rfl⟩ := hget j g hg
    cases hin
  · intro j hj
    cases hj
  · intro _
    rfl
  · intro j g hg
    obtain ⟨c, -, -, rfl⟩ := hget j g hg
    simp [startRun, newGoroutine, Pc.wroteHistory]
  · simp [startRun]
  · intro w hw
    simp [startRun] at hw
  · intro j g hg
    obtain ⟨c, -, -, rfl⟩ := hget j g hg
    simp [startRun, newGoroutine, Pc.wroteFile]
  · simp [startRun]
  · intro w hw
    simp [startRun] at hw
  · simp [startRun, hf]
  · intro q
    simp [startRun]
  · intro j g hg hpc
    obtain ⟨c, -, -, rfl⟩ := hget j g hg
    cases hpc

/-- The invariant holds all along a run, whatever the schedule. -/
theorem runSchedule_inv (env : Env) (mu : Ptr → Nat) (m : Nat) (s0 : State) (f : FilePtr)
    (file0 : File) (calls : List (Ptr × String × List Value))
    (hopen : file0.closed = false) (hacc : file0.writeErr = none) :
    ∀ (schedule : List Nat) (r : Run), RunInv env mu m s0 f file0 calls r →
      RunInv env mu m s0 f file0 calls (runSchedule env mu r schedule) := by
  intro schedule
  induction schedule with
  | nil => intro r h; exact h
  | cons i rest ih =>
    intro r h
    exact ih _ (stepGoroutine_inv env mu m s0 f file0 calls r hopen hacc h i)

/-- Under the invariant, two goroutines are never both between `l.mu.Lock()` and
`l.mu.Unlock()`. -/
theorem RunInv.exclusive {env : Env} {mu : Ptr → Nat} {m : Nat} {s0 : State} {f : FilePtr}
    {file0 : File} {calls : List (Ptr × String × List Value)} {r : Run}
    (h : RunInv env mu m s0 f file0 calls r) (i j : Nat) (gi gj : Goroutine)
    (hi : r.goroutines[i]? = some gi) (hj : r.goroutines[j]? = some gj)
    (hini : gi.pc.inside = true) (hinj : gj.pc.inside = true) : i = j := by
  obtain ⟨-, ⟨k, hL⟩, -, -⟩ := h
  have h1 := hL.1 i gi hi hini
  have h2 := hL.1 j gj hj hinj
  rw [h1] at h2
  exact Option.some.inj h2

/-- When all goroutines are done, a list of the log names each call once. -/
theorem LogPart.perm {gs : List Goroutine} {log : List (Nat × Ptr × String)} {past : Pc → Bool}
    (hP : LogPart gs log past) (hdone : ∀ g ∈ gs, g.pc = .done) (hpast : past .done = true) :
    (log.map (fun w => w.1)).Perm (List.range gs.length) := by
  obtain ⟨h1, h2, h3⟩ := hP
  rw [List.perm_ext_iff_of_nodup h2 (List.nodup_range _)]
  intro j
  rw [List.mem_range]
  constructor
  · intro hj
    obtain ⟨w, hw, rfl⟩ := List.mem_map.mp hj
    obtain ⟨g, hg, -, -⟩ := h3 w hw
    exact lt_length_of_getElem? hg
  · intro hj
    have hg : gs[j]? = some gs[j] := List.getElem?_eq_getElem hj
    refine (h1 j _ hg).mp ?_
    rw [hdone _ (List.getElem?_mem hg)]
    exact hpast

/-- A goroutine that runs alone, from its first statement to its last, does what
`Logger.Infof` does. -/
theorem alone_eq_Infof (env : Env) (mu : Ptr → Nat) (s : State) (p : Ptr) (l : Logger)
    (format : String) (args : List Value) (hp : s.loggers[p]? = some l) :
    (runSchedule env mu (startRun s [(p, format, args)]) (List.replicate 11 0)).state =
      Logger.Infof env s p format args := by
  have hlt := lt_length_of_getElem? hp
  have hp1 : s.tick.loggers[p]? = some l := hp
  unfold Logger.Infof
  rw [logf_eq env s p l InfoLevel format args hp, log_eq_locked env s p l InfoLevel _ hp]
  simp only [runSchedule, List.replicate, List.foldl_cons, List.foldl_nil]
  by_cases hlev : InfoLevel < l.level
  · have e1 : stepGoroutine env mu (startRun s [(p, format, args)]) 0 =
        { state := s, held := [],
          goroutines := [{ newGoroutine (p, format, args) with pc := .done }],
          recorded := [], written := [] } := by
      simp [stepGoroutine, startRun, newGoroutine, Run.setGoroutine, hp, hlev]
    have e2 : ∀ (g : Goroutine) (r : Run), r.goroutines = [g] → g.pc = .done →
        r.state.loggers[g.target]? = some l → stepGoroutine env mu r 0 = r := by
      intro g r hr hpc hl
      simp [stepGoroutine, hr, hpc, hl]
    rw [e1]
    have e3 := e2 { newGoroutine (p, format, args) with pc := .done }
      { state := s, held := [],
        goroutines := [{ newGoroutine (p, format, args) with pc := .done }],
        recorded := [], written := [] } rfl rfl hp
    simp only [e3, if_pos hlev]
  · simp only [if_neg hlev]
    obtain ⟨L, hL⟩ : ∃ L, Logger.lineOf env s.steps l InfoLevel (env.sprintf format args) = L :=
      ⟨_, rfl⟩
    rw [hL]
    have hset2 : (s.loggers.set p { l with messages := l.messages ++ [L] })[p]? =
        some { l with messages := l.messages ++ [L] } := List.getElem?_set_self hlt
    have e1 : stepGoroutine env mu (startRun s [(p, format, args)]) 0 =
        { state := s.tick,
          held := [],
          goroutines := [{ target := p, format := format, args := args, pc := .lockMu,
                           formattedMsg := L, messages := [] }],
          recorded := [], written := [] } := by
      rw [← hL]
      simp [stepGoroutine, startRun, newGoroutine, Run.setGoroutine, hp, hlev, Logger.lineOf,
        State.tick]
    rw [e1]
    have e2 : stepGoroutine env mu
        { state := s.tick,
          held := [],
          goroutines := [{ target := p, format := format, args := args, pc := .lockMu,
                           formattedMsg := L, messages := [] }],
          recorded := [], written := [] } 0 =
        { state := s.tick,
          held := [Lock.mu (mu p)],
          goroutines := [{ target := p, format := format, args := args, pc := .lockMessages,
                           formattedMsg := L, messages := [] }],
          recorded := [], written := [] } := by
      simp [stepGoroutine, Run.setGoroutine, State.setLogger, State.tick, hp, hset2]
    rw [e2]
    have e3 : stepGoroutine env mu
        { state := s.tick,
          held := [Lock.mu (mu p)],
          goroutines := [{ target := p, format := format, args := args, pc := .lockMessages,
                           formattedMsg := L, messages := [] }],
          recorded := [], written := [] } 0 =
        { state := s.tick,
          held := [Lock.messagesMu p, Lock.mu (mu p)],
          goroutines := [{ target := p, format := format, args := args, pc := .readMessages,
                           formattedMsg := L, messages := [] }],
          recorded := [], written := [] } := by
      simp [stepGoroutine, Run.setGoroutine, State.setLogger, State.tick, hp, hset2]
    rw [e3]
    have e4 : stepGoroutine env mu
        { state := s.tick,
          held := [Lock.messagesMu p, Lock.mu (mu p)],
          goroutines := [{ target := p, format := format, args := args, pc := .readMessages,
                           formattedMsg := L, messages := [] }],
          recorded := [], written := [] } 0 =
        { state := s.tick,
          held := [Lock.messagesMu p, Lock.mu (mu p)],
          goroutines := [{ target := p, format := format, args := args, pc := .writeMessages,
                           formattedMsg := L, messages := l.messages }],
          recorded := [], written := [] } := by
      simp [stepGoroutine, Run.setGoroutine, State.setLogger, State.tick, hp, hset2]
    rw [e4]
    have e5 : stepGoroutine env mu
        { state := s.tick,
          held := [Lock.messagesMu p, Lock.mu (mu p)],
          goroutines := [{ target := p, format := format, args := args, pc := .writeMessages,
                           formattedMsg := L, messages := l.messages }],
          recorded := [], written := [] } 0 =
        { state := s.tick.setLogger p { l with messages := l.messages ++ [L] },
          held := [Lock.messagesMu p, Lock.mu (mu p)],
          goroutines := [{ target := p, format := format, args := args, pc := .unlockMessages,
                           formattedMsg := L, messages := l.messages }],
          recorded := [(0, p, L)], written := [] } := by
      simp [stepGoroutine, Run.setGoroutine, State.setLogger, State.tick, hp, hset2]
    rw [e5]
    have e6 : stepGoroutine env mu
        { state := s.tick.setLogger p { l with messages := l.messages ++ [L] },
          held := [Lock.messagesMu p, Lock.mu (mu p)],
          goroutines := [{ target := p, format := format, args := args, pc := .unlockMessages,
                           formattedMsg := L, messages := l.messages }],
          recorded := [(0, p, L)], written := [] } 0 =
        { state := s.tick.setLogger p { l with messages := l.messages ++ [L] },
          held := [Lock.mu (mu p)],
          goroutines := [{ target := p, format := format, args := args, pc := .stdout,
                           formattedMsg := L, messages := l.messages }],
          recorded := [(0, p, L)], written := [] } := by
      simp [stepGoroutine, Run.setGoroutine, State.setLogger, State.tick, hp, hset2]
    rw [e6]
    have e7 : stepGoroutine env mu
        { state := s.tick.setLogger p { l with messages := l.messages ++ [L] },
          held := [Lock.mu (mu p)],
          goroutines := [{ target := p, format := format, args := args, pc := .stdout,
                           formattedMsg := L, messages := l.messages }],
          recorded := [(0, p, L)], written := [] } 0 =
        { state := { s.tick.setLogger p { l with messages := l.messages ++ [L] } with
            stdout := s.stdout ++ [L ++ "\n"] },
          held := [Lock.mu (mu p)],
          goroutines := [{ target := p, format := format, args := args, pc := .lockFile,
                           formattedMsg := L, messages := l.messages }],
          recorded := [(0, p, L)], written := [] } := by
      simp [stepGoroutine, Run.setGoroutine, State.setLogger, State.tick, hp, hset2]
    rw [e7]
    have e8 : stepGoroutine env mu
        { state := { s.tick.setLogger p { l with messages := l.messages ++ [L] } with
            stdout := s.stdout ++ [L ++ "\n"] },
          held := [Lock.mu (mu p)],
          goroutines := [{ target := p, format := format, args := args, pc := .lockFile,
                           formattedMsg := L, messages := l.messages }],
          recorded := [(0, p, L)], written := [] } 0 =
        { state := { s.tick.setLogger p { l with messages := l.messages ++ [L] } with
            stdout := s.stdout ++ [L ++ "\n"] },
          held := [Lock.fileMu p, Lock.mu (mu p)],
          goroutines := [{ target := p, format := format, args := args, pc := .writeFile,
                           formattedMsg := L, messages := l.messages }],
          recorded := [(0, p, L)], written := [] } := by
      simp [stepGoroutine, Run.setGoroutine, State.setLogger, State.tick, hp, hset2]
    rw [e8]
    unfold Logger.logLocked
    rw [hp1]
    obtain ⟨fo, hfile⟩ : ∃ fo, l.file = fo := ⟨_, rfl⟩
    cases fo with
    | none =>
      have hset3 := hset2
      simp only [hfile] at hset3
      have e9 : stepGoroutine env mu
          { state := { s.tick.setLogger p { l with messages := l.messages ++ [L] } with
            stdout := s.stdout ++ [L ++ "\n"] },
            held := [Lock.fileMu p, Lock.mu (mu p)],
            goroutines := [{ target := p, format := format, args := args, pc := .writeFile,
                             formattedMsg := L, messages := l.messages }],
            recorded := [(0, p, L)], written := [] } 0 =
          { state := { s.tick.setLogger p { l with messages := l.messages ++ [L] } with
            stdout := s.stdout ++ [L ++ "\n"] },
            held := [Lock.fileMu p, Lock.mu (mu p)],
            goroutines := [{ target := p, format := format, args := args, pc := .unlockFile,
                             formattedMsg := L, messages := l.messages }],
            recorded := [(0, p, L)], written := [] } := by
        simp [stepGoroutine, Run.setGoroutine, State.setLogger, State.tick, hp, hset2, hset3, hfile]
      rw [e9]
      have e10 : stepGoroutine env mu
          { state := { s.tick.setLogger p { l with messages := l.messages ++ [L] } with
            stdout := s.stdout ++ [L ++ "\n"] },
            held := [Lock.fileMu p, Lock.mu (mu p)],
            goroutines := [{ target := p, format := format, args := args, pc := .unlockFile,
                             formattedMsg := L, messages := l.messages }],
            recorded := [(0, p, L)], written := [] } 0 =
          { state := { s.tick.setLogger p { l with messages := l.messages ++ [L] } with
            stdout := s.stdout ++ [L ++ "\n"] },
            held := [Lock.mu (mu p)],
            goroutines := [{ target := p, format := format, args := args, pc := .unlockMu,
                             formattedMsg := L, messages := l.messages }],
            recorded := [(0, p, L)], written := [] } := by
        simp [stepGoroutine, Run.setGoroutine, State.setLogger, State.tick, hp, hset2, hset3, hfile]
      rw [e10]
      have e11 : stepGoroutine env mu
          { state := { s.tick.setLogger p { l with messages := l.messages ++ [L] } with
            stdout := s.stdout ++ [L ++ "\n"] },
            held := [Lock.mu (mu p)],
            goroutines := [{ target := p, format := format, args := args, pc := .unlockMu,
                             formattedMsg := L, messages := l.messages }],
            recorded := [(0, p, L)], written := [] } 0 =
          { state := { s.tick.setLogger p { l with messages := l.messages ++ [L] } with
            stdout := s.stdout ++ [L ++ "\n"] },
            held := [],
            goroutines := [{ target := p, format := format, args := args, pc := .done,
                             formattedMsg := L, messages := l.messages }],
            recorded := [(0, p, L)], written := [] } := by
        simp [stepGoroutine, Run.setGoroutine, State.setLogger, State.tick, hp, hset2, hset3, hfile]
      rw [e11]
      simp [State.setLogger, State.tick, hfile]
    | some f =>
      obtain ⟨res, hfw⟩ : ∃ res, State.fileWrite
          { s.tick.setLogger p { l with messages := l.messages ++ [L] } with
            stdout := s.stdout ++ [L ++ "\n"] } f (L ++ "\n") = res := ⟨_, rfl⟩
      cases res with
      | mk s2 err =>
        have hset3 := hset2
        simp only [hfile] at hset3
        have hs2 : s2.loggers[p]? = some { l with messages := l.messages ++ [L] } := by
          have := fileWrite_loggers
            { s.tick.setLogger p { l with messages := l.messages ++ [L] } with
              stdout := s.stdout ++ [L ++ "\n"] } f (L ++ "\n")
          rw [hfw] at this
          rw [this]
          exact hset2
        have hs3 := hs2
        simp only [hfile] at hs3
        cases err with
        | none =>
          have e9 : stepGoroutine env mu
              { state := { s.tick.setLogger p { l with messages := l.messages ++ [L] } with
            stdout := s.stdout ++ [L ++ "\n"] },
                held := [Lock.fileMu p, Lock.mu (mu p)],
                goroutines := [{ target := p, format := format, args := args, pc := .writeFile,
                                 formattedMsg := L, messages := l.messages }],
                recorded := [(0, p, L)], written := [] } 0 =
              { state := s2,
                held := [Lock.fileMu p, Lock.mu (mu p)],
                goroutines := [{ target := p, format := format, args := args, pc := .unlockFile,
                                 formattedMsg := L, messages := l.messages }],
                recorded := [(0, p, L)], written := [(0, p, L)] } := by
            have hfw2 := hfw
            simp only [State.setLogger, State.tick, hfile] at hfw2
            simp [stepGoroutine, Run.setGoroutine, State.setLogger, State.tick, hp, hset2, hset3, hfile, hs2, hs3, Logger.handleWriteError, hfw2]
          rw [e9]
          have e10 : stepGoroutine env mu
              { state := s2,
                held := [Lock.fileMu p, Lock.mu (mu p)],
                goroutines := [{ target := p, format := format, args := args, pc := .unlockFile,
                                 formattedMsg := L, messages := l.messages }],
                recorded := [(0, p, L)], written := [(0, p, L)] } 0 =
              { state := s2,
                held := [Lock.mu (mu p)],
                goroutines := [{ target := p, format := format, args := args, pc := .unlockMu,
                                 formattedMsg := L, messages := l.messages }],
                recorded := [(0, p, L)], written := [(0, p, L)] } := by
            simp [stepGoroutine, Run.setGoroutine, State.setLogger, State.tick, hp, hset2, hset3, hfile, hs2, hs3, Logger.handleWriteError]
          rw [e10]
          have e11 : stepGoroutine env mu
              { state := s2,
                held := [Lock.mu (mu p)],
                goroutines := [{ target := p, format := format, args := args, pc := .unlockMu,
                                 formattedMsg := L, messages := l.messages }],
                recorded := [(0, p, L)], written := [(0, p, L)] } 0 =
              { state := s2,
                held := [],
                goroutines := [{ target := p, format := format, args := args, pc := .done,
                                 formattedMsg := L, messages := l.messages }],
                recorded := [(0, p, L)], written := [(0, p, L)] } := by
            simp [stepGoroutine, Run.setGoroutine, State.setLogger, State.tick, hp, hset2, hset3, hfile, hs2, hs3, Logger.handleWriteError]
          rw [e11]
          have hno : ¬ (InfoLevel = ErrorLevel ∨ InfoLevel = FatalLevel) := by decide
          simp only [State.setLogger, State.tick, hfile, if_neg hno] at hfw ⊢
          rw [hfw]
        | some e =>
          have e9 : stepGoroutine env mu
              { state := { s.tick.setLogger p { l with messages := l.messages ++ [L] } with
            stdout := s.stdout ++ [L ++ "\n"] },
                held := [Lock.fileMu p, Lock.mu (mu p)],
                goroutines := [{ target := p, format := format, args := args, pc := .writeFile,
                                 formattedMsg := L, messages := l.messages }],
                recorded := [(0, p, L)], written := [] } 0 =
              { state := s2,
                held := [Lock.fileMu p, Lock.mu (mu p)],
                goroutines := [{ target := p, format := format, args := args, pc := .unlockFile,
                                 formattedMsg := L, messages := l.messages }],
                recorded := [(0, p, L)], written := [] } := by
            have hfw2 := hfw
            simp only [State.setLogger, State.tick, hfile] at hfw2
            simp [stepGoroutine, Run.setGoroutine, State.setLogger, State.tick, hp, hset2, hset3, hfile, hs2, hs3, Logger.handleWriteError, hfw2]
          rw [e9]
          have e10 : stepGoroutine env mu
              { state := s2,
                held := [Lock.fileMu p, Lock.mu (mu p)],
                goroutines := [{ target := p, format := format, args := args, pc := .unlockFile,
                                 formattedMsg := L, messages := l.messages }],
                recorded := [(0, p, L)], written := [] } 0 =
              { state := s2,
                held := [Lock.mu (mu p)],
                goroutines := [{ target := p, format := format, args := args, pc := .unlockMu,
                                 formattedMsg := L, messages := l.messages }],
                recorded := [(0, p, L)], written := [] } := by
            simp [stepGoroutine, Run.setGoroutine, State.setLogger, State.tick, hp, hset2, hset3, hfile, hs2, hs3, Logger.handleWriteError]
          rw [e10]
          have e11 : stepGoroutine env mu
              { state := s2,
                held := [Lock.mu (mu p)],
                goroutines := [{ target := p, format := format, args := args, pc := .unlockMu,
                                 formattedMsg := L, messages := l.messages }],
                recorded := [(0, p, L)], written := [] } 0 =
              { state := s2,
                held := [],
                goroutines := [{ target := p, format := format, args := args, pc := .done,
                                 formattedMsg := L, messages := l.messages }],
                recorded := [(0, p, L)], written := [] } := by
            simp [stepGoroutine, Run.setGoroutine, State.setLogger, State.tick, hp, hset2, hset3, hfile, hs2, hs3, Logger.handleWriteError]
          rw [e11]
          have hno : ¬ (InfoLevel = ErrorLevel ∨ InfoLevel = FatalLevel) := by decide
          simp only [State.setLogger, State.tick, hfile, if_neg hno] at hfw ⊢
          rw [hfw]
          rfl

/-- One statement less to run for the goroutine `i`, one less for the run. -/
theorem remaining_set (gs : List Goroutine) (i : Nat) (g g1 : Goroutine)
    (hg : gs[i]? = some g) (h : g1.pc.remaining + 1 = g.pc.remaining) :
    ((gs.set i g1).map (fun x => x.pc.remaining)).sum + 1 =
      (gs.map (fun x => x.pc.remaining)).sum := by
  induction gs generalizing i with
  | nil => simp at hg
  | cons x xs ih =>
    cases i with
    | zero =>
      simp only [List.getElem?_cons_zero, Option.some.injEq] at hg
      subst hg
      simp only [List.set_cons_zero, List.map_cons, List.sum_cons]
      omega
    | succ i =>
      simp only [List.getElem?_cons_succ] at hg
      have := ih i hg
      simp only [List.set_cons_succ, List.map_cons, List.sum_cons]
      omega

/-- Under the invariant, a goroutine that has not returned and does not wait for a mutex
that is locked runs its next statement. -/
theorem stepGoroutine_progress (env : Env) (mu : Ptr → Nat) (m : Nat) (s0 : State)
    (f : FilePtr) (file0 : File) (calls : List (Ptr × String × List Value)) (r : Run)
    (hopen : file0.closed = false) (hacc : file0.writeErr = none)
    (hinv : RunInv env mu m s0 f file0 calls r) (i : Nat) (g : Goroutine)
    (hg : r.goroutines[i]? = some g) (hready : g.pc ≠ .done)
    (hfree : g.pc = .lockMu → r.held = []) :
    (stepGoroutine env mu r i).remaining + 1 = r.remaining := by
  obtain ⟨hF, ⟨h, hL⟩, -, hD⟩ := hinv
  obtain ⟨hmu, -, l, l0, hl, -, hfile, hlev, -⟩ := hF.2 i g hg
  unfold stepGoroutine Run.remaining
  simp only [hg, hl]
  cases hpc : g.pc with
  | start =>
    simp only [if_neg (not_lt.mpr hlev), Run.setGoroutine]
    exact remaining_set _ i g _ hg (by rw [hpc]; rfl)
  | lockMu =>
    simp only [hfree hpc, List.not_mem_nil, if_false, Run.setGoroutine]
    exact remaining_set _ i g _ hg (by rw [hpc]; rfl)
  | lockMessages =>
    obtain ⟨-, hheld⟩ := hL.holder i g hg (by rw [hpc]; rfl)
    rw [hpc] at hheld
    have hno : Lock.messagesMu g.target ∉ r.held := by
      rw [hheld]
      simp [heldAt]
    simp only [if_neg hno, Run.setGoroutine]
    exact remaining_set _ i g _ hg (by rw [hpc]; rfl)
  | readMessages =>
    simp only [Run.setGoroutine]
    exact remaining_set _ i g _ hg (by rw [hpc]; rfl)
  | writeMessages =>
    simp only [Run.setGoroutine]
    exact remaining_set _ i g _ hg (by rw [hpc]; rfl)
  | unlockMessages =>
    simp only [Run.setGoroutine]
    exact remaining_set _ i g _ hg (by rw [hpc]; rfl)
  | stdout =>
    simp only [Run.setGoroutine]
    exact remaining_set _ i g _ hg (by rw [hpc]; rfl)
  | lockFile =>
    obtain ⟨-, hheld⟩ := hL.holder i g hg (by rw [hpc]; rfl)
    rw [hpc] at hheld
    have hno : Lock.fileMu g.target ∉ r.held := by
      rw [hheld]
      simp [heldAt]
    simp only [if_neg hno, Run.setGoroutine]
    exact remaining_set _ i g _ hg (by rw [hpc]; rfl)
  | writeFile =>
    have hw := fileWrite_ok r.state f _ (g.formattedMsg ++ "\n") hD.1 hopen hacc
    simp only [hfile, hw, Run.setGoroutine]
    exact remaining_set _ i g _ hg (by rw [hpc]; rfl)
  | unlockFile =>
    simp only [Run.setGoroutine]
    exact remaining_set _ i g _ hg (by rw [hpc]; rfl)
  | unlockMu =>
    simp only [Run.setGoroutine]
    exact remaining_set _ i g _ hg (by rw [hpc]; rfl)
  | done => exact absurd hpc hready

/-- No deadlock: under the invariant, while a call has not returned some goroutine can run
its next statement. -/
theorem RunInv.next {env : Env} {mu : Ptr → Nat} {m : Nat} {s0 : State} {f : FilePtr}
    {file0 : File} {calls : List (Ptr × String × List Value)} {r : Run}
    (hinv : RunInv env mu m s0 f file0 calls r)
    (hopen : file0.closed = false) (hacc : file0.writeErr = none) (hnd : ¬ r.allDone) :
    ∃ i, (stepGoroutine env mu r i).remaining + 1 = r.remaining := by
  obtain ⟨h, hL⟩ := hinv.2.1
  cases h with
  | some j =>
    obtain ⟨g, hg, hin, -⟩ := hL.2.1 j rfl
    refine ⟨j, stepGoroutine_progress env mu m s0 f file0 calls r hopen hacc hinv j g hg ?_ ?_⟩
    · intro e
      rw [e] at hin
      cases hin
    · intro e
      rw [e] at hin
      cases hin
  | none =>
    unfold Run.allDone at hnd
    push_neg at hnd
    obtain ⟨g, hmem, hpc⟩ := hnd
    obtain ⟨j, hj⟩ := List.mem_iff_getElem?.mp hmem
    exact ⟨j, stepGoroutine_progress env mu m s0 f file0 calls r hopen hacc hinv j g hj hpc
      (fun _ => hL.2.2 rfl)⟩

/-- Every call can return: under the invariant, some schedule leads every goroutine to
the last statement of `Infof` and past it. -/
theorem RunInv.completes {env : Env} {mu : Ptr → Nat} {m : Nat} {s0 : State} {f : FilePtr}
    {file0 : File} {calls : List (Ptr × String × List Value)}
    (hopen : file0.closed = false) (hacc : file0.writeErr = none) :
    ∀ (n : Nat) (r : Run), r.remaining = n → RunInv env mu m s0 f file0 calls r →
      ∃ schedule, (runSchedule env mu r schedule).allDone := by
  intro n
  induction n with
  | zero =>
    intro r hn hinv
    by_cases hd : r.allDone
    · exact ⟨[], hd⟩
    · obtain ⟨i, hi⟩ := hinv.next hopen hacc hd
      omega
  | succ n ih =>
    intro r hn hinv
    by_cases hd : r.allDone
    · exact ⟨[], hd⟩
    · obtain ⟨i, hi⟩ := hinv.next hopen hacc hd
      obtain ⟨schedule, hs⟩ := ih (stepGoroutine env mu r i) (by omega)
        (stepGoroutine_inv env mu m s0 f file0 calls r hopen hacc hinv i)
      exact ⟨i :: schedule, hs⟩

/-- C35: concurrent emits do not interleave. Take a file that is open and accepts writes,
loggers that have it as their primary sink, let INFO pass and share one mutex `l.mu` (one
logger, or a logger and loggers derived from it by `clone`), one goroutine for each of `N`
calls of `Infof` on these loggers, and any schedule: at each step some goroutine runs its
next statement, where `Lock` on a locked mutex does not return. Then at every moment of the
run one goroutine at most is between `l.mu.Lock()` and `l.mu.Unlock()`, and the run can go
on until all calls have returned. When all calls have returned, no mutex is locked; the
file has received, after what it held before, exactly one record for each call, each of
them one complete line followed by a newline; that line is the one `log` formats for the
message of the call, and it is in the history of the logger the call was made on; and the
history of each logger has received exactly the lines of the calls made on it. A goroutine
that runs alone does what `Logger.Infof` does. -/
theorem C35_concurrent_emits (env : Env) (mu : Ptr → Nat) (m : Nat) (s : State) (f : FilePtr)
    (file0 : File) (calls : List (Ptr × String × List Value)) (schedule : List Nat)
    (hf : s.files[f]? = some file0) (hopen : file0.closed = false)
    (hacc : file0.writeErr = none)
    (htargets : ∀ c ∈ calls, SharesFile s f c.1 ∧ mu c.1 = m) :
    (∀ (i j : Nat) (gi gj : Goroutine),
      (runSchedule env mu (startRun s calls) schedule).goroutines[i]? = some gi →
      (runSchedule env mu (startRun s calls) schedule).goroutines[j]? = some gj →
      gi.pc.inside = true → gj.pc.inside = true → i = j) ∧
    (∃ rest,
      (runSchedule env mu (runSchedule env mu (startRun s calls) schedule) rest).allDone) ∧
    ((runSchedule env mu (startRun s calls) schedule).allDone →
      (runSchedule env mu (startRun s calls) schedule).held = [] ∧
      ((runSchedule env mu (startRun s calls) schedule).written.map (fun w => w.1)).Perm
        (List.range calls.length) ∧
      ((runSchedule env mu (startRun s calls) schedule).recorded.map (fun w => w.1)).Perm
        (List.range calls.length) ∧
      (runSchedule env mu (startRun s calls) schedule).state.files[f]? =
        some { file0 with
          written := file0.written ++
            (runSchedule env mu (startRun s calls) schedule).written.map
              (fun w => w.2.2 ++ "\n") } ∧
      (∀ q, Logger.GetMessages (runSchedule env mu (startRun s calls) schedule).state q =
        Logger.GetMessages s q ++
          ((runSchedule env mu (startRun s calls) schedule).recorded.filter
            (fun w => w.2.1 = q)).map (fun w => w.2.2)) ∧
      (∀ w ∈ (runSchedule env mu (startRun s calls) schedule).written,
        w.2.2 ∈ Logger.GetMessages (runSchedule env mu (startRun s calls) schedule).state w.2.1 ∧
        ∃ c l0 n, calls[w.1]? = some c ∧ c.1 = w.2.1 ∧ s.loggers[c.1]? = some l0 ∧
          w.2.2 = Logger.lineOf env n l0 InfoLevel (env.sprintf c.2.1 c.2.2))) ∧
    (∀ (p : Ptr) (l : Logger) (format : String) (args : List Value), s.loggers[p]? = some l →
      (runSchedule env mu (startRun s [(p, format, args)]) (List.replicate 11 0)).state =
        Logger.Infof env s p format args) := by
  have hinv := runSchedule_inv env mu m s f file0 calls hopen hacc schedule _
    (startRun_inv env mu m s f file0 calls hf htargets)
  refine ⟨fun i j gi gj hi hj => hinv.exclusive i j gi gj hi hj,
    RunInv.completes hopen hacc _ _ rfl hinv, ?_,
    fun p l format args hp => alone_eq_Infof env mu s p l format args hp⟩
  intro hdone
  obtain ⟨hF, ⟨h, hL⟩, ⟨hR, hW⟩, hD1, hD2, -⟩ := hinv
  refine ⟨?_, ?_, ?_, hD1, hD2, ?_⟩
  · cases h with
    | none => exact hL.2.2 rfl
    | some j =>
      obtain ⟨g, hg, hin, -⟩ := hL.2.1 j rfl
      rw [hdone g (List.getElem?_mem hg)] at hin
      cases hin
  · rw [← hF.1]
    exact hW.perm hdone rfl
  · rw [← hF.1]
    exact hR.perm hdone rfl
  · intro w hw
    obtain ⟨g, hg, ht, hline⟩ := hW.2.2 w hw
    have hpc := hdone g (List.getElem?_mem hg)
    obtain ⟨-, hcall, l, l0, -, hl0, -, -, -, -, -, hfmt⟩ := hF.2 w.1 g hg
    refine ⟨?_, (g.target, g.format, g.args), l0, ?_⟩
    · have hin : w.1 ∈ (runSchedule env mu (startRun s calls) schedule).recorded.map
          (fun w => w.1) := (hR.1 w.1 g hg).mp (by rw [hpc]; rfl)
      obtain ⟨v, hv, hv1⟩ := List.mem_map.mp hin
      obtain ⟨g2, hg2, ht2, hline2⟩ := hR.2.2 v hv
      rw [hv1, hg] at hg2
      cases hg2
      rw [hD2 w.2.1]
      refine List.mem_append_right _ (List.mem_map.mpr ⟨v, List.mem_filter.mpr ⟨hv, ?_⟩, ?_⟩)
      · simp [← ht2, ht]
      · rw [← hline2, hline]
    · obtain ⟨n, hn⟩ := hfmt (by rw [hpc]; simp)
      exact ⟨n, hcall, ht, hl0, by rw [← hline]; exact hn⟩

set_option maxRecDepth 100000

/-- C35 on two goroutines, one on a logger with an open file and one on the child derived
from it by `WithPrefix("db")`, which shares its mutex: goroutine 1 formats its line first
and then finds the mutex locked by goroutine 0, whose record reaches the file first. -/
theorem C35_concurrent_emits_witness :
    sharedState.files[0]?
      = some { name := "main.log", written := ["old\n"], closed := false, writeErr := none,
               syncErr := none, closeErr := none } ∧
    (∀ c ∈ sampleCalls, SharesFile sharedState 0 c.1 ∧ (fun _ : Ptr => 0) c.1 = 0) ∧
    ((runSchedule sampleEnv (fun _ => 0) (startRun sharedState sampleCalls)
      [1, 0, 0, 1]).goroutines.map fun g => g.pc) = [.lockMessages, .lockMu] ∧
    (runSchedule sampleEnv (fun _ => 0) (startRun sharedState sampleCalls)
      sampleSchedule).allDone ∧
    (runSchedule sampleEnv (fun _ => 0) (startRun sharedState sampleCalls)
      sampleSchedule).written =
      [(0, 0, "2024-05-06 07:08:09 [INFO] a"), (1, 1, "2024-05-06 07:08:09 [INFO] [db] b")] ∧
    (runSchedule sampleEnv (fun _ => 0) (startRun sharedState sampleCalls)
      sampleSchedule).state.files[0]?
      = some { name := "main.log",
               written := ["old\n", "2024-05-06 07:08:09 [INFO] a\n",
                 "2024-05-06 07:08:09 [INFO] [db] b\n"],
               closed := false, writeErr := none, syncErr := none, closeErr := none } ∧
    Logger.GetMessages (runSchedule sampleEnv (fun _ => 0) (startRun sharedState sampleCalls)
      sampleSchedule).state 1 = ["2024-05-06 07:08:09 [INFO] [db] b"] ∧
    (runSchedule sampleEnv (fun _ => 0) (startRun sharedState sampleCalls)
      sampleSchedule).held = [] := by
  have hrun : (runSchedule sampleEnv (fun _ => 0) (startRun sharedState sampleCalls)
        sampleSchedule).allDone ∧
      (runSchedule sampleEnv (fun _ => 0) (startRun sharedState sampleCalls)
        sampleSchedule).written =
        [(0, 0, "2024-05-06 07:08:09 [INFO] a"),
         (1, 1, "2024-05-06 07:08:09 [INFO] [db] b")] ∧
      (runSchedule sampleEnv (fun _ => 0) (startRun sharedState sampleCalls)
        sampleSchedule).recorded =
        [(0, 0, "2024-05-06 07:08:09 [INFO] a"),
         (1, 1, "2024-05-06 07:08:09 [INFO] [db] b")] := by
    decide
  have h := (C35_concurrent_emits sampleEnv (fun _ => 0) 0 sharedState 0
    { name := "main.log", written := ["old\n"], closed := false, writeErr := none,
      syncErr := none, closeErr := none }
    sampleCalls sampleSchedule (by decide) rfl rfl (by decide)).2.2.1 hrun.1
  have h4 := h.2.2.2.1
  rw [hrun.2.1] at h4
  have h5 := h.2.2.2.2.1 1
  rw [hrun.2.2] at h5
  exact ⟨by decide, by decide, by decide, hrun.1, hrun.2.1, h4, h5.trans (by decide), h.1⟩

end LoggerSpec
